import Mathlib

/-!
# antidote: the ARP observation engine

A shallow embedding of the C sources `antidote.c`, `handledata.c`, `audit.c`,
`alert.c` and `checkopts.c`.

* The heap of `struct ipdetails` records is a list of cells indexed by address;
  a freed cell is `none`, and `calloc` always returns a fresh address.
  Dereferencing `NULL`, a freed cell or an address never returned by `calloc`
  is undefined behaviour in C and is a `Fault` here.
* `unsigned int` counters wrap modulo `2^32`; `long` and `int` values that the
  code only compares or adds are integers (signed overflow is undefined in C).
* What the C library answers during one call of `processether` is given by an
  `Env`: whether `malloc` (the scratch buffers), `calloc` (the records),
  `gettimeofday` and `fopen` succeed, and the second the clock shows. Within one
  call every `malloc` has the same outcome, and every clock read shows the same
  second.
* The alert sinks (syslog, SMTP) are external: every call of `redalert`,
  `bluealert`, `alert` or `notice` appends one `Alert` to the log of the state.
  The section on `alert.c` follows the routines themselves and lists what they
  send and log.
* The options file is a list of bytes with a position; the loops that read it
  carry a bound on their iterations, and exceeding it means the loop never ends.
-/

namespace Antidote

/-! ## Constants of `antidote.h` and `errors.h` -/

abbrev ETH_ALEN : Nat := 6
abbrev POISON_THRESHOLD : Int := 10
abbrev BADNET_THRESHOLD : Int := -10
abbrev TIMEOUT : Int := 1500
abbrev MAILPORT : Nat := 25
abbrev PROMISCUOUS : Nat := 1
abbrev CHECKMACS : Nat := 1

abbrev OK : Int := 0
abbrev ERR_NOMEM : Int := 5
abbrev ERR_BADUSAGE : Int := 6
abbrev ERR_MACCHANGED : Int := 7

abbrev ARPOP_REQUEST : Nat := 1
abbrev ARPOP_REPLY : Nat := 2

/-- One more than `UINT_MAX`: the modulus of `unsigned int` arithmetic. -/
abbrev UINT_MOD : Nat := 4294967296

/-! ## Fixed-size byte arrays -/

/-- The array `u_int8_t ip_address[4]`. -/
structure Ip where
  b0 : Nat
  b1 : Nat
  b2 : Nat
  b3 : Nat
deriving DecidableEq, Repr

/-- The array `u_int8_t mac_address[ETH_ALEN]`. -/
structure Mac where
  b0 : Nat
  b1 : Nat
  b2 : Nat
  b3 : Nat
  b4 : Nat
  b5 : Nat
deriving DecidableEq, Repr

/-- Read `a[i]` of a four-byte array. -/
def Ip.get (a : Ip) (i : Nat) : Nat :=
  match i with
  | 0 => a.b0
  | 1 => a.b1
  | 2 => a.b2
  | 3 => a.b3
  | _ => 0

/-- Store `a[i] = v` in a four-byte array. -/
def Ip.set (a : Ip) (i v : Nat) : Ip :=
  match i with
  | 0 => { a with b0 := v }
  | 1 => { a with b1 := v }
  | 2 => { a with b2 := v }
  | 3 => { a with b3 := v }
  | _ => a

/-- Read `a[i]` of a six-byte array. Index 6 is only read by the copy loop of
`populateipspacerep`, whose seventh store does not land in the array. -/
def Mac.get (a : Mac) (i : Nat) : Nat :=
  match i with
  | 0 => a.b0
  | 1 => a.b1
  | 2 => a.b2
  | 3 => a.b3
  | 4 => a.b4
  | 5 => a.b5
  | _ => 0

/-- Store `a[i] = v` in a six-byte array. A store at index 6 lands in the padding
between `mac_address` and `requests` and changes no field. -/
def Mac.set (a : Mac) (i v : Nat) : Mac :=
  match i with
  | 0 => { a with b0 := v }
  | 1 => { a with b1 := v }
  | 2 => { a with b2 := v }
  | 3 => { a with b3 := v }
  | 4 => { a with b4 := v }
  | 5 => { a with b5 := v }
  | _ => a

/-- The all-zero address left by `calloc`: the "unknown MAC" sentinel. -/
def Mac.zero : Mac := ⟨0, 0, 0, 0, 0, 0⟩

/-- The all-zero IP left by `calloc`. -/
def Ip.zero : Ip := ⟨0, 0, 0, 0⟩

/-! ## Frames, options, records -/

/-- The fields of an Ethernet frame carrying ARP that the program reads:
`ether_shost` of `struct ether_header`, the two bytes of `ar_op` in wire order,
and `arp_sha`, `arp_spa`, `arp_tpa` of `struct ether_arp`. -/
structure Frame where
  ether_shost : Mac
  ar_op0 : Nat
  ar_op1 : Nat
  arp_sha : Mac
  arp_spa : Ip
  arp_tpa : Ip
deriving DecidableEq, Repr

/-- The value `ntohs(arpheader->ar_op)`: the operation read big-endian. -/
def Frame.op (f : Frame) : Nat := 256 * (f.ar_op0 % 256) + f.ar_op1 % 256

/-- The record `struct optiondetails`. -/
structure optiondetails where
  config_file : String
  antidote_email : String
  root_email : String
  mail_server : String
  bpf_program : String
  device : String
  mail_server_port : Nat
  promiscuous : Nat
  check_mac_changes : Nat
  poison_threshold : Int
  badnet_threshold : Int
  timeout : Int
deriving DecidableEq, Repr

/-- The values `setdefaults` stores in `options`. -/
def setdefaults : optiondetails :=
  { config_file := "/etc/antidote.cfg"
    antidote_email := "antidote@localhost"
    root_email := "root@localhost"
    mail_server := "localhost"
    bpf_program := "arp"
    device := ""
    mail_server_port := MAILPORT
    promiscuous := PROMISCUOUS
    check_mac_changes := CHECKMACS
    poison_threshold := POISON_THRESHOLD
    badnet_threshold := BADNET_THRESHOLD
    timeout := TIMEOUT }

/-- The record `struct ipdetails`; `previous` and `next` are addresses, `none` is `NULL`. -/
structure ipdetails where
  ip_address : Ip
  mac_address : Mac
  requests : Nat
  replies : Nat
  lastreset : Int
  previous : Option Nat
  next : Option Nat
deriving DecidableEq, Repr

/-- The record `calloc(1, sizeof(struct ipdetails))` returns. -/
def ipdetails.zero : ipdetails :=
  { ip_address := Ip.zero
    mac_address := Mac.zero
    requests := 0
    replies := 0
    lastreset := 0
    previous := none
    next := none }

/-! ## Alerts -/

/-- The four alert routines: `redalert`, `bluealert`, `alert`, `notice`. -/
inductive Severity
  | HIGHEST
  | MEDIUM
  | LOWEST
  | NOTICE
deriving DecidableEq, Repr

/-- The messages the observation engine hands to the alert routines, by call site,
with the values formatted into them. -/
inductive Msg
  | changedmacs (ip : Ip) (previous_mac new_mac : Mac)
  | changedmacs_nomem
  | dodgymacs (ip : Ip) (ethernet_mac arp_mac : Mac)
  | dodgymacs_nomem
  | poisoner (ip : Ip)
  | poisoner_nomem
  | badnet (ip : Ip)
  | badnet_nomem
  | nomem_temporary
  | nomem_entrypoint
  | nomem_details
  | unrecognised
deriving DecidableEq, Repr

/-- One call of an alert routine. -/
structure Alert where
  priority : Severity
  err : Msg
deriving DecidableEq, Repr

/-- One upper-case hexadecimal digit. -/
def hexdigit (n : Nat) : Char :=
  if n < 10 then Char.ofNat (48 + n) else Char.ofNat (55 + n)

/-- The conversion `%X` of a byte. -/
def fmtX (n : Nat) : String :=
  if n < 16 then String.singleton (hexdigit n)
  else String.mk [hexdigit (n / 16 % 16), hexdigit (n % 16)]

/-- The conversion `%d.%d.%d.%d` of an IP address. -/
def fmtip (a : Ip) : String :=
  toString a.b0 ++ "." ++ toString a.b1 ++ "." ++ toString a.b2 ++ "." ++ toString a.b3

/-- The loop of `alertchangedmacs` and `alertdodgymacs` that appends the six bytes
of a MAC in `%X`, separated by colons. -/
def fmtmac (m : Mac) : String :=
  (List.range ETH_ALEN).foldl
    (fun err lp => (err ++ fmtX (m.get lp)) ++ (if lp < ETH_ALEN - 1 then ":" else "")) ""

/-- The text passed to the alert routine. -/
def Msg.render : Msg → String
  | .changedmacs ip p n =>
      fmtip ip ++ " has different MAC details. " ++ " Previous MAC: " ++ fmtmac p
        ++ " New MAC: " ++ fmtmac n
  | .changedmacs_nomem =>
      "A machine appears to have changed MAC details. Insufficient memory to give full information."
  | .dodgymacs ip e a =>
      fmtip ip ++ " gives conflicting MAC details. " ++ " Ethernet MAC: " ++ fmtmac e
        ++ " ARP body MAC: " ++ fmtmac a
  | .dodgymacs_nomem =>
      "A machine appears to be giving conflicting MAC details. Insufficient memory to give full information."
  | .poisoner ip => "Suspected poisoner impersonating IP address: " ++ fmtip ip
  | .poisoner_nomem => "Suspected poisoner detected. Unable to allocate memory for details."
  | .badnet ip =>
      "An unusual number of ARP requests for: " ++ fmtip ip ++ " have not been replied to"
  | .badnet_nomem =>
      "An unusual number of ARP requests have not been replied to. Unable to allocate memory for details."
  | .nomem_temporary => "Cannot allocate memory to store temporary variables"
  | .nomem_entrypoint => "Cannot allocate memory to store IP details"
  | .nomem_details => "Out of Memory for IP details"
  | .unrecognised => "Unrecognised ARP type detected (RARP not currently supported)"

/-- The alerts of `alertchangedmacs`: an IP address has a different MAC. -/
def Msg.is_changedmacs : Msg → Bool
  | .changedmacs _ _ _ => true
  | .changedmacs_nomem => true
  | _ => false

/-- The alerts of `alertdodgymacs`: Ethernet header and ARP body disagree. -/
def Msg.is_dodgymacs : Msg → Bool
  | .dodgymacs _ _ _ => true
  | .dodgymacs_nomem => true
  | _ => false

/-- The alerts of the first branch of `processip`: suspected poisoner. -/
def Msg.is_poisoner : Msg → Bool
  | .poisoner _ => true
  | .poisoner_nomem => true
  | _ => false

/-- The alerts of the second branch of `processip`: unanswered requests. -/
def Msg.is_badnet : Msg → Bool
  | .badnet _ => true
  | .badnet_nomem => true
  | _ => false

/-! ## Machine state -/

/-- What the C library answers during one call of `processether`. -/
structure Env where
  now : Int
  clock_ok : Bool
  malloc_ok : Bool
  calloc_ok : Bool
  fopen_ok : Bool
deriving DecidableEq, Repr

/-- The heap of records: cell `a` is `some r` while the record at address `a` is
allocated and `none` once it has been freed. -/
abbrev Heap := List (Option ipdetails)

/-- The record at an address, if that address is allocated. -/
def Heap.read (h : Heap) (a : Nat) : Option ipdetails := h.getD a none

/-- Overwrite the record at an address. -/
def Heap.write (h : Heap) (a : Nat) (r : ipdetails) : Heap := h.set a (some r)

/-- The call `free`. -/
def Heap.free (h : Heap) (a : Nat) : Heap := h.set a none

/-- The program state between two statements: the heap, the static variable
`entrypoint` of `processether`, the alerts raised so far (oldest first) and the
lines of the file `DETAILS.csv`. -/
structure State where
  heap : Heap
  entrypoint : Option Nat
  alerts : List Alert
  details_csv : List String
deriving DecidableEq, Repr

/-- The state at program start. -/
def State.init : State :=
  { heap := [], entrypoint := none, alerts := [], details_csv := [] }

/-- The ways a call can fail to return. -/
inductive Fault
  | null_pointer
  | dangling_pointer
  | no_termination
deriving DecidableEq, Repr

/-- The outcome of a call: a value, or a fault. -/
inductive Res (α : Type)
  | ok (val : α)
  | fault (f : Fault)
deriving DecidableEq, Repr

/-- Sequencing of calls: a fault ends the computation. -/
def Res.bind {α β : Type} (x : Res α) (f : α → Res β) : Res β :=
  match x with
  | .ok a => f a
  | .fault e => .fault e

/-- The value of a call that returned. -/
def Res.toOption {α : Type} : Res α → Option α
  | .ok a => some a
  | .fault _ => none

instance : Monad Res where
  pure := Res.ok
  bind := Res.bind

/-- The access `p->field`. -/
def deref (s : State) (p : Option Nat) : Res ipdetails :=
  match p with
  | none => .fault .null_pointer
  | some a =>
    match s.heap.read a with
    | some r => .ok r
    | none => .fault .dangling_pointer

/-- The assignment `*p = r`, for a `p` that has just been dereferenced. -/
def store (s : State) (a : Nat) (r : ipdetails) : State :=
  { s with heap := s.heap.write a r }

/-- The alert routines, as seen by the engine: one more entry in the log. -/
def raise (s : State) (priority : Severity) (err : Msg) : State :=
  { s with alerts := s.alerts ++ [⟨priority, err⟩] }

def redalert (s : State) (err : Msg) : State := raise s .HIGHEST err

def bluealert (s : State) (err : Msg) : State := raise s .MEDIUM err

def alert (s : State) (err : Msg) : State := raise s .LOWEST err

def notice (s : State) (err : Msg) : State := raise s .NOTICE err

/-- The sequence `r = *p; *p = f r`, the model of assignments to fields of `*p`. -/
def modify (s : State) (p : Option Nat) (f : ipdetails → ipdetails) : Res State :=
  match p with
  | none => .fault .null_pointer
  | some a =>
    match s.heap.read a with
    | some r => .ok (store s a (f r))
    | none => .fault .dangling_pointer

/-! ## audit.c -/

/-- The function `sumbytes`, on a MAC address. -/
def sumbytes (start : Mac) (count : Nat) : Int :=
  (List.range count).foldl (fun result loop => result + (start.get loop : Int)) 0

/-- The loop `for (lp = 0; lp < ETH_ALEN; lp++) if (a[lp] != b[lp]) flag = 1;`
of `checkmacs` and `checkmacchanges`, from `flag = 0`. -/
def macflag (a b : Mac) : Nat :=
  (List.range ETH_ALEN).foldl (fun flag lp => if a.get lp != b.get lp then 1 else flag) 0

/-- The function `alertchangedmacs` of alert.c. -/
def alertchangedmacs (env : Env) (s : State) (ip_details : Option Nat) (arp_mac : Mac) :
    Res State :=
  if env.malloc_ok then do
    let r ← deref s ip_details
    pure (redalert s (.changedmacs r.ip_address r.mac_address arp_mac))
  else
    pure (redalert s .changedmacs_nomem)

/-- The function `alertdodgymacs` of alert.c. -/
def alertdodgymacs (env : Env) (s : State) (ip_details : Option Nat) (arp_mac : Mac) :
    Res State :=
  if env.malloc_ok then do
    let r ← deref s ip_details
    pure (redalert s (.dodgymacs r.ip_address r.mac_address arp_mac))
  else
    pure (redalert s .dodgymacs_nomem)

/-- The function `checkmacs`. -/
def checkmacs (env : Env) (s : State) (ipdetails : Option Nat) (ether_mac : Mac) : Res State := do
  let r ← deref s ipdetails
  if macflag r.mac_address ether_mac > 0 then
    alertdodgymacs env s ipdetails ether_mac
  else
    pure s

/-- The function `checkmacchanges`. -/
def checkmacchanges (opts : optiondetails) (env : Env) (s : State) (ipdetails : Option Nat)
    (ether_mac : Mac) : Res (Int × State) :=
  if opts.check_mac_changes ≠ 0 then do
    let r ← deref s ipdetails
    if sumbytes r.mac_address ETH_ALEN ≠ 0 then
      if macflag r.mac_address ether_mac > 0 then do
        let s1 ← alertchangedmacs env s ipdetails ether_mac
        pure (ERR_MACCHANGED, s1)
      else
        pure (OK, s)
    else
      pure (OK, s)
  else
    pure (OK, s)

/-- The conversion of an `unsigned int` to `int`. -/
def to_int (n : Nat) : Int :=
  if n % UINT_MOD < 2147483648 then (n % UINT_MOD : Nat) else ((n % UINT_MOD : Nat) : Int) - UINT_MOD

/-- The function `checknetarps`, on the record `*ip`: the `unsigned int` difference
`replies - requests`, converted to `int`. -/
def checknetarps (r : ipdetails) : Int :=
  to_int ((r.replies % UINT_MOD + (UINT_MOD - r.requests % UINT_MOD)) % UINT_MOD)

/-- The function `checktimeouts`. -/
def checktimeouts (opts : optiondetails) (env : Env) (s : State) (ip : Option Nat) :
    Res (Option Nat × State) :=
  if env.malloc_ok then
    if env.clock_ok then do
      let r ← deref s ip
      if r.lastreset + opts.timeout < env.now then do
        let before := r.previous
        let after := r.next
        let s1 ← (match before with
          | some _ => do
            let r1 ← deref s ip
            modify s before (fun b => { b with next := r1.next })
          | none => pure s)
        let s2 ← (match after with
          | some _ => do
            let r2 ← deref s1 ip
            modify s1 after (fun a => { a with previous := r2.previous })
          | none => pure s1)
        match ip with
        | some a => pure (after, { s2 with heap := s2.heap.free a })
        | none => .fault .null_pointer
      else
        pure (ip, s)
    else
      pure (none, s)
  else
    pure (ip, s)

/-! ## handledata.c -/

/-- The function `createipspace`. -/
def createipspace (env : Env) (s : State) : Res (Option Nat × State) :=
  if env.malloc_ok then
    if env.calloc_ok then
      let result := s.heap.length
      let r := if env.clock_ok then { ipdetails.zero with lastreset := env.now } else ipdetails.zero
      pure (some result, { s with heap := s.heap ++ [some r] })
    else if env.clock_ok then
      .fault .null_pointer
    else
      pure (none, s)
  else
    pure (none, s)

/-- The function `populateipspacereq`. -/
def populateipspacereq (s : State) (ip_space : Option Nat) (frame : Frame) : Res (Int × State) :=
  match ip_space with
  | none => pure (ERR_BADUSAGE, s)
  | some _ => do
    let s1 ← modify s ip_space (fun r =>
      { r with ip_address :=
          (List.range 4).foldl (fun ip lp => ip.set lp (frame.arp_tpa.get lp)) r.ip_address })
    pure (OK, s1)

/-- The function `populateipspacerep`. The copy loop runs to `lp <= ETH_ALEN`. -/
def populateipspacerep (env : Env) (s : State) (ip_space : Option Nat) (frame : Frame) :
    Res (Int × State) :=
  match ip_space with
  | none => pure (ERR_BADUSAGE, s)
  | some _ => do
    let s1 ← modify s ip_space (fun r =>
      { r with ip_address :=
          (List.range 4).foldl (fun ip lp => ip.set lp (frame.arp_spa.get lp)) r.ip_address })
    let s2 ← modify s1 ip_space (fun r =>
      { r with mac_address :=
          ((List.range (ETH_ALEN + 1)).foldl
            (fun mac lp => mac.set lp (frame.ether_shost.get lp)) r.mac_address) })
    let s3 ← checkmacs env s2 ip_space frame.arp_sha
    pure (OK, s3)

/-- The function `populateipspace`. -/
def populateipspace (env : Env) (s : State) (ip_space : Option Nat) (frame : Frame) :
    Res (Int × State) :=
  if env.malloc_ok then
    if frame.op = ARPOP_REQUEST then populateipspacereq s ip_space frame
    else if frame.op = ARPOP_REPLY then populateipspacerep env s ip_space frame
    else pure (ERR_BADUSAGE, s)
  else
    pure (ERR_NOMEM, s)

/-- The function `addrequest`. -/
def addrequest (s : State) (ip : Option Nat) : Res (Nat × State) :=
  match ip with
  | none => pure (0, s)
  | some _ => do
    let s1 ← modify s ip (fun r => { r with requests := (r.requests + 1) % UINT_MOD })
    let r ← deref s1 ip
    pure (r.requests, s1)

/-- The function `addreply`. -/
def addreply (s : State) (ip : Option Nat) : Res (Nat × State) :=
  match ip with
  | none => pure (0, s)
  | some _ => do
    let s1 ← modify s ip (fun r => { r with replies := (r.replies + 1) % UINT_MOD })
    let r ← deref s1 ip
    pure (r.replies, s1)

/-- The comparison of the four bytes of a stored address with `ipaddress`. -/
def ipmatch (r : ipdetails) (ipaddress : Ip) : Bool :=
  r.ip_address.get 0 == ipaddress.get 0 && r.ip_address.get 1 == ipaddress.get 1
    && r.ip_address.get 2 == ipaddress.get 2 && r.ip_address.get 3 == ipaddress.get 3

/-- The function `searchforwards`; the first argument bounds the number of
records visited, and visiting more means the recursion never ends. -/
def searchforwards (s : State) : Nat → Option Nat → Ip → Res (Option Nat)
  | _, none, _ => pure none
  | 0, some _, _ => .fault .no_termination
  | fuel + 1, some a, ipaddress => do
    let r ← deref s (some a)
    if ipmatch r ipaddress then pure (some a)
    else searchforwards s fuel r.next ipaddress

/-- The function `searchbackwards`, bounded like `searchforwards`. -/
def searchbackwards (s : State) : Nat → Option Nat → Ip → Res (Option Nat)
  | _, none, _ => pure none
  | 0, some _, _ => .fault .no_termination
  | fuel + 1, some a, ipaddress => do
    let r ← deref s (some a)
    if ipmatch r ipaddress then pure (some a)
    else searchbackwards s fuel r.previous ipaddress

/-- The number of records a walk along `next` or `previous` can visit without
visiting one twice: every address ever allocated, and one more step to see it. -/
def walkfuel (s : State) : Nat := s.heap.length + 1

/-- The function `checkip`. -/
def checkip (s : State) (startpoint : Option Nat) (ipaddress : Ip) : Res (Option Nat) :=
  match startpoint with
  | none => pure none
  | some _ => do
    let r ← deref s startpoint
    if ipmatch r ipaddress then pure startpoint
    else do
      let searchagain ← searchforwards s (walkfuel s) r.next ipaddress
      match searchagain with
      | none => searchbackwards s (walkfuel s) r.previous ipaddress
      | some _ => pure searchagain

/-- The loop of `rewindip`, bounded like `searchforwards`. -/
def rewindip_loop (s : State) : Nat → Option Nat → Res (Option Nat)
  | 0, _ => .fault .no_termination
  | fuel + 1, ip => do
    let r ← deref s ip
    match r.previous with
    | none => pure ip
    | some b => rewindip_loop s fuel (some b)

/-- The function `rewindip`. -/
def rewindip (s : State) (ip : Option Nat) : Res (Option Nat) :=
  rewindip_loop s (walkfuel s) ip

/-- The row `dumpdata` prints for one record. -/
def dumprow (r : ipdetails) : String :=
  (fmtip r.ip_address ++ ",")
    ++ (List.range ETH_ALEN).foldl (fun row lp => row ++ fmtX (r.mac_address.get lp) ++ ":") ""
    ++ (toString (to_int r.requests) ++ "," ++ toString (to_int r.replies) ++ ","
        ++ toString r.lastreset ++ "\n")

/-- The loop `while (current != NULL)` of `dumpdata`, bounded like `searchforwards`. -/
def dumpdata_loop (s : State) : Nat → Option Nat → List String → Res (List String)
  | _, none, rows => pure rows
  | 0, some _, _ => .fault .no_termination
  | fuel + 1, some a, rows => do
    let r ← deref s (some a)
    dumpdata_loop s fuel r.next (rows ++ [dumprow r])

/-- The function `dumpdata`, writing `DETAILS.csv`. -/
def dumpdata (env : Env) (s : State) (entrypoint : Option Nat) : Res State := do
  let current ← rewindip s entrypoint
  if env.fopen_ok then do
    let rows ← dumpdata_loop s (walkfuel s) current
      ["\"IP Address\",\"MAC Address\",\"Requests\",\"Replies\",\"Last Reset\"\n"]
    pure { s with details_csv := rows }
  else
    pure s

/-- The fields of a record other than its two pointers. -/
def ipdetails.data (r : ipdetails) : Ip × Mac × Nat × Nat × Int :=
  (r.ip_address, r.mac_address, r.requests, r.replies, r.lastreset)

/-- The pointer fields of a record. -/
def ipdetails.links (r : ipdetails) : Option Nat × Option Nat := (r.previous, r.next)

/-- The walk of `dumpdata` from `p` returns: `rewindip` reaches a first record
along `previous`, and the loop along `next` from there reaches `NULL`. -/
def walkable (s : State) (p : Option Nat) : Bool :=
  match rewindip s p with
  | .ok head => (dumpdata_loop s (walkfuel s) head []).toOption.isSome
  | .fault _ => false

/-- The addresses of the records that the loop of `dumpdata` visits from `p`, in
the order of the visit; `none` when the loop does not reach `NULL` within the
bound or reads a freed record. -/
def nextchain (s : State) : Nat → Option Nat → Option (List Nat)
  | _, none => some []
  | 0, some _ => none
  | fuel + 1, some a =>
    match s.heap.read a with
    | none => none
    | some r => (nextchain s fuel r.next).map (fun l => a :: l)

/-- The function `resettimer`. -/
def resettimer (env : Env) (s : State) (ip : Option Nat) : Res State :=
  if env.malloc_ok then
    if env.clock_ok then modify s ip (fun r => { r with lastreset := env.now })
    else pure s
  else
    pure s

/-- The function `blanknetarps`. -/
def blanknetarps (s : State) (ip : Option Nat) : Res State :=
  match ip with
  | none => pure s
  | some _ => do
    let s1 ← modify s ip (fun r => { r with replies := 0 })
    modify s1 ip (fun r => { r with requests := 0 })

/-! ## antidote.c

The argument `struct ipdetails **info` of `handlerequest`, `handlereply` and
`processip` is always the address of the static variable `entrypoint`, so `*info`
is the field `entrypoint` of the state. -/

/-- The statements that link a new record `temp` into the list behind `*info`:
`temp->previous = *info; temp->next = (*info)->next; (*info)->next = temp;`. -/
def linkin (s : State) (temp : Option Nat) : Res State := do
  let s1 ← modify s temp (fun r => { r with previous := s.entrypoint })
  let e ← deref s1 s1.entrypoint
  let s2 ← modify s1 temp (fun r => { r with next := e.next })
  modify s2 s2.entrypoint (fun r => { r with next := temp })

/-- The function `handlerequest`. -/
def handlerequest (env : Env) (s : State) (frame : Frame) : Res (Int × State) := do
  let ipaddress := frame.arp_tpa
  let temp ← checkip s s.entrypoint ipaddress
  match temp with
  | none => do
    let (temp, s1) ← createipspace env s
    match temp with
    | none => pure (ERR_NOMEM, s1)
    | some _ => do
      let (_, s2) ← populateipspacereq s1 temp frame
      let s3 ← linkin s2 temp
      let (_, s4) ← addrequest { s3 with entrypoint := temp } temp
      pure (OK, s4)
  | some _ => do
    let (_, s1) ← addrequest { s with entrypoint := temp } temp
    pure (OK, s1)

/-- The function `handlereply`. -/
def handlereply (env : Env) (s : State) (frame : Frame) : Res (Int × State) := do
  let ipaddress := frame.arp_spa
  let temp ← checkip s s.entrypoint ipaddress
  match temp with
  | none => do
    let (temp, s1) ← createipspace env s
    match temp with
    | none => pure (ERR_NOMEM, s1)
    | some _ => do
      let (_, s2) ← populateipspacerep env s1 temp frame
      let s3 ← linkin s2 temp
      let (_, s4) ← addreply { s3 with entrypoint := temp } temp
      pure (OK, s4)
  | some _ => do
    let r ← deref s temp
    let s1 ← (if sumbytes r.mac_address ETH_ALEN = 0 then
        modify s temp (fun r =>
          { r with mac_address :=
              ((List.range ETH_ALEN).foldl
                (fun mac loop => mac.set loop (frame.ether_shost.get loop)) r.mac_address) })
      else pure s)
    let (_, s2) ← addreply { s1 with entrypoint := temp } temp
    pure (OK, s2)

/-- The function `processip`. The first comparison is against the constant
`POISON_THRESHOLD`, the others against the fields of `options`. -/
def processip (opts : optiondetails) (env : Env) (s : State) : Res State := do
  let temp2 := s.entrypoint
  let (temp1, s1) ← checktimeouts opts env s s.entrypoint
  if temp1 ≠ temp2 then
    pure { s1 with entrypoint := temp1 }
  else do
    let r ← deref s1 s1.entrypoint
    let s2 :=
      if checknetarps r > POISON_THRESHOLD then
        if env.malloc_ok then redalert s1 (.poisoner r.ip_address)
        else redalert s1 .poisoner_nomem
      else if checknetarps r < opts.badnet_threshold then
        if env.malloc_ok then redalert s1 (.badnet r.ip_address)
        else redalert s1 .badnet_nomem
      else s1
    if checknetarps r > opts.poison_threshold ∨ checknetarps r < opts.badnet_threshold then do
      let s3 ← blanknetarps s2 s2.entrypoint
      resettimer env s3 s3.entrypoint
    else
      pure s2

/-- The branch of `processether` on the ARP operation. -/
def processether_op (opts : optiondetails) (env : Env) (s : State) (frame : Frame) :
    Res State :=
  if frame.op = ARPOP_REQUEST then do
    let (tempint, s1) ← handlerequest env s frame
    if tempint = ERR_NOMEM then pure (redalert s1 .nomem_details)
    else processip opts env s1
  else if frame.op = ARPOP_REPLY then do
    let (tempint, s1) ← handlereply env s frame
    if tempint = ERR_NOMEM then pure (redalert s1 .nomem_details)
    else do
      let (changed, s2) ← checkmacchanges opts env s1 s1.entrypoint frame.arp_sha
      let s3 ← (if changed ≠ OK then do
          let (_, t) ← populateipspacerep env s2 s2.entrypoint frame
          pure t
        else pure s2)
      processip opts env s3
  else
    pure (notice s .unrecognised)

/-- The alerts of `checkmacs` and `checkmacchanges` for the first reply of an
address: the conflict of the two MACs of the frame, and, with the check of MAC
changes enabled and the Ethernet source MAC not all-zero, a change of MAC and the
conflict once more. -/
def firstreplyalerts (opts : optiondetails) (frame : Frame) : List Alert :=
  (if frame.ether_shost ≠ frame.arp_sha then
    [⟨.HIGHEST, .dodgymacs frame.arp_spa frame.ether_shost frame.arp_sha⟩] else [])
  ++ (if opts.check_mac_changes ≠ 0 ∧ frame.ether_shost ≠ Mac.zero
        ∧ frame.ether_shost ≠ frame.arp_sha then
      [⟨.HIGHEST, .changedmacs frame.arp_spa frame.ether_shost frame.arp_sha⟩,
        ⟨.HIGHEST, .dodgymacs frame.arp_spa frame.ether_shost frame.arp_sha⟩]
     else [])

/-- The function `processether`. -/
def processether (opts : optiondetails) (env : Env) (s : State) (frame : Frame) :
    Res (Int × State) :=
  if env.malloc_ok then do
    let s1 ← (match s.entrypoint with
      | none => do
        let (p, t) ← createipspace env s
        pure { t with entrypoint := p }
      | some _ => pure s)
    match s1.entrypoint with
    | none => pure (ERR_NOMEM, redalert s1 .nomem_entrypoint)
    | some _ => do
      let e ← deref s1 s1.entrypoint
      let s2 ← (if e.ip_address.get 0 = 0 then do
          let (_, t) ← populateipspace env s1 s1.entrypoint frame
          pure t
        else pure s1)
      let s3 ← processether_op opts env s2 frame
      let s4 ← dumpdata env s3 s3.entrypoint
      pure (OK, s4)
  else
    pure (ERR_NOMEM, redalert s .nomem_temporary)

/-- The loop of `pcap_loop`: `my_callback` hands each captured frame to
`processether`, each call with its own answers of the C library. -/
def run (opts : optiondetails) : State → List (Env × Frame) → Res State
  | s, [] => pure s
  | s, (env, frame) :: rest => do
    let (_, s1) ← processether opts env s frame
    run opts s1 rest

/-- The relation between the states before and after statements that leave
stored MACs alone: no address is given up, every record still allocated at an old
address was allocated before with the same MAC, and the alerts raised are neither
those of `alertchangedmacs` nor those of `alertdodgymacs`. -/
def keepsmacs (s s' : State) : Prop :=
  s.heap.length ≤ s'.heap.length
  ∧ (∀ a, a < s.heap.length → ∀ r', s'.heap.read a = some r' →
      ∃ r, s.heap.read a = some r ∧ r.mac_address = r'.mac_address)
  ∧ ∃ raised, s'.alerts = s.alerts ++ raised
      ∧ ∀ x ∈ raised, x.err.is_changedmacs = false ∧ x.err.is_dodgymacs = false

/-- The relation between the states before and after statements that write
`lastreset` only with the second `env.now` read by `gettimeofday`: no address is
given up, every record still allocated at an old address was allocated before and
its `lastreset` is as before or `env.now`, and the `lastreset` of a record at a new
address is `env.now` (zero, as left by `calloc`, when `gettimeofday` fails). -/
def keepsclock (env : Env) (s s' : State) : Prop :=
  s.heap.length ≤ s'.heap.length
  ∧ ∀ a r', s'.heap.read a = some r' →
      (a < s.heap.length →
        ∃ r, s.heap.read a = some r
          ∧ (r'.lastreset = r.lastreset ∨ (env.clock_ok = true ∧ r'.lastreset = env.now)))
      ∧ (s.heap.length ≤ a → r'.lastreset = (if env.clock_ok = true then env.now else 0))

/-! ## alert.c: where an alert goes

The engine above sees an alert routine as one more entry in the log. The
definitions of this section follow the routines themselves, for the branch
`HAVE_SYSLOG_H` and `HAVE_SOCKET`, and list what a call does that is seen outside
the program. -/

abbrev HIGHEST : Int := 1
abbrev MEDIUM : Int := 2
abbrev LOWEST : Int := 3
abbrev NOTICE : Int := 4

abbrev ERR_NOOPTSFILE : Int := 8
abbrev ERR_INOPTS : Int := 9
abbrev ERR_CANNOTGETMAILSERVER : Int := 10
abbrev ERR_CONNECTMAILSERVER : Int := 11
abbrev ERR_CONNECTCLOSED : Int := 13
abbrev ERR_WRONGREPLY : Int := 14
abbrev ERR_EOF : Int := 15

/-- The second argument of `openlog`'s facility list used by alert.c. -/
inductive Facility
  | LOG_USER
  | LOG_AUTHPRIV
deriving DecidableEq, Repr

/-- The levels alert.c passes to `syslog`. -/
inductive Level
  | LOG_CRIT
  | LOG_ERR
  | LOG_INFO
deriving DecidableEq, Repr

/-- What a call of an alert routine does, in order: an entry written with
`openlog`, `syslog`, `closelog`; the entry into `netalert`; the entry into
`mailalert`; a buffer handed to `send` by `netsend`. -/
inductive Event
  | syslog (facility : Facility) (level : Level) (text : String)
  | netalert (err : String)
  | mailalert (recipient subject msg : String)
  | netsend (text : String)
deriving DecidableEq, Repr

/-- What one call of `recv` gives `netwait`: an error (`-1`), or the bytes
received (none when the peer has closed the connection). -/
inductive Recv
  | error
  | data (bytes : String)
deriving DecidableEq, Repr

/-- What the C library and the mail server answer during one call of `mailalert`:
the three calls of `malloc`, `gethostname` (`none` when it fails), `gethostbyname`,
`connect`, the successive calls of `recv`, and the text of `ctime`. -/
structure Smtp where
  malloc_buf : Bool
  malloc_hostname : Bool
  malloc_timestr : Bool
  gethostname : Option String
  gethostbyname_ok : Bool
  connect_ok : Bool
  recv : List Recv
  ctime : String
deriving DecidableEq, Repr

/-- The function `netwait`, on the result of its call of `recv`. -/
def AlertC.netwait (string : String) (len : Nat) (r : Recv) : Int :=
  match r with
  | .error => ERR_WRONGREPLY
  | .data bytes =>
    if bytes.length = 0 then ERR_CONNECTCLOSED
    else if bytes.length < len then ERR_WRONGREPLY
    else if string.toList.take len = bytes.toList.take len then OK
    else ERR_WRONGREPLY

/-- The steps of the dialogue in `mailalert` after `connect`: the buffers handed
to `netsend`, then the reply `netwait` is called with. -/
def AlertC.dialogue (options : optiondetails) (hostname timestr recipient subject msg : String) :
    List (List String × String) :=
  [([], "220"),
   (["HELO " ++ hostname ++ "\r\n"], "250"),
   (["MAIL FROM:" ++ options.antidote_email ++ "\r\n"], "250"),
   (["RCPT TO:" ++ recipient ++ "\r\n"], "250"),
   (["DATA\r\n"], "354"),
   (["Date: " ++ timestr ++ "\r\n", "From: " ++ options.antidote_email ++ "\r\n",
     "Subject: " ++ subject ++ "\r\n", "To: " ++ recipient ++ "\r\n", msg ++ "\r\n.\r\n"], "250"),
   (["QUIT\r\n"], "221")]

/-- The statements of `mailalert` from the first `netwait` on: each step sends
its buffers, waits for its reply, and returns the error of `netwait` if there is
one. A call of `recv` beyond those listed finds the connection closed. -/
def AlertC.converse : List (List String × String) → List Recv → Int × List Event
  | [], _ => (OK, [])
  | (sends, expect) :: rest, recvs =>
    let errcode := AlertC.netwait expect 3 (recvs.headD (.data ""))
    if errcode ≠ OK then (errcode, sends.map Event.netsend)
    else
      let (result, events) := AlertC.converse rest recvs.tail
      (result, sends.map Event.netsend ++ events)

/-- The function `mailalert`: its return value and what it does. -/
def AlertC.mailalert (options : optiondetails) (env : Smtp) (recipient subject msg : String) :
    Int × List Event :=
  let entry := [Event.mailalert recipient subject msg]
  if !env.malloc_buf then (ERR_NOMEM, entry)
  else if !env.malloc_hostname then (ERR_NOMEM, entry)
  else if !env.malloc_timestr then (ERR_NOMEM, entry)
  else
    let hostname := env.gethostname.getD "localhost.localdomain"
    if !env.gethostbyname_ok then (ERR_CANNOTGETMAILSERVER, entry)
    else if !env.connect_ok then (ERR_CONNECTMAILSERVER, entry)
    else
      let (result, events) :=
        AlertC.converse (AlertC.dialogue options hostname env.ctime recipient subject msg) env.recv
      (result, entry ++ events)

/-- The two objects whose addresses `netalert` compares in
`options.root_email != "NO"`: the array `root_email` inside the static `options`,
and the string literal. -/
inductive Obj
  | options_root_email
  | literal_NO
deriving DecidableEq, Repr

/-- The function `netalert`. The test `options.root_email != "NO"` compares the
addresses of two objects, not the characters they hold. -/
def AlertC.netalert (options : optiondetails) (env : Smtp) (err : String) : Int × List Event :=
  let entry := [Event.netalert err]
  if Obj.options_root_email ≠ Obj.literal_NO then
    let (error, events) :=
      AlertC.mailalert options env options.root_email "Network Alert from Antidote" err
    let logged :=
      if error = ERR_NOMEM then
        [Event.syslog .LOG_AUTHPRIV .LOG_ERR "Insufficient memory to send email alert."]
      else if error = ERR_CANNOTGETMAILSERVER then
        [Event.syslog .LOG_AUTHPRIV .LOG_ERR "Cannot contact mail server."]
      else if error = ERR_CONNECTCLOSED then
        [Event.syslog .LOG_AUTHPRIV .LOG_ERR "Connection to mail server unexpectedly closed."]
      else if error = ERR_WRONGREPLY then
        [Event.syslog .LOG_AUTHPRIV .LOG_ERR "Mail server sent unrecognised reply."]
      else []
    (0, entry ++ events ++ logged)
  else (0, entry)

/-- The function `notice` of alert.c. -/
def AlertC.notice (err : String) : List Event :=
  [Event.syslog .LOG_USER .LOG_INFO ("Message: " ++ err)]

/-- The function `alert` of alert.c. -/
def AlertC.alert (err : String) : List Event :=
  [Event.syslog .LOG_USER .LOG_INFO ("Message: " ++ err)]

/-- The function `bluealert` of alert.c. -/
def AlertC.bluealert (err : String) : List Event :=
  [Event.syslog .LOG_USER .LOG_ERR ("Error: " ++ err)]

/-- The function `redalert` of alert.c. -/
def AlertC.redalert (options : optiondetails) (env : Smtp) (err : String) : List Event :=
  [Event.syslog .LOG_AUTHPRIV .LOG_CRIT ("URGENT ALERT FROM ANTIDOTE: " ++ err ++ "\n")]
    ++ (AlertC.netalert options env err).2

/-- The function `sendalert`. -/
def AlertC.sendalert (options : optiondetails) (env : Smtp) (priority : Int) (err : String) :
    List Event :=
  if priority = HIGHEST then AlertC.redalert options env err
  else if priority = MEDIUM then AlertC.bluealert err
  else if priority = LOWEST then AlertC.alert err
  else if priority = NOTICE then AlertC.notice err
  else []

/-- The entries into `netalert`. -/
def Event.is_netalert : Event → Bool
  | .netalert _ => true
  | _ => false

/-- The entries into `mailalert`. -/
def Event.is_mailalert : Event → Bool
  | .mailalert _ _ _ => true
  | _ => false

/-- The buffers sent to the mail server. -/
def Event.is_netsend : Event → Bool
  | .netsend _ => true
  | _ => false

/-- The entries written with `syslog`. -/
def Event.is_syslog : Event → Bool
  | .syslog _ _ _ => true
  | _ => false

/-- A mail server that accepts the whole dialogue. -/
def Sample.smtp : Smtp :=
  { malloc_buf := true
    malloc_hostname := true
    malloc_timestr := true
    gethostname := some "watcher"
    gethostbyname_ok := true
    connect_ok := true
    recv := [.data "220 ready\r\n", .data "250 hello\r\n", .data "250 ok\r\n", .data "250 ok\r\n",
      .data "354 go on\r\n", .data "250 ok\r\n", .data "221 bye\r\n"]
    ctime := "Thu Jan  1 00:00:00 1970\n" }

/-! ## checkopts.c

Strings are the characters of a C string, up to the first NUL. A stream is the
bytes of a file and a position. -/

abbrev MAX_OPT_LENGTH : Nat := 255

/-- The value `EOF` of `fgetc`. -/
abbrev EOF : Int := -1

/-- The characters of a C string: those before the first NUL. -/
def cstr (s : String) : List Char := s.toList.takeWhile (fun c => c ≠ Char.ofNat 0)

/-- The function `isspace` of the C locale; zero for `EOF`, and taken as zero for
the other negative values that a `char` holding a byte above 127 converts to. -/
def isspace (c : Int) : Bool := c = 32 || (9 ≤ c && c ≤ 13)

/-- The function `strcasecmp`: the difference of the first two characters that
differ after `tolower`, the end of a string counting as zero. -/
def strcasecmp : List Char → List Char → Int
  | [], [] => 0
  | [], b :: _ => 0 - (b.toLower.toNat : Int)
  | a :: _, [] => (a.toLower.toNat : Int)
  | a :: as, b :: bs =>
    if a.toLower = b.toLower then strcasecmp as bs
    else (a.toLower.toNat : Int) - (b.toLower.toNat : Int)

/-- The digits at the start of a string, read in base ten onto `acc`. -/
def readdigits : List Char → Nat → Nat
  | [], acc => acc
  | c :: cs, acc => if c.isDigit then readdigits cs (10 * acc + (c.toNat - 48)) else acc

/-- The conversion of an integer to `long` (64 bits, two's complement). -/
def to_long (x : Int) : Int := (x + 9223372036854775808) % 18446744073709551616 - 9223372036854775808

/-- The conversion of an integer to `int` (32 bits, two's complement). -/
def to_int32 (x : Int) : Int := (x + 2147483648) % 4294967296 - 2147483648

/-- The function `strtol` in base ten, as `atol` and `atoi` call it: white space,
an optional sign, digits; a value outside `long` gives `LONG_MAX` or `LONG_MIN`. -/
def strtol (s : List Char) : Int :=
  let value : Int :=
    match s.dropWhile (fun c => isspace c.toNat) with
    | [] => 0
    | c :: cs =>
      if c = Char.ofNat 45 then 0 - (readdigits cs 0 : Int)
      else if c = Char.ofNat 43 then (readdigits cs 0 : Int)
      else (readdigits (c :: cs) 0 : Int)
  max (-9223372036854775808) (min 9223372036854775807 value)

/-- The function `atol`. -/
def atol (s : String) : Int := strtol (cstr s)

/-- The function `atoi`: `(int) strtol(s, NULL, 10)`. -/
def atoi (s : String) : Int := to_int32 (strtol (cstr s))

/-- The function `setoption`: its return value and the record `options`
afterwards. -/
def setoption (options : optiondetails) (optname optval : String) : Int × optiondetails :=
  if strcasecmp (cstr optname) "ethernetdevice".toList = 0 then
    (OK, { options with device := String.mk (cstr optval) })
  else if strcasecmp (cstr optname) "emailsender".toList = 0 then
    (OK, { options with antidote_email := String.mk (cstr optval) })
  else if strcasecmp (cstr optname) "emailrecipient".toList = 0 then
    (OK, { options with root_email := String.mk (cstr optval) })
  else if strcasecmp (cstr optname) "emailserver".toList = 0 then
    (OK, { options with mail_server := String.mk (cstr optval) })
  else if strcasecmp (cstr optname) "emailserverport".toList = 0 then
    (OK, { options with mail_server_port := (atoi optval % 4294967296).toNat })
  else if strcasecmp (cstr optname) "promiscuous".toList = 0 then
    if strcasecmp (cstr optval) "yes".toList = 0 then (OK, { options with promiscuous := 1 })
    else if strcasecmp (cstr optval) "no".toList = 0 then (OK, { options with promiscuous := 0 })
    else (ERR_INOPTS, options)
  else if strcasecmp (cstr optname) "checkmacchanges".toList = 0 then
    if strcasecmp (cstr optval) "yes".toList = 0 then
      (OK, { options with check_mac_changes := 1 })
    else if strcasecmp (cstr optval) "no".toList = 0 then
      (OK, { options with check_mac_changes := 0 })
    else (ERR_INOPTS, options)
  else if strcasecmp (cstr optname) "poisonthreshold".toList = 0 then
    (OK, { options with poison_threshold := atoi optval })
  else if strcasecmp (cstr optname) "badnetthreshold".toList = 0 then
    (OK, { options with badnet_threshold := atoi optval })
  else if strcasecmp (cstr optname) "timeout".toList = 0 then
    (OK, { options with timeout := to_long (60 * atol optval) })
  else
    (OK, options)

/-- The ten option names `setoption` compares with. -/
def optionnames : List String :=
  ["ethernetdevice", "emailsender", "emailrecipient", "emailserver", "emailserverport",
   "promiscuous", "checkmacchanges", "poisonthreshold", "badnetthreshold", "timeout"]

/-- A stream opened for reading: the bytes of the file and the position. -/
structure FILE where
  content : List Nat
  pos : Nat
deriving DecidableEq, Repr

/-- The function `fgetc`: the next byte, or `EOF`. -/
def fgetc (f : FILE) : Int × FILE :=
  match f.content.get? f.pos with
  | some b => ((b % 256 : Nat), { f with pos := f.pos + 1 })
  | none => (EOF, f)

/-- The assignment of the `int` that `fgetc` returns to a `char` (signed, eight
bits): `EOF` and the byte 255 both become -1. -/
def tochar (c : Int) : Int := (c + 128) % 256 - 128

/-- The call `fseek(filename, -1, SEEK_CUR)`: its return value and the stream. -/
def fseek_back (f : FILE) : Int × FILE :=
  if f.pos = 0 then (-1, f) else (0, { f with pos := f.pos - 1 })

/-- The loop of `eatuseless`; the first argument bounds the number of iterations,
and needing more means the loop never ends. It returns the last character read
and the stream. -/
def eatuseless_loop : Nat → FILE → Bool → Res (Int × FILE)
  | 0, _, _ => .fault .no_termination
  | fuel + 1, f, comment =>
    let temp := tochar (fgetc f).1
    let f1 := (fgetc f).2
    if comment = false then
      if isspace temp = false then
        if temp = 35 then eatuseless_loop fuel f1 true
        else if temp ≠ 61 then .ok (temp, f1)
        else eatuseless_loop fuel f1 false
      else eatuseless_loop fuel f1 false
    else
      if temp = 13 ∨ temp = 10 then eatuseless_loop fuel f1 false
      else eatuseless_loop fuel f1 true

/-- The function `eatuseless`. An iteration that does not end the loop reads a
byte unless the stream is at its end, where the loop either ends at once or never. -/
def eatuseless (f : FILE) : Res (Int × FILE) := do
  let (temp, f1) ← eatuseless_loop (f.content.length - f.pos + 1) f false
  if temp = EOF then pure (ERR_EOF, f1)
  else if (fseek_back f1).1 ≠ 0 then pure (ERR_INOPTS, (fseek_back f1).2)
  else pure (OK, (fseek_back f1).2)

/-- The loop of `getnextname` (`equals` true) and of `getnextvalue` (`equals`
false): the characters stored in the buffer before the terminating NUL. The first
argument is `MAX_OPT_LENGTH + 1 - length`. -/
def getnext_loop (equals : Bool) : Nat → List Int → FILE → Int × List Int × FILE
  | 0, buffer, f => (ERR_INOPTS, buffer, f)
  | fuel + 1, buffer, f =>
    let temp := tochar (fgetc f).1
    let f1 := (fgetc f).2
    if buffer.length < MAX_OPT_LENGTH then
      if isspace temp || (equals && temp = 61) then (OK, buffer, f1)
      else getnext_loop equals fuel (buffer ++ [temp]) f1
    else (ERR_INOPTS, buffer, f1)

/-- The string a buffer of `char` holds. -/
def bufferstring (buffer : List Int) : String :=
  String.mk (cstr (String.mk (buffer.map (fun c => Char.ofNat (c % 256).toNat))))

/-- The function `getnextname`, on a buffer that is not `NULL`. -/
def getnextname (f : FILE) : Int × String × FILE :=
  let r := getnext_loop true (MAX_OPT_LENGTH + 1) [] f
  (r.1, bufferstring r.2.1, r.2.2)

/-- The function `getnextvalue`, on a buffer that is not `NULL`. -/
def getnextvalue (f : FILE) : Int × String × FILE :=
  let r := getnext_loop false (MAX_OPT_LENGTH + 1) [] f
  (r.1, bufferstring r.2.1, r.2.2)

/-- The loop of `readoptions`; the first argument bounds the number of
iterations. -/
def readoptions_loop : Nat → FILE → optiondetails → Res (Int × optiondetails)
  | 0, _, _ => .fault .no_termination
  | fuel + 1, f, options => do
    let (r1, f1) ← eatuseless f
    if r1 ≠ OK then pure (r1, options)
    else
      let (r2, optname, f2) := getnextname f1
      if r2 ≠ OK then pure (r2, options)
      else do
        let (r3, f3) ← eatuseless f2
        if r3 ≠ OK then pure (r3, options)
        else
          let (r4, optval, f4) := getnextvalue f3
          if r4 ≠ OK then pure (r4, options)
          else
            let r5 := setoption options optname optval
            if r5.1 ≠ OK then pure r5
            else readoptions_loop fuel f4 r5.2

/-- The function `readoptions`; `malloc_ok` tells whether its two buffers are
allocated. Every iteration that goes on reads at least one byte. -/
def readoptions (malloc_ok : Bool) (f : FILE) (options : optiondetails) :
    Res (Int × optiondetails) :=
  if malloc_ok then readoptions_loop (f.content.length + 1) f options
  else pure (ERR_NOMEM, options)

/-- What `loadoptions` does: the path it passes to `fopen`, the alert it raises,
and its return value with the record `options`. -/
structure Loaded where
  opened : String
  alerts : List Event
  result : Res (Int × optiondetails)

/-- The function `loadoptions`; `fopen` gives the bytes of a file that can be
opened for reading. It starts with a call of `setdefaults`, which assigns every
field of `options`. -/
def loadoptions (fopen : String → Option (List Nat)) (malloc_ok : Bool)
    (_options : optiondetails) : Loaded :=
  let options := setdefaults
  match fopen options.config_file with
  | none =>
    { opened := options.config_file
      alerts := AlertC.bluealert
        "No options file detected - using defaults. This is probably not what you want!"
      result := pure (ERR_NOOPTSFILE, options) }
  | some bytes =>
    { opened := options.config_file
      alerts := []
      result := readoptions malloc_ok ⟨bytes, 0⟩ options }

/-- The loop of `processarguments`, on the values the successive calls of
`getopt` return with `optarg` (after the last of them `getopt` returns -1):
`option`, `result` and `options` at the loop test. -/
def processarguments_loop : List (Int × String) → Int → Int → optiondetails →
    Int × optiondetails
  | getopts, option, result, options =>
    if option ≠ -1 ∧ result = OK then
      match getopts with
      | [] => (OK, options)
      | (o, optarg) :: rest =>
        if o = 104 then (ERR_INOPTS, options)
        else if o = 102 then
          processarguments_loop rest o OK { options with config_file := String.mk (cstr optarg) }
        else if o = -1 then (OK, options)
        else (ERR_INOPTS, options)
    else (result, options)

/-- The function `processarguments`. The variable `option` is read by the loop
test before it is assigned: `option0` is the value it happens to hold. -/
def processarguments (option0 : Int) (getopts : List (Int × String)) (options : optiondetails) :
    Int × optiondetails :=
  processarguments_loop getopts option0 OK options

/-- The statements of `main` up to `loadoptions`: `none` when `main` exits
before it. -/
def startup (option0 : Int) (getopts : List (Int × String))
    (fopen : String → Option (List Nat)) (malloc_ok : Bool) : Option Loaded :=
  let options := setdefaults
  let init := processarguments option0 getopts options
  if init.1 ≠ OK then none
  else some (loadoptions fopen malloc_ok init.2)

/-- The bytes of a text. -/
def Sample.bytes (s : String) : List Nat := s.toList.map Char.toNat

/-- The character of a decimal digit. -/
def digitchar (d : Nat) : Char := Char.ofNat (48 + d)

/-- Modelled from the spec: a decimal integer text, an optional minus sign and the
digits `ds`, the first of them the most significant. -/
def decimaltext (neg : Bool) (ds : List Nat) : String :=
  String.mk ((if neg then [Char.ofNat 45] else []) ++ ds.map digitchar)

/-- Modelled from the spec: the integer value of a decimal integer text. -/
def decimalvalue (neg : Bool) (ds : List Nat) : Int :=
  let n : Nat := Nat.ofDigits 10 ds.reverse
  if neg then 0 - (n : Int) else (n : Int)

/-! ## Well-formed tables -/

/-- Modelled from the spec: the addresses `l`, in this order, form a well-formed
doubly linked list in the heap of `s` that follows a record `prev` (`NULL` for a
whole table): every address holds a record, the `previous` of each is the address
before it, the `next` of each is the address after it, and the last `next` is
`NULL`. With `l.Nodup` the list is acyclic. -/
def islist (s : State) : Option Nat → List Nat → Bool
  | _, [] => true
  | prev, a :: rest =>
    match s.heap.read a with
    | none => false
    | some r => r.previous == prev && r.next == rest.head? && islist s (some a) rest

/-- The test of `searchforwards` and `searchbackwards` on the record at `a`. -/
def matchat (s : State) (ipaddress : Ip) (a : Nat) : Bool :=
  match s.heap.read a with
  | none => false
  | some r => ipmatch r ipaddress

/-! ## The thresholds as an invariant of the table -/

/-- The net count of a record, as `checknetarps` computes it, is within the two
thresholds of `options`. -/
def inrange (opts : optiondetails) (r : ipdetails) : Prop :=
  opts.badnet_threshold ≤ checknetarps r ∧ checknetarps r ≤ opts.poison_threshold

/-- Every allocated record, except the one at `x`, is within the thresholds. -/
def netbut (opts : optiondetails) (x : Option Nat) (s : State) : Prop :=
  ∀ a r, s.heap.read a = some r → some a ≠ x → inrange opts r

/-- The relation between the states before and after statements that keep the
entry point and touch the counters of no record but the one at `x`: a record
other than that one has the counters it had before, or is new with both counters
zero. -/
def keepscounts (x : Option Nat) (s s' : State) : Prop :=
  s'.entrypoint = s.entrypoint
  ∧ ∀ a r', s'.heap.read a = some r' → some a ≠ x →
      (∃ r, s.heap.read a = some r ∧ r'.requests = r.requests ∧ r'.replies = r.replies)
        ∨ (r'.requests = 0 ∧ r'.replies = 0)

/-! ## Where `lastreset` is written -/

/-- The record `r` after the observation of `frame` has been counted on it: one
more request for a request, one more reply for a reply. -/
def counted (frame : Frame) (r : ipdetails) : ipdetails :=
  if frame.op = ARPOP_REQUEST then { r with requests := (r.requests + 1) % UINT_MOD }
  else if frame.op = ARPOP_REPLY then { r with replies := (r.replies + 1) % UINT_MOD }
  else r

/-- The value `createipspace` leaves in `lastreset`: the current second, or the
zero of `calloc` when `gettimeofday` fails. -/
def stamp (env : Env) : Int := if env.clock_ok = true then env.now else 0

/-- The relation between the states before and after statements that write
neither `lastreset` nor a counter of an existing record: a record at an old
address has the `lastreset` and the counters it had, and a record at a new address
has the stamp of its creation and both counters zero. -/
def keepsstamps (env : Env) (s s' : State) : Prop :=
  s.heap.length ≤ s'.heap.length
  ∧ ∀ a r', s'.heap.read a = some r' →
      (a < s.heap.length →
        ∃ r, s.heap.read a = some r ∧ r'.lastreset = r.lastreset
          ∧ r'.requests = r.requests ∧ r'.replies = r.replies)
      ∧ (s.heap.length ≤ a → r'.lastreset = stamp env ∧ r'.requests = 0 ∧ r'.replies = 0)

/-- The relation between the states before and after an observation has been
handled and counted: a record at an old address has the `lastreset` it had, and
the counters it had unless it is the entry point, on which the observation has
been counted; a record at a new address has the stamp of its creation. -/
def handledby (env : Env) (frame : Frame) (s t : State) : Prop :=
  s.heap.length ≤ t.heap.length
  ∧ ∀ a rt, t.heap.read a = some rt →
      (a < s.heap.length →
        ∃ r, s.heap.read a = some r ∧ rt.lastreset = r.lastreset
          ∧ ((t.entrypoint = some a ∧ rt.requests = (counted frame r).requests
                ∧ rt.replies = (counted frame r).replies)
            ∨ (t.entrypoint ≠ some a ∧ rt.requests = r.requests ∧ rt.replies = r.replies)))
      ∧ (s.heap.length ≤ a → rt.lastreset = stamp env)

/-- The relation between the states before and after statements that write
`lastreset` only when they create a record and when the threshold test of
`processip` on the counted record triggers a reset: a record at an old address has
the `lastreset` it had, or it is the entry point, the net count of the record
with the observation counted is above `options.poison_threshold` or below
`options.badnet_threshold`, its counters are zero and its `lastreset` is the
current second; a record at a new address has the stamp of its creation. -/
def stamped (opts : optiondetails) (env : Env) (frame : Frame) (s s' : State) : Prop :=
  s.heap.length ≤ s'.heap.length
  ∧ ∀ a r', s'.heap.read a = some r' →
      (a < s.heap.length →
        ∃ r, s.heap.read a = some r
          ∧ (r'.lastreset = r.lastreset
            ∨ (env.clock_ok = true ∧ r'.lastreset = env.now ∧ s'.entrypoint = some a
                ∧ r'.requests = 0 ∧ r'.replies = 0
                ∧ (checknetarps (counted frame r) > opts.poison_threshold
                    ∨ checknetarps (counted frame r) < opts.badnet_threshold))))
      ∧ (s.heap.length ≤ a → r'.lastreset = stamp env)

/-! ## Sample inputs for the closed statements -/

/-- The C library answering at second `t` with every call succeeding. -/
def Sample.env (t : Int) : Env := ⟨t, true, true, true, true⟩

def Sample.mac1 : Mac := ⟨0xaa, 0xbb, 0xcc, 0xdd, 0xee, 0x01⟩

def Sample.mac2 : Mac := ⟨0xaa, 0xbb, 0xcc, 0xdd, 0xee, 0x02⟩

/-- The address `10.0.0.n`. -/
def Sample.ip (n : Nat) : Ip := ⟨10, 0, 0, n⟩

/-- An ARP request from `10.0.0.99` for address `target`. -/
def Sample.request (target : Ip) : Frame :=
  { ether_shost := ⟨2, 0, 0, 0, 0, 99⟩
    ar_op0 := 0
    ar_op1 := 1
    arp_sha := ⟨2, 0, 0, 0, 0, 99⟩
    arp_spa := Sample.ip 99
    arp_tpa := target }

/-- An ARP reply of `sender` to `10.0.0.99`, with the given Ethernet source and
ARP sender hardware addresses. -/
def Sample.reply (sender : Ip) (ether arp : Mac) : Frame :=
  { ether_shost := ether
    ar_op0 := 0
    ar_op1 := 2
    arp_sha := arp
    arp_spa := sender
    arp_tpa := Sample.ip 99 }

/-- A record for `10.0.0.1` with MAC `mac1`, created at second 0. -/
def Sample.record (requests replies : Nat) : ipdetails :=
  { ip_address := Sample.ip 1
    mac_address := Sample.mac1
    requests := requests
    replies := replies
    lastreset := 0
    previous := none
    next := none }

/-- A table holding `Sample.record` alone, at address 0. -/
def Sample.table (requests replies : Nat) : State :=
  { heap := [some (Sample.record requests replies)]
    entrypoint := some 0
    alerts := []
    details_csv := [] }

/-- The table after requests for 10.0.0.1 and then 10.0.0.2, both at second 0:
the record of 10.0.0.1 is the first of the list, that of 10.0.0.2 the entry point. -/
def Sample.pair : State :=
  { heap :=
      [some
        { ip_address := Sample.ip 1
          mac_address := Mac.zero
          requests := 1
          replies := 0
          lastreset := 0
          previous := none
          next := some 1 },
       some
        { ip_address := Sample.ip 2
          mac_address := Mac.zero
          requests := 1
          replies := 0
          lastreset := 0
          previous := some 0
          next := none }]
    entrypoint := some 1
    alerts := []
    details_csv := [] }

/-! ## Basic facts -/

@[simp] theorem Res.ok_bind {α β : Type} (a : α) (f : α → Res β) : (Res.ok a >>= f) = f a := rfl

@[simp] theorem Res.fault_bind {α β : Type} (e : Fault) (f : α → Res β) :
    ((Res.fault e : Res α) >>= f) = Res.fault e := rfl

@[simp] theorem Res.pure_eq {α : Type} (a : α) : (pure a : Res α) = Res.ok a := rfl

theorem Heap.read_lt {h : Heap} {a : Nat} {r : ipdetails} (hr : h.read a = some r) :
    a < h.length := by
  by_contra hlt
  have hn : h[a]? = none := by simp; omega
  simp [Heap.read, List.getD_eq_getElem?_getD, hn] at hr

theorem Heap.read_write_same {h : Heap} {a : Nat} (r : ipdetails) (hlt : a < h.length) :
    (h.write a r).read a = some r := by
  simp [Heap.read, Heap.write, List.getD_eq_getElem?_getD, List.getElem?_set, hlt]

theorem Heap.read_write_ne {h : Heap} {a b : Nat} (r : ipdetails) (hne : a ≠ b) :
    (h.write a r).read b = h.read b := by
  simp [Heap.read, Heap.write, List.getD_eq_getElem?_getD, List.getElem?_set, hne]

theorem Heap.read_free_same (h : Heap) (a : Nat) : (h.free a).read a = none := by
  by_cases hlt : a < h.length <;>
    simp [Heap.read, Heap.free, List.getD_eq_getElem?_getD, List.getElem?_set, hlt]

theorem Heap.read_free_ne {h : Heap} {a b : Nat} (hne : a ≠ b) :
    (h.free a).read b = h.read b := by
  simp [Heap.read, Heap.free, List.getD_eq_getElem?_getD, List.getElem?_set, hne]

@[simp] theorem Heap.length_write (h : Heap) (a : Nat) (r : ipdetails) :
    (h.write a r).length = h.length := by
  simp [Heap.write]

@[simp] theorem Heap.length_free (h : Heap) (a : Nat) : (h.free a).length = h.length := by
  simp [Heap.free]

theorem sumbytes_eq_zero_iff (m : Mac) : sumbytes m ETH_ALEN = 0 ↔ m = Mac.zero := by
  cases m
  simp [sumbytes, List.range, List.range.loop, List.foldl, Mac.get, Mac.zero]
  omega

theorem macflag_pos_iff (a b : Mac) : macflag a b > 0 ↔ a ≠ b := by
  cases a; cases b
  simp only [macflag, List.range, List.range.loop, List.foldl, Mac.get]
  simp only [Mac.mk.injEq, ne_eq, bne_iff_ne]
  split_ifs <;> simp_all

theorem Mac.ne_iff_byte (a b : Mac) : a ≠ b ↔ ∃ lp, lp < ETH_ALEN ∧ a.get lp ≠ b.get lp := by
  cases a; cases b
  constructor
  · intro h
    by_contra hc
    push_neg at hc
    apply h
    have h0 := hc 0 (by decide)
    have h1 := hc 1 (by decide)
    have h2 := hc 2 (by decide)
    have h3 := hc 3 (by decide)
    have h4 := hc 4 (by decide)
    have h5 := hc 5 (by decide)
    simp [Mac.get] at h0 h1 h2 h3 h4 h5
    simp [*]
  · rintro ⟨lp, _, hlp⟩ heq
    exact hlp (by rw [heq])

theorem deref_of_read {s : State} {a : Nat} {r : ipdetails} (hr : s.heap.read a = some r) :
    deref s (some a) = .ok r := by
  simp [deref, hr]

theorem modify_of_read {s : State} {a : Nat} {r : ipdetails} (f : ipdetails → ipdetails)
    (hr : s.heap.read a = some r) : modify s (some a) f = .ok (store s a (f r)) := by
  simp [modify, hr]

theorem checktimeouts_kept (opts : optiondetails) (env : Env) (s : State) (a : Nat)
    (r : ipdetails) (hm : env.malloc_ok = true) (hc : env.clock_ok = true)
    (hr : s.heap.read a = some r) (hk : ¬ r.lastreset + opts.timeout < env.now) :
    checktimeouts opts env s (some a) = .ok (some a, s) := by
  simp [checktimeouts, hm, hc, deref_of_read hr, hk]


@[simp] theorem store_entrypoint (s : State) (a : Nat) (x : ipdetails) :
    (store s a x).entrypoint = s.entrypoint := rfl

@[simp] theorem store_alerts (s : State) (a : Nat) (x : ipdetails) :
    (store s a x).alerts = s.alerts := rfl

@[simp] theorem store_details_csv (s : State) (a : Nat) (x : ipdetails) :
    (store s a x).details_csv = s.details_csv := rfl

@[simp] theorem store_heap_length (s : State) (a : Nat) (x : ipdetails) :
    (store s a x).heap.length = s.heap.length := by
  simp [store]

theorem read_store_same {s : State} {a : Nat} {r : ipdetails} (x : ipdetails)
    (hr : s.heap.read a = some r) : (store s a x).heap.read a = some x :=
  Heap.read_write_same x (Heap.read_lt hr)

theorem read_store_ne {s : State} {a b : Nat} (x : ipdetails) (hne : a ≠ b) :
    (store s a x).heap.read b = s.heap.read b :=
  Heap.read_write_ne x hne

@[simp] theorem store_store (s : State) (a : Nat) (x y : ipdetails) :
    store (store s a x) a y = store s a y := by
  simp [store, Heap.write, List.set_set]

@[simp] theorem raise_heap (s : State) (p : Severity) (m : Msg) : (raise s p m).heap = s.heap := rfl

@[simp] theorem raise_entrypoint (s : State) (p : Severity) (m : Msg) :
    (raise s p m).entrypoint = s.entrypoint := rfl

@[simp] theorem raise_alerts (s : State) (p : Severity) (m : Msg) :
    (raise s p m).alerts = s.alerts ++ [⟨p, m⟩] := rfl

theorem blank_reset (env : Env) (s : State) (p : Nat) (r : ipdetails)
    (he : s.entrypoint = some p) (hr : s.heap.read p = some r) :
    (blanknetarps s s.entrypoint >>= fun s3 => resettimer env s3 s3.entrypoint)
      = .ok (store s p
          { r with
            replies := 0
            requests := 0
            lastreset :=
              (if env.malloc_ok = true ∧ env.clock_ok = true then env.now else r.lastreset) }) := by
  have h1 := read_store_same { r with replies := 0 } hr
  have h2 := read_store_same { r with replies := 0, requests := 0 } hr
  simp only [blanknetarps, he, modify_of_read _ hr, Res.ok_bind, modify_of_read _ h1,
    store_store, resettimer, store_entrypoint]
  by_cases hm : env.malloc_ok = true
  · by_cases hc : env.clock_ok = true
    · simp [hm, hc, modify_of_read _ h2]
    · simp [hm, hc]
  · simp [hm]

/-- What `processip` does with a record that the age check keeps. -/
theorem processip_survives (opts : optiondetails) (env : Env) (s : State) (p : Nat)
    (r : ipdetails) (he : s.entrypoint = some p) (hr : s.heap.read p = some r)
    (hsurv : checktimeouts opts env s (some p) = .ok (some p, s)) :
    processip opts env s = .ok
      (let s2 :=
        if checknetarps r > POISON_THRESHOLD then
          redalert s (if env.malloc_ok = true then .poisoner r.ip_address else .poisoner_nomem)
        else if checknetarps r < opts.badnet_threshold then
          redalert s (if env.malloc_ok = true then .badnet r.ip_address else .badnet_nomem)
        else s
       if checknetarps r > opts.poison_threshold ∨ checknetarps r < opts.badnet_threshold then
         store s2 p
           { r with
             replies := 0
             requests := 0
             lastreset :=
               (if env.malloc_ok = true ∧ env.clock_ok = true then env.now else r.lastreset) }
       else s2) := by
  simp only [processip, he, hsurv, Res.ok_bind, ne_eq, not_true_eq_false, if_false,
    deref_of_read hr]
  have hsame : (if checknetarps r > POISON_THRESHOLD then
          if env.malloc_ok = true then redalert s (.poisoner r.ip_address)
          else redalert s .poisoner_nomem
        else if checknetarps r < opts.badnet_threshold then
          if env.malloc_ok = true then redalert s (.badnet r.ip_address)
          else redalert s .badnet_nomem
        else s) =
      (if checknetarps r > POISON_THRESHOLD then
          redalert s (if env.malloc_ok = true then .poisoner r.ip_address else .poisoner_nomem)
        else if checknetarps r < opts.badnet_threshold then
          redalert s (if env.malloc_ok = true then .badnet r.ip_address else .badnet_nomem)
        else s) := by
    split_ifs <;> rfl
  rw [hsame]
  generalize hs2 : (if checknetarps r > POISON_THRESHOLD then
          redalert s (if env.malloc_ok = true then .poisoner r.ip_address else .poisoner_nomem)
        else if checknetarps r < opts.badnet_threshold then
          redalert s (if env.malloc_ok = true then .badnet r.ip_address else .badnet_nomem)
        else s) = s2
  have hh : s2.heap = s.heap ∧ s2.entrypoint = some p := by
    subst hs2
    split_ifs <;> simp [redalert, he]
  by_cases h2 : checknetarps r > opts.poison_threshold ∨ checknetarps r < opts.badnet_threshold
  · rw [if_pos h2]
    simp only [if_pos h2]
    exact blank_reset env s2 p r hh.2 (by rw [hh.1]; exact hr)
  · rw [if_neg h2]
    simp only [if_neg h2]
    rfl

theorem checktimeouts_evicted (opts : optiondetails) (env : Env) (s : State) (a : Nat)
    (r : ipdetails) (hm : env.malloc_ok = true) (hc : env.clock_ok = true)
    (hr : s.heap.read a = some r) (hx : r.lastreset + opts.timeout < env.now)
    (hb : ∀ b, r.previous = some b → ∃ rb, s.heap.read b = some rb)
    (hn : ∀ n, r.next = some n → ∃ rn, s.heap.read n = some rn) :
    ∃ s', checktimeouts opts env s (some a) = .ok (r.next, s') ∧ s'.heap.read a = none
      ∧ s'.alerts = s.alerts ∧ s'.entrypoint = s.entrypoint
      ∧ ∀ c, c ≠ a → r.previous ≠ some c → r.next ≠ some c → s'.heap.read c = s.heap.read c := by
  simp only [checktimeouts, hm, hc, if_true, deref_of_read hr, Res.ok_bind, hx]
  rcases hp : r.previous with _ | b
  · rcases hq : r.next with _ | n
    · simp [Heap.read_free_same]
      intro c hc1
      exact Heap.read_free_ne (Ne.symm hc1)
    · obtain ⟨rn, hrn⟩ := hn n hq
      simp [modify_of_read _ hrn, deref_of_read hr, store, Heap.read_free_same]
      intro c hc1 hc2
      rw [Heap.read_free_ne (Ne.symm hc1), Heap.read_write_ne _ hc2]
  · obtain ⟨rb, hrb⟩ := hb b hp
    rcases hq : r.next with _ | n
    · simp [modify_of_read _ hrb, store, Heap.read_free_same]
      intro c hc1 hc2
      rw [Heap.read_free_ne (Ne.symm hc1), Heap.read_write_ne _ hc2]
    · obtain ⟨rn, hrn⟩ := hn n hq
      simp only [modify_of_read _ hrb, Res.ok_bind, Res.pure_eq]
      have hr1 : ∃ r1, (store s b { rb with next := some n }).heap.read a = some r1
          ∧ r1.previous = some b := by
        by_cases hba : b = a
        · subst hba
          refine ⟨_, Heap.read_write_same _ (Heap.read_lt hr), ?_⟩
          rw [hr] at hrb; cases hrb; simpa using hp
        · exact ⟨r, by simp [store, Heap.read_write_ne _ hba, hr], hp⟩
      obtain ⟨r1, hr1, hr1p⟩ := hr1
      have hn1 : ∃ rn1, (store s b { rb with next := some n }).heap.read n = some rn1 := by
        by_cases hbn : b = n
        · subst hbn
          exact ⟨_, Heap.read_write_same _ (Heap.read_lt hrb)⟩
        · exact ⟨rn, by simp [store, Heap.read_write_ne _ hbn, hrn]⟩
      obtain ⟨rn1, hrn1⟩ := hn1
      simp only [store] at hr1 hrn1
      simp [deref, modify, hr1, hrn1, store, Heap.read_free_same]
      intro c hc1 hc2 hc3
      rw [Heap.read_free_ne (Ne.symm hc1), Heap.read_write_ne _ hc3,
        Heap.read_write_ne _ hc2]

/-! ## Walks depend on the pointer fields only -/

theorem rewindip_loop_congr (s s' : State)
    (h : ∀ a, (s'.heap.read a).map ipdetails.links = (s.heap.read a).map ipdetails.links) :
    ∀ n p, rewindip_loop s' n p = rewindip_loop s n p := by
  intro n
  induction n with
  | zero => intro p; rfl
  | succ n ih =>
    intro p
    cases p with
    | none => simp [rewindip_loop, deref]
    | some a =>
      have ha := h a
      rcases h1 : s.heap.read a with _ | r
      · rw [h1] at ha
        have h2 : s'.heap.read a = none := by simpa using ha
        simp [rewindip_loop, deref, h1, h2]
      · rw [h1] at ha
        rcases h2 : s'.heap.read a with _ | r'
        · rw [h2] at ha; simp at ha
        · rw [h2] at ha
          simp [ipdetails.links] at ha
          simp only [rewindip_loop, deref, h1, h2, Res.ok_bind, ha.1]
          cases r.previous with
          | none => rfl
          | some b => exact ih (some b)

theorem dumpdata_loop_congr (s s' : State)
    (h : ∀ a, (s'.heap.read a).map ipdetails.links = (s.heap.read a).map ipdetails.links) :
    ∀ n p rows rows', (dumpdata_loop s' n p rows').toOption.isSome
      = (dumpdata_loop s n p rows).toOption.isSome := by
  intro n
  induction n with
  | zero =>
    intro p rows rows'
    cases p <;> simp [dumpdata_loop, Res.toOption]
  | succ n ih =>
    intro p rows rows'
    cases p with
    | none => simp [dumpdata_loop, Res.toOption]
    | some a =>
      have ha := h a
      rcases h1 : s.heap.read a with _ | r
      · rw [h1] at ha
        have h2 : s'.heap.read a = none := by simpa using ha
        simp [dumpdata_loop, deref, h1, h2, Res.toOption]
      · rw [h1] at ha
        rcases h2 : s'.heap.read a with _ | r'
        · rw [h2] at ha; simp at ha
        · rw [h2] at ha
          simp [ipdetails.links] at ha
          simp only [dumpdata_loop, deref, h1, h2, Res.ok_bind, ha.2]
          exact ih _ _ _

theorem dumpdata_of_walkable (env : Env) (s0 s : State) (q : Option Nat)
    (hlen : s.heap.length = s0.heap.length)
    (h : ∀ a, (s.heap.read a).map ipdetails.links = (s0.heap.read a).map ipdetails.links)
    (hw : walkable s0 q = true) :
    ∃ t, dumpdata env s q = .ok t ∧ t.heap = s.heap ∧ t.entrypoint = s.entrypoint
      ∧ t.alerts = s.alerts := by
  have hf : walkfuel s = walkfuel s0 := by simp [walkfuel, hlen]
  unfold walkable at hw
  have hr : rewindip s q = rewindip s0 q := by
    simp only [rewindip, hf]
    exact rewindip_loop_congr s0 s h _ _
  rcases hrw : rewindip s0 q with head | f
  · rw [hrw] at hw
    simp only at hw
    simp only [dumpdata, hr, hrw, Res.ok_bind]
    by_cases ho : env.fopen_ok = true
    · simp only [ho, if_true]
      have hd := dumpdata_loop_congr s0 s h (walkfuel s0) head []
        ["\"IP Address\",\"MAC Address\",\"Requests\",\"Replies\",\"Last Reset\"\n"]
      rw [hw] at hd
      rw [hf]
      rcases hdl : dumpdata_loop s (walkfuel s0) head
        ["\"IP Address\",\"MAC Address\",\"Requests\",\"Replies\",\"Last Reset\"\n"] with rows | f
      · exact ⟨_, rfl, rfl, rfl, rfl⟩
      · rw [hdl] at hd; simp [Res.toOption] at hd
    · simp only [ho]
      exact ⟨s, rfl, rfl, rfl, rfl⟩
  · rw [hrw] at hw; simp at hw

/-! ## The reply path on a record that `checkip` finds -/

theorem ipcopy_eq (dst src : Ip) :
    (List.range 4).foldl (fun ip lp => ip.set lp (src.get lp)) dst = src := by
  cases dst; cases src; rfl

theorem maccopy_eq (dst src : Mac) :
    (List.range ETH_ALEN).foldl (fun mac lp => mac.set lp (src.get lp)) dst = src := by
  cases dst; cases src; rfl

theorem maccopy7_eq (dst src : Mac) :
    (List.range (ETH_ALEN + 1)).foldl (fun mac lp => mac.set lp (src.get lp)) dst = src := by
  cases dst; cases src; rfl

theorem handlereply_found (env : Env) (s : State) (frame : Frame) (p : Nat) (r : ipdetails)
    (hfind : checkip s s.entrypoint frame.arp_spa = .ok (some p))
    (hr : s.heap.read p = some r) (hknown : r.mac_address ≠ Mac.zero) :
    handlereply env s frame = .ok (OK,
      store { s with entrypoint := some p } p
        { r with replies := (r.replies + 1) % UINT_MOD }) := by
  have hsum : ¬ sumbytes r.mac_address ETH_ALEN = 0 := by
    rw [sumbytes_eq_zero_iff]; exact hknown
  have hr' : ({ s with entrypoint := some p } : State).heap.read p = some r := hr
  have hr2 := read_store_same (s := { s with entrypoint := some p })
    { r with replies := (r.replies + 1) % UINT_MOD } hr'
  simp only [handlereply, hfind, Res.ok_bind, deref_of_read hr, hsum, if_false, Res.pure_eq,
    addreply, modify_of_read _ hr', deref_of_read hr2]

theorem checkmacchanges_disabled (opts : optiondetails) (env : Env) (s : State)
    (p : Option Nat) (m : Mac) (hoff : opts.check_mac_changes = 0) :
    checkmacchanges opts env s p m = .ok (OK, s) := by
  simp [checkmacchanges, hoff]

theorem checkmacchanges_changed (opts : optiondetails) (env : Env) (s : State) (p : Nat)
    (r : ipdetails) (m : Mac) (hon : opts.check_mac_changes ≠ 0)
    (hr : s.heap.read p = some r) (hknown : r.mac_address ≠ Mac.zero)
    (hne : r.mac_address ≠ m) :
    checkmacchanges opts env s (some p) m = .ok (ERR_MACCHANGED,
      redalert s (if env.malloc_ok = true then .changedmacs r.ip_address r.mac_address m
        else .changedmacs_nomem)) := by
  have hsum : ¬ sumbytes r.mac_address ETH_ALEN = 0 := by
    rw [sumbytes_eq_zero_iff]; exact hknown
  have hflag : macflag r.mac_address m > 0 := (macflag_pos_iff _ _).2 hne
  simp only [checkmacchanges, hon, ne_eq, not_false_eq_true, if_true, deref_of_read hr,
    Res.ok_bind, hsum, hflag, alertchangedmacs]
  by_cases hm : env.malloc_ok = true <;> simp [hm, deref_of_read hr]

theorem checkmacchanges_same (opts : optiondetails) (env : Env) (s : State) (p : Nat)
    (r : ipdetails) (m : Mac) (hr : s.heap.read p = some r)
    (hsame : r.mac_address = Mac.zero ∨ r.mac_address = m) :
    checkmacchanges opts env s (some p) m = .ok (OK, s) := by
  by_cases hon : opts.check_mac_changes = 0
  · exact checkmacchanges_disabled opts env s _ m hon
  · simp only [checkmacchanges, ne_eq, hon, not_false_eq_true, if_true, deref_of_read hr,
      Res.ok_bind]
    by_cases hsum : sumbytes r.mac_address ETH_ALEN = 0
    · simp [hsum]
    · have hz : r.mac_address ≠ Mac.zero := fun h => hsum ((sumbytes_eq_zero_iff _).2 h)
      have heq : r.mac_address = m := hsame.resolve_left hz
      have hflag : ¬ macflag r.mac_address m > 0 := by
        rw [macflag_pos_iff]; simp [heq]
      simp [hsum, hflag]

theorem populateipspacerep_live (env : Env) (s : State) (frame : Frame) (p : Nat)
    (r : ipdetails) (hr : s.heap.read p = some r) :
    populateipspacerep env s (some p) frame = .ok (OK,
      let s2 := store s p { r with ip_address := frame.arp_spa, mac_address := frame.ether_shost }
      if frame.ether_shost ≠ frame.arp_sha then
        redalert s2 (if env.malloc_ok = true then
          .dodgymacs frame.arp_spa frame.ether_shost frame.arp_sha else .dodgymacs_nomem)
      else s2) := by
  have h1 := read_store_same { r with ip_address := frame.arp_spa } hr
  have h2 := read_store_same
    { r with ip_address := frame.arp_spa, mac_address := frame.ether_shost } hr
  simp only [populateipspacerep, modify_of_read _ hr, ipcopy_eq, Res.ok_bind,
    modify_of_read _ h1, maccopy7_eq, store_store, checkmacs, deref_of_read h2, macflag_pos_iff]
  by_cases hne : frame.ether_shost = frame.arp_sha
  · simp [hne]
  · simp only [ne_eq, hne, not_false_eq_true, if_true, alertdodgymacs]
    by_cases hm : env.malloc_ok = true <;> simp [hm, deref_of_read h2]

theorem processether_unfold (opts : optiondetails) (env : Env) (s : State) (frame : Frame)
    (e : Nat) (re : ipdetails) (hm : env.malloc_ok = true) (he : s.entrypoint = some e)
    (hre : s.heap.read e = some re) (hnz : re.ip_address.get 0 ≠ 0) :
    processether opts env s frame =
      (processether_op opts env s frame >>= fun s3 =>
        dumpdata env s3 s3.entrypoint >>= fun s4 => pure (OK, s4)) := by
  simp [processether, hm, he, deref_of_read hre, hnz]

/-- The effect of `processip` on a record that the age check keeps, field by field. -/
theorem processip_survives_effect (opts : optiondetails) (env : Env) (s : State) (p : Nat)
    (r : ipdetails) (he : s.entrypoint = some p) (hr : s.heap.read p = some r)
    (hsurv : checktimeouts opts env s (some p) = .ok (some p, s)) :
    ∃ s' r', processip opts env s = .ok s' ∧ s'.entrypoint = some p
      ∧ s'.heap.length = s.heap.length
      ∧ (∀ a, a ≠ p → s'.heap.read a = s.heap.read a)
      ∧ s'.heap.read p = some r'
      ∧ r'.ip_address = r.ip_address ∧ r'.mac_address = r.mac_address
      ∧ r'.links = r.links
      ∧ ((checknetarps r > opts.poison_threshold ∨ checknetarps r < opts.badnet_threshold) →
          r'.replies = 0 ∧ r'.requests = 0)
      ∧ (¬ (checknetarps r > opts.poison_threshold ∨ checknetarps r < opts.badnet_threshold) →
          r' = r)
      ∧ ∃ raised, s'.alerts = s.alerts ++ raised
          ∧ ∀ x ∈ raised, x.err.is_poisoner = true ∨ x.err.is_badnet = true := by
  rw [processip_survives opts env s p r he hr hsurv]
  generalize hs2 : (if checknetarps r > POISON_THRESHOLD then
          redalert s (if env.malloc_ok = true then .poisoner r.ip_address else .poisoner_nomem)
        else if checknetarps r < opts.badnet_threshold then
          redalert s (if env.malloc_ok = true then .badnet r.ip_address else .badnet_nomem)
        else s) = s2
  have hh : s2.heap = s.heap ∧ s2.entrypoint = some p ∧ ∃ raised, s2.alerts = s.alerts ++ raised
      ∧ ∀ x ∈ raised, x.err.is_poisoner = true ∨ x.err.is_badnet = true := by
    subst hs2
    by_cases hm : env.malloc_ok = true
    · split_ifs
      · exact ⟨rfl, he, [_], rfl, by simp [Msg.is_poisoner]⟩
      · exact ⟨rfl, he, [_], rfl, by simp [Msg.is_badnet]⟩
      · exact ⟨rfl, he, [], by simp, by simp⟩
    · split_ifs
      · exact ⟨rfl, he, [_], rfl, by simp [Msg.is_poisoner]⟩
      · exact ⟨rfl, he, [_], rfl, by simp [Msg.is_badnet]⟩
      · exact ⟨rfl, he, [], by simp, by simp⟩
  obtain ⟨hheap, hent, hal⟩ := hh
  have hr2 : s2.heap.read p = some r := by rw [hheap]; exact hr
  by_cases h2 : checknetarps r > opts.poison_threshold ∨ checknetarps r < opts.badnet_threshold
  · simp only [h2, if_true]
    refine ⟨_, _, rfl, hent, ?_, ?_, read_store_same _ hr2, rfl, rfl, rfl, ?_, ?_, hal⟩
    · simp [hheap]
    · intro a ha
      rw [read_store_ne _ (Ne.symm ha), hheap]
    · intro _; exact ⟨rfl, rfl⟩
    · intro hn; exact absurd trivial hn
  · simp only [h2, if_false]
    refine ⟨s2, r, rfl, hent, by rw [hheap], ?_, hr2, rfl, rfl, rfl, ?_, ?_, hal⟩
    · intro a _; rw [hheap]
    · intro h; exact h.elim
    · intro _; rfl

theorem links_store {s : State} {p : Nat} {r : ipdetails} (x : ipdetails)
    (hr : s.heap.read p = some r) (hx : x.links = r.links) :
    ∀ a, ((store s p x).heap.read a).map ipdetails.links = (s.heap.read a).map ipdetails.links := by
  intro a
  by_cases ha : p = a
  · subst ha
    rw [read_store_same x hr, hr]
    simp [hx]
  · rw [read_store_ne x ha]

/-- The call of `processip` and then `dumpdata` at the end of `processether`, on a
record that the age check keeps, in a list that can be walked. -/
theorem processip_then_dump (opts : optiondetails) (env : Env) (s0 s : State) (p : Nat)
    (r : ipdetails) (hm : env.malloc_ok = true) (hc : env.clock_ok = true)
    (he : s.entrypoint = some p) (hr : s.heap.read p = some r)
    (hfresh : ¬ r.lastreset + opts.timeout < env.now)
    (hlen : s.heap.length = s0.heap.length)
    (hlinks : ∀ a, (s.heap.read a).map ipdetails.links = (s0.heap.read a).map ipdetails.links)
    (hw : walkable s0 (some p) = true) :
    ∃ s' r', (processip opts env s >>= fun s3 =>
        dumpdata env s3 s3.entrypoint >>= fun s4 => pure (OK, s4)) = .ok (OK, s')
      ∧ s'.entrypoint = some p
      ∧ (∀ a, a ≠ p → s'.heap.read a = s.heap.read a)
      ∧ s'.heap.read p = some r'
      ∧ r'.ip_address = r.ip_address ∧ r'.mac_address = r.mac_address
      ∧ ((checknetarps r > opts.poison_threshold ∨ checknetarps r < opts.badnet_threshold) →
          r'.replies = 0 ∧ r'.requests = 0)
      ∧ (¬ (checknetarps r > opts.poison_threshold ∨ checknetarps r < opts.badnet_threshold) →
          r' = r)
      ∧ ∃ raised, s'.alerts = s.alerts ++ raised
          ∧ ∀ x ∈ raised, x.err.is_poisoner = true ∨ x.err.is_badnet = true := by
  obtain ⟨s1, r', h1, h1e, h1len, h1o, h1p, hip, hmac, hlk, hz, hnz, hal⟩ :=
    processip_survives_effect opts env s p r he hr
      (checktimeouts_kept opts env s p r hm hc hr hfresh)
  have hl1 : ∀ a, (s1.heap.read a).map ipdetails.links
      = (s0.heap.read a).map ipdetails.links := by
    intro a
    by_cases ha : a = p
    · subst ha
      rw [h1p, ← hlinks a, hr]
      simp [hlk]
    · rw [h1o a ha, hlinks a]
  obtain ⟨t, ht, hth, hte, hta⟩ :=
    dumpdata_of_walkable env s0 s1 (some p) (by rw [h1len, hlen]) hl1 hw
  refine ⟨t, r', ?_, ?_, ?_, ?_, hip, hmac, hz, hnz, ?_⟩
  · simp [h1, h1e, ht]
  · rw [hte, h1e]
  · intro a ha; rw [hth, h1o a ha]
  · rw [hth, h1p]
  · rw [hta]; exact hal

theorem Msg.imbalance_not_mac (m : Msg) (h : m.is_poisoner = true ∨ m.is_badnet = true) :
    m.is_changedmacs = false ∧ m.is_dodgymacs = false := by
  cases m <;> simp_all [Msg.is_poisoner, Msg.is_badnet, Msg.is_changedmacs, Msg.is_dodgymacs]

/-- The branch of `processether` for a reply whose record is found with a known
MAC that differs from the frame's, the frame's two MACs agreeing: the state handed
to `processip`. -/
theorem processether_op_reply_changed (opts : optiondetails) (env : Env) (s : State)
    (frame : Frame) (p : Nat) (r : ipdetails) (hm : env.malloc_ok = true)
    (hon : opts.check_mac_changes ≠ 0) (hop : frame.op = ARPOP_REPLY)
    (hfind : checkip s s.entrypoint frame.arp_spa = .ok (some p))
    (hr : s.heap.read p = some r) (hknown : r.mac_address ≠ Mac.zero)
    (heq : frame.ether_shost = frame.arp_sha) (hne : r.mac_address ≠ frame.arp_sha) :
    processether_op opts env s frame = processip opts env
      (store (redalert (store { s with entrypoint := some p } p
          { r with replies := (r.replies + 1) % UINT_MOD })
          (.changedmacs r.ip_address r.mac_address frame.arp_sha)) p
        { r with
          replies := (r.replies + 1) % UINT_MOD
          ip_address := frame.arp_spa
          mac_address := frame.arp_sha }) := by
  have h21 : ¬ (ARPOP_REPLY = ARPOP_REQUEST) := by decide
  have hok : ¬ (OK = ERR_NOMEM) := by decide
  have hmc : ERR_MACCHANGED ≠ OK := by decide
  have hr' : ({ s with entrypoint := some p } : State).heap.read p = some r := hr
  have hrA := read_store_same (s := { s with entrypoint := some p })
    { r with replies := (r.replies + 1) % UINT_MOD } hr'
  have hcm := checkmacchanges_changed opts env _ p _ frame.arp_sha hon hrA hknown hne
  rw [if_pos hm] at hcm
  have hrA1 : (redalert (store { s with entrypoint := some p } p
      { r with replies := (r.replies + 1) % UINT_MOD })
      (.changedmacs r.ip_address r.mac_address frame.arp_sha)).heap.read p
      = some { r with replies := (r.replies + 1) % UINT_MOD } := hrA
  have hpop := populateipspacerep_live env _ frame p _ hrA1
  simp only [heq, ne_eq, not_true_eq_false, if_false] at hpop
  have hent : (store ({ s with entrypoint := some p } : State) p
      { r with replies := (r.replies + 1) % UINT_MOD }).entrypoint = some p := rfl
  have hent1 : (redalert (store ({ s with entrypoint := some p } : State) p
      { r with replies := (r.replies + 1) % UINT_MOD })
      (.changedmacs r.ip_address r.mac_address frame.arp_sha)).entrypoint = some p := rfl
  simp only [processether_op, hop, h21, if_false, if_true,
    handlereply_found env s frame p r hfind hr hknown, Res.ok_bind, hok, hent, hcm, hmc,
    ne_eq, not_false_eq_true, hent1, heq, hpop, Res.pure_eq]

theorem checknetarps_eq (r : ipdetails) (hq : r.requests < 2147483648)
    (hp : r.replies < 2147483648) : checknetarps r = (r.replies : Int) - (r.requests : Int) := by
  unfold checknetarps to_int UINT_MOD
  have h1 : r.requests % 4294967296 = r.requests := Nat.mod_eq_of_lt (by omega)
  have h2 : r.replies % 4294967296 = r.replies := Nat.mod_eq_of_lt (by omega)
  rw [h1, h2]
  by_cases hle : r.requests ≤ r.replies
  · have h3 : (r.replies + (4294967296 - r.requests)) % 4294967296 = r.replies - r.requests := by
      omega
    rw [h3]
    have h4 : (r.replies - r.requests) % 4294967296 = r.replies - r.requests := by omega
    rw [h4]
    have h5 : r.replies - r.requests < 2147483648 := by omega
    simp only [h5, if_true]
    omega
  · have h3 : (r.replies + (4294967296 - r.requests)) % 4294967296
        = r.replies + (4294967296 - r.requests) := by omega
    rw [h3]
    have h4 : (r.replies + (4294967296 - r.requests)) % 4294967296
        = r.replies + (4294967296 - r.requests) := by omega
    rw [h4]
    have h5 : ¬ (r.replies + (4294967296 - r.requests) < 2147483648) := by omega
    simp only [h5, if_false]
    omega

/-- The alerts `processip` raises for a record that the age check keeps. -/
theorem processip_survives_alerts (opts : optiondetails) (env : Env) (s : State) (p : Nat)
    (r : ipdetails) (he : s.entrypoint = some p) (hr : s.heap.read p = some r)
    (hsurv : checktimeouts opts env s (some p) = .ok (some p, s)) :
    ∃ s', processip opts env s = .ok s' ∧ s'.alerts = s.alerts ++
      (if checknetarps r > POISON_THRESHOLD then
        [⟨.HIGHEST, if env.malloc_ok = true then .poisoner r.ip_address else .poisoner_nomem⟩]
       else if checknetarps r < opts.badnet_threshold then
        [⟨.HIGHEST, if env.malloc_ok = true then .badnet r.ip_address else .badnet_nomem⟩]
       else []) := by
  rw [processip_survives opts env s p r he hr hsurv]
  refine ⟨_, rfl, ?_⟩
  by_cases h1 : checknetarps r > POISON_THRESHOLD
  · simp only [h1, if_true]
    split_ifs <;> simp [redalert]
  · by_cases h2 : checknetarps r < opts.badnet_threshold
    · simp only [h1, h2, if_true, if_false]
      split_ifs <;> simp [redalert]
    · simp only [h1, h2, if_false]
      split_ifs <;> simp

/-! ## The claims -/

/-- Claim C1 (fails on the code): from the empty table, requests for 10.0.0.1,
10.0.0.2, 10.0.0.1, 10.0.0.3, 10.0.0.2 leave the record of 10.0.0.3 at address 2
and the entry point at the record of 10.0.0.2, from where `checkip` does not
find 10.0.0.3; a sixth request, for 10.0.0.3, creates a second record for it at
address 3, and `dumpdata` lists both. -/
theorem duplicate_record_after_six_requests :
    (run setdefaults State.init
        [(Sample.env 0, Sample.request (Sample.ip 1)), (Sample.env 0, Sample.request (Sample.ip 2)),
         (Sample.env 0, Sample.request (Sample.ip 1)), (Sample.env 0, Sample.request (Sample.ip 3)),
         (Sample.env 0, Sample.request (Sample.ip 2))]).toOption.map
      (fun s => (s.entrypoint, (s.heap.read 2).map ipdetails.ip_address,
        (checkip s s.entrypoint (Sample.ip 3)).toOption))
      = some (some 1, some (Sample.ip 3), some none)
    ∧ (run setdefaults State.init
        [(Sample.env 0, Sample.request (Sample.ip 1)), (Sample.env 0, Sample.request (Sample.ip 2)),
         (Sample.env 0, Sample.request (Sample.ip 1)), (Sample.env 0, Sample.request (Sample.ip 3)),
         (Sample.env 0, Sample.request (Sample.ip 2)),
         (Sample.env 0, Sample.request (Sample.ip 3))]).toOption.map
      (fun s => ((s.heap.read 2).map ipdetails.ip_address,
        (s.heap.read 3).map ipdetails.ip_address, s.details_csv.length))
      = some (some (Sample.ip 3), some (Sample.ip 3), 5) := by
  constructor <;> decide

/-- Claim C2 (fails on the code): with `poison_threshold = 20`, the eleventh
consecutive reply for one address (net 11, not above 20) raises the poisoner
alert; with `poison_threshold = 5`, the sixth (net 6, above 5) raises none. -/
theorem poisoner_alert_tests_the_constant :
    (run { setdefaults with poison_threshold := 20 } State.init
        (List.replicate 11 (Sample.env 0, Sample.reply (Sample.ip 3) Sample.mac1 Sample.mac1))).toOption.map
      (fun s => s.alerts) = some [⟨.HIGHEST, .poisoner (Sample.ip 3)⟩]
    ∧ (run { setdefaults with poison_threshold := 20 } State.init
        (List.replicate 10 (Sample.env 0, Sample.reply (Sample.ip 3) Sample.mac1 Sample.mac1))).toOption.map
      (fun s => (s.alerts, (s.heap.read 0).map ipdetails.replies)) = some ([], some 10)
    ∧ (run { setdefaults with poison_threshold := 5 } State.init
        (List.replicate 6 (Sample.env 0, Sample.reply (Sample.ip 3) Sample.mac1 Sample.mac1))).toOption.map
      (fun s => s.alerts) = some []
    ∧ checknetarps { ipdetails.zero with replies := 11 } = 11
    ∧ checknetarps { ipdetails.zero with replies := 6 } = 6 := by
  refine ⟨?_, ?_, ?_, ?_, ?_⟩ <;> decide

/-- The bad-net alert where the constant does not mask it: for every
configuration and every record that the age check keeps
and whose net count `replies - requests` does not exceed the poison threshold
(the constant `POISON_THRESHOLD` that `processip` tests, or the configured
`options.poison_threshold` when `options.badnet_threshold` is at most
`POISON_THRESHOLD + 1`), `processip` returns and raises the `HIGHEST` alert
"An unusual number of ARP requests ... have not been replied to" if and only if
the net count is strictly below `options.badnet_threshold`: a net count equal to
the threshold raises no such alert, one below it raises exactly that alert. The
net count is `replies - requests` for counters below `2^31`. With the defaults,
ten requests for a fresh address raise nothing and the eleventh raises the alert. -/
theorem processip_badnet_alert_iff (opts : optiondetails) (env : Env) (s : State) (p : Nat)
    (r : ipdetails) (he : s.entrypoint = some p) (hr : s.heap.read p = some r)
    (hsurv : checktimeouts opts env s (some p) = .ok (some p, s))
    (hnet : checknetarps r ≤ POISON_THRESHOLD
      ∨ (checknetarps r ≤ opts.poison_threshold
          ∧ opts.badnet_threshold ≤ POISON_THRESHOLD + 1)) :
    (∃ s' raised, processip opts env s = .ok s' ∧ s'.alerts = s.alerts ++ raised
      ∧ ((⟨.HIGHEST, if env.malloc_ok = true then .badnet r.ip_address else .badnet_nomem⟩
            ∈ raised) ↔ checknetarps r < opts.badnet_threshold)
      ∧ ((∃ x ∈ raised, x.err.is_badnet = true) ↔ checknetarps r < opts.badnet_threshold)
      ∧ (checknetarps r = opts.badnet_threshold → ∀ x ∈ raised, x.err.is_badnet = false)
      ∧ (checknetarps r = opts.badnet_threshold - 1 → raised =
          [⟨.HIGHEST, if env.malloc_ok = true then .badnet r.ip_address else .badnet_nomem⟩]))
    ∧ (r.requests < 2147483648 → r.replies < 2147483648 →
        checknetarps r = (r.replies : Int) - (r.requests : Int))
    ∧ (run setdefaults State.init
        (List.replicate 10 (Sample.env 0, Sample.request (Sample.ip 4)))).toOption.map
          (fun s => s.alerts) = some []
    ∧ (run setdefaults State.init
        (List.replicate 11 (Sample.env 0, Sample.request (Sample.ip 4)))).toOption.map
          (fun s => s.alerts) = some [⟨.HIGHEST, .badnet (Sample.ip 4)⟩] := by
  refine ⟨?_, checknetarps_eq r, by decide, by decide⟩
  obtain ⟨s', h1, h2⟩ := processip_survives_alerts opts env s p r he hr hsurv
  refine ⟨s', _, h1, h2, ?_⟩
  by_cases hb : checknetarps r < opts.badnet_threshold
  · have hnp : ¬ checknetarps r > POISON_THRESHOLD := by
      rcases hnet with h | ⟨_, h⟩
      · exact not_lt.mpr h
      · have : opts.badnet_threshold ≤ 11 := h
        intro hgt
        have : (10 : Int) < checknetarps r := hgt
        omega
    simp only [hnp, hb, if_true, if_false, List.mem_singleton, iff_true, exists_eq_left, true_and]
    refine ⟨?_, ?_, ?_⟩
    · by_cases hm : env.malloc_ok = true <;> simp [hm, Msg.is_badnet]
    · intro heq; omega
    · intro _; trivial
  · have hno : ∀ x ∈ (if checknetarps r > POISON_THRESHOLD then
          [(⟨.HIGHEST, if env.malloc_ok = true then .poisoner r.ip_address
            else .poisoner_nomem⟩ : Alert)]
         else if checknetarps r < opts.badnet_threshold then
          [⟨.HIGHEST, if env.malloc_ok = true then .badnet r.ip_address else .badnet_nomem⟩]
         else []), x.err.is_badnet = false := by
      intro x hx
      by_cases h1 : checknetarps r > POISON_THRESHOLD
      · simp only [h1, if_true, List.mem_singleton] at hx
        subst hx
        by_cases hm : env.malloc_ok = true <;> simp [hm, Msg.is_badnet]
      · simp [h1, hb] at hx
    refine ⟨?_, ?_, ?_, ?_⟩
    · constructor
      · intro hx
        have := hno _ hx
        by_cases hm : env.malloc_ok = true <;> simp [hm, Msg.is_badnet] at this
      · intro h; exact absurd h hb
    · constructor
      · rintro ⟨x, hx, hxb⟩
        rw [hno x hx] at hxb
        cases hxb
      · intro h; exact absurd h hb
    · intro _; exact hno
    · intro heq; omega

/-- An instance of the bad-net alert: with the defaults, a record with eleven requests and no reply
(net count -11) makes `processip` raise the alert. -/
theorem processip_badnet_alert_iff_witness :
    checknetarps (Sample.record 11 0) ≤ POISON_THRESHOLD
    ∧ ∃ s', processip setdefaults (Sample.env 0) (Sample.table 11 0) = .ok s'
        ∧ s'.alerts = [⟨.HIGHEST, .badnet (Sample.ip 1)⟩] :=
  ⟨by decide,
   let ⟨s', raised, h1, h2, _, _, _, h3⟩ := (processip_badnet_alert_iff setdefaults (Sample.env 0)
      (Sample.table 11 0) 0 (Sample.record 11 0) rfl (by decide) (by decide)
      (Or.inl (by decide))).1
   ⟨s', h1, by rw [h2, h3 (by decide)]; rfl⟩⟩

/-- Claim C4 (fails on the code): with `poison_threshold = 20`, the eleventh
consecutive reply for one address raises the poisoner alert and `processip`
leaves `replies = 11` and `lastreset` as they were; with `poison_threshold = 5`,
the sixth reply raises no alert and `processip` zeroes the counters and sets
`lastreset` to the current second. -/
theorem reset_without_alert_and_alert_without_reset :
    (run { setdefaults with poison_threshold := 20 } State.init
        (List.replicate 10 (Sample.env 0, Sample.reply (Sample.ip 3) Sample.mac1 Sample.mac1)
          ++ [(Sample.env 7, Sample.reply (Sample.ip 3) Sample.mac1 Sample.mac1)])).toOption.map
      (fun s => (s.alerts, (s.heap.read 0).map
        (fun r => (r.requests, r.replies, r.lastreset))))
      = some ([⟨.HIGHEST, .poisoner (Sample.ip 3)⟩], some (0, 11, 0))
    ∧ (run { setdefaults with poison_threshold := 5 } State.init
        (List.replicate 5 (Sample.env 0, Sample.reply (Sample.ip 3) Sample.mac1 Sample.mac1))).toOption.map
      (fun s => (s.alerts, (s.heap.read 0).map
        (fun r => (r.requests, r.replies, r.lastreset))))
      = some ([], some (0, 5, 0))
    ∧ (run { setdefaults with poison_threshold := 5 } State.init
        (List.replicate 5 (Sample.env 0, Sample.reply (Sample.ip 3) Sample.mac1 Sample.mac1)
          ++ [(Sample.env 7, Sample.reply (Sample.ip 3) Sample.mac1 Sample.mac1)])).toOption.map
      (fun s => (s.alerts, (s.heap.read 0).map
        (fun r => (r.requests, r.replies, r.lastreset))))
      = some ([], some (0, 0, 7)) := by
  refine ⟨?_, ?_, ?_⟩ <;> decide

/-- Claim C5: with the allocation of the timer and the clock read succeeding, for
a record whose neighbours (if any) are allocated, `checktimeouts` frees the record
(and returns its `next`) if and only if `now - lastreset > timeout`; otherwise it
returns the same record and leaves the state unchanged. A record with
`now - lastreset = timeout` is kept, one with `now - lastreset = timeout + 1` is
freed. -/
theorem checktimeouts_boundary (opts : optiondetails) (env : Env) (s : State) (a : Nat)
    (r : ipdetails) (hm : env.malloc_ok = true) (hc : env.clock_ok = true)
    (hr : s.heap.read a = some r)
    (hb : ∀ b, r.previous = some b → ∃ rb, s.heap.read b = some rb)
    (hn : ∀ n, r.next = some n → ∃ rn, s.heap.read n = some rn) :
    ((∃ q s', checktimeouts opts env s (some a) = .ok (q, s') ∧ s'.heap.read a = none)
        ↔ env.now - r.lastreset > opts.timeout)
    ∧ (env.now - r.lastreset > opts.timeout →
        ∃ s', checktimeouts opts env s (some a) = .ok (r.next, s') ∧ s'.heap.read a = none)
    ∧ (¬ env.now - r.lastreset > opts.timeout →
        checktimeouts opts env s (some a) = .ok (some a, s))
    ∧ (env.now - r.lastreset = opts.timeout →
        checktimeouts opts env s (some a) = .ok (some a, s))
    ∧ (env.now - r.lastreset = opts.timeout + 1 →
        ∃ s', checktimeouts opts env s (some a) = .ok (r.next, s') ∧ s'.heap.read a = none) := by
  have hev : env.now - r.lastreset > opts.timeout →
      ∃ s', checktimeouts opts env s (some a) = .ok (r.next, s') ∧ s'.heap.read a = none := by
    intro hx
    obtain ⟨s', h1, h2, _⟩ :=
      checktimeouts_evicted opts env s a r hm hc hr (by omega) hb hn
    exact ⟨s', h1, h2⟩
  have hkeep : ¬ env.now - r.lastreset > opts.timeout →
      checktimeouts opts env s (some a) = .ok (some a, s) := by
    intro hx
    exact checktimeouts_kept opts env s a r hm hc hr (by omega)
  refine ⟨⟨?_, ?_⟩, hev, hkeep, ?_, ?_⟩
  · rintro ⟨q, s', h1, h2⟩
    by_contra hx
    rw [hkeep hx] at h1
    cases h1
    rw [hr] at h2
    cases h2
  · intro hx
    obtain ⟨s', h1, h2⟩ := hev hx
    exact ⟨_, s', h1, h2⟩
  · intro hx; exact hkeep (by omega)
  · intro hx; exact hev (by omega)

/-- Witness for C5: a record reset at second 0 with the default timeout of 1500
seconds is kept at second 1500 and freed at second 1501. -/
theorem checktimeouts_boundary_witness :
    ((Sample.table 0 1).heap.read 0 = some (Sample.record 0 1))
    ∧ checktimeouts setdefaults (Sample.env 1500) (Sample.table 0 1) (some 0)
        = .ok (some 0, Sample.table 0 1)
    ∧ ∃ s', checktimeouts setdefaults (Sample.env 1501) (Sample.table 0 1) (some 0)
        = .ok (none, s') ∧ s'.heap.read 0 = none :=
  ⟨by decide,
   (checktimeouts_boundary setdefaults (Sample.env 1500) (Sample.table 0 1) 0
      (Sample.record 0 1) rfl rfl (by decide) (by simp [Sample.record])
      (by simp [Sample.record])).2.2.2.1 (by decide),
   (checktimeouts_boundary setdefaults (Sample.env 1501) (Sample.table 0 1) 0
      (Sample.record 0 1) rfl rfl (by decide) (by simp [Sample.record])
      (by simp [Sample.record])).2.2.2.2 (by decide)⟩

/-- Claim C6 (fails on the code): after a reply of 10.0.0.1 with both MACs `mac1`,
a reply of 10.0.0.1 with Ethernet source `mac2` and ARP sender `mac1` raises no
alert at all, although the two MACs of the frame differ; the stored MAC stays
`mac1`. -/
theorem no_cross_check_on_known_record :
    (run setdefaults State.init
        [(Sample.env 0, Sample.reply (Sample.ip 1) Sample.mac1 Sample.mac1),
         (Sample.env 1, Sample.reply (Sample.ip 1) Sample.mac2 Sample.mac1)]).toOption.map
      (fun s => (s.alerts, (s.heap.read 0).map (fun r => (r.mac_address, r.replies))))
      = some ([], some (Sample.mac1, 2))
    ∧ Sample.mac2 ≠ Sample.mac1 := by
  constructor <;> decide

/-- Claim C7: for every allocated record and every MAC `m`, `checkmacchanges`
raises the changed-MAC alert and returns `ERR_MACCHANGED` if and only if
`options.check_mac_changes` is non-zero, the stored MAC is not all-zero and the
stored MAC differs from `m` in some byte; otherwise it returns `OK` and raises
nothing; in every case the heap is unchanged. -/
theorem checkmacchanges_iff (opts : optiondetails) (env : Env) (s : State) (p : Nat)
    (r : ipdetails) (m : Mac) (hr : s.heap.read p = some r) :
    ((opts.check_mac_changes ≠ 0 ∧ r.mac_address ≠ Mac.zero
        ∧ ∃ lp, lp < ETH_ALEN ∧ r.mac_address.get lp ≠ m.get lp) →
      checkmacchanges opts env s (some p) m = .ok (ERR_MACCHANGED,
        redalert s (if env.malloc_ok = true then .changedmacs r.ip_address r.mac_address m
          else .changedmacs_nomem)))
    ∧ (¬ (opts.check_mac_changes ≠ 0 ∧ r.mac_address ≠ Mac.zero
        ∧ ∃ lp, lp < ETH_ALEN ∧ r.mac_address.get lp ≠ m.get lp) →
      checkmacchanges opts env s (some p) m = .ok (OK, s))
    ∧ ((∃ s', checkmacchanges opts env s (some p) m = .ok (ERR_MACCHANGED, s')
          ∧ ∃ x ∈ s'.alerts.drop s.alerts.length, x.err.is_changedmacs = true)
        ↔ (opts.check_mac_changes ≠ 0 ∧ r.mac_address ≠ Mac.zero
          ∧ ∃ lp, lp < ETH_ALEN ∧ r.mac_address.get lp ≠ m.get lp))
    ∧ (∀ rc s', checkmacchanges opts env s (some p) m = .ok (rc, s') →
        s'.heap = s.heap ∧ s'.entrypoint = s.entrypoint) := by
  have hyes : (opts.check_mac_changes ≠ 0 ∧ r.mac_address ≠ Mac.zero
        ∧ ∃ lp, lp < ETH_ALEN ∧ r.mac_address.get lp ≠ m.get lp) →
      checkmacchanges opts env s (some p) m = .ok (ERR_MACCHANGED,
        redalert s (if env.malloc_ok = true then .changedmacs r.ip_address r.mac_address m
          else .changedmacs_nomem)) := by
    rintro ⟨h1, h2, h3⟩
    exact checkmacchanges_changed opts env s p r m h1 hr h2 ((Mac.ne_iff_byte _ _).2 h3)
  have hno : ¬ (opts.check_mac_changes ≠ 0 ∧ r.mac_address ≠ Mac.zero
        ∧ ∃ lp, lp < ETH_ALEN ∧ r.mac_address.get lp ≠ m.get lp) →
      checkmacchanges opts env s (some p) m = .ok (OK, s) := by
    intro hc
    by_cases h1 : opts.check_mac_changes = 0
    · exact checkmacchanges_disabled opts env s _ m h1
    · apply checkmacchanges_same opts env s p r m hr
      by_cases h2 : r.mac_address = Mac.zero
      · exact Or.inl h2
      · right
        by_contra h3
        exact hc ⟨h1, h2, (Mac.ne_iff_byte _ _).1 h3⟩
  refine ⟨hyes, hno, ⟨?_, ?_⟩, ?_⟩
  · rintro ⟨s', h1, _⟩
    by_contra hc
    rw [hno hc] at h1
    cases h1
  · intro hc
    refine ⟨_, hyes hc, ⟨.HIGHEST, if env.malloc_ok = true then
      .changedmacs r.ip_address r.mac_address m else .changedmacs_nomem⟩, ?_, ?_⟩
    · simp [redalert]
    · by_cases hm : env.malloc_ok = true <;> simp [hm, Msg.is_changedmacs]
  · intro rc s' h
    by_cases hc : (opts.check_mac_changes ≠ 0 ∧ r.mac_address ≠ Mac.zero
        ∧ ∃ lp, lp < ETH_ALEN ∧ r.mac_address.get lp ≠ m.get lp)
    · rw [hyes hc] at h
      cases h
      exact ⟨rfl, rfl⟩
    · rw [hno hc] at h
      cases h
      exact ⟨rfl, rfl⟩

/-- Witness for C7: the record of 10.0.0.1 with MAC `mac1`, checked against `mac2`
with the default options. -/
theorem checkmacchanges_iff_witness :
    (Sample.table 0 1).heap.read 0 = some (Sample.record 0 1)
    ∧ checkmacchanges setdefaults (Sample.env 0) (Sample.table 0 1) (some 0) Sample.mac2
        = .ok (ERR_MACCHANGED, redalert (Sample.table 0 1)
            (.changedmacs (Sample.ip 1) Sample.mac1 Sample.mac2)) :=
  ⟨by decide,
   (checkmacchanges_iff setdefaults (Sample.env 0) (Sample.table 0 1) 0 (Sample.record 0 1)
      Sample.mac2 (by decide)).1 ⟨by decide, by decide, 5, by decide, by decide⟩⟩

/-- Counterexample to C8: with `check_mac_changes` off, after a reply of 10.0.0.1
with MAC `mac1` and then one with MAC `mac2`, the stored MAC is still `mac1`. -/
theorem disabled_check_keeps_old_mac :
    (run { setdefaults with check_mac_changes := 0 } State.init
        [(Sample.env 0, Sample.reply (Sample.ip 1) Sample.mac1 Sample.mac1),
         (Sample.env 1, Sample.reply (Sample.ip 1) Sample.mac2 Sample.mac2)]).toOption.map
      (fun s => (s.alerts, (s.heap.read 0).map (fun r => (r.mac_address, r.replies))))
      = some ([], some (Sample.mac1, 2))
    ∧ Sample.mac1 ≠ Sample.mac2 := by
  constructor <;> decide

/-- Claim C8 (amended): with `options.check_mac_changes` off, allocation and the
clock read succeeding, an entry-point record whose first address byte is not zero
and a list that `dumpdata` can walk, for every record that `checkip` finds for
the sender address of a reply, whose stored MAC is known and which the age check
keeps, `processether` returns `OK`, the stored MAC of the record is the one it
had before (the MAC of the reply is not stored), and none of the alerts raised is
a changed-MAC alert. -/
theorem processether_keeps_mac_when_disabled (opts : optiondetails) (env : Env) (s : State)
    (frame : Frame) (e p : Nat) (re r : ipdetails)
    (hm : env.malloc_ok = true) (hc : env.clock_ok = true)
    (hoff : opts.check_mac_changes = 0) (hop : frame.op = ARPOP_REPLY)
    (he : s.entrypoint = some e) (hre : s.heap.read e = some re)
    (hnz : re.ip_address.get 0 ≠ 0)
    (hfind : checkip s (some e) frame.arp_spa = .ok (some p))
    (hr : s.heap.read p = some r) (hknown : r.mac_address ≠ Mac.zero)
    (hfresh : ¬ r.lastreset + opts.timeout < env.now)
    (hw : walkable s (some p) = true) :
    ∃ s' r', processether opts env s frame = .ok (OK, s')
      ∧ s'.heap.read p = some r' ∧ r'.mac_address = r.mac_address
      ∧ ∃ raised, s'.alerts = s.alerts ++ raised
          ∧ ∀ x ∈ raised, x.err.is_changedmacs = false := by
  have hfind' : checkip s s.entrypoint frame.arp_spa = .ok (some p) := by rw [he]; exact hfind
  have hr' : ({ s with entrypoint := some p } : State).heap.read p = some r := hr
  have hrA := read_store_same (s := { s with entrypoint := some p })
    { r with replies := (r.replies + 1) % UINT_MOD } hr'
  obtain ⟨s', r', hrun, _, _, hp, _, hmac, _, _, raised, hal, hraised⟩ :=
    processip_then_dump opts env s _ p _ hm hc rfl hrA hfresh (by simp)
      (links_store (s := { s with entrypoint := some p }) _ hr' rfl) hw
  refine ⟨s', r', ?_, hp, hmac, raised, hal, ?_⟩
  · rw [processether_unfold opts env s frame e re hm he hre hnz]
    simp only [processether_op, hop, handlereply_found env s frame p r hfind' hr hknown,
      Res.ok_bind, checkmacchanges_disabled opts env _ _ _ hoff]
    simpa using hrun
  · intro x hx
    exact (Msg.imbalance_not_mac x.err (hraised x hx)).1

/-- Witness for C8 (amended): the table holding 10.0.0.1 with `mac1`, a reply of
10.0.0.1 with `mac2` at second 1, `check_mac_changes` off. -/
theorem processether_keeps_mac_when_disabled_witness :
    (processether { setdefaults with check_mac_changes := 0 } (Sample.env 1) (Sample.table 0 1)
        (Sample.reply (Sample.ip 1) Sample.mac2 Sample.mac2)).toOption.map
      (fun x => (x.2.heap.read 0).map ipdetails.mac_address) = some (some Sample.mac1) := by
  obtain ⟨s', r', h1, h2, h3, _⟩ := processether_keeps_mac_when_disabled
    { setdefaults with check_mac_changes := 0 } (Sample.env 1) (Sample.table 0 1)
    (Sample.reply (Sample.ip 1) Sample.mac2 Sample.mac2) 0 0 (Sample.record 0 1)
    (Sample.record 0 1) rfl rfl rfl (by decide) rfl (by decide) (by decide) (by decide)
    (by decide) (by decide) (by decide) (by decide)
  rw [h1]
  simp [Res.toOption, h2, h3, Sample.record]

/-- Counterexample to C9: with the defaults, after ten replies of 10.0.0.1 with
MAC `mac1` the record has `replies = 10`; an eleventh reply with MAC `mac2`
raises the changed-MAC alert and the poisoner alert, stores `mac2`, and leaves
`replies = 0`, not 11. -/
theorem mac_change_with_reset_zeroes_replies :
    (run setdefaults State.init
        (List.replicate 10 (Sample.env 0, Sample.reply (Sample.ip 1) Sample.mac1 Sample.mac1))).toOption.map
      (fun s => (s.alerts, (s.heap.read 0).map (fun r => (r.mac_address, r.replies))))
      = some ([], some (Sample.mac1, 10))
    ∧ (run setdefaults State.init
        (List.replicate 10 (Sample.env 0, Sample.reply (Sample.ip 1) Sample.mac1 Sample.mac1)
          ++ [(Sample.env 1, Sample.reply (Sample.ip 1) Sample.mac2 Sample.mac2)])).toOption.map
      (fun s => (s.alerts, (s.heap.read 0).map (fun r => (r.mac_address, r.replies))))
      = some ([⟨.HIGHEST, .changedmacs (Sample.ip 1) Sample.mac1 Sample.mac2⟩,
               ⟨.HIGHEST, .poisoner (Sample.ip 1)⟩], some (Sample.mac2, 0)) := by
  constructor <;> decide

/-- Claim C9 (amended): with `options.check_mac_changes` on, allocation and the
clock read succeeding, an entry-point record whose first address byte is not zero
and a list that `dumpdata` can walk, for every record that `checkip` finds for
the sender address of a reply, with a known stored MAC `M1`, which the age check
keeps, and a reply whose Ethernet source and ARP sender MAC are both `M2 ≠ M1`:
`processether` returns `OK`, raises first one `HIGHEST` changed-MAC alert whose
text names `M1` as previous and `M2` as new MAC and then no further changed-MAC
alert, and the stored MAC becomes `M2`. The `replies` counter is one more than
before (modulo `2^32`) and `requests` is unchanged, unless the net count of the
incremented counters is above `poison_threshold` or below `badnet_threshold`: then
the reset of `processip` leaves both counters at zero. -/
theorem processether_mac_change (opts : optiondetails) (env : Env) (s : State)
    (frame : Frame) (e p : Nat) (re r : ipdetails)
    (hm : env.malloc_ok = true) (hc : env.clock_ok = true)
    (hon : opts.check_mac_changes ≠ 0) (hop : frame.op = ARPOP_REPLY)
    (he : s.entrypoint = some e) (hre : s.heap.read e = some re)
    (hnz : re.ip_address.get 0 ≠ 0)
    (hfind : checkip s (some e) frame.arp_spa = .ok (some p))
    (hr : s.heap.read p = some r) (hknown : r.mac_address ≠ Mac.zero)
    (heq : frame.ether_shost = frame.arp_sha) (hne : r.mac_address ≠ frame.arp_sha)
    (hfresh : ¬ r.lastreset + opts.timeout < env.now)
    (hw : walkable s (some p) = true) :
    ∃ s' r', processether opts env s frame = .ok (OK, s')
      ∧ s'.heap.read p = some r' ∧ r'.mac_address = frame.arp_sha
      ∧ (¬ (checknetarps { r with replies := (r.replies + 1) % UINT_MOD } > opts.poison_threshold
            ∨ checknetarps { r with replies := (r.replies + 1) % UINT_MOD }
              < opts.badnet_threshold) →
          r'.replies = (r.replies + 1) % UINT_MOD ∧ r'.requests = r.requests)
      ∧ ((checknetarps { r with replies := (r.replies + 1) % UINT_MOD } > opts.poison_threshold
            ∨ checknetarps { r with replies := (r.replies + 1) % UINT_MOD }
              < opts.badnet_threshold) →
          r'.replies = 0 ∧ r'.requests = 0)
      ∧ (∃ raised, s'.alerts = s.alerts ++
            ⟨.HIGHEST, .changedmacs r.ip_address r.mac_address frame.arp_sha⟩ :: raised
          ∧ ∀ x ∈ raised, x.err.is_changedmacs = false)
      ∧ (Msg.changedmacs r.ip_address r.mac_address frame.arp_sha).render
          = fmtip r.ip_address ++ " has different MAC details. " ++ " Previous MAC: "
              ++ fmtmac r.mac_address ++ " New MAC: " ++ fmtmac frame.arp_sha := by
  have hfind' : checkip s s.entrypoint frame.arp_spa = .ok (some p) := by rw [he]; exact hfind
  have hr' : ({ s with entrypoint := some p } : State).heap.read p = some r := hr
  have hrA := read_store_same (s := { s with entrypoint := some p })
    { r with replies := (r.replies + 1) % UINT_MOD } hr'
  have hlA := links_store (s := { s with entrypoint := some p })
    { r with replies := (r.replies + 1) % UINT_MOD } hr' rfl
  have hrA1 : (redalert (store { s with entrypoint := some p } p
      { r with replies := (r.replies + 1) % UINT_MOD })
      (.changedmacs r.ip_address r.mac_address frame.arp_sha)).heap.read p
      = some { r with replies := (r.replies + 1) % UINT_MOD } := hrA
  have hrB := read_store_same
    { r with
      replies := (r.replies + 1) % UINT_MOD
      ip_address := frame.arp_spa
      mac_address := frame.arp_sha } hrA1
  have hlB := links_store
    { r with
      replies := (r.replies + 1) % UINT_MOD
      ip_address := frame.arp_spa
      mac_address := frame.arp_sha } hrA1 rfl
  obtain ⟨s', r', hrun, _, _, hp, _, hmac, hz, hnzr, raised, hal, hraised⟩ :=
    processip_then_dump opts env s _ p _ hm hc rfl hrB hfresh (by simp [redalert])
      (fun a => (hlB a).trans (hlA a)) hw
  refine ⟨s', r', ?_, hp, hmac, ?_, hz, ⟨raised, ?_, ?_⟩, rfl⟩
  · rw [processether_unfold opts env s frame e re hm he hre hnz,
      processether_op_reply_changed opts env s frame p r hm hon hop hfind' hr hknown heq hne]
    exact hrun
  · intro hn
    have := hnzr hn
    subst this
    exact ⟨rfl, rfl⟩
  · rw [hal]
    simp [redalert]
  · intro x hx
    exact (Msg.imbalance_not_mac x.err (hraised x hx)).1

/-- Witness for C9 (amended): the table holding 10.0.0.1 with `mac1` and one
reply counted, a reply of 10.0.0.1 with both MACs `mac2` at second 1. -/
theorem processether_mac_change_witness :
    (processether setdefaults (Sample.env 1) (Sample.table 0 1)
        (Sample.reply (Sample.ip 1) Sample.mac2 Sample.mac2)).toOption.map
      (fun x => (x.2.heap.read 0).map (fun r => (r.mac_address, r.replies)))
      = some (some (Sample.mac2, 2)) := by
  obtain ⟨s', r', h1, h2, h3, h4, _⟩ := processether_mac_change
    setdefaults (Sample.env 1) (Sample.table 0 1)
    (Sample.reply (Sample.ip 1) Sample.mac2 Sample.mac2) 0 0 (Sample.record 0 1)
    (Sample.record 0 1) rfl rfl (by decide) (by decide) rfl (by decide) (by decide) (by decide)
    (by decide) (by decide) rfl (by decide) (by decide) (by decide)
  have h5 := h4 (by decide)
  rw [h1]
  simp [Res.toOption, h2, h3, h5.1, Sample.record, Sample.reply]

/-- Claim C10 (fails on the code): a reply of an address without a record whose
Ethernet source MAC `mac1` differs from its ARP sender MAC `mac2` raises, with
the default options, the conflicting-MAC alert, then the changed-MAC alert, then
the conflicting-MAC alert again, both as the first frame ever and after a
request for another address. -/
theorem conflict_alert_precedes_change_alert_on_new_record :
    (run setdefaults State.init
        [(Sample.env 0, Sample.reply (Sample.ip 1) Sample.mac1 Sample.mac2)]).toOption.map
      (fun s => s.alerts)
      = some [⟨.HIGHEST, .dodgymacs (Sample.ip 1) Sample.mac1 Sample.mac2⟩,
              ⟨.HIGHEST, .changedmacs (Sample.ip 1) Sample.mac1 Sample.mac2⟩,
              ⟨.HIGHEST, .dodgymacs (Sample.ip 1) Sample.mac1 Sample.mac2⟩]
    ∧ (run setdefaults State.init
        [(Sample.env 0, Sample.request (Sample.ip 5)),
         (Sample.env 0, Sample.reply (Sample.ip 1) Sample.mac1 Sample.mac2)]).toOption.map
      (fun s => s.alerts)
      = some [⟨.HIGHEST, .dodgymacs (Sample.ip 1) Sample.mac1 Sample.mac2⟩,
              ⟨.HIGHEST, .changedmacs (Sample.ip 1) Sample.mac1 Sample.mac2⟩,
              ⟨.HIGHEST, .dodgymacs (Sample.ip 1) Sample.mac1 Sample.mac2⟩] := by
  constructor <;> decide

/-! ## Inversion of calls that return -/

theorem Res.bind_ok {α β : Type} {x : Res α} {f : α → Res β} {b : β}
    (h : (x >>= f) = .ok b) : ∃ a, x = .ok a ∧ f a = .ok b := by
  cases x with
  | ok a => exact ⟨a, rfl, h⟩
  | fault e => cases h

theorem deref_ok {s : State} {p : Option Nat} {r : ipdetails} (h : deref s p = .ok r) :
    ∃ a, p = some a ∧ s.heap.read a = some r := by
  cases p with
  | none => simp [deref] at h
  | some a =>
    refine ⟨a, rfl, ?_⟩
    simp only [deref] at h
    cases hr : s.heap.read a with
    | none => rw [hr] at h; cases h
    | some r0 => rw [hr] at h; cases h; rfl

theorem modify_ok {s s' : State} {p : Option Nat} {f : ipdetails → ipdetails}
    (h : modify s p f = .ok s') :
    ∃ a r, p = some a ∧ s.heap.read a = some r ∧ s' = store s a (f r) := by
  cases p with
  | none => simp [modify] at h
  | some a =>
    simp only [modify] at h
    cases hr : s.heap.read a with
    | none => rw [hr] at h; cases h
    | some r0 => rw [hr] at h; cases h; exact ⟨a, r0, rfl, hr, rfl⟩

/-- A store that keeps a projection of the record keeps it for every cell. -/
theorem proj_store {β : Type} (g : ipdetails → β) {s : State} {p : Nat} {r : ipdetails}
    (x : ipdetails) (hr : s.heap.read p = some r) (hx : g x = g r) :
    ∀ a, ((store s p x).heap.read a).map g = (s.heap.read a).map g := by
  intro a
  by_cases ha : p = a
  · subst ha
    rw [read_store_same x hr, hr]
    simp [hx]
  · rw [read_store_ne x ha]

/-- Every call of `checktimeouts` that returns leaves the data fields of every
record other than `*ip` as they were, and raises no alert. -/
theorem checktimeouts_data (opts : optiondetails) (env : Env) (s s' : State)
    (ip q : Option Nat) (h : checktimeouts opts env s ip = .ok (q, s')) :
    s'.alerts = s.alerts ∧ s'.entrypoint = s.entrypoint ∧ s'.heap.length = s.heap.length
      ∧ ∀ c, ip ≠ some c →
          (s'.heap.read c).map ipdetails.data = (s.heap.read c).map ipdetails.data := by
  unfold checktimeouts at h
  by_cases hm : env.malloc_ok = true
  swap
  · simp [hm] at h
    obtain ⟨_, rfl⟩ := h
    exact ⟨rfl, rfl, rfl, fun _ _ => rfl⟩
  by_cases hc : env.clock_ok = true
  swap
  · simp [hm, hc] at h
    obtain ⟨_, rfl⟩ := h
    exact ⟨rfl, rfl, rfl, fun _ _ => rfl⟩
  simp only [hm, hc, if_true] at h
  obtain ⟨r, hr, h⟩ := Res.bind_ok h
  obtain ⟨a, rfl, hra⟩ := deref_ok hr
  by_cases hx : r.lastreset + opts.timeout < env.now
  swap
  · simp [hx] at h
    obtain ⟨_, rfl⟩ := h
    exact ⟨rfl, rfl, rfl, fun _ _ => rfl⟩
  simp only [hx, if_true] at h
  obtain ⟨s1, h1, h⟩ := Res.bind_ok h
  obtain ⟨s2, h2, h⟩ := Res.bind_ok h
  simp only [Res.pure_eq, Res.ok.injEq, Prod.mk.injEq] at h
  obtain ⟨_, rfl⟩ := h
  have e1 : s1.alerts = s.alerts ∧ s1.entrypoint = s.entrypoint
      ∧ s1.heap.length = s.heap.length
      ∧ ∀ c, (s1.heap.read c).map ipdetails.data = (s.heap.read c).map ipdetails.data := by
    cases hp : r.previous with
    | none =>
      rw [hp] at h1
      simp only [Res.pure_eq, Res.ok.injEq] at h1
      subst h1
      exact ⟨rfl, rfl, rfl, fun _ => rfl⟩
    | some b =>
      rw [hp] at h1
      simp only [deref_of_read hra, Res.ok_bind] at h1
      obtain ⟨b', rb, hb, hrb, rfl⟩ := modify_ok h1
      cases hb
      exact ⟨rfl, rfl, by simp, proj_store ipdetails.data _ hrb rfl⟩
  have e2 : s2.alerts = s1.alerts ∧ s2.entrypoint = s1.entrypoint
      ∧ s2.heap.length = s1.heap.length
      ∧ ∀ c, (s2.heap.read c).map ipdetails.data = (s1.heap.read c).map ipdetails.data := by
    cases hp : r.next with
    | none =>
      rw [hp] at h2
      simp only [Res.pure_eq, Res.ok.injEq] at h2
      subst h2
      exact ⟨rfl, rfl, rfl, fun _ => rfl⟩
    | some n =>
      rw [hp] at h2
      obtain ⟨r2, hr2, h2⟩ := Res.bind_ok h2
      obtain ⟨n', rn, hn, hrn, rfl⟩ := modify_ok h2
      cases hn
      exact ⟨rfl, rfl, by simp, proj_store ipdetails.data _ hrn rfl⟩
  refine ⟨e2.1.trans e1.1, e2.2.1.trans e1.2.1, ?_, ?_⟩
  · simp [e2.2.2.1, e1.2.2.1]
  · intro c hc
    have hne : a ≠ c := fun h => hc (by rw [h])
    show ((s2.heap.free a).read c).map ipdetails.data = _
    rw [Heap.read_free_ne hne, e2.2.2.2 c, e1.2.2.2 c]

theorem ipmatch_iff (r : ipdetails) (ipaddress : Ip) :
    ipmatch r ipaddress = true ↔ r.ip_address = ipaddress := by
  cases r with
  | mk ip mac rq rp lr pv nx =>
    cases ip; cases ipaddress
    simp [ipmatch, Ip.get]
    tauto

theorem searchforwards_sound (s : State) (ipaddress : Ip) :
    ∀ fuel start p, searchforwards s fuel start ipaddress = .ok (some p) →
      ∃ r, s.heap.read p = some r ∧ r.ip_address = ipaddress := by
  intro fuel
  induction fuel with
  | zero =>
    intro start p h
    cases start <;> simp [searchforwards] at h
  | succ n ih =>
    intro start p h
    cases start with
    | none => simp [searchforwards] at h
    | some a =>
      simp only [searchforwards] at h
      obtain ⟨r, hr, h⟩ := Res.bind_ok h
      obtain ⟨a', ha, hra⟩ := deref_ok hr
      cases ha
      by_cases hm : ipmatch r ipaddress = true
      · simp only [hm, if_true, Res.pure_eq, Res.ok.injEq, Option.some.injEq] at h
        subst h
        exact ⟨r, hra, (ipmatch_iff _ _).1 hm⟩
      · simp only [hm] at h
        exact ih _ _ h

theorem searchbackwards_sound (s : State) (ipaddress : Ip) :
    ∀ fuel start p, searchbackwards s fuel start ipaddress = .ok (some p) →
      ∃ r, s.heap.read p = some r ∧ r.ip_address = ipaddress := by
  intro fuel
  induction fuel with
  | zero =>
    intro start p h
    cases start <;> simp [searchbackwards] at h
  | succ n ih =>
    intro start p h
    cases start with
    | none => simp [searchbackwards] at h
    | some a =>
      simp only [searchbackwards] at h
      obtain ⟨r, hr, h⟩ := Res.bind_ok h
      obtain ⟨a', ha, hra⟩ := deref_ok hr
      cases ha
      by_cases hm : ipmatch r ipaddress = true
      · simp only [hm, if_true, Res.pure_eq, Res.ok.injEq, Option.some.injEq] at h
        subst h
        exact ⟨r, hra, (ipmatch_iff _ _).1 hm⟩
      · simp only [hm] at h
        exact ih _ _ h

/-- A record that `checkip` returns is allocated and holds the address asked for. -/
theorem checkip_sound (s : State) (start : Option Nat) (ipaddress : Ip) (p : Nat)
    (h : checkip s start ipaddress = .ok (some p)) :
    ∃ r, s.heap.read p = some r ∧ r.ip_address = ipaddress := by
  cases start with
  | none => simp [checkip] at h
  | some a =>
    simp only [checkip] at h
    obtain ⟨r, hr, h⟩ := Res.bind_ok h
    obtain ⟨a', ha, hra⟩ := deref_ok hr
    cases ha
    by_cases hm : ipmatch r ipaddress = true
    · simp only [hm, if_true, Res.pure_eq, Res.ok.injEq, Option.some.injEq] at h
      subst h
      exact ⟨r, hra, (ipmatch_iff _ _).1 hm⟩
    · simp only [hm] at h
      obtain ⟨again, hf, h⟩ := Res.bind_ok h
      cases again with
      | none => exact searchbackwards_sound s ipaddress _ _ _ h
      | some q =>
        simp only [Res.pure_eq, Res.ok.injEq, Option.some.injEq] at h
        subst h
        exact searchforwards_sound s ipaddress _ _ _ hf

/-! ## Allocation at the end of the heap -/

theorem Heap.read_append_lt (h : Heap) (x : Option ipdetails) {a : Nat} (ha : a < h.length) :
    Heap.read (h ++ [x]) a = h.read a := by
  simp [Heap.read, List.getD_eq_getElem?_getD, List.getElem?_append, ha]

theorem Heap.read_append_length (h : Heap) (x : Option ipdetails) :
    Heap.read (h ++ [x]) h.length = x := by
  simp [Heap.read, List.getD_eq_getElem?_getD, List.getElem?_append]

theorem Heap.write_append_length (h : Heap) (x : Option ipdetails) (r : ipdetails) :
    Heap.write (h ++ [x]) h.length r = h ++ [some r] := by
  simp [Heap.write, List.set_append]

theorem Heap.write_append_lt (h : Heap) (x : Option ipdetails) (r : ipdetails) {a : Nat}
    (ha : a < h.length) : Heap.write (h ++ [x]) a r = h.write a r ++ [x] := by
  simp [Heap.write, List.set_append, ha]

theorem Heap.write_same {h : Heap} {a : Nat} {r : ipdetails} (hr : h.read a = some r) :
    h.write a r = h := by
  have hlt := Heap.read_lt hr
  apply List.ext_getElem?
  intro i
  by_cases hi : a = i
  · subst hi
    simp [Heap.write, List.getElem?_set, hlt]
    simp [Heap.read, List.getD_eq_getElem?_getD, List.getElem?_eq_getElem hlt] at hr
    exact hr.symm
  · simp [Heap.write, List.getElem?_set, hi]

theorem store_same {s : State} {a : Nat} {r : ipdetails} (hr : s.heap.read a = some r) :
    store s a r = s := by
  cases s
  simp only [store, Heap.write_same hr]

/-! ## Insertion of a new record -/

/-- The record at a fresh address after `createipspace`. -/
theorem createipspace_ok (env : Env) (s : State) (hm : env.malloc_ok = true)
    (hca : env.calloc_ok = true) (hc : env.clock_ok = true) :
    createipspace env s = .ok (some s.heap.length,
      { s with heap := s.heap ++ [some { ipdetails.zero with lastreset := env.now }] }) := by
  simp [createipspace, hm, hca, hc]

theorem modify_append_length (h : Heap) (ep : Option Nat) (al : List Alert) (csv : List String)
    (x : ipdetails) (f : ipdetails → ipdetails) :
    modify ⟨h ++ [some x], ep, al, csv⟩ (some h.length) f
      = .ok ⟨h ++ [some (f x)], ep, al, csv⟩ := by
  have hr : (State.mk (h ++ [some x]) ep al csv).heap.read h.length = some x :=
    Heap.read_append_length h _
  rw [modify_of_read f hr]
  simp [store, Heap.write_append_length]

theorem modify_append_lt (h : Heap) (ep : Option Nat) (al : List Alert) (csv : List String)
    (x : Option ipdetails) {a : Nat} {r : ipdetails}
    (f : ipdetails → ipdetails) (hr : h.read a = some r) :
    modify ⟨h ++ [x], ep, al, csv⟩ (some a) f
      = .ok ⟨h.write a (f r) ++ [x], ep, al, csv⟩ := by
  have hlt := Heap.read_lt hr
  have hr' : (State.mk (h ++ [x]) ep al csv).heap.read a = some r := by
    show Heap.read (h ++ [x]) a = some r
    rw [Heap.read_append_lt h x hlt, hr]
  rw [modify_of_read f hr']
  simp [store, Heap.write_append_lt _ _ _ hlt]

theorem deref_append_lt (h : Heap) (ep : Option Nat) (al : List Alert) (csv : List String)
    (x : Option ipdetails) {a : Nat} {r : ipdetails}
    (hr : h.read a = some r) : deref ⟨h ++ [x], ep, al, csv⟩ (some a) = .ok r := by
  apply deref_of_read
  show Heap.read (h ++ [x]) a = some r
  rw [Heap.read_append_lt h x (Heap.read_lt hr), hr]

theorem deref_append_length (h : Heap) (ep : Option Nat) (al : List Alert) (csv : List String)
    (x : ipdetails) :
    deref ⟨h ++ [some x], ep, al, csv⟩ (some h.length) = .ok x := by
  apply deref_of_read
  exact Heap.read_append_length h _

/-- The statements of `handlerequest` for an address that `checkip` does not
find: a record for the target address is allocated, linked in behind the entry
point and becomes the entry point, with one request counted. -/
theorem handlerequest_new (env : Env) (s : State) (frame : Frame) (e : Nat) (re : ipdetails)
    (hm : env.malloc_ok = true) (hca : env.calloc_ok = true) (hc : env.clock_ok = true)
    (he : s.entrypoint = some e) (hre : s.heap.read e = some re)
    (hnone : checkip s s.entrypoint frame.arp_tpa = .ok none) :
    handlerequest env s frame = .ok (OK,
      { heap := s.heap.write e { re with next := some s.heap.length } ++
          [some
            { ip_address := frame.arp_tpa
              mac_address := Mac.zero
              requests := 1
              replies := 0
              lastreset := env.now
              previous := some e
              next := re.next }]
        entrypoint := some s.heap.length
        alerts := s.alerts
        details_csv := s.details_csv }) := by
  have hlen : (s.heap.write e { re with next := some s.heap.length }).length = s.heap.length := by
    simp
  have h1 := fun (x : ipdetails) (f : ipdetails → ipdetails) => modify_append_length
    (s.heap.write e { re with next := some s.heap.length }) (some s.heap.length) s.alerts
    s.details_csv x f
  have h2 := fun (x : ipdetails) => deref_append_length
    (s.heap.write e { re with next := some s.heap.length }) (some s.heap.length) s.alerts
    s.details_csv x
  rw [hlen] at h1 h2
  rw [he] at hnone
  simp only [handlerequest, hnone, Res.ok_bind, createipspace_ok env s hm hca hc,
    populateipspacereq, modify_append_length, ipcopy_eq, Res.pure_eq, linkin, he,
    deref_append_lt _ _ _ _ _ hre, modify_append_lt _ _ _ _ _ _ hre, addrequest, h1, h2]
  simp [ipdetails.zero, UINT_MOD]

/-- The statements of `handlereply` for an address that `checkip` does not
find: a record for the sender address is allocated and filled from the frame,
`checkmacs` compares the two hardware addresses of the frame, and the record is
linked in behind the entry point and becomes the entry point, with one reply
counted. -/
theorem handlereply_new (env : Env) (s : State) (frame : Frame) (e : Nat) (re : ipdetails)
    (hm : env.malloc_ok = true) (hca : env.calloc_ok = true) (hc : env.clock_ok = true)
    (he : s.entrypoint = some e) (hre : s.heap.read e = some re)
    (hnone : checkip s s.entrypoint frame.arp_spa = .ok none) :
    handlereply env s frame = .ok (OK,
      { heap := s.heap.write e { re with next := some s.heap.length } ++
          [some
            { ip_address := frame.arp_spa
              mac_address := frame.ether_shost
              requests := 0
              replies := 1
              lastreset := env.now
              previous := some e
              next := re.next }]
        entrypoint := some s.heap.length
        alerts := s.alerts ++
          (if frame.ether_shost ≠ frame.arp_sha then
            [⟨.HIGHEST, .dodgymacs frame.arp_spa frame.ether_shost frame.arp_sha⟩] else [])
        details_csv := s.details_csv }) := by
  have hlen : (s.heap.write e { re with next := some s.heap.length }).length = s.heap.length := by
    simp
  have h1 := fun (al : List Alert) (x : ipdetails) (f : ipdetails → ipdetails) =>
    modify_append_length
    (s.heap.write e { re with next := some s.heap.length }) (some s.heap.length) al
    s.details_csv x f
  have h2 := fun (al : List Alert) (x : ipdetails) => deref_append_length
    (s.heap.write e { re with next := some s.heap.length }) (some s.heap.length) al
    s.details_csv x
  rw [hlen] at h1 h2
  rw [he] at hnone
  by_cases hne : frame.ether_shost = frame.arp_sha
  · have hne' : ¬ frame.ether_shost ≠ frame.arp_sha := not_not.mpr hne
    simp only [handlereply, he, hnone, Res.ok_bind, createipspace_ok env s hm hca hc,
      populateipspacerep, modify_append_length, ipcopy_eq, maccopy7_eq, Res.pure_eq,
      checkmacs, deref_append_length, macflag_pos_iff, ipdetails.zero, if_neg hne']
    simp only [linkin, he, Res.ok_bind, modify_append_length,
      deref_append_lt _ _ _ _ _ hre, modify_append_lt _ _ _ _ _ _ hre, addreply, h1, h2,
      Res.pure_eq]
    simp [UINT_MOD]
  · have hne' : frame.ether_shost ≠ frame.arp_sha := hne
    simp only [handlereply, he, hnone, Res.ok_bind, createipspace_ok env s hm hca hc,
      populateipspacerep, modify_append_length, ipcopy_eq, maccopy7_eq, Res.pure_eq,
      checkmacs, deref_append_length, macflag_pos_iff, ipdetails.zero, if_pos hne',
      alertdodgymacs, hm, if_true, redalert, raise]
    simp only [linkin, he, Res.ok_bind, modify_append_length,
      deref_append_lt _ _ _ _ _ hre, modify_append_lt _ _ _ _ _ _ hre, addreply, h1, h2,
      Res.pure_eq]
    simp [UINT_MOD]

/-! ## The records along `next` -/

theorem nextchain_none (s : State) (f : Nat) : nextchain s f none = some [] := by
  cases f <;> rfl

theorem nextchain_some (s : State) (f : Nat) (a : Nat) (r : ipdetails)
    (hr : s.heap.read a = some r) :
    nextchain s (f + 1) (some a) = (nextchain s f r.next).map (fun l => a :: l) := by
  simp [nextchain, hr]

/-- A chain from a record starts with the record and continues with the chain
from its successor. -/
theorem nextchain_inv {s : State} {f : Nat} {a : Nat} {l : List Nat}
    (h : nextchain s f (some a) = some l) :
    ∃ g r l', f = g + 1 ∧ s.heap.read a = some r ∧ nextchain s g r.next = some l'
      ∧ l = a :: l' := by
  cases f with
  | zero => simp [nextchain] at h
  | succ g =>
    rcases hr : s.heap.read a with _ | r
    · simp [nextchain, hr] at h
    · rw [nextchain_some s g a r hr] at h
      rcases hc : nextchain s g r.next with _ | l'
      · rw [hc] at h; simp at h
      · rw [hc] at h
        simp at h
        exact ⟨g, r, l', rfl, rfl, hc, h.symm⟩

theorem nextchain_fuel_indep (s : State) :
    ∀ (f f' : Nat) (p : Option Nat) (l l' : List Nat),
      nextchain s f p = some l → nextchain s f' p = some l' → l = l' := by
  intro f
  induction f with
  | zero =>
    intro f' p l l' h h'
    cases p with
    | none =>
      rw [nextchain_none] at h h'
      simp at h h'
      rw [h, h']
    | some a => simp [nextchain] at h
  | succ g ih =>
    intro f' p l l' h h'
    cases p with
    | none =>
      rw [nextchain_none] at h h'
      simp at h h'
      rw [h, h']
    | some a =>
      obtain ⟨g1, r1, l1, hg1, hr1, hc1, hl1⟩ := nextchain_inv h
      obtain ⟨g2, r2, l2, hg2, hr2, hc2, hl2⟩ := nextchain_inv h'
      rw [hr1] at hr2
      cases hr2
      have hg : g1 = g := by omega
      subst hg
      rw [hl1, hl2, ih g2 r1.next l1 l2 hc1 hc2]

theorem nextchain_fuel_succ (s : State) :
    ∀ (f : Nat) (p : Option Nat) (l : List Nat),
      nextchain s f p = some l → nextchain s (f + 1) p = some l := by
  intro f
  induction f with
  | zero =>
    intro p l h
    cases p with
    | none => rw [nextchain_none] at h ⊢; exact h
    | some a => simp [nextchain] at h
  | succ g ih =>
    intro p l h
    cases p with
    | none => rw [nextchain_none] at h ⊢; exact h
    | some a =>
      obtain ⟨g1, r1, l1, hg1, hr1, hc1, hl1⟩ := nextchain_inv h
      have hg : g1 = g := by omega
      subst hg
      rw [nextchain_some s _ a r1 hr1, ih r1.next l1 hc1, hl1]
      rfl

/-- Every address of a chain holds a live record, from which the rest of the
chain is the chain. -/
theorem nextchain_mem (s : State) :
    ∀ (f : Nat) (p : Option Nat) (l : List Nat) (a : Nat),
      nextchain s f p = some l → a ∈ l →
      ∃ f' l', nextchain s f' (some a) = some (a :: l') ∧ l'.length < l.length := by
  intro f
  induction f with
  | zero =>
    intro p l a h ha
    cases p with
    | none =>
      rw [nextchain_none] at h
      simp at h
      rw [h] at ha
      simp at ha
    | some b => simp [nextchain] at h
  | succ g ih =>
    intro p l a h ha
    cases p with
    | none =>
      rw [nextchain_none] at h
      simp at h
      rw [h] at ha
      simp at ha
    | some b =>
      obtain ⟨g1, r1, l1, hg1, hr1, hc1, hl1⟩ := nextchain_inv h
      have hg : g1 = g := by omega
      subst hg
      rw [hl1] at ha
      rcases List.mem_cons.mp ha with hab | hal
      · subst hab
        refine ⟨g1 + 1, l1, ?_, ?_⟩
        · rw [h, hl1]
        · rw [hl1]; simp
      · obtain ⟨f', l', h1, h2⟩ := ih r1.next l1 a hc1 hal
        refine ⟨f', l', h1, ?_⟩
        rw [hl1]
        simp
        omega

/-- A walk that reaches `NULL` visits no record twice. -/
theorem nextchain_no_cycle {s : State} {f : Nat} {a : Nat} {l : List Nat}
    (h : nextchain s f (some a) = some (a :: l)) : a ∉ l := by
  intro ha
  obtain ⟨g, r, l0, hg, hr, hc, hl⟩ := nextchain_inv h
  have hl0 : l = l0 := by simpa using hl
  subst hl0
  obtain ⟨f', l', h1, h2⟩ := nextchain_mem s g r.next l a hc ha
  have := nextchain_fuel_indep s f f' (some a) _ _ h h1
  simp at this
  rw [this] at h2
  exact lt_irrefl _ h2

theorem nextchain_live {s : State} {f : Nat} {p : Option Nat} {l : List Nat} {a : Nat}
    (h : nextchain s f p = some l) (ha : a ∈ l) : ∃ r, s.heap.read a = some r := by
  obtain ⟨f', l', h1, _⟩ := nextchain_mem s f p l a h ha
  obtain ⟨_, r, _, _, hr, _, _⟩ := nextchain_inv h1
  exact ⟨r, hr⟩

/-- A chain is the same in a state whose records on the chain have the same
successors. -/
theorem nextchain_congr (s s' : State) :
    ∀ (f : Nat) (p : Option Nat) (l : List Nat),
      nextchain s f p = some l →
      (∀ a ∈ l, (s'.heap.read a).map (fun r => r.next) = (s.heap.read a).map (fun r => r.next)) →
      nextchain s' f p = some l := by
  intro f
  induction f with
  | zero =>
    intro p l h _
    cases p with
    | none => rw [nextchain_none] at h ⊢; exact h
    | some a => simp [nextchain] at h
  | succ g ih =>
    intro p l h hs
    cases p with
    | none => rw [nextchain_none] at h ⊢; exact h
    | some a =>
      obtain ⟨g1, r1, l1, hg1, hr1, hc1, hl1⟩ := nextchain_inv h
      have hg : g1 = g := by omega
      subst hg
      have ha := hs a (by rw [hl1]; simp)
      rw [hr1] at ha
      rcases hr' : s'.heap.read a with _ | r'
      · rw [hr'] at ha; simp at ha
      · rw [hr'] at ha
        simp at ha
        rw [nextchain_some s' _ a r' hr', ha, ih r1.next l1 hc1, hl1]
        · rfl
        · intro b hb
          exact hs b (by rw [hl1]; simp [hb])

/-- The loop of `dumpdata` returns exactly when the chain exists. -/
theorem dumpdata_loop_isSome (s : State) :
    ∀ (f : Nat) (p : Option Nat) (rows : List String),
      (dumpdata_loop s f p rows).toOption.isSome = (nextchain s f p).isSome := by
  intro f
  induction f with
  | zero =>
    intro p rows
    cases p with
    | none => rfl
    | some a => rfl
  | succ g ih =>
    intro p rows
    cases p with
    | none => rfl
    | some a =>
      rcases hr : s.heap.read a with _ | r
      · simp [dumpdata_loop, nextchain, deref, hr, Res.toOption]
      · rw [nextchain_some s g a r hr]
        simp only [dumpdata_loop, deref_of_read hr, Res.ok_bind, ih, Option.isSome_map']

/-! ## The walk of `dumpdata` after an insertion -/

theorem Heap.read_ge {h : Heap} {a : Nat} (ha : h.length ≤ a) : h.read a = none := by
  simp [Heap.read, List.getD_eq_getElem?_getD, List.getElem?_eq_none ha]

/-- The walk of `rewindip` gives the same result in a state in which every
record of the first state is live with the same predecessor. -/
theorem rewindip_loop_mono (s s' : State)
    (h : ∀ a r, s.heap.read a = some r →
      ∃ r', s'.heap.read a = some r' ∧ r'.previous = r.previous) :
    ∀ (f : Nat) (p head : Option Nat),
      rewindip_loop s f p = .ok head → rewindip_loop s' f p = .ok head := by
  intro f
  induction f with
  | zero => intro p head hp; simp [rewindip_loop] at hp
  | succ g ih =>
    intro p head hp
    cases p with
    | none => simp [rewindip_loop, deref] at hp
    | some a =>
      rcases hr : s.heap.read a with _ | r
      · simp [rewindip_loop, deref, hr] at hp
      · obtain ⟨r', hr', hprev⟩ := h a r hr
        simp only [rewindip_loop, deref_of_read hr, Res.ok_bind] at hp
        simp only [rewindip_loop, deref_of_read hr', Res.ok_bind, hprev]
        cases hq : r.previous with
        | none => rw [hq] at hp; exact hp
        | some b => rw [hq] at hp; exact ih (some b) head hp

theorem rewindip_loop_fuel_succ (s : State) :
    ∀ (f : Nat) (p head : Option Nat),
      rewindip_loop s f p = .ok head → rewindip_loop s (f + 1) p = .ok head := by
  intro f
  induction f with
  | zero => intro p head hp; simp [rewindip_loop] at hp
  | succ g ih =>
    intro p head hp
    cases p with
    | none => simp [rewindip_loop, deref] at hp
    | some a =>
      rcases hr : s.heap.read a with _ | r
      · simp [rewindip_loop, deref, hr] at hp
      · simp only [rewindip_loop, deref_of_read hr, Res.ok_bind] at hp
        rw [rewindip_loop]
        simp only [deref_of_read hr, Res.ok_bind]
        cases hq : r.previous with
        | none => rw [hq] at hp; exact hp
        | some b => rw [hq] at hp; exact ih (some b) head hp

/-- The chain from `p` after a record `t` has been linked in behind `e`. -/
theorem nextchain_insert (s s' : State) (e t : Nat) (re : ipdetails) (T : ipdetails)
    (hre : s.heap.read e = some re)
    (ht : s.heap.read t = none)
    (he' : s'.heap.read e = some { re with next := some t })
    (ht' : s'.heap.read t = some T) (hT : T.next = re.next)
    (hother : ∀ a, a ≠ e → a ≠ t → s'.heap.read a = s.heap.read a) :
    ∀ (f : Nat) (p : Option Nat) (l : List Nat),
      nextchain s f p = some l → ∃ l', nextchain s' (f + 1) p = some l' := by
  intro f
  induction f with
  | zero =>
    intro p l h
    cases p with
    | none => exact ⟨[], nextchain_none _ _⟩
    | some a => simp [nextchain] at h
  | succ g ih =>
    intro p l h
    cases p with
    | none => exact ⟨[], nextchain_none _ _⟩
    | some a =>
      obtain ⟨g1, r1, l1, hg1, hr1, hc1, hl1⟩ := nextchain_inv h
      have hg : g1 = g := by omega
      subst hg
      have hat : a ≠ t := by
        intro hat
        rw [hat, ht] at hr1
        cases hr1
      by_cases hae : a = e
      · subst hae
        rw [hre] at hr1
        cases hr1
        have hnc : a ∉ l1 := by
          apply nextchain_no_cycle (s := s) (f := g1 + 1)
          rw [h, hl1]
        have hcong : nextchain s' g1 re.next = some l1 := by
          apply nextchain_congr s s' g1 re.next l1 hc1
          intro b hb
          have hbe : b ≠ a := fun hba => hnc (hba ▸ hb)
          have hbt : b ≠ t := by
            intro hbt
            obtain ⟨rb, hrb⟩ := nextchain_live hc1 hb
            rw [hbt, ht] at hrb
            cases hrb
          rw [hother b hbe hbt]
        refine ⟨a :: t :: l1, ?_⟩
        rw [nextchain_some s' _ a _ he']
        simp only
        rw [nextchain_some s' _ t T ht', hT, hcong]
        rfl
      · obtain ⟨l', hl'⟩ := ih r1.next l1 hc1
        refine ⟨a :: l', ?_⟩
        rw [nextchain_some s' _ a r1 (by rw [hother a hae hat, hr1]), hl']
        rfl

/-- The walk of `dumpdata` still returns after a new record has been linked in
behind the entry point and made the entry point. -/
theorem walkable_insert (s s' : State) (e : Nat) (re T : ipdetails)
    (hre : s.heap.read e = some re)
    (hheap : s'.heap = s.heap.write e { re with next := some s.heap.length } ++ [some T])
    (hTp : T.previous = some e) (hTn : T.next = re.next)
    (hw : walkable s (some e) = true) :
    walkable s' (some s.heap.length) = true := by
  have hlt := Heap.read_lt hre
  have hlenw : (s.heap.write e { re with next := some s.heap.length }).length = s.heap.length := by
    simp
  have hlen' : s'.heap.length = s.heap.length + 1 := by
    rw [hheap]; simp
  have ht' : s'.heap.read s.heap.length = some T := by
    rw [hheap]
    have := Heap.read_append_length (s.heap.write e { re with next := some s.heap.length })
      (some T)
    rw [hlenw] at this
    exact this
  have hlow : ∀ a, a < s.heap.length → s'.heap.read a
      = (s.heap.write e { re with next := some s.heap.length }).read a := by
    intro a ha
    rw [hheap]
    exact Heap.read_append_lt _ _ (by rw [hlenw]; exact ha)
  have he' : s'.heap.read e = some { re with next := some s.heap.length } := by
    rw [hlow e hlt, Heap.read_write_same _ hlt]
  have hother : ∀ a, a ≠ e → a ≠ s.heap.length → s'.heap.read a = s.heap.read a := by
    intro a hae hat
    by_cases ha : a < s.heap.length
    · rw [hlow a ha, Heap.read_write_ne _ (Ne.symm hae)]
    · have h1 : s'.heap.read a = none := Heap.read_ge (by omega)
      have h2 : s.heap.read a = none := Heap.read_ge (by omega)
      rw [h1, h2]
  have ht : s.heap.read s.heap.length = none := Heap.read_ge (le_refl _)
  unfold walkable at hw
  rcases hrw : rewindip s (some e) with head | flt
  · rw [hrw] at hw
    simp only at hw
    rw [dumpdata_loop_isSome] at hw
    rcases hch : nextchain s (walkfuel s) head with _ | l
    · rw [hch] at hw; simp at hw
    · have hmono : ∀ a r, s.heap.read a = some r →
          ∃ r', s'.heap.read a = some r' ∧ r'.previous = r.previous := by
        intro a r hr
        by_cases hae : a = e
        · subst hae
          rw [hre] at hr
          cases hr
          exact ⟨_, he', rfl⟩
        · have hat : a ≠ s.heap.length := fun h => by
            rw [h, ht] at hr; cases hr
          exact ⟨r, by rw [hother a hae hat, hr], rfl⟩
      have hrw' : rewindip s' (some s.heap.length) = .ok head := by
        simp only [rewindip, walkfuel, hlen']
        rw [rewindip_loop]
        simp only [deref_of_read ht', Res.ok_bind, hTp]
        exact rewindip_loop_mono s s' hmono _ _ _ hrw
      obtain ⟨l', hl'⟩ := nextchain_insert s s' e s.heap.length re T hre ht he' ht' hTn hother
        _ _ _ hch
      unfold walkable
      rw [hrw']
      simp only
      rw [dumpdata_loop_isSome]
      simp only [walkfuel, hlen']
      simp only [walkfuel] at hl'
      rw [hl']
      rfl
  · rw [hrw] at hw; simp at hw

/-! ## The end of `processether` on a record that is kept -/

/-- Whether the walk of `dumpdata` returns depends on the pointer fields only. -/
theorem walkable_congr (s s' : State) (q : Option Nat)
    (hlen : s'.heap.length = s.heap.length)
    (h : ∀ a, (s'.heap.read a).map ipdetails.links = (s.heap.read a).map ipdetails.links) :
    walkable s' q = walkable s q := by
  have hf : walkfuel s' = walkfuel s := by simp [walkfuel, hlen]
  unfold walkable
  have hr : rewindip s' q = rewindip s q := by
    simp only [rewindip, hf]
    exact rewindip_loop_congr s s' h _ _
  rw [hr]
  rcases rewindip s q with head | f
  · simp only [hf]
    exact dumpdata_loop_congr s s' h _ _ _ _
  · rfl

/-- The state after `processip` and `dumpdata` on a record that the age check
keeps, when the walk of `dumpdata` returns. -/
theorem processip_dump_exact (opts : optiondetails) (env : Env) (s : State) (p : Nat)
    (r : ipdetails) (hm : env.malloc_ok = true) (hc : env.clock_ok = true)
    (he : s.entrypoint = some p) (hr : s.heap.read p = some r)
    (hfresh : ¬ r.lastreset + opts.timeout < env.now)
    (hw : walkable s (some p) = true) :
    ∃ s', (processip opts env s >>= fun s3 =>
        dumpdata env s3 s3.entrypoint >>= fun s4 => pure (OK, s4)) = .ok (OK, s')
      ∧ s'.entrypoint = some p
      ∧ s'.heap =
          (if checknetarps r > opts.poison_threshold ∨ checknetarps r < opts.badnet_threshold then
            s.heap.write p
              { r with
                replies := 0
                requests := 0
                lastreset := env.now }
          else s.heap)
      ∧ s'.alerts = s.alerts ++
          (if checknetarps r > POISON_THRESHOLD then [⟨.HIGHEST, .poisoner r.ip_address⟩]
           else if checknetarps r < opts.badnet_threshold then
            [⟨.HIGHEST, .badnet r.ip_address⟩]
           else []) := by
  have hsurv := checktimeouts_kept opts env s p r hm hc hr hfresh
  have hP := processip_survives opts env s p r he hr hsurv
  simp only [hm, hc, and_self, if_true] at hP
  generalize hs2 : (if checknetarps r > POISON_THRESHOLD then
          redalert s (.poisoner r.ip_address)
        else if checknetarps r < opts.badnet_threshold then
          redalert s (.badnet r.ip_address)
        else s) = s2 at hP
  have hh : s2.heap = s.heap ∧ s2.entrypoint = some p ∧ s2.alerts = s.alerts ++
      (if checknetarps r > POISON_THRESHOLD then [⟨.HIGHEST, .poisoner r.ip_address⟩]
           else if checknetarps r < opts.badnet_threshold then
            [⟨.HIGHEST, .badnet r.ip_address⟩]
           else []) := by
    rw [← hs2]
    split_ifs <;> simp [redalert, raise, he]
  obtain ⟨hh1, hh2, hh3⟩ := hh
  by_cases hreset : checknetarps r > opts.poison_threshold ∨ checknetarps r < opts.badnet_threshold
  · simp only [hreset, if_true] at hP ⊢
    have hlen : (store s2 p { r with replies := 0, requests := 0, lastreset := env.now }).heap.length
        = s.heap.length := by
      simp [store, hh1]
    have hlinks : ∀ a, ((store s2 p { r with replies := 0, requests := 0, lastreset := env.now }).heap.read
        a).map ipdetails.links = (s.heap.read a).map ipdetails.links := by
      intro a
      simp only [store, hh1]
      by_cases ha : p = a
      · subst ha
        rw [Heap.read_write_same _ (Heap.read_lt hr), hr]
        rfl
      · rw [Heap.read_write_ne _ ha]
    obtain ⟨t, ht, hth, hte, hta⟩ := dumpdata_of_walkable env s _ (some p) hlen hlinks hw
    refine ⟨t, ?_, ?_, ?_, ?_⟩
    · rw [hP]
      simp only [Res.ok_bind, store_entrypoint, hh2, ht, Res.pure_eq]
    · rw [hte, store_entrypoint, hh2]
    · rw [hth]
      simp [store, hh1]
    · rw [hta, store_alerts, hh3]
  · simp only [hreset, if_false] at hP ⊢
    obtain ⟨t, ht, hth, hte, hta⟩ := dumpdata_of_walkable env s s2 (some p) (by rw [hh1])
      (by intro a; rw [hh1]) hw
    refine ⟨t, ?_, ?_, ?_, ?_⟩
    · rw [hP]
      simp only [Res.ok_bind, hh2, ht, Res.pure_eq]
    · rw [hte, hh2]
    · rw [hth, hh1]
    · rw [hta, hh3]

/-! ## The first observation of an address -/

theorem ipmatch_self (r : ipdetails) : ipmatch r r.ip_address = true :=
  (ipmatch_iff r r.ip_address).2 rfl

/-- The walk of `dumpdata` from a record without neighbours returns. -/
theorem walkable_alone (s : State) (a : Nat) (r : ipdetails) (hr : s.heap.read a = some r)
    (hp : r.previous = none) (hn : r.next = none) : walkable s (some a) = true := by
  simp [walkable, rewindip, walkfuel, rewindip_loop, dumpdata_loop, deref_of_read hr, hp, hn,
    Res.toOption]

/-- The start of `processether` when the entry point is `NULL`: the record of the
entry point is allocated, and filled from the frame because its address is zero. -/
theorem processether_first (opts : optiondetails) (env : Env) (s : State) (frame : Frame)
    (hm : env.malloc_ok = true) (hca : env.calloc_ok = true) (hc : env.clock_ok = true)
    (he : s.entrypoint = none) :
    processether opts env s frame =
      (populateipspace env
          ⟨s.heap ++ [some { ipdetails.zero with lastreset := env.now }], some s.heap.length,
            s.alerts, s.details_csv⟩ (some s.heap.length) frame >>= fun x =>
        processether_op opts env x.2 frame >>= fun s3 =>
        dumpdata env s3 s3.entrypoint >>= fun s4 => pure (OK, s4)) := by
  simp only [processether, hm, if_true, he, createipspace_ok env s hm hca hc, Res.ok_bind,
    Res.pure_eq, deref_append_length]
  simp only [ipdetails.zero, Ip.zero, Ip.get, if_true]
  rcases populateipspace env _ (some s.heap.length) frame with x | f <;> rfl

/-- The call of `handlerequest` when the entry point is `NULL` or `checkip` finds
no record for the target address (and the record of the entry point does not have
a zero first byte): the state handed to `processip` has the new record at the
fresh address as entry point. -/
theorem processether_request_seed (opts : optiondetails) (env : Env) (s : State)
    (frame : Frame)
    (hm : env.malloc_ok = true) (hca : env.calloc_ok = true) (hc : env.clock_ok = true)
    (hop : frame.op = ARPOP_REQUEST)
    (hs : s.entrypoint = none ∨ ∃ e re, s.entrypoint = some e ∧ s.heap.read e = some re
      ∧ re.ip_address.get 0 ≠ 0 ∧ checkip s s.entrypoint frame.arp_tpa = .ok none
      ∧ walkable s (some e) = true) :
    ∃ s1 pv nx, processether opts env s frame =
        (processip opts env s1 >>= fun s3 =>
          dumpdata env s3 s3.entrypoint >>= fun s4 => pure (OK, s4))
      ∧ s1.entrypoint = some s.heap.length
      ∧ s1.heap.read s.heap.length = some
          { ip_address := frame.arp_tpa
            mac_address := Mac.zero
            requests := 1
            replies := 0
            lastreset := env.now
            previous := pv
            next := nx }
      ∧ walkable s1 (some s.heap.length) = true
      ∧ s1.alerts = s.alerts
      ∧ (∀ a r, s.heap.read a = some r →
          ∃ r', s1.heap.read a = some r' ∧ r'.data = r.data)
      ∧ s1.heap.length = s.heap.length + 1 := by
  have hok : ¬ (OK = ERR_NOMEM) := by decide
  rcases hs with he | ⟨e, re, he, hre, hnz, hnone, hw⟩
  · have hfind : checkip
        ⟨s.heap ++ [some
          { ip_address := frame.arp_tpa
            mac_address := Mac.zero
            requests := 0
            replies := 0
            lastreset := env.now
            previous := none
            next := none }], some s.heap.length, s.alerts, s.details_csv⟩
        (some s.heap.length) frame.arp_tpa = .ok (some s.heap.length) := by
      simp only [checkip, deref_append_length, Res.ok_bind]
      rw [if_pos (ipmatch_self _)]
      rfl
    refine ⟨⟨s.heap ++ [some
          { ip_address := frame.arp_tpa
            mac_address := Mac.zero
            requests := 1
            replies := 0
            lastreset := env.now
            previous := none
            next := none }], some s.heap.length, s.alerts, s.details_csv⟩, none, none,
      ?_, rfl, Heap.read_append_length _ _, ?_, rfl, ?_, by simp⟩
    · rw [processether_first opts env s frame hm hca hc he]
      simp only [populateipspace, hm, if_true, hop, populateipspacereq, modify_append_length,
        ipcopy_eq, Res.ok_bind, Res.pure_eq, ipdetails.zero, processether_op, handlerequest,
        hfind, addrequest, deref_append_length, hok, if_false]
      simp [UINT_MOD]
    · exact walkable_alone _ _ _ (Heap.read_append_length _ _) rfl rfl
    · intro a r hr
      refine ⟨r, ?_, rfl⟩
      show Heap.read (s.heap ++ _) a = some r
      rw [Heap.read_append_lt _ _ (Heap.read_lt hr), hr]
  · have hnew := handlerequest_new env s frame e re hm hca hc he hre hnone
    refine ⟨
      { heap := s.heap.write e { re with next := some s.heap.length } ++
          [some
            { ip_address := frame.arp_tpa
              mac_address := Mac.zero
              requests := 1
              replies := 0
              lastreset := env.now
              previous := some e
              next := re.next }]
        entrypoint := some s.heap.length
        alerts := s.alerts
        details_csv := s.details_csv }, some e, re.next, ?_, rfl, ?_, ?_, rfl, ?_, by simp⟩
    · rw [processether_unfold opts env s frame e re hm he hre hnz]
      simp only [processether_op, hop, if_true, hnew, Res.ok_bind, hok, if_false]
    · have := Heap.read_append_length (s.heap.write e { re with next := some s.heap.length })
        (some
          { ip_address := frame.arp_tpa
            mac_address := Mac.zero
            requests := 1
            replies := 0
            lastreset := env.now
            previous := some e
            next := re.next })
      rw [Heap.length_write] at this
      exact this
    · exact walkable_insert s _ e re _ hre rfl rfl rfl hw
    · intro a r hr
      have hlt := Heap.read_lt hr
      by_cases hae : e = a
      · subst hae
        rw [hre] at hr
        cases hr
        refine ⟨{ re with next := some s.heap.length }, ?_, rfl⟩
        show Heap.read (_ ++ _) e = _
        rw [Heap.read_append_lt _ _ (by rw [Heap.length_write]; exact hlt),
          Heap.read_write_same _ hlt]
      · refine ⟨r, ?_, rfl⟩
        show Heap.read (_ ++ _) a = _
        rw [Heap.read_append_lt _ _ (by rw [Heap.length_write]; exact hlt),
          Heap.read_write_ne _ hae, hr]

/-! ## The two handlers on a record that is found -/

/-- The statements of `handlereply` on a record that `checkip` finds: an all-zero
stored MAC is replaced by the Ethernet source MAC, and one reply is counted. -/
theorem handlereply_found_any (env : Env) (s : State) (frame : Frame) (p : Nat) (r : ipdetails)
    (hfind : checkip s s.entrypoint frame.arp_spa = .ok (some p))
    (hr : s.heap.read p = some r) :
    handlereply env s frame = .ok (OK,
      store { s with entrypoint := some p } p
        { r with
          mac_address := (if r.mac_address = Mac.zero then frame.ether_shost else r.mac_address)
          replies := (r.replies + 1) % UINT_MOD }) := by
  by_cases hz : r.mac_address = Mac.zero
  · have hsum : sumbytes r.mac_address ETH_ALEN = 0 := (sumbytes_eq_zero_iff _).2 hz
    have h1 := read_store_same { r with mac_address := frame.ether_shost } hr
    have h1' : ({ store s p { r with mac_address := frame.ether_shost } with
        entrypoint := some p } : State).heap.read p
        = some { r with mac_address := frame.ether_shost } := h1
    have h2 := read_store_same (s := { store s p { r with mac_address := frame.ether_shost } with
        entrypoint := some p })
      { r with
        mac_address := frame.ether_shost
        replies := (r.replies + 1) % UINT_MOD } h1'
    simp only [handlereply, hfind, Res.ok_bind, deref_of_read hr, hsum, if_true, Res.pure_eq,
      modify_of_read _ hr, maccopy_eq, addreply, modify_of_read _ h1', deref_of_read h2, if_pos hz]
    simp [store, Heap.write]
  · rw [handlereply_found env s frame p r hfind hr hz]
    simp [hz]

/-- The statements of `handlerequest` on a record that `checkip` finds. -/
theorem handlerequest_found (env : Env) (s : State) (frame : Frame) (p : Nat) (r : ipdetails)
    (hfind : checkip s s.entrypoint frame.arp_tpa = .ok (some p))
    (hr : s.heap.read p = some r) :
    handlerequest env s frame = .ok (OK,
      store { s with entrypoint := some p } p
        { r with requests := (r.requests + 1) % UINT_MOD }) := by
  have hr' : ({ s with entrypoint := some p } : State).heap.read p = some r := hr
  have hr2 := read_store_same (s := { s with entrypoint := some p })
    { r with requests := (r.requests + 1) % UINT_MOD } hr'
  simp only [handlerequest, hfind, Res.ok_bind, Res.pure_eq,
    addrequest, modify_of_read _ hr', deref_of_read hr2]

/-- The branch of `processether` for a reply, once `handlereply` has left the
entry point at a record that holds the sender address and the Ethernet source MAC
of the frame: `checkmacchanges` compares that MAC with the ARP sender MAC, and on a
difference `populateipspacerep` writes the same values again and `checkmacs`
raises its alert. -/
theorem processether_op_reply_after (opts : optiondetails) (env : Env) (s s1 : State)
    (frame : Frame) (p : Nat) (r : ipdetails) (hm : env.malloc_ok = true)
    (hop : frame.op = ARPOP_REPLY)
    (hh : handlereply env s frame = .ok (OK, s1)) (he : s1.entrypoint = some p)
    (hr : s1.heap.read p = some r) (hip : r.ip_address = frame.arp_spa)
    (hmac : r.mac_address = frame.ether_shost) :
    processether_op opts env s frame = processip opts env
      { s1 with alerts := s1.alerts ++
          (if opts.check_mac_changes ≠ 0 ∧ frame.ether_shost ≠ Mac.zero
              ∧ frame.ether_shost ≠ frame.arp_sha then
            [⟨.HIGHEST, .changedmacs frame.arp_spa frame.ether_shost frame.arp_sha⟩,
              ⟨.HIGHEST, .dodgymacs frame.arp_spa frame.ether_shost frame.arp_sha⟩]
           else []) } := by
  have h21 : ¬ (ARPOP_REPLY = ARPOP_REQUEST) := by decide
  have hok : ¬ (OK = ERR_NOMEM) := by decide
  have hmc : ERR_MACCHANGED ≠ OK := by decide
  have hrr : { r with ip_address := frame.arp_spa, mac_address := frame.ether_shost } = r := by
    cases r
    simp only at hip hmac
    simp [hip, hmac]
  by_cases hcond : opts.check_mac_changes ≠ 0 ∧ frame.ether_shost ≠ Mac.zero
      ∧ frame.ether_shost ≠ frame.arp_sha
  · obtain ⟨hon, hnz, hne⟩ := hcond
    have hcm := checkmacchanges_changed opts env s1 p r frame.arp_sha hon hr
      (by rw [hmac]; exact hnz) (by rw [hmac]; exact hne)
    rw [if_pos hm, hip, hmac] at hcm
    have hr1 : (redalert s1
        (.changedmacs frame.arp_spa frame.ether_shost frame.arp_sha)).heap.read p = some r := hr
    have hpop := populateipspacerep_live env _ frame p r hr1
    rw [hrr, store_same hr1] at hpop
    simp only [ne_eq, hne, not_false_eq_true, if_true, hm] at hpop
    have hent1 : (redalert s1
        (.changedmacs frame.arp_spa frame.ether_shost frame.arp_sha)).entrypoint = some p := he
    simp only [processether_op, hop, h21, if_false, if_true, hh, Res.ok_bind, hok, he, hcm, hmc,
      ne_eq, not_false_eq_true, hent1, hpop, Res.pure_eq, hon, hnz, hne, and_self]
    simp [redalert, raise, he]
  · have hcm : checkmacchanges opts env s1 (some p) frame.arp_sha = .ok (OK, s1) := by
      by_cases hon : opts.check_mac_changes = 0
      · exact checkmacchanges_disabled opts env s1 _ _ hon
      · apply checkmacchanges_same opts env s1 p r _ hr
        rw [hmac]
        by_contra hcon
        push_neg at hcon
        exact hcond ⟨hon, hcon.1, hcon.2⟩
    simp only [processether_op, hop, h21, if_false, if_true, hh, Res.ok_bind, hok, he, hcm,
      ne_eq, not_true_eq_false, Res.pure_eq]
    rw [if_neg hcond]
    cases s1
    simp only at he
    subst he
    simp

/-! ## The first reply of an address -/

/-- The call of `handlereply` and the MAC checks when the entry point is `NULL`
or `checkip` finds no record for the sender address (and the record of the entry
point does not have a zero first byte): the state handed to `processip` has the
new record at the fresh address as entry point. -/
theorem processether_reply_seed (opts : optiondetails) (env : Env) (s : State)
    (frame : Frame)
    (hm : env.malloc_ok = true) (hca : env.calloc_ok = true) (hc : env.clock_ok = true)
    (hop : frame.op = ARPOP_REPLY)
    (hs : s.entrypoint = none ∨ ∃ e re, s.entrypoint = some e ∧ s.heap.read e = some re
      ∧ re.ip_address.get 0 ≠ 0 ∧ checkip s s.entrypoint frame.arp_spa = .ok none
      ∧ walkable s (some e) = true) :
    ∃ s1 pv nx, processether opts env s frame =
        (processip opts env s1 >>= fun s3 =>
          dumpdata env s3 s3.entrypoint >>= fun s4 => pure (OK, s4))
      ∧ s1.entrypoint = some s.heap.length
      ∧ s1.heap.read s.heap.length = some
          { ip_address := frame.arp_spa
            mac_address := frame.ether_shost
            requests := 0
            replies := 1
            lastreset := env.now
            previous := pv
            next := nx }
      ∧ walkable s1 (some s.heap.length) = true
      ∧ s1.alerts = s.alerts ++ firstreplyalerts opts frame
      ∧ (∀ a r, s.heap.read a = some r →
          ∃ r', s1.heap.read a = some r' ∧ r'.data = r.data)
      ∧ s1.heap.length = s.heap.length + 1 := by
  have h21 : ¬ (ARPOP_REPLY = ARPOP_REQUEST) := by decide
  rcases hs with he | ⟨e, re, he, hre, hnz, hnone, hw⟩
  · have hfind : ∀ al, checkip
        ⟨s.heap ++ [some
          { ip_address := frame.arp_spa
            mac_address := frame.ether_shost
            requests := 0
            replies := 0
            lastreset := env.now
            previous := none
            next := none }], some s.heap.length, al, s.details_csv⟩
        (some s.heap.length) frame.arp_spa = .ok (some s.heap.length) := by
      intro al
      simp only [checkip, deref_append_length, Res.ok_bind]
      rw [if_pos (ipmatch_self _)]
      rfl
    have hpop : populateipspace env
          ⟨s.heap ++ [some { ipdetails.zero with lastreset := env.now }], some s.heap.length,
            s.alerts, s.details_csv⟩ (some s.heap.length) frame
        = .ok (OK, ⟨s.heap ++ [some
          { ip_address := frame.arp_spa
            mac_address := frame.ether_shost
            requests := 0
            replies := 0
            lastreset := env.now
            previous := none
            next := none }], some s.heap.length,
          s.alerts ++ (if frame.ether_shost ≠ frame.arp_sha then
            [⟨.HIGHEST, .dodgymacs frame.arp_spa frame.ether_shost frame.arp_sha⟩] else []),
          s.details_csv⟩) := by
      simp only [populateipspace, hm, if_true, hop, h21, if_false, populateipspacerep,
        modify_append_length, ipcopy_eq, maccopy7_eq, Res.ok_bind, Res.pure_eq, ipdetails.zero,
        checkmacs, deref_append_length, macflag_pos_iff, alertdodgymacs, redalert, raise]
      by_cases hne : frame.ether_shost = frame.arp_sha
      · simp [hne]
      · simp [hne]
    have hh : handlereply env
        ⟨s.heap ++ [some
          { ip_address := frame.arp_spa
            mac_address := frame.ether_shost
            requests := 0
            replies := 0
            lastreset := env.now
            previous := none
            next := none }], some s.heap.length,
          s.alerts ++ (if frame.ether_shost ≠ frame.arp_sha then
            [⟨.HIGHEST, .dodgymacs frame.arp_spa frame.ether_shost frame.arp_sha⟩] else []),
          s.details_csv⟩ frame
        = .ok (OK, ⟨s.heap ++ [some
          { ip_address := frame.arp_spa
            mac_address := frame.ether_shost
            requests := 0
            replies := 1
            lastreset := env.now
            previous := none
            next := none }], some s.heap.length,
          s.alerts ++ (if frame.ether_shost ≠ frame.arp_sha then
            [⟨.HIGHEST, .dodgymacs frame.arp_spa frame.ether_shost frame.arp_sha⟩] else []),
          s.details_csv⟩) := by
      rw [handlereply_found_any env _ frame s.heap.length _ (hfind _)
        (Heap.read_append_length _ _)]
      simp [store, Heap.write_append_length, UINT_MOD]
    refine ⟨⟨s.heap ++ [some
          { ip_address := frame.arp_spa
            mac_address := frame.ether_shost
            requests := 0
            replies := 1
            lastreset := env.now
            previous := none
            next := none }], some s.heap.length,
          s.alerts ++ firstreplyalerts opts frame, s.details_csv⟩, none, none,
      ?_, rfl, Heap.read_append_length _ _, ?_, rfl, ?_, by simp⟩
    · rw [processether_first opts env s frame hm hca hc he, hpop]
      simp only [Res.ok_bind]
      rw [processether_op_reply_after opts env _ _ frame s.heap.length _ hm hop hh rfl
        (Heap.read_append_length _ _) rfl rfl]
      simp [firstreplyalerts]
    · exact walkable_alone _ _ _ (Heap.read_append_length _ _) rfl rfl
    · intro a r hr
      refine ⟨r, ?_, rfl⟩
      show Heap.read (s.heap ++ _) a = some r
      rw [Heap.read_append_lt _ _ (Heap.read_lt hr), hr]
  · have hnew := handlereply_new env s frame e re hm hca hc he hre hnone
    have hrd : Heap.read (s.heap.write e { re with next := some s.heap.length } ++
          [some
            { ip_address := frame.arp_spa
              mac_address := frame.ether_shost
              requests := 0
              replies := 1
              lastreset := env.now
              previous := some e
              next := re.next }]) s.heap.length = some
            { ip_address := frame.arp_spa
              mac_address := frame.ether_shost
              requests := 0
              replies := 1
              lastreset := env.now
              previous := some e
              next := re.next } := by
      have := Heap.read_append_length (s.heap.write e { re with next := some s.heap.length })
        (some
          { ip_address := frame.arp_spa
            mac_address := frame.ether_shost
            requests := 0
            replies := 1
            lastreset := env.now
            previous := some e
            next := re.next })
      rw [Heap.length_write] at this
      exact this
    refine ⟨
      { heap := s.heap.write e { re with next := some s.heap.length } ++
          [some
            { ip_address := frame.arp_spa
              mac_address := frame.ether_shost
              requests := 0
              replies := 1
              lastreset := env.now
              previous := some e
              next := re.next }]
        entrypoint := some s.heap.length
        alerts := s.alerts ++ firstreplyalerts opts frame
        details_csv := s.details_csv }, some e, re.next, ?_, rfl, hrd, ?_, rfl, ?_, by simp⟩
    · rw [processether_unfold opts env s frame e re hm he hre hnz]
      rw [processether_op_reply_after opts env _ _ frame s.heap.length _ hm hop hnew rfl
        hrd rfl rfl]
      simp [firstreplyalerts]
    · exact walkable_insert s _ e re _ hre rfl rfl rfl hw
    · intro a r hr
      have hlt := Heap.read_lt hr
      by_cases hae : e = a
      · subst hae
        rw [hre] at hr
        cases hr
        refine ⟨{ re with next := some s.heap.length }, ?_, rfl⟩
        show Heap.read (_ ++ _) e = _
        rw [Heap.read_append_lt _ _ (by rw [Heap.length_write]; exact hlt),
          Heap.read_write_same _ hlt]
      · refine ⟨r, ?_, rfl⟩
        show Heap.read (_ ++ _) a = _
        rw [Heap.read_append_lt _ _ (by rw [Heap.length_write]; exact hlt),
          Heap.read_write_ne _ hae, hr]

/-! ## Replies for the record at the entry point -/

/-- One call of `processether` for a reply whose two MACs agree, on the record
at the entry point when it holds the sender address and that MAC and the age
check keeps it: one reply is counted, and `processip` raises its alert and resets
the record as the net count demands. -/
theorem processether_reply_step (opts : optiondetails) (env : Env) (s : State)
    (frame : Frame) (p : Nat) (r : ipdetails)
    (hm : env.malloc_ok = true) (hc : env.clock_ok = true)
    (hop : frame.op = ARPOP_REPLY) (heq : frame.ether_shost = frame.arp_sha)
    (he : s.entrypoint = some p) (hr : s.heap.read p = some r)
    (hnz : r.ip_address.get 0 ≠ 0)
    (hip : r.ip_address = frame.arp_spa) (hmac : r.mac_address = frame.ether_shost)
    (hfresh : ¬ r.lastreset + opts.timeout < env.now)
    (hw : walkable s (some p) = true) :
    ∃ s', processether opts env s frame = .ok (OK, s')
      ∧ s'.entrypoint = some p
      ∧ s'.heap.length = s.heap.length
      ∧ walkable s' (some p) = true
      ∧ s'.heap.read p = some
          (if checknetarps { r with replies := (r.replies + 1) % UINT_MOD } > opts.poison_threshold
              ∨ checknetarps { r with replies := (r.replies + 1) % UINT_MOD }
                < opts.badnet_threshold then
            { r with
              replies := 0
              requests := 0
              lastreset := env.now }
          else { r with replies := (r.replies + 1) % UINT_MOD })
      ∧ s'.alerts = s.alerts ++
          (if checknetarps { r with replies := (r.replies + 1) % UINT_MOD } > POISON_THRESHOLD then
            [⟨.HIGHEST, .poisoner r.ip_address⟩]
           else if checknetarps { r with replies := (r.replies + 1) % UINT_MOD }
              < opts.badnet_threshold then
            [⟨.HIGHEST, .badnet r.ip_address⟩]
           else []) := by
  have hfind : checkip s s.entrypoint frame.arp_spa = .ok (some p) := by
    rw [he]
    simp only [checkip, deref_of_read hr, Res.ok_bind]
    rw [if_pos ((ipmatch_iff r _).2 hip)]
    rfl
  have hh := handlereply_found_any env s frame p r hfind hr
  have hr1 : { r with
      mac_address := (if r.mac_address = Mac.zero then frame.ether_shost else r.mac_address)
      replies := (r.replies + 1) % UINT_MOD }
      = { r with replies := (r.replies + 1) % UINT_MOD } := by
    by_cases hz : r.mac_address = Mac.zero
    · rw [if_pos hz, ← hmac]
    · rw [if_neg hz]
  rw [hr1] at hh
  have hrs : (store { s with entrypoint := some p } p
      { r with replies := (r.replies + 1) % UINT_MOD }).heap.read p
      = some { r with replies := (r.replies + 1) % UINT_MOD } :=
    read_store_same (s := { s with entrypoint := some p }) _ hr
  have hop2 := processether_op_reply_after opts env s _ frame p _ hm hop hh rfl hrs hip hmac
  have hcond : ¬ (opts.check_mac_changes ≠ 0 ∧ frame.ether_shost ≠ Mac.zero
      ∧ frame.ether_shost ≠ frame.arp_sha) := fun h => h.2.2 heq
  rw [if_neg hcond] at hop2
  simp only [List.append_nil] at hop2
  have hlinks : ∀ a, (Heap.read (s.heap.write p { r with replies := (r.replies + 1) % UINT_MOD })
      a).map ipdetails.links = (s.heap.read a).map ipdetails.links := by
    intro a
    by_cases ha : p = a
    · subst ha
      rw [Heap.read_write_same _ (Heap.read_lt hr), hr]
      rfl
    · rw [Heap.read_write_ne _ ha]
  have hw1 : walkable
      (store { s with entrypoint := some p } p
          { r with replies := (r.replies + 1) % UINT_MOD }) (some p) = true := by
    rw [walkable_congr s _ (some p) (by simp [store]) hlinks]
    exact hw
  obtain ⟨s', h2, h2e, h2h, h2a⟩ := processip_dump_exact opts env _ p
    { r with replies := (r.replies + 1) % UINT_MOD } hm hc rfl hrs hfresh hw1
  refine ⟨s', ?_, h2e, ?_, ?_, ?_, ?_⟩
  · rw [processether_unfold opts env s frame p r hm he hr hnz, hop2]
    exact h2
  · rw [h2h]
    split_ifs <;> simp [store]
  · rw [walkable_congr s s' (some p)]
    · exact hw
    · rw [h2h]
      split_ifs <;> simp [store]
    · intro a
      rw [h2h]
      by_cases ha : p = a
      · subst ha
        split_ifs
        · simp only [store]
          rw [Heap.read_write_same _ (by simp; exact Heap.read_lt hr), hr]
          rfl
        · exact hlinks p
      · split_ifs
        · simp only [store]
          rw [Heap.read_write_ne _ ha, Heap.read_write_ne _ ha]
        · exact hlinks a
  · rw [h2h]
    split_ifs
    · simp only [store]
      rw [Heap.read_write_same _ (by simp; exact Heap.read_lt hr)]
    · exact hrs
  · rw [h2a]
    simp

/-! ## A run of replies for one address -/

/-- The first reply of an address, through `processether`: the new record is
the entry point, with one reply counted, and the list can still be walked. -/
theorem processether_reply_first (opts : optiondetails) (env : Env) (s : State) (frame : Frame)
    (hm : env.malloc_ok = true) (hca : env.calloc_ok = true) (hc : env.clock_ok = true)
    (hop : frame.op = ARPOP_REPLY)
    (htime : 0 ≤ opts.timeout) (hbad : opts.badnet_threshold ≤ 1)
    (hpoi : 1 ≤ opts.poison_threshold)
    (hs : s.entrypoint = none ∨ ∃ e re, s.entrypoint = some e ∧ s.heap.read e = some re
      ∧ re.ip_address.get 0 ≠ 0 ∧ checkip s s.entrypoint frame.arp_spa = .ok none
      ∧ walkable s (some e) = true) :
    ∃ s' pv nx, processether opts env s frame = .ok (OK, s')
      ∧ s'.entrypoint = some s.heap.length
      ∧ s'.heap.read s.heap.length = some
          { ip_address := frame.arp_spa
            mac_address := frame.ether_shost
            requests := 0
            replies := 1
            lastreset := env.now
            previous := pv
            next := nx }
      ∧ s'.alerts = s.alerts ++ firstreplyalerts opts frame
      ∧ walkable s' (some s.heap.length) = true
      ∧ (∀ a r, s.heap.read a = some r →
          ∃ r', s'.heap.read a = some r' ∧ r'.data = r.data)
      ∧ s'.heap.length = s.heap.length + 1 := by
  obtain ⟨s1, pv, nx, h1, h1e, h1r, h1w, h1a, h1d, h1l⟩ :=
    processether_reply_seed opts env s frame hm hca hc hop hs
  have hnet : checknetarps
      { ip_address := frame.arp_spa
        mac_address := frame.ether_shost
        requests := 0
        replies := 1
        lastreset := env.now
        previous := pv
        next := nx } = 1 := by
    rw [checknetarps_eq _ (by norm_num) (by norm_num)]
    norm_num
  obtain ⟨s', h2, h2e, h2h, h2a⟩ := processip_dump_exact opts env s1 s.heap.length _ hm hc
    h1e h1r (by simp only; omega) h1w
  rw [hnet] at h2h h2a
  have hno : ¬ ((1 : Int) > opts.poison_threshold ∨ (1 : Int) < opts.badnet_threshold) := by
    omega
  have hp : ¬ ((1 : Int) > POISON_THRESHOLD) := by decide
  have hb : ¬ ((1 : Int) < opts.badnet_threshold) := by omega
  rw [if_neg hno] at h2h
  rw [if_neg hp, if_neg hb, List.append_nil, h1a] at h2a
  refine ⟨s', pv, nx, ?_, h2e, ?_, h2a, ?_, ?_, ?_⟩
  · rw [h1, h2]
  · rw [h2h, h1r]
  · rw [walkable_congr s1 s' _ (by rw [h2h]) (by intro a; rw [h2h])]
    exact h1w
  · intro a r hr
    rw [h2h]
    exact h1d a r hr
  · rw [h2h, h1l]

/-- A run of replies whose two MACs agree, for the record at the entry point,
with the default options and every reply within `TIMEOUT` seconds of the start:
the `replies` counter counts modulo eleven and every eleventh reply raises the
alert of a suspected poisoner. -/
theorem run_replies_from_record (frame : Frame) (t0 : Int)
    (hop : frame.op = ARPOP_REPLY) (heq : frame.ether_shost = frame.arp_sha)
    (hX : frame.arp_spa.get 0 ≠ 0) :
    ∀ (envs : List Env) (s : State) (p j : Nat) (r : ipdetails),
      (∀ env ∈ envs, env.malloc_ok = true ∧ env.clock_ok = true ∧ t0 ≤ env.now
        ∧ env.now ≤ t0 + 1500) →
      s.entrypoint = some p → s.heap.read p = some r →
      r.ip_address = frame.arp_spa → r.mac_address = frame.ether_shost →
      r.requests = 0 → r.replies = j % 11 → t0 ≤ r.lastreset →
      walkable s (some p) = true →
      ∃ s' r', run setdefaults s (envs.map (fun env => (env, frame))) = .ok s'
        ∧ s'.entrypoint = some p ∧ s'.heap.read p = some r'
        ∧ r'.ip_address = frame.arp_spa ∧ r'.mac_address = frame.ether_shost
        ∧ r'.requests = 0 ∧ r'.replies = (j + envs.length) % 11
        ∧ s'.alerts = s.alerts ++
            List.replicate ((j + envs.length) / 11 - j / 11)
              ⟨.HIGHEST, .poisoner frame.arp_spa⟩ := by
  intro envs
  induction envs with
  | nil =>
    intro s p j r _ he hr hip hmac hrq hrp _ _
    exact ⟨s, r, rfl, he, hr, hip, hmac, hrq, by simpa using hrp, by simp⟩
  | cons env rest ih =>
    intro s p j r henv he hr hip hmac hrq hrp hlr hw
    obtain ⟨hm, hc, hlo, hhi⟩ := henv env (by simp)
    have hto : setdefaults.timeout = 1500 := rfl
    have hpt : setdefaults.poison_threshold = 10 := rfl
    have hbt : setdefaults.badnet_threshold = -10 := rfl
    have hjlt : j % 11 < 11 := Nat.mod_lt _ (by norm_num)
    have hmod : (r.replies + 1) % UINT_MOD = j % 11 + 1 := by
      rw [hrp]
      exact Nat.mod_eq_of_lt (by unfold UINT_MOD; omega)
    have hnet : checknetarps { r with replies := (r.replies + 1) % UINT_MOD }
        = ((j % 11 + 1 : Nat) : Int) := by
      rw [checknetarps_eq _ (by simp only [hrq]; norm_num) (by simp only [hmod]; omega)]
      simp only [hrq, hmod]
      norm_num
    obtain ⟨s1, h1, h1e, h1l, h1w, h1r, h1a⟩ := processether_reply_step setdefaults env s frame
      p r hm hc hop heq he hr (by rw [hip]; exact hX) hip hmac (by rw [hto]; omega) hw
    rw [hnet, hpt, hbt] at h1r
    rw [hnet, hbt] at h1a
    by_cases h10 : j % 11 = 10
    · have hc1 : ((j % 11 + 1 : Nat) : Int) > 10 ∨ ((j % 11 + 1 : Nat) : Int) < -10 := by
        left; omega
      have hc2 : ((j % 11 + 1 : Nat) : Int) > POISON_THRESHOLD := by
        show ((j % 11 + 1 : Nat) : Int) > 10
        omega
      rw [if_pos hc1] at h1r
      rw [if_pos hc2] at h1a
      obtain ⟨s', r', h2, h2e, h2r, h2ip, h2mac, h2rq, h2rp, h2a⟩ :=
        ih s1 p (j + 1) _ (fun e he' => henv e (by simp [he'])) h1e h1r hip hmac rfl
          (by simp only; omega) hlo h1w
      refine ⟨s', r', ?_, h2e, h2r, h2ip, h2mac, h2rq, ?_, ?_⟩
      · simp only [List.map_cons, run, h1, Res.ok_bind]
        exact h2
      · rw [h2rp]
        simp only [List.length_cons]
        congr 1
        omega
      · rw [h2a, h1a, hip, List.append_assoc]
        congr 1
        have : (j + (rest.length + 1)) / 11 - j / 11
            = 1 + ((j + 1 + rest.length) / 11 - (j + 1) / 11) := by omega
        simp only [List.length_cons, this, List.replicate_add]
        rfl
    · have hc1 : ¬ (((j % 11 + 1 : Nat) : Int) > 10 ∨ ((j % 11 + 1 : Nat) : Int) < -10) := by
        omega
      have hc2 : ¬ (((j % 11 + 1 : Nat) : Int) > POISON_THRESHOLD) := by
        show ¬ (((j % 11 + 1 : Nat) : Int) > 10)
        omega
      have hc3 : ¬ (((j % 11 + 1 : Nat) : Int) < -10) := by omega
      rw [if_neg hc1] at h1r
      rw [if_neg hc2, if_neg hc3, List.append_nil] at h1a
      obtain ⟨s', r', h2, h2e, h2r, h2ip, h2mac, h2rq, h2rp, h2a⟩ :=
        ih s1 p (j + 1) _ (fun e he' => henv e (by simp [he'])) h1e h1r hip hmac hrq
          (by simp only [hmod]; omega) hlr h1w
      refine ⟨s', r', ?_, h2e, h2r, h2ip, h2mac, h2rq, ?_, ?_⟩
      · simp only [List.map_cons, run, h1, Res.ok_bind]
        exact h2
      · rw [h2rp]
        simp only [List.length_cons]
        congr 1
        omega
      · rw [h2a, h1a]
        congr 2
        simp only [List.length_cons]
        omega

/-! ## Statements that leave stored MACs alone -/

theorem keepsmacs_of_eq {s s' : State} (hh : s'.heap = s.heap) (ha : s'.alerts = s.alerts) :
    keepsmacs s s' := by
  refine ⟨by rw [hh], ?_, [], by simp [ha], by simp⟩
  intro a _ r' hr'
  rw [hh] at hr'
  exact ⟨r', hr', rfl⟩

theorem keepsmacs_refl (s : State) : keepsmacs s s := keepsmacs_of_eq rfl rfl

theorem keepsmacs_trans {s s' s'' : State} (h1 : keepsmacs s s') (h2 : keepsmacs s' s'') :
    keepsmacs s s'' := by
  obtain ⟨l1, m1, x1, a1, n1⟩ := h1
  obtain ⟨l2, m2, x2, a2, n2⟩ := h2
  refine ⟨le_trans l1 l2, ?_, x1 ++ x2, by rw [a2, a1, List.append_assoc], ?_⟩
  · intro a ha r'' hr''
    obtain ⟨r', hr', e2⟩ := m2 a (lt_of_lt_of_le ha l1) r'' hr''
    obtain ⟨r, hr, e1⟩ := m1 a ha r' hr'
    exact ⟨r, hr, e1.trans e2⟩
  · intro x hx
    rcases List.mem_append.mp hx with h | h
    · exact n1 x h
    · exact n2 x h

theorem keepsmacs_raise (s : State) (p : Severity) (m : Msg) (h1 : m.is_changedmacs = false)
    (h2 : m.is_dodgymacs = false) : keepsmacs s (raise s p m) := by
  refine ⟨le_refl _, ?_, [⟨p, m⟩], rfl, ?_⟩
  · intro a _ r' hr'
    exact ⟨r', hr', rfl⟩
  · intro x hx
    simp only [List.mem_singleton] at hx
    subst hx
    exact ⟨h1, h2⟩

theorem keepsmacs_store {s : State} {a : Nat} {r : ipdetails} (x : ipdetails)
    (hr : s.heap.read a = some r) (hx : x.mac_address = r.mac_address) :
    keepsmacs s (store s a x) := by
  refine ⟨by simp, ?_, [], by simp, by simp⟩
  intro b _ r' hr'
  by_cases hab : a = b
  · subst hab
    rw [read_store_same x hr] at hr'
    cases hr'
    exact ⟨r, hr, hx.symm⟩
  · rw [read_store_ne x hab] at hr'
    exact ⟨r', hr', rfl⟩

theorem keepsmacs_modify {s s' : State} {p : Option Nat} {f : ipdetails → ipdetails}
    (h : modify s p f = .ok s') (hf : ∀ r, (f r).mac_address = r.mac_address) :
    keepsmacs s s' := by
  obtain ⟨a, r, _, hr, rfl⟩ := modify_ok h
  exact keepsmacs_store _ hr (hf r)

theorem keepsmacs_createipspace {env : Env} {s s' : State} {q : Option Nat}
    (h : createipspace env s = .ok (q, s')) : keepsmacs s s' := by
  unfold createipspace at h
  by_cases hm : env.malloc_ok = true
  swap
  · simp [hm] at h
    obtain ⟨_, rfl⟩ := h
    exact keepsmacs_refl _
  by_cases hca : env.calloc_ok = true
  swap
  · by_cases hc : env.clock_ok = true
    · simp [hm, hca, hc] at h
    · simp [hm, hca, hc] at h
      obtain ⟨_, rfl⟩ := h
      exact keepsmacs_refl _
  simp only [hm, hca, if_true, Res.pure_eq, Res.ok.injEq, Prod.mk.injEq] at h
  obtain ⟨_, rfl⟩ := h
  refine ⟨by simp, ?_, [], by simp, by simp⟩
  intro a ha r' hr'
  refine ⟨r', ?_, rfl⟩
  rw [← hr']
  exact (Heap.read_append_lt _ _ ha).symm

/-- The record `*ip` after a call of `checktimeouts` that returns: freed, or as
it was. -/
theorem checktimeouts_self (opts : optiondetails) (env : Env) (s s' : State)
    (a : Nat) (q : Option Nat) (h : checktimeouts opts env s (some a) = .ok (q, s')) :
    s'.heap.read a = none ∨ s' = s := by
  unfold checktimeouts at h
  by_cases hm : env.malloc_ok = true
  swap
  · simp [hm] at h
    exact Or.inr h.2.symm
  by_cases hc : env.clock_ok = true
  swap
  · simp [hm, hc] at h
    exact Or.inr h.2.symm
  simp only [hm, hc, if_true] at h
  obtain ⟨r, hr, h⟩ := Res.bind_ok h
  by_cases hx : r.lastreset + opts.timeout < env.now
  swap
  · simp [hx] at h
    exact Or.inr h.2.symm
  simp only [hx, if_true] at h
  obtain ⟨s1, h1, h⟩ := Res.bind_ok h
  obtain ⟨s2, h2, h⟩ := Res.bind_ok h
  simp only [Res.pure_eq, Res.ok.injEq, Prod.mk.injEq] at h
  obtain ⟨_, rfl⟩ := h
  exact Or.inl (Heap.read_free_same _ _)

theorem keepsmacs_checktimeouts {opts : optiondetails} {env : Env} {s s' : State}
    {ip q : Option Nat} (h : checktimeouts opts env s ip = .ok (q, s')) : keepsmacs s s' := by
  obtain ⟨ha, _, hl, hd⟩ := checktimeouts_data opts env s s' ip q h
  refine ⟨by rw [hl], ?_, [], by simp [ha], by simp⟩
  intro c _ r' hr'
  by_cases hc : ip = some c
  · subst hc
    rcases checktimeouts_self opts env s s' c q h with h0 | h0
    · rw [h0] at hr'; cases hr'
    · rw [h0] at hr'
      exact ⟨r', hr', rfl⟩
  · have := hd c hc
    rw [hr'] at this
    rcases hs : s.heap.read c with _ | r
    · rw [hs] at this; simp at this
    · rw [hs] at this
      simp only [Option.map_some', Option.some.injEq, ipdetails.data, Prod.mk.injEq] at this
      exact ⟨r, rfl, this.2.1.symm⟩

theorem keepsmacs_processip {opts : optiondetails} {env : Env} {s s' : State}
    (h : processip opts env s = .ok s') : keepsmacs s s' := by
  unfold processip at h
  obtain ⟨⟨temp1, s1⟩, h1, h⟩ := Res.bind_ok h
  have k1 := keepsmacs_checktimeouts h1
  simp only at h
  by_cases hne : temp1 ≠ s.entrypoint
  · rw [if_pos hne] at h
    simp only [Res.pure_eq, Res.ok.injEq] at h
    subst h
    exact keepsmacs_trans k1 (keepsmacs_of_eq rfl rfl)
  rw [if_neg hne] at h
  obtain ⟨r, _, h⟩ := Res.bind_ok h
  have k2 : keepsmacs s1
      (if checknetarps r > POISON_THRESHOLD then
        if env.malloc_ok then redalert s1 (.poisoner r.ip_address)
        else redalert s1 .poisoner_nomem
      else if checknetarps r < opts.badnet_threshold then
        if env.malloc_ok then redalert s1 (.badnet r.ip_address)
        else redalert s1 .badnet_nomem
      else s1) := by
    split_ifs
    · exact keepsmacs_raise _ _ _ rfl rfl
    · exact keepsmacs_raise _ _ _ rfl rfl
    · exact keepsmacs_raise _ _ _ rfl rfl
    · exact keepsmacs_raise _ _ _ rfl rfl
    · exact keepsmacs_refl _
  generalize (if checknetarps r > POISON_THRESHOLD then
        if env.malloc_ok then redalert s1 (.poisoner r.ip_address)
        else redalert s1 .poisoner_nomem
      else if checknetarps r < opts.badnet_threshold then
        if env.malloc_ok then redalert s1 (.badnet r.ip_address)
        else redalert s1 .badnet_nomem
      else s1) = s2 at h k2
  by_cases hreset : checknetarps r > opts.poison_threshold ∨ checknetarps r < opts.badnet_threshold
  · simp only [hreset, if_true] at h
    obtain ⟨s3, h3, h⟩ := Res.bind_ok h
    have k3 : keepsmacs s2 s3 := by
      unfold blanknetarps at h3
      cases he : s2.entrypoint with
      | none =>
        rw [he] at h3
        simp only [Res.pure_eq, Res.ok.injEq] at h3
        subst h3
        exact keepsmacs_refl _
      | some e =>
        rw [he] at h3
        simp only at h3
        obtain ⟨s2a, ha, hb⟩ := Res.bind_ok h3
        exact keepsmacs_trans (keepsmacs_modify ha (fun _ => rfl))
          (keepsmacs_modify hb (fun _ => rfl))
    have k4 : keepsmacs s3 s' := by
      unfold resettimer at h
      split_ifs at h
      · exact keepsmacs_modify h (fun _ => rfl)
      · simp only [Res.pure_eq, Res.ok.injEq] at h
        subst h
        exact keepsmacs_refl _
      · simp only [Res.pure_eq, Res.ok.injEq] at h
        subst h
        exact keepsmacs_refl _
    exact keepsmacs_trans k1 (keepsmacs_trans k2 (keepsmacs_trans k3 k4))
  · simp only [hreset, if_false, Res.pure_eq, Res.ok.injEq] at h
    subst h
    exact keepsmacs_trans k1 k2

theorem keepsmacs_dumpdata {env : Env} {s s' : State} {q : Option Nat}
    (h : dumpdata env s q = .ok s') : keepsmacs s s' := by
  unfold dumpdata at h
  obtain ⟨cur, _, h⟩ := Res.bind_ok h
  by_cases ho : env.fopen_ok = true
  · simp only [ho, if_true] at h
    obtain ⟨rows, _, h⟩ := Res.bind_ok h
    simp only [Res.pure_eq, Res.ok.injEq] at h
    subst h
    exact keepsmacs_of_eq rfl rfl
  · simp only [ho, Res.pure_eq, Res.ok.injEq] at h
    simp at h
    subst h
    exact keepsmacs_refl _

theorem keepsmacs_addrequest {s s' : State} {ip : Option Nat} {n : Nat}
    (h : addrequest s ip = .ok (n, s')) : keepsmacs s s' := by
  unfold addrequest at h
  cases ip with
  | none =>
    simp only [Res.pure_eq, Res.ok.injEq, Prod.mk.injEq] at h
    obtain ⟨_, rfl⟩ := h
    exact keepsmacs_refl _
  | some a =>
    simp only at h
    obtain ⟨s1, h1, h⟩ := Res.bind_ok h
    obtain ⟨r, _, h⟩ := Res.bind_ok h
    simp only [Res.pure_eq, Res.ok.injEq, Prod.mk.injEq] at h
    obtain ⟨_, rfl⟩ := h
    exact keepsmacs_modify h1 (fun _ => rfl)

theorem keepsmacs_populateipspacereq {s s' : State} {ip : Option Nat} {frame : Frame} {n : Int}
    (h : populateipspacereq s ip frame = .ok (n, s')) : keepsmacs s s' := by
  unfold populateipspacereq at h
  cases ip with
  | none =>
    simp only [Res.pure_eq, Res.ok.injEq, Prod.mk.injEq] at h
    obtain ⟨_, rfl⟩ := h
    exact keepsmacs_refl _
  | some a =>
    simp only at h
    obtain ⟨s1, h1, h⟩ := Res.bind_ok h
    simp only [Res.pure_eq, Res.ok.injEq, Prod.mk.injEq] at h
    obtain ⟨_, rfl⟩ := h
    exact keepsmacs_modify h1 (fun _ => rfl)

theorem keepsmacs_linkin {s s' : State} {temp : Option Nat}
    (h : linkin s temp = .ok s') : keepsmacs s s' := by
  unfold linkin at h
  obtain ⟨s1, h1, h⟩ := Res.bind_ok h
  obtain ⟨e, _, h⟩ := Res.bind_ok h
  obtain ⟨s2, h2, h⟩ := Res.bind_ok h
  exact keepsmacs_trans (keepsmacs_modify h1 (fun _ => rfl))
    (keepsmacs_trans (keepsmacs_modify h2 (fun _ => rfl)) (keepsmacs_modify h (fun _ => rfl)))

theorem keepsmacs_handlerequest {env : Env} {s s' : State} {frame : Frame} {n : Int}
    (h : handlerequest env s frame = .ok (n, s')) : keepsmacs s s' := by
  unfold handlerequest at h
  obtain ⟨temp, _, h⟩ := Res.bind_ok h
  cases temp with
  | some p =>
    simp only at h
    obtain ⟨⟨_, s1⟩, h1, h⟩ := Res.bind_ok h
    simp only [Res.pure_eq, Res.ok.injEq, Prod.mk.injEq] at h
    obtain ⟨_, rfl⟩ := h
    exact keepsmacs_trans (@keepsmacs_of_eq s { s with entrypoint := some p } rfl rfl)
      (keepsmacs_addrequest h1)
  | none =>
    simp only at h
    obtain ⟨⟨t, s1⟩, h1, h⟩ := Res.bind_ok h
    have k1 := keepsmacs_createipspace h1
    cases t with
    | none =>
      simp only [Res.pure_eq, Res.ok.injEq, Prod.mk.injEq] at h
      obtain ⟨_, rfl⟩ := h
      exact k1
    | some t =>
      simp only at h
      obtain ⟨⟨_, s2⟩, h2, h⟩ := Res.bind_ok h
      obtain ⟨s3, h3, h⟩ := Res.bind_ok h
      obtain ⟨⟨_, s4⟩, h4, h⟩ := Res.bind_ok h
      simp only [Res.pure_eq, Res.ok.injEq, Prod.mk.injEq] at h
      obtain ⟨_, rfl⟩ := h
      exact keepsmacs_trans k1 (keepsmacs_trans (keepsmacs_populateipspacereq h2)
        (keepsmacs_trans (keepsmacs_linkin h3)
          (keepsmacs_trans (@keepsmacs_of_eq s3 { s3 with entrypoint := some t } rfl rfl)
            (keepsmacs_addrequest h4))))

/-- Every call of `processether` for an ARP request that returns leaves stored
MACs alone. -/
theorem keepsmacs_processether_request {opts : optiondetails} {env : Env} {s s' : State}
    {frame : Frame} {n : Int} (hop : frame.op = ARPOP_REQUEST)
    (h : processether opts env s frame = .ok (n, s')) : keepsmacs s s' := by
  unfold processether at h
  by_cases hm : env.malloc_ok = true
  swap
  · simp only [hm, Res.pure_eq, Res.ok.injEq, Prod.mk.injEq] at h
    simp at h
    obtain ⟨_, rfl⟩ := h
    exact keepsmacs_raise _ _ _ rfl rfl
  simp only [hm, if_true] at h
  obtain ⟨s1, h1, h⟩ := Res.bind_ok h
  have k1 : keepsmacs s s1 := by
    cases he : s.entrypoint with
    | none =>
      rw [he] at h1
      simp only at h1
      obtain ⟨⟨p, t⟩, hc, h1⟩ := Res.bind_ok h1
      simp only [Res.pure_eq, Res.ok.injEq] at h1
      subst h1
      exact keepsmacs_trans (keepsmacs_createipspace hc) (keepsmacs_of_eq rfl rfl)
    | some e =>
      rw [he] at h1
      simp only [Res.pure_eq, Res.ok.injEq] at h1
      subst h1
      exact keepsmacs_refl _
  cases he1 : s1.entrypoint with
  | none =>
    rw [he1] at h
    simp only [Res.pure_eq, Res.ok.injEq, Prod.mk.injEq] at h
    obtain ⟨_, rfl⟩ := h
    exact keepsmacs_trans k1 (keepsmacs_raise _ _ _ rfl rfl)
  | some e1 =>
    rw [he1] at h
    simp only at h
    obtain ⟨e, _, h⟩ := Res.bind_ok h
    obtain ⟨s2, h2, h⟩ := Res.bind_ok h
    obtain ⟨s3, h3, h⟩ := Res.bind_ok h
    obtain ⟨s4, h4, h⟩ := Res.bind_ok h
    simp only [Res.pure_eq, Res.ok.injEq, Prod.mk.injEq] at h
    obtain ⟨_, rfl⟩ := h
    have k2 : keepsmacs s1 s2 := by
      by_cases hz : e.ip_address.get 0 = 0
      · simp only [hz, if_true] at h2
        obtain ⟨⟨_, t⟩, hp, h2⟩ := Res.bind_ok h2
        simp only [Res.pure_eq, Res.ok.injEq] at h2
        subst h2
        simp only [populateipspace, hm, if_true, hop] at hp
        exact keepsmacs_populateipspacereq hp
      · simp only [hz, if_false, Res.pure_eq, Res.ok.injEq] at h2
        subst h2
        exact keepsmacs_refl _
    have k3 : keepsmacs s2 s3 := by
      simp only [processether_op, hop, if_true] at h3
      obtain ⟨⟨rc, t⟩, hh, h3⟩ := Res.bind_ok h3
      have kh := keepsmacs_handlerequest hh
      simp only at h3
      by_cases hrc : rc = ERR_NOMEM
      · simp only [hrc, if_true, Res.pure_eq, Res.ok.injEq] at h3
        subst h3
        exact keepsmacs_trans kh (keepsmacs_raise _ _ _ rfl rfl)
      · simp only [hrc, if_false] at h3
        exact keepsmacs_trans kh (keepsmacs_processip h3)
    exact keepsmacs_trans k1 (keepsmacs_trans k2 (keepsmacs_trans k3 (keepsmacs_dumpdata h4)))

/-! ## Eviction of the first record of the list -/

/-- The end of `processether` when the age check evicts the record at the entry
point, that record being the first of its list and having a successor: the
successor loses its predecessor and becomes the entry point, the record is freed,
and `dumpdata` walks the rest of the list. -/
theorem processip_dump_evicts_head (opts : optiondetails) (env : Env) (s s2 : State)
    (p n : Nat) (r r2 rn : ipdetails) (hm : env.malloc_ok = true) (hc : env.clock_ok = true)
    (he2 : s2.entrypoint = some p) (hh : s2.heap = s.heap.write p r2)
    (hr : s.heap.read p = some r)
    (hprev : r.previous = none) (hnext : r.next = some n)
    (hprev2 : r2.previous = none) (hnext2 : r2.next = some n)
    (hn : s.heap.read n = some rn)
    (hx : r2.lastreset + opts.timeout < env.now)
    (hw : walkable s (some p) = true) :
    ∃ s', (processip opts env s2 >>= fun s3 =>
        dumpdata env s3 s3.entrypoint >>= fun s4 => pure (OK, s4)) = .ok (OK, s')
      ∧ s'.entrypoint = some n
      ∧ s'.heap = ((s.heap.write p r2).write n { rn with previous := none }).free p
      ∧ s'.alerts = s2.alerts := by
  have hplt := Heap.read_lt hr
  have hnlt := Heap.read_lt hn
  -- the chain from the record
  have hrw : rewindip s (some p) = .ok (some p) := by
    simp [rewindip, walkfuel, rewindip_loop, deref_of_read hr, hprev]
  unfold walkable at hw
  rw [hrw] at hw
  simp only at hw
  rw [dumpdata_loop_isSome] at hw
  rcases hch : nextchain s (walkfuel s) (some p) with _ | l
  · rw [hch] at hw; simp at hw
  obtain ⟨g, r', l', hg, hr', hl', hl⟩ := nextchain_inv hch
  rw [hr] at hr'
  cases hr'
  rw [hnext] at hl'
  subst hl
  have hpl : p ∉ l' := nextchain_no_cycle hch
  obtain ⟨g', rn', l'', hg', hrn', hl'', hln⟩ := nextchain_inv hl'
  have hnl : n ∈ l' := by rw [hln]; simp
  have hnp : n ≠ p := fun h => hpl (h ▸ hnl)
  -- the state after the eviction
  have hr2 : s2.heap.read p = some r2 := by
    rw [hh]; exact Heap.read_write_same _ hplt
  have hn2 : s2.heap.read n = some rn := by
    rw [hh, Heap.read_write_ne _ (Ne.symm hnp)]; exact hn
  have hct : checktimeouts opts env s2 (some p) = .ok (some n,
      { store s2 n { rn with previous := none } with
        heap := (store s2 n { rn with previous := none }).heap.free p }) := by
    simp only [checktimeouts, hm, hc, if_true, deref_of_read hr2, Res.ok_bind, hx, hprev2,
      hnext2, Res.pure_eq, modify_of_read _ hn2]
  have hpi : processip opts env s2 = .ok
      { heap := (s2.heap.write n { rn with previous := none }).free p
        entrypoint := some n
        alerts := s2.alerts
        details_csv := s2.details_csv } := by
    have hne : (some n : Option Nat) ≠ some p := fun h => hnp (Option.some.inj h)
    simp only [processip, he2, hct, Res.ok_bind]
    rw [if_pos hne]
    rfl
  -- the walk of the remaining list
  have hlen3 : ((s2.heap.write n { rn with previous := none }).free p).length = s.heap.length := by
    rw [hh]; simp
  have hrn3 : Heap.read ((s2.heap.write n { rn with previous := none }).free p) n
      = some { rn with previous := none } := by
    rw [Heap.read_free_ne (Ne.symm hnp)]
    exact Heap.read_write_same _ (by rw [hh]; simpa using hnlt)
  have hnext3 : ∀ a ∈ l', (Heap.read ((s2.heap.write n { rn with previous := none }).free p)
      a).map (fun x => x.next) = (s.heap.read a).map (fun x => x.next) := by
    intro a ha
    have hap : p ≠ a := fun h => hpl (h ▸ ha)
    rw [Heap.read_free_ne hap]
    by_cases han : n = a
    · subst han
      rw [Heap.read_write_same _ (by rw [hh]; simpa using hnlt), hn]
      rfl
    · rw [Heap.read_write_ne _ han, hh, Heap.read_write_ne _ hap]
  have hch3 : nextchain
      { heap := (s2.heap.write n { rn with previous := none }).free p
        entrypoint := some n
        alerts := s2.alerts
        details_csv := s2.details_csv } (walkfuel s) (some n) = some l' := by
    have := nextchain_congr s
      { heap := (s2.heap.write n { rn with previous := none }).free p
        entrypoint := some n
        alerts := s2.alerts
        details_csv := s2.details_csv } g (some n) l' hl' hnext3
    rw [hg]
    exact nextchain_fuel_succ _ _ _ _ this
  have hw3 : walkable
      { heap := (s2.heap.write n { rn with previous := none }).free p
        entrypoint := some n
        alerts := s2.alerts
        details_csv := s2.details_csv } (some n) = true := by
    have hf : walkfuel
        { heap := (s2.heap.write n { rn with previous := none }).free p
          entrypoint := some n
          alerts := s2.alerts
          details_csv := s2.details_csv } = walkfuel s := by
      simp only [walkfuel, hlen3]
    unfold walkable
    have hrw3 : rewindip
        { heap := (s2.heap.write n { rn with previous := none }).free p
          entrypoint := some n
          alerts := s2.alerts
          details_csv := s2.details_csv } (some n) = .ok (some n) := by
      simp only [rewindip, hf, walkfuel, rewindip_loop, deref, hrn3, Res.ok_bind, Res.pure_eq]
    rw [hrw3]
    simp only
    rw [dumpdata_loop_isSome, hf, hch3]
    rfl
  obtain ⟨t, ht, hth, hte, hta⟩ := dumpdata_of_walkable env _ _ (some n) rfl (fun _ => rfl) hw3
  refine ⟨t, ?_, hte, ?_, hta⟩
  · rw [hpi]
    simp only [Res.ok_bind, ht, Res.pure_eq]
  · rw [hth, hh]

/-! ## A reply for a record that is found, whatever the MACs -/

/-- The branch of `processether` for a reply on a record that `checkip` finds,
whatever the MACs: the state handed to `processip` differs from the one before in
the record found (one reply more, the MAC possibly replaced, pointers, `requests`
and `lastreset` as before), the entry point and the alerts. -/
theorem processether_op_reply_found (opts : optiondetails) (env : Env) (s : State)
    (frame : Frame) (p : Nat) (r : ipdetails) (hm : env.malloc_ok = true)
    (hop : frame.op = ARPOP_REPLY)
    (hfind : checkip s s.entrypoint frame.arp_spa = .ok (some p))
    (hr : s.heap.read p = some r) :
    ∃ s3 r3, processether_op opts env s frame = processip opts env s3
      ∧ s3.entrypoint = some p ∧ s3.heap = s.heap.write p r3
      ∧ r3.replies = (r.replies + 1) % UINT_MOD ∧ r3.requests = r.requests
      ∧ r3.lastreset = r.lastreset ∧ r3.previous = r.previous ∧ r3.next = r.next := by
  have h21 : ¬ (ARPOP_REPLY = ARPOP_REQUEST) := by decide
  have hok : ¬ (OK = ERR_NOMEM) := by decide
  have hmc : ERR_MACCHANGED ≠ OK := by decide
  have hh := handlereply_found_any env s frame p r hfind hr
  generalize hm1 : (if r.mac_address = Mac.zero then frame.ether_shost else r.mac_address)
    = m1 at hh
  have hrs : (store { s with entrypoint := some p } p
      { r with
        mac_address := m1
        replies := (r.replies + 1) % UINT_MOD }).heap.read p = some
      { r with
        mac_address := m1
        replies := (r.replies + 1) % UINT_MOD } :=
    read_store_same (s := { s with entrypoint := some p }) _ hr
  by_cases hcond : opts.check_mac_changes ≠ 0 ∧ m1 ≠ Mac.zero ∧ m1 ≠ frame.arp_sha
  · obtain ⟨hon, hnz, hne⟩ := hcond
    have hcm := checkmacchanges_changed opts env _ p _ frame.arp_sha hon hrs hnz hne
    rw [if_pos hm] at hcm
    have hr1 : (redalert (store { s with entrypoint := some p } p
        { r with
          mac_address := m1
          replies := (r.replies + 1) % UINT_MOD })
        (.changedmacs r.ip_address m1 frame.arp_sha)).heap.read p = some
        { r with
          mac_address := m1
          replies := (r.replies + 1) % UINT_MOD } := hrs
    have hpop := populateipspacerep_live env _ frame p _ hr1
    refine ⟨
      { heap := s.heap.write p
          { r with
            ip_address := frame.arp_spa
            mac_address := frame.ether_shost
            replies := (r.replies + 1) % UINT_MOD }
        entrypoint := some p
        alerts := (s.alerts ++ [⟨.HIGHEST, .changedmacs r.ip_address m1 frame.arp_sha⟩]) ++
          (if frame.ether_shost ≠ frame.arp_sha then
            [⟨.HIGHEST, .dodgymacs frame.arp_spa frame.ether_shost frame.arp_sha⟩] else [])
        details_csv := s.details_csv },
      { r with
        ip_address := frame.arp_spa
        mac_address := frame.ether_shost
        replies := (r.replies + 1) % UINT_MOD }, ?_, rfl, rfl, rfl, rfl, rfl, rfl, rfl⟩
    simp only [processether_op, hop, h21, if_false, if_true, hh, Res.ok_bind, hok]
    have hent : (store ({ s with entrypoint := some p } : State) p
        { r with
          mac_address := m1
          replies := (r.replies + 1) % UINT_MOD }).entrypoint = some p := rfl
    rw [hent, hcm]
    simp only [Res.ok_bind, ne_eq, hmc, not_false_eq_true, if_true]
    have hent1 : (redalert (store ({ s with entrypoint := some p } : State) p
        { r with
          mac_address := m1
          replies := (r.replies + 1) % UINT_MOD })
        (.changedmacs r.ip_address m1 frame.arp_sha)).entrypoint = some p := rfl
    rw [hent1, hpop]
    simp only [Res.ok_bind, Res.pure_eq, hm, if_true]
    congr 1
    by_cases he : frame.ether_shost = frame.arp_sha
    · simp [he, store, redalert, raise, Heap.write]
    · simp [he, store, redalert, raise, Heap.write]
  · have hcm : checkmacchanges opts env (store { s with entrypoint := some p } p
        { r with
          mac_address := m1
          replies := (r.replies + 1) % UINT_MOD }) (some p) frame.arp_sha = .ok (OK,
        store { s with entrypoint := some p } p
          { r with
            mac_address := m1
            replies := (r.replies + 1) % UINT_MOD }) := by
      by_cases hon : opts.check_mac_changes = 0
      · exact checkmacchanges_disabled opts env _ _ _ hon
      · apply checkmacchanges_same opts env _ p _ _ hrs
        by_contra hcon
        push_neg at hcon
        exact hcond ⟨hon, hcon.1, hcon.2⟩
    refine ⟨store { s with entrypoint := some p } p
        { r with
          mac_address := m1
          replies := (r.replies + 1) % UINT_MOD },
      { r with
        mac_address := m1
        replies := (r.replies + 1) % UINT_MOD }, ?_, rfl, rfl, rfl, rfl, rfl, rfl, rfl⟩
    simp only [processether_op, hop, h21, if_false, if_true, hh, Res.ok_bind, hok]
    have hent : (store ({ s with entrypoint := some p } : State) p
        { r with
          mac_address := m1
          replies := (r.replies + 1) % UINT_MOD }).entrypoint = some p := rfl
    rw [hent, hcm]
    simp only [Res.ok_bind, ne_eq, not_true_eq_false, if_false, Res.pure_eq]

/-! ## Statements that write `lastreset` only with the current second -/

theorem keepsclock_of_eq {env : Env} {s s' : State} (hh : s'.heap = s.heap) :
    keepsclock env s s' := by
  refine ⟨by rw [hh], ?_⟩
  intro a r' hr'
  rw [hh] at hr'
  exact ⟨fun _ => ⟨r', hr', Or.inl rfl⟩, fun h => absurd (Heap.read_lt hr') (not_lt.mpr h)⟩

theorem keepsclock_refl (env : Env) (s : State) : keepsclock env s s := keepsclock_of_eq rfl

theorem keepsclock_trans {env : Env} {s s' s'' : State} (h1 : keepsclock env s s')
    (h2 : keepsclock env s' s'') : keepsclock env s s'' := by
  obtain ⟨l1, m1⟩ := h1
  obtain ⟨l2, m2⟩ := h2
  refine ⟨le_trans l1 l2, ?_⟩
  intro a r'' hr''
  constructor
  · intro ha
    obtain ⟨r', hr', e2⟩ := (m2 a r'' hr'').1 (lt_of_lt_of_le ha l1)
    obtain ⟨r, hr, e1⟩ := (m1 a r' hr').1 ha
    refine ⟨r, hr, ?_⟩
    rcases e2 with e2 | e2
    · rcases e1 with e1 | e1
      · exact Or.inl (e2.trans e1)
      · exact Or.inr ⟨e1.1, e2.trans e1.2⟩
    · exact Or.inr e2
  · intro ha
    by_cases ha1 : a < s'.heap.length
    · obtain ⟨r', hr', e2⟩ := (m2 a r'' hr'').1 ha1
      have e1 := (m1 a r' hr').2 ha
      rcases e2 with e2 | e2
      · rw [e2]; exact e1
      · rw [e2.2, if_pos e2.1]
    · exact (m2 a r'' hr'').2 (not_lt.mp ha1)

theorem keepsclock_store {env : Env} {s : State} {a : Nat} {r : ipdetails} (x : ipdetails)
    (hr : s.heap.read a = some r)
    (hx : x.lastreset = r.lastreset ∨ (env.clock_ok = true ∧ x.lastreset = env.now)) :
    keepsclock env s (store s a x) := by
  refine ⟨by simp, ?_⟩
  intro b r' hr'
  have hb : b < s.heap.length := by
    have := Heap.read_lt hr'
    simpa using this
  refine ⟨fun _ => ?_, fun h => absurd hb (not_lt.mpr h)⟩
  by_cases hab : a = b
  · subst hab
    rw [read_store_same x hr] at hr'
    cases hr'
    exact ⟨r, hr, hx⟩
  · rw [read_store_ne x hab] at hr'
    exact ⟨r', hr', Or.inl rfl⟩

theorem keepsclock_modify {env : Env} {s s' : State} {p : Option Nat} {f : ipdetails → ipdetails}
    (h : modify s p f = .ok s')
    (hf : ∀ r, (f r).lastreset = r.lastreset
      ∨ (env.clock_ok = true ∧ (f r).lastreset = env.now)) :
    keepsclock env s s' := by
  obtain ⟨a, r, _, hr, rfl⟩ := modify_ok h
  exact keepsclock_store _ hr (hf r)

theorem keepsclock_createipspace {env : Env} {s s' : State} {q : Option Nat}
    (h : createipspace env s = .ok (q, s')) : keepsclock env s s' := by
  unfold createipspace at h
  by_cases hm : env.malloc_ok = true
  swap
  · simp [hm] at h
    obtain ⟨_, rfl⟩ := h
    exact keepsclock_refl _ _
  by_cases hca : env.calloc_ok = true
  swap
  · by_cases hc : env.clock_ok = true
    · simp [hm, hca, hc] at h
    · simp [hm, hca, hc] at h
      obtain ⟨_, rfl⟩ := h
      exact keepsclock_refl _ _
  simp only [hm, hca, if_true, Res.pure_eq, Res.ok.injEq, Prod.mk.injEq] at h
  obtain ⟨_, rfl⟩ := h
  refine ⟨by simp, ?_⟩
  intro a r' hr'
  constructor
  · intro ha
    refine ⟨r', ?_, Or.inl rfl⟩
    rw [← hr']
    exact (Heap.read_append_lt _ _ ha).symm
  · intro ha
    have hlt := Heap.read_lt hr'
    simp only [List.length_append, List.length_singleton] at hlt
    have hal : a = s.heap.length := by omega
    subst hal
    have hr2 : Heap.read (s.heap ++ [some (if env.clock_ok = true then
        { ipdetails.zero with lastreset := env.now } else ipdetails.zero)]) s.heap.length
        = some r' := hr'
    rw [Heap.read_append_length] at hr2
    cases hr2
    by_cases hc : env.clock_ok = true
    · simp [hc]
    · simp [hc, ipdetails.zero]

theorem keepsclock_checktimeouts {opts : optiondetails} {env : Env} {s s' : State}
    {ip q : Option Nat} (h : checktimeouts opts env s ip = .ok (q, s')) :
    keepsclock env s s' := by
  obtain ⟨_, _, hl, hd⟩ := checktimeouts_data opts env s s' ip q h
  refine ⟨by rw [hl], ?_⟩
  intro c r' hr'
  have hc' : c < s.heap.length := by rw [← hl]; exact Heap.read_lt hr'
  refine ⟨fun _ => ?_, fun h => absurd hc' (not_lt.mpr h)⟩
  by_cases hc : ip = some c
  · subst hc
    rcases checktimeouts_self opts env s s' c q h with h0 | h0
    · rw [h0] at hr'; cases hr'
    · rw [h0] at hr'
      exact ⟨r', hr', Or.inl rfl⟩
  · have := hd c hc
    rw [hr'] at this
    rcases hs : s.heap.read c with _ | r
    · rw [hs] at this; simp at this
    · rw [hs] at this
      simp only [Option.map_some', Option.some.injEq, ipdetails.data, Prod.mk.injEq] at this
      exact ⟨r, rfl, Or.inl this.2.2.2.2⟩

theorem keepsclock_processip {opts : optiondetails} {env : Env} {s s' : State}
    (h : processip opts env s = .ok s') : keepsclock env s s' := by
  unfold processip at h
  obtain ⟨⟨temp1, s1⟩, h1, h⟩ := Res.bind_ok h
  have k1 := keepsclock_checktimeouts h1
  simp only at h
  by_cases hne : temp1 ≠ s.entrypoint
  · rw [if_pos hne] at h
    simp only [Res.pure_eq, Res.ok.injEq] at h
    subst h
    exact keepsclock_trans k1 (keepsclock_of_eq rfl)
  rw [if_neg hne] at h
  obtain ⟨r, _, h⟩ := Res.bind_ok h
  have k2 : keepsclock env s1
      (if checknetarps r > POISON_THRESHOLD then
        if env.malloc_ok then redalert s1 (.poisoner r.ip_address)
        else redalert s1 .poisoner_nomem
      else if checknetarps r < opts.badnet_threshold then
        if env.malloc_ok then redalert s1 (.badnet r.ip_address)
        else redalert s1 .badnet_nomem
      else s1) := by
    split_ifs <;> exact keepsclock_of_eq rfl
  generalize (if checknetarps r > POISON_THRESHOLD then
        if env.malloc_ok then redalert s1 (.poisoner r.ip_address)
        else redalert s1 .poisoner_nomem
      else if checknetarps r < opts.badnet_threshold then
        if env.malloc_ok then redalert s1 (.badnet r.ip_address)
        else redalert s1 .badnet_nomem
      else s1) = s2 at h k2
  by_cases hreset : checknetarps r > opts.poison_threshold ∨ checknetarps r < opts.badnet_threshold
  · simp only [hreset, if_true] at h
    obtain ⟨s3, h3, h⟩ := Res.bind_ok h
    have k3 : keepsclock env s2 s3 := by
      unfold blanknetarps at h3
      cases he : s2.entrypoint with
      | none =>
        rw [he] at h3
        simp only [Res.pure_eq, Res.ok.injEq] at h3
        subst h3
        exact keepsclock_refl _ _
      | some e =>
        rw [he] at h3
        simp only at h3
        obtain ⟨s2a, ha, hb⟩ := Res.bind_ok h3
        exact keepsclock_trans (keepsclock_modify ha (fun _ => Or.inl rfl))
          (keepsclock_modify hb (fun _ => Or.inl rfl))
    have k4 : keepsclock env s3 s' := by
      unfold resettimer at h
      split_ifs at h with hmm hcc
      · exact keepsclock_modify h (fun _ => Or.inr ⟨hcc, rfl⟩)
      · simp only [Res.pure_eq, Res.ok.injEq] at h
        subst h
        exact keepsclock_refl _ _
      · simp only [Res.pure_eq, Res.ok.injEq] at h
        subst h
        exact keepsclock_refl _ _
    exact keepsclock_trans k1 (keepsclock_trans k2 (keepsclock_trans k3 k4))
  · simp only [hreset, if_false, Res.pure_eq, Res.ok.injEq] at h
    subst h
    exact keepsclock_trans k1 k2

theorem keepsclock_dumpdata {env : Env} {s s' : State} {q : Option Nat}
    (h : dumpdata env s q = .ok s') : keepsclock env s s' := by
  unfold dumpdata at h
  obtain ⟨cur, _, h⟩ := Res.bind_ok h
  by_cases ho : env.fopen_ok = true
  · simp only [ho, if_true] at h
    obtain ⟨rows, _, h⟩ := Res.bind_ok h
    simp only [Res.pure_eq, Res.ok.injEq] at h
    subst h
    exact keepsclock_of_eq rfl
  · simp only [ho, Res.pure_eq, Res.ok.injEq] at h
    simp at h
    subst h
    exact keepsclock_refl _ _

theorem keepsclock_addrequest {env : Env} {s s' : State} {ip : Option Nat} {n : Nat}
    (h : addrequest s ip = .ok (n, s')) : keepsclock env s s' := by
  unfold addrequest at h
  cases ip with
  | none =>
    simp only [Res.pure_eq, Res.ok.injEq, Prod.mk.injEq] at h
    obtain ⟨_, rfl⟩ := h
    exact keepsclock_refl _ _
  | some a =>
    simp only at h
    obtain ⟨s1, h1, h⟩ := Res.bind_ok h
    obtain ⟨r, _, h⟩ := Res.bind_ok h
    simp only [Res.pure_eq, Res.ok.injEq, Prod.mk.injEq] at h
    obtain ⟨_, rfl⟩ := h
    exact keepsclock_modify h1 (fun _ => Or.inl rfl)

theorem keepsclock_addreply {env : Env} {s s' : State} {ip : Option Nat} {n : Nat}
    (h : addreply s ip = .ok (n, s')) : keepsclock env s s' := by
  unfold addreply at h
  cases ip with
  | none =>
    simp only [Res.pure_eq, Res.ok.injEq, Prod.mk.injEq] at h
    obtain ⟨_, rfl⟩ := h
    exact keepsclock_refl _ _
  | some a =>
    simp only at h
    obtain ⟨s1, h1, h⟩ := Res.bind_ok h
    obtain ⟨r, _, h⟩ := Res.bind_ok h
    simp only [Res.pure_eq, Res.ok.injEq, Prod.mk.injEq] at h
    obtain ⟨_, rfl⟩ := h
    exact keepsclock_modify h1 (fun _ => Or.inl rfl)

theorem keepsclock_populateipspacereq {env : Env} {s s' : State} {ip : Option Nat}
    {frame : Frame} {n : Int}
    (h : populateipspacereq s ip frame = .ok (n, s')) : keepsclock env s s' := by
  unfold populateipspacereq at h
  cases ip with
  | none =>
    simp only [Res.pure_eq, Res.ok.injEq, Prod.mk.injEq] at h
    obtain ⟨_, rfl⟩ := h
    exact keepsclock_refl _ _
  | some a =>
    simp only at h
    obtain ⟨s1, h1, h⟩ := Res.bind_ok h
    simp only [Res.pure_eq, Res.ok.injEq, Prod.mk.injEq] at h
    obtain ⟨_, rfl⟩ := h
    exact keepsclock_modify h1 (fun _ => Or.inl rfl)

theorem keepsclock_checkmacs {env : Env} {s s' : State} {ip : Option Nat} {m : Mac}
    (h : checkmacs env s ip m = .ok s') : keepsclock env s s' := by
  unfold checkmacs at h
  obtain ⟨r, _, h⟩ := Res.bind_ok h
  split_ifs at h
  · unfold alertdodgymacs at h
    split_ifs at h
    · obtain ⟨r2, _, h⟩ := Res.bind_ok h
      simp only [Res.pure_eq, Res.ok.injEq] at h
      subst h
      exact keepsclock_of_eq rfl
    · simp only [Res.pure_eq, Res.ok.injEq] at h
      subst h
      exact keepsclock_of_eq rfl
  · simp only [Res.pure_eq, Res.ok.injEq] at h
    subst h
    exact keepsclock_refl _ _

theorem keepsclock_populateipspacerep {env : Env} {s s' : State} {ip : Option Nat}
    {frame : Frame} {n : Int}
    (h : populateipspacerep env s ip frame = .ok (n, s')) : keepsclock env s s' := by
  unfold populateipspacerep at h
  cases ip with
  | none =>
    simp only [Res.pure_eq, Res.ok.injEq, Prod.mk.injEq] at h
    obtain ⟨_, rfl⟩ := h
    exact keepsclock_refl _ _
  | some a =>
    simp only at h
    obtain ⟨s1, h1, h⟩ := Res.bind_ok h
    obtain ⟨s2, h2, h⟩ := Res.bind_ok h
    obtain ⟨s3, h3, h⟩ := Res.bind_ok h
    simp only [Res.pure_eq, Res.ok.injEq, Prod.mk.injEq] at h
    obtain ⟨_, rfl⟩ := h
    exact keepsclock_trans (keepsclock_modify h1 (fun _ => Or.inl rfl))
      (keepsclock_trans (keepsclock_modify h2 (fun _ => Or.inl rfl)) (keepsclock_checkmacs h3))

theorem keepsclock_populateipspace {env : Env} {s s' : State} {ip : Option Nat}
    {frame : Frame} {n : Int}
    (h : populateipspace env s ip frame = .ok (n, s')) : keepsclock env s s' := by
  unfold populateipspace at h
  split_ifs at h
  · exact keepsclock_populateipspacereq h
  · exact keepsclock_populateipspacerep h
  · simp only [Res.pure_eq, Res.ok.injEq, Prod.mk.injEq] at h
    obtain ⟨_, rfl⟩ := h
    exact keepsclock_refl _ _
  · simp only [Res.pure_eq, Res.ok.injEq, Prod.mk.injEq] at h
    obtain ⟨_, rfl⟩ := h
    exact keepsclock_refl _ _

theorem keepsclock_linkin {env : Env} {s s' : State} {temp : Option Nat}
    (h : linkin s temp = .ok s') : keepsclock env s s' := by
  unfold linkin at h
  obtain ⟨s1, h1, h⟩ := Res.bind_ok h
  obtain ⟨e, _, h⟩ := Res.bind_ok h
  obtain ⟨s2, h2, h⟩ := Res.bind_ok h
  exact keepsclock_trans (keepsclock_modify h1 (fun _ => Or.inl rfl))
    (keepsclock_trans (keepsclock_modify h2 (fun _ => Or.inl rfl))
      (keepsclock_modify h (fun _ => Or.inl rfl)))

theorem keepsclock_handlerequest {env : Env} {s s' : State} {frame : Frame} {n : Int}
    (h : handlerequest env s frame = .ok (n, s')) : keepsclock env s s' := by
  unfold handlerequest at h
  obtain ⟨temp, _, h⟩ := Res.bind_ok h
  cases temp with
  | some p =>
    simp only at h
    obtain ⟨⟨_, s1⟩, h1, h⟩ := Res.bind_ok h
    simp only [Res.pure_eq, Res.ok.injEq, Prod.mk.injEq] at h
    obtain ⟨_, rfl⟩ := h
    exact keepsclock_trans (@keepsclock_of_eq env s { s with entrypoint := some p } rfl)
      (keepsclock_addrequest h1)
  | none =>
    simp only at h
    obtain ⟨⟨t, s1⟩, h1, h⟩ := Res.bind_ok h
    have k1 := keepsclock_createipspace h1
    cases t with
    | none =>
      simp only [Res.pure_eq, Res.ok.injEq, Prod.mk.injEq] at h
      obtain ⟨_, rfl⟩ := h
      exact k1
    | some t =>
      simp only at h
      obtain ⟨⟨_, s2⟩, h2, h⟩ := Res.bind_ok h
      obtain ⟨s3, h3, h⟩ := Res.bind_ok h
      obtain ⟨⟨_, s4⟩, h4, h⟩ := Res.bind_ok h
      simp only [Res.pure_eq, Res.ok.injEq, Prod.mk.injEq] at h
      obtain ⟨_, rfl⟩ := h
      exact keepsclock_trans k1 (keepsclock_trans (keepsclock_populateipspacereq h2)
        (keepsclock_trans (keepsclock_linkin h3)
          (keepsclock_trans (@keepsclock_of_eq env s3 { s3 with entrypoint := some t } rfl)
            (keepsclock_addrequest h4))))

theorem keepsclock_handlereply {env : Env} {s s' : State} {frame : Frame} {n : Int}
    (h : handlereply env s frame = .ok (n, s')) : keepsclock env s s' := by
  unfold handlereply at h
  obtain ⟨temp, _, h⟩ := Res.bind_ok h
  cases temp with
  | some p =>
    simp only at h
    obtain ⟨r, _, h⟩ := Res.bind_ok h
    obtain ⟨s1, h1, h⟩ := Res.bind_ok h
    obtain ⟨⟨_, s2⟩, h2, h⟩ := Res.bind_ok h
    simp only [Res.pure_eq, Res.ok.injEq, Prod.mk.injEq] at h
    obtain ⟨_, rfl⟩ := h
    have k1 : keepsclock env s s1 := by
      split_ifs at h1
      · exact keepsclock_modify h1 (fun _ => Or.inl rfl)
      · simp only [Res.pure_eq, Res.ok.injEq] at h1
        subst h1
        exact keepsclock_refl _ _
    exact keepsclock_trans k1
      (keepsclock_trans (@keepsclock_of_eq env s1 { s1 with entrypoint := some p } rfl)
        (keepsclock_addreply h2))
  | none =>
    simp only at h
    obtain ⟨⟨t, s1⟩, h1, h⟩ := Res.bind_ok h
    have k1 := keepsclock_createipspace h1
    cases t with
    | none =>
      simp only [Res.pure_eq, Res.ok.injEq, Prod.mk.injEq] at h
      obtain ⟨_, rfl⟩ := h
      exact k1
    | some t =>
      simp only at h
      obtain ⟨⟨_, s2⟩, h2, h⟩ := Res.bind_ok h
      obtain ⟨s3, h3, h⟩ := Res.bind_ok h
      obtain ⟨⟨_, s4⟩, h4, h⟩ := Res.bind_ok h
      simp only [Res.pure_eq, Res.ok.injEq, Prod.mk.injEq] at h
      obtain ⟨_, rfl⟩ := h
      exact keepsclock_trans k1 (keepsclock_trans (keepsclock_populateipspacerep h2)
        (keepsclock_trans (keepsclock_linkin h3)
          (keepsclock_trans (@keepsclock_of_eq env s3 { s3 with entrypoint := some t } rfl)
            (keepsclock_addreply h4))))

theorem keepsclock_checkmacchanges {opts : optiondetails} {env : Env} {s s' : State}
    {ip : Option Nat} {m : Mac} {n : Int}
    (h : checkmacchanges opts env s ip m = .ok (n, s')) : keepsclock env s s' := by
  unfold checkmacchanges at h
  split_ifs at h
  · obtain ⟨r, _, h⟩ := Res.bind_ok h
    split_ifs at h
    · obtain ⟨s1, h1, h⟩ := Res.bind_ok h
      simp only [Res.pure_eq, Res.ok.injEq, Prod.mk.injEq] at h
      obtain ⟨_, rfl⟩ := h
      unfold alertchangedmacs at h1
      split_ifs at h1
      · obtain ⟨r2, _, h1⟩ := Res.bind_ok h1
        simp only [Res.pure_eq, Res.ok.injEq] at h1
        subst h1
        exact keepsclock_of_eq rfl
      · simp only [Res.pure_eq, Res.ok.injEq] at h1
        subst h1
        exact keepsclock_of_eq rfl
    · simp only [Res.pure_eq, Res.ok.injEq, Prod.mk.injEq] at h
      obtain ⟨_, rfl⟩ := h
      exact keepsclock_refl _ _
    · simp only [Res.pure_eq, Res.ok.injEq, Prod.mk.injEq] at h
      obtain ⟨_, rfl⟩ := h
      exact keepsclock_refl _ _
  · simp only [Res.pure_eq, Res.ok.injEq, Prod.mk.injEq] at h
    obtain ⟨_, rfl⟩ := h
    exact keepsclock_refl _ _

theorem keepsclock_processether_op {opts : optiondetails} {env : Env} {s s' : State}
    {frame : Frame} (h : processether_op opts env s frame = .ok s') : keepsclock env s s' := by
  unfold processether_op at h
  split_ifs at h
  · obtain ⟨⟨rc, t⟩, hh, h⟩ := Res.bind_ok h
    have kh := keepsclock_handlerequest hh
    simp only at h
    split_ifs at h
    · simp only [Res.pure_eq, Res.ok.injEq] at h
      subst h
      exact keepsclock_trans kh (keepsclock_of_eq rfl)
    · exact keepsclock_trans kh (keepsclock_processip h)
  · obtain ⟨⟨rc, t⟩, hh, h⟩ := Res.bind_ok h
    have kh := keepsclock_handlereply hh
    simp only at h
    split_ifs at h
    · simp only [Res.pure_eq, Res.ok.injEq] at h
      subst h
      exact keepsclock_trans kh (keepsclock_of_eq rfl)
    · obtain ⟨⟨ch, s2⟩, hc, h⟩ := Res.bind_ok h
      obtain ⟨s3, h3, h⟩ := Res.bind_ok h
      have kc := keepsclock_checkmacchanges hc
      have k3 : keepsclock env s2 s3 := by
        simp only at h3
        split_ifs at h3
        · obtain ⟨⟨_, u⟩, hp, h3⟩ := Res.bind_ok h3
          simp only [Res.pure_eq, Res.ok.injEq] at h3
          subst h3
          exact keepsclock_populateipspacerep hp
        · simp only [Res.pure_eq, Res.ok.injEq] at h3
          subst h3
          exact keepsclock_refl _ _
      exact keepsclock_trans kh (keepsclock_trans kc
        (keepsclock_trans k3 (keepsclock_processip h)))
  · simp only [Res.pure_eq, Res.ok.injEq] at h
    subst h
    exact keepsclock_of_eq rfl

/-- Every call of `processether` that returns writes `lastreset` only with the
current second. -/
theorem keepsclock_processether {opts : optiondetails} {env : Env} {s s' : State}
    {frame : Frame} {n : Int}
    (h : processether opts env s frame = .ok (n, s')) : keepsclock env s s' := by
  unfold processether at h
  by_cases hm : env.malloc_ok = true
  swap
  · simp only [hm, Res.pure_eq, Res.ok.injEq, Prod.mk.injEq] at h
    simp at h
    obtain ⟨_, rfl⟩ := h
    exact keepsclock_of_eq rfl
  simp only [hm, if_true] at h
  obtain ⟨s1, h1, h⟩ := Res.bind_ok h
  have k1 : keepsclock env s s1 := by
    cases he : s.entrypoint with
    | none =>
      rw [he] at h1
      simp only at h1
      obtain ⟨⟨p, t⟩, hc, h1⟩ := Res.bind_ok h1
      simp only [Res.pure_eq, Res.ok.injEq] at h1
      subst h1
      exact keepsclock_trans (keepsclock_createipspace hc) (keepsclock_of_eq rfl)
    | some e =>
      rw [he] at h1
      simp only [Res.pure_eq, Res.ok.injEq] at h1
      subst h1
      exact keepsclock_refl _ _
  cases he1 : s1.entrypoint with
  | none =>
    rw [he1] at h
    simp only [Res.pure_eq, Res.ok.injEq, Prod.mk.injEq] at h
    obtain ⟨_, rfl⟩ := h
    exact keepsclock_trans k1 (keepsclock_of_eq rfl)
  | some e1 =>
    rw [he1] at h
    simp only at h
    obtain ⟨e, _, h⟩ := Res.bind_ok h
    obtain ⟨s2, h2, h⟩ := Res.bind_ok h
    obtain ⟨s3, h3, h⟩ := Res.bind_ok h
    obtain ⟨s4, h4, h⟩ := Res.bind_ok h
    simp only [Res.pure_eq, Res.ok.injEq, Prod.mk.injEq] at h
    obtain ⟨_, rfl⟩ := h
    have k2 : keepsclock env s1 s2 := by
      by_cases hz : e.ip_address.get 0 = 0
      · simp only [hz, if_true] at h2
        obtain ⟨⟨_, t⟩, hp, h2⟩ := Res.bind_ok h2
        simp only [Res.pure_eq, Res.ok.injEq] at h2
        subst h2
        exact keepsclock_populateipspace hp
      · simp only [hz, if_false, Res.pure_eq, Res.ok.injEq] at h2
        subst h2
        exact keepsclock_refl _ _
    exact keepsclock_trans k1 (keepsclock_trans k2
      (keepsclock_trans (keepsclock_processether_op h3) (keepsclock_dumpdata h4)))

/-! ## Frames that are neither requests nor replies -/

/-- What `processether` does with a frame whose operation is neither a request
nor a reply: one `notice`, and `dumpdata`; the entry point is allocated first if
it is `NULL`. -/
theorem processether_other (opts : optiondetails) (env : Env) (s : State) (frame : Frame)
    (hm : env.malloc_ok = true) (hca : env.calloc_ok = true)
    (h1 : frame.op ≠ ARPOP_REQUEST) (h2 : frame.op ≠ ARPOP_REPLY)
    (hs : s.entrypoint = none ∨ ∃ e, s.entrypoint = some e ∧ walkable s (some e) = true) :
    ∃ s', processether opts env s frame = .ok (OK, s')
      ∧ s'.alerts = s.alerts ++ [⟨.NOTICE, .unrecognised⟩]
      ∧ ∀ a r, s.heap.read a = some r → s'.heap.read a = some r := by
  rcases hs with he | ⟨e, he, hw⟩
  · have hR : ∃ R : ipdetails, (if env.clock_ok = true then
        { ipdetails.zero with lastreset := env.now } else ipdetails.zero) = R
        ∧ R.ip_address.get 0 = 0 ∧ R.previous = none ∧ R.next = none := by
      refine ⟨_, rfl, ?_, ?_, ?_⟩ <;> split_ifs <;> rfl
    obtain ⟨R, hRe, hz, hRp, hRn⟩ := hR
    have hrd : Heap.read (s.heap ++ [some R]) s.heap.length = some R :=
      Heap.read_append_length _ _
    have hwk : walkable (notice
        ⟨s.heap ++ [some R], some s.heap.length, s.alerts, s.details_csv⟩ .unrecognised)
        (some s.heap.length) = true :=
      walkable_alone _ _ _ hrd hRp hRn
    obtain ⟨t, ht, hth, _, hta⟩ := dumpdata_of_walkable env _ _ (some s.heap.length) rfl
      (fun _ => rfl) hwk
    refine ⟨t, ?_, ?_, ?_⟩
    · simp only [processether, hm, if_true, he, createipspace, hca, Res.pure_eq, Res.ok_bind,
        hRe, deref_append_length, hz, populateipspace, h1, h2, if_false, processether_op]
      have hent : (notice ⟨s.heap ++ [some R], some s.heap.length, s.alerts, s.details_csv⟩
          .unrecognised).entrypoint = some s.heap.length := rfl
      rw [hent, ht]
      rfl
    · rw [hta]; rfl
    · intro a r hr
      rw [hth]
      show Heap.read (s.heap ++ _) a = some r
      rw [Heap.read_append_lt _ _ (Heap.read_lt hr), hr]
  · have hwe := hw
    unfold walkable at hwe
    rcases hrw : rewindip s (some e) with head | f
    swap
    · rw [hrw] at hwe; simp at hwe
    have hre : ∃ re, s.heap.read e = some re := by
      rcases hx : s.heap.read e with _ | re
      · simp [rewindip, walkfuel, rewindip_loop, deref, hx] at hrw
      · exact ⟨re, rfl⟩
    obtain ⟨re, hre⟩ := hre
    have hwk : walkable (notice s .unrecognised) (some e) = true := by
      rw [walkable_congr s (notice s .unrecognised) (some e) rfl (fun _ => rfl)]
      exact hw
    obtain ⟨t, ht, hth, _, hta⟩ := dumpdata_of_walkable env _ _ (some e) rfl (fun _ => rfl) hwk
    refine ⟨t, ?_, ?_, ?_⟩
    · simp only [processether, hm, if_true, he, Res.pure_eq, Res.ok_bind, deref_of_read hre,
        populateipspace, h1, h2, if_false, processether_op]
      have hent : (notice s .unrecognised).entrypoint = some e := he
      by_cases hz : re.ip_address.get 0 = 0
      · simp only [hz, if_true, Res.ok_bind, hent, ht]
      · simp only [hz, if_false, Res.ok_bind, hent, ht]
    · rw [hta]; rfl
    · intro a r hr
      rw [hth]
      exact hr

/-! ## alert.c: what the alert routines do -/

theorem converse_events (steps : List (List String × String)) :
    ∀ (recvs : List Recv), ∀ e ∈ (AlertC.converse steps recvs).2, e.is_netsend = true := by
  induction steps with
  | nil => intro recvs e he; simp [AlertC.converse] at he
  | cons st rest ih =>
    intro recvs e he
    obtain ⟨sends, expect⟩ := st
    simp only [AlertC.converse] at he
    split_ifs at he
    · simp only [List.mem_map] at he
      obtain ⟨x, _, rfl⟩ := he
      rfl
    · simp only [List.mem_append, List.mem_map] at he
      rcases he with ⟨x, _, rfl⟩ | he
      · rfl
      · exact ih _ e he

/-- What `mailalert` does: its entry, then buffers sent to the server. -/
theorem mailalert_events (options : optiondetails) (env : Smtp) (recipient subject msg : String) :
    ∃ sent, (AlertC.mailalert options env recipient subject msg).2
        = Event.mailalert recipient subject msg :: sent
      ∧ ∀ e ∈ sent, e.is_netsend = true := by
  unfold AlertC.mailalert
  simp only
  split_ifs
  · exact ⟨[], rfl, by simp⟩
  · exact ⟨[], rfl, by simp⟩
  · exact ⟨[], rfl, by simp⟩
  · exact ⟨[], rfl, by simp⟩
  · exact ⟨[], rfl, by simp⟩
  · exact ⟨_, rfl, converse_events _ _⟩

/-- What `netalert` does: its entry, the call of `mailalert`, and at most one
entry in the local log; it returns 0. -/
theorem netalert_events (options : optiondetails) (env : Smtp) (err : String) :
    (AlertC.netalert options env err).1 = 0
    ∧ ∃ sent logged, (AlertC.netalert options env err).2
        = Event.netalert err
          :: Event.mailalert options.root_email "Network Alert from Antidote" err
          :: (sent ++ logged)
      ∧ (∀ e ∈ sent, e.is_netsend = true) ∧ (∀ e ∈ logged, e.is_syslog = true) := by
  obtain ⟨sent, hs, hsent⟩ := mailalert_events options env options.root_email
    "Network Alert from Antidote" err
  have hne : Obj.options_root_email ≠ Obj.literal_NO := by decide
  unfold AlertC.netalert
  simp only [hne, ne_eq, not_false_eq_true, if_true]
  rw [hs]
  have hlg : ∀ e ∈ (if (AlertC.mailalert options env options.root_email
        "Network Alert from Antidote" err).1 = ERR_NOMEM then
        [Event.syslog .LOG_AUTHPRIV .LOG_ERR "Insufficient memory to send email alert."]
      else if (AlertC.mailalert options env options.root_email
        "Network Alert from Antidote" err).1 = ERR_CANNOTGETMAILSERVER then
        [Event.syslog .LOG_AUTHPRIV .LOG_ERR "Cannot contact mail server."]
      else if (AlertC.mailalert options env options.root_email
        "Network Alert from Antidote" err).1 = ERR_CONNECTCLOSED then
        [Event.syslog .LOG_AUTHPRIV .LOG_ERR "Connection to mail server unexpectedly closed."]
      else if (AlertC.mailalert options env options.root_email
        "Network Alert from Antidote" err).1 = ERR_WRONGREPLY then
        [Event.syslog .LOG_AUTHPRIV .LOG_ERR "Mail server sent unrecognised reply."]
      else []), e.is_syslog = true := by
    intro e he
    split_ifs at he <;> simp at he <;> subst he <;> rfl
  exact ⟨trivial, sent, _, by simp, hsent, hlg⟩

/-! ## Texts and numbers of `checkopts.c` -/

theorem digitchar_facts (d : Nat) (h : d < 10) :
    (digitchar d).isDigit = true ∧ (digitchar d).toNat - 48 = d
      ∧ digitchar d ≠ Char.ofNat 0 ∧ digitchar d ≠ Char.ofNat 45
      ∧ digitchar d ≠ Char.ofNat 43 ∧ isspace (digitchar d).toNat = false := by
  interval_cases d <;> decide

theorem cstr_mk (l : List Char) (h : ∀ c ∈ l, c ≠ Char.ofNat 0) : cstr (String.mk l) = l := by
  unfold cstr
  show List.takeWhile (fun c => decide (c ≠ Char.ofNat 0)) l = l
  rw [List.takeWhile_eq_self_iff]
  intro c hc
  simpa using h c hc

theorem cstr_no_nul (s : String) : ∀ c ∈ cstr s, c ≠ Char.ofNat 0 := by
  intro c hc
  unfold cstr at hc
  have := List.mem_takeWhile_imp hc
  simpa using this

theorem readdigits_digits (ds : List Nat) :
    ∀ acc, (∀ d ∈ ds, d < 10) →
      readdigits (ds.map digitchar) acc = acc * 10 ^ ds.length + Nat.ofDigits 10 ds.reverse := by
  induction ds with
  | nil => intro acc _; simp [readdigits]
  | cons d ds ih =>
    intro acc h
    have hd := digitchar_facts d (h d (List.mem_cons_self _ _))
    have ih1 := ih (10 * acc + d) (fun x hx => h x (List.mem_cons_of_mem _ hx))
    simp only [List.map_cons, readdigits, hd.1, if_true, hd.2.1, ih1, List.reverse_cons,
      Nat.ofDigits_append, List.length_cons, List.length_reverse, Nat.ofDigits_singleton]
    ring

theorem strtol_decimaltext (neg : Bool) (ds : List Nat) (h : ∀ d ∈ ds, d < 10) :
    atol (decimaltext neg ds)
      = max (-9223372036854775808) (min 9223372036854775807 (decimalvalue neg ds)) := by
  have hn : ∀ c ∈ (if neg then [Char.ofNat 45] else []) ++ ds.map digitchar,
      c ≠ Char.ofNat 0 := by
    intro c hc
    rw [List.mem_append] at hc
    rcases hc with hc | hc
    · cases neg
      · simp at hc
      · simp only [if_true, List.mem_singleton] at hc
        subst hc
        decide
    · rw [List.mem_map] at hc
      obtain ⟨d, hd, rfl⟩ := hc
      exact (digitchar_facts d (h d hd)).2.2.1
  unfold atol decimaltext
  rw [cstr_mk _ hn]
  unfold strtol decimalvalue
  cases neg
  · cases ds with
    | nil => simp
    | cons d ds =>
      have hd := digitchar_facts d (h d (List.mem_cons_self _ _))
      have hr := readdigits_digits (d :: ds) 0 h
      simp only [List.map_cons] at hr
      simp only [Bool.false_eq_true, if_false, List.nil_append, List.map_cons,
        List.dropWhile_cons, hd.2.2.2.2.2, hd.2.2.2.1, hd.2.2.2.2.1, hr]
      simp
  · have hr := readdigits_digits ds 0 h
    simp only [Nat.zero_mul, Nat.zero_add] at hr
    have h45 : isspace (Char.ofNat 45).toNat = false := by decide
    simp only [if_true, List.singleton_append, List.dropWhile_cons, h45, hr]
    simp [hr]


theorem setoption_timeout (options : optiondetails) (v : String) :
    setoption options "timeout" v
      = (OK, { options with timeout := to_long (60 * atol v) }) := by
  unfold setoption
  simp only [show strcasecmp (cstr "timeout") "ethernetdevice".toList ≠ 0 by decide,
    show strcasecmp (cstr "timeout") "emailsender".toList ≠ 0 by decide,
    show strcasecmp (cstr "timeout") "emailrecipient".toList ≠ 0 by decide,
    show strcasecmp (cstr "timeout") "emailserver".toList ≠ 0 by decide,
    show strcasecmp (cstr "timeout") "emailserverport".toList ≠ 0 by decide,
    show strcasecmp (cstr "timeout") "promiscuous".toList ≠ 0 by decide,
    show strcasecmp (cstr "timeout") "checkmacchanges".toList ≠ 0 by decide,
    show strcasecmp (cstr "timeout") "poisonthreshold".toList ≠ 0 by decide,
    show strcasecmp (cstr "timeout") "badnetthreshold".toList ≠ 0 by decide,
    show strcasecmp (cstr "timeout") "timeout".toList = 0 by decide, if_true, if_false]


/-! ## Comparison of option names -/

theorem char_eq_of_toNat (a b : Char) (h : a.toNat = b.toNat) : a = b := by
  apply Char.ext
  apply UInt32.ext
  exact h

theorem toLower_toNat_ne_zero (c : Char) (h : c ≠ Char.ofNat 0) : c.toLower.toNat ≠ 0 := by
  have hc : c.toNat ≠ 0 := by
    intro h0
    exact h (char_eq_of_toNat _ _ h0)
  unfold Char.toLower
  simp only
  split
  · rename_i hr
    generalize c.toNat = n at hr hc
    obtain ⟨h1, h2⟩ := hr
    interval_cases n <;> decide
  · exact hc

theorem toLower_idem (c : Char) : c.toLower.toLower = c.toLower := by
  unfold Char.toLower
  simp only
  split
  · rename_i hr
    generalize c.toNat = n at hr
    obtain ⟨h1, h2⟩ := hr
    interval_cases n <;> decide
  · rename_i hr
    simp only [hr, if_false]

theorem strcasecmp_eq_zero_iff (a : List Char) :
    ∀ b : List Char, (∀ c ∈ a, c ≠ Char.ofNat 0) → (∀ c ∈ b, c ≠ Char.ofNat 0) →
      (strcasecmp a b = 0 ↔ a.map Char.toLower = b.map Char.toLower) := by
  induction a with
  | nil =>
    intro b _ hb
    cases b with
    | nil => simp [strcasecmp]
    | cons y ys =>
      have := toLower_toNat_ne_zero y (hb y (List.mem_cons_self _ _))
      simp only [strcasecmp, List.map_nil, List.map_cons]
      constructor
      · intro h; omega
      · intro h; cases h
  | cons x xs ih =>
    intro b ha hb
    cases b with
    | nil =>
      have := toLower_toNat_ne_zero x (ha x (List.mem_cons_self _ _))
      simp only [strcasecmp, List.map_nil, List.map_cons]
      constructor
      · intro h; omega
      · intro h; cases h
    | cons y ys =>
      simp only [strcasecmp, List.map_cons, List.cons.injEq]
      by_cases hxy : x.toLower = y.toLower
      · simp only [hxy, if_true, true_and]
        exact ih ys (fun c hc => ha c (List.mem_cons_of_mem _ hc))
          (fun c hc => hb c (List.mem_cons_of_mem _ hc))
      · simp only [hxy, if_false, false_and, iff_false]
        intro h
        apply hxy
        apply char_eq_of_toNat
        omega

theorem strcasecmp_congr (a : List Char) :
    ∀ a' b : List Char, a.map Char.toLower = a'.map Char.toLower →
      strcasecmp a b = strcasecmp a' b := by
  induction a with
  | nil =>
    intro a' b h
    cases a' with
    | nil => rfl
    | cons _ _ => simp at h
  | cons x xs ih =>
    intro a' b h
    cases a' with
    | nil => simp at h
    | cons x' xs' =>
      simp only [List.map_cons, List.cons.injEq] at h
      cases b with
      | nil => simp only [strcasecmp, h.1]
      | cons y ys =>
        simp only [strcasecmp, h.1]
        rw [ih xs' ys h.2]

theorem strcasecmp_optionname (a : List Char) (ha : ∀ c ∈ a, c ≠ Char.ofNat 0) (k : String)
    (hk : k ∈ optionnames) :
    strcasecmp a k.toList = 0 ↔ a.map Char.toLower = k.toList := by
  have hk2 : (∀ c ∈ k.toList, c ≠ Char.ofNat 0) ∧ k.toList.map Char.toLower = k.toList := by
    simp only [optionnames, List.mem_cons, List.mem_singleton, List.not_mem_nil, or_false] at hk
    rcases hk with rfl | rfl | rfl | rfl | rfl | rfl | rfl | rfl | rfl | rfl <;> decide
  rw [strcasecmp_eq_zero_iff a k.toList ha hk2.1, hk2.2]

/-- The value of `setoption` depends on the name only through its lower-case
form. -/
theorem setoption_congr (options : optiondetails) (a b val : String)
    (h : (cstr a).map Char.toLower = (cstr b).map Char.toLower) :
    setoption options a val = setoption options b val := by
  unfold setoption
  simp only [strcasecmp_congr (cstr a) (cstr b) _ h]


/-! ## The loop of `eatuseless` at the end of the file -/

theorem fgetc_at_end (content : List Nat) :
    fgetc ⟨content, content.length⟩ = (EOF, ⟨content, content.length⟩) := by
  simp [fgetc]

/-- Inside a comment at the end of the file no number of iterations ends the
loop: `fgetc` returns `EOF` each time, which is neither `\r` nor `\n`. -/
theorem eatuseless_loop_comment_at_end (content : List Nat) :
    ∀ fuel, eatuseless_loop fuel ⟨content, content.length⟩ true
      = .fault .no_termination := by
  intro fuel
  induction fuel with
  | zero => rfl
  | succ n ih =>
    unfold eatuseless_loop
    simp only [fgetc_at_end]
    have h1 : ¬ (tochar EOF = 13 ∨ tochar EOF = 10) := by decide
    simp only [Bool.true_eq_false, if_false, h1]
    exact ih


/-! ## Searches on a well-formed list -/

theorem islist_cons {s : State} {prev : Option Nat} {a : Nat} {rest : List Nat}
    (h : islist s prev (a :: rest) = true) :
    ∃ r, s.heap.read a = some r ∧ r.previous = prev ∧ r.next = rest.head?
      ∧ islist s (some a) rest = true := by
  unfold islist at h
  cases hr : s.heap.read a with
  | none => rw [hr] at h; cases h
  | some r =>
    rw [hr] at h
    simp only [Bool.and_eq_true, beq_iff_eq] at h
    exact ⟨r, rfl, h.1.1, h.1.2, h.2⟩

theorem islist_append_node (s : State) (l1 : List Nat) :
    ∀ (prev : Option Nat) (a : Nat) (l2 : List Nat), islist s prev (l1 ++ a :: l2) = true →
      ∃ r, s.heap.read a = some r ∧ r.previous = (l1.getLast?.or prev)
        ∧ r.next = l2.head? ∧ islist s (some a) l2 = true := by
  induction l1 with
  | nil =>
    intro prev a l2 h
    obtain ⟨r, hr, hp, hn, ht⟩ := islist_cons h
    exact ⟨r, hr, by simpa using hp, hn, ht⟩
  | cons b l1 ih =>
    intro prev a l2 h
    obtain ⟨rb, _, _, _, ht⟩ := islist_cons h
    obtain ⟨r, hr, hp, hn, ht2⟩ := ih (some b) a l2 ht
    refine ⟨r, hr, ?_, hn, ht2⟩
    rw [hp]
    cases l1 with
    | nil => simp
    | cons c l1 =>
      rw [List.getLast?_cons_cons, List.getLast?_eq_getLast _ (List.cons_ne_nil c l1)]
      simp

theorem islist_live (s : State) (l : List Nat) :
    ∀ (prev : Option Nat) (a : Nat), islist s prev l = true → a ∈ l →
      ∃ r, s.heap.read a = some r := by
  induction l with
  | nil => intro _ a _ ha; cases ha
  | cons b l ih =>
    intro prev a h ha
    obtain ⟨rb, hb, _, _, ht⟩ := islist_cons h
    rcases List.mem_cons.1 ha with rfl | ha
    · exact ⟨rb, hb⟩
    · exact ih _ a ht ha

theorem islist_length_le (s : State) (l : List Nat) (prev : Option Nat) (hn : l.Nodup)
    (h : islist s prev l = true) : l.length ≤ s.heap.length := by
  have hsub : l ⊆ List.range s.heap.length := by
    intro a ha
    obtain ⟨r, hr⟩ := islist_live s l prev a h ha
    exact List.mem_range.2 (Heap.read_lt hr)
  have := (List.Nodup.subperm hn hsub).length_le
  simpa using this

theorem matchat_iff (s : State) (ipaddress : Ip) (a : Nat) :
    matchat s ipaddress a = true ↔ ∃ r, s.heap.read a = some r ∧ r.ip_address = ipaddress := by
  unfold matchat
  cases hr : s.heap.read a with
  | none => simp
  | some r => simp [ipmatch_iff]

/-- On a well-formed list `searchforwards` returns the first record that holds the
address, or `NULL` when none does. -/
theorem searchforwards_islist (s : State) (ipaddress : Ip) (l : List Nat) :
    ∀ (prev : Option Nat) (fuel : Nat), islist s prev l = true → l.length < fuel →
      searchforwards s fuel l.head? ipaddress = .ok (l.find? (matchat s ipaddress)) := by
  induction l with
  | nil =>
    intro prev fuel _ _
    cases fuel <;> rfl
  | cons a rest ih =>
    intro prev fuel h hf
    obtain ⟨r, hr, _, hn, ht⟩ := islist_cons h
    cases fuel with
    | zero => simp at hf
    | succ f =>
      simp only [List.head?_cons, searchforwards, deref_of_read hr, Res.ok_bind,
        List.find?_cons]
      have hm : matchat s ipaddress a = ipmatch r ipaddress := by simp [matchat, hr]
      rw [hm]
      cases hi : ipmatch r ipaddress with
      | true => simp
      | false =>
        simp only [Bool.false_eq_true, if_false]
        rw [hn]
        exact ih (some a) f ht (by simpa using hf)

/-- On a well-formed list `searchbackwards` from the record before `x` returns the
nearest record before `x` that holds the address, or `NULL` when none does. -/
theorem searchbackwards_islist (s : State) (ipaddress : Ip) (pre : List Nat) :
    ∀ (x : Nat) (rest : List Nat) (fuel : Nat), islist s none (pre ++ x :: rest) = true →
      pre.length < fuel →
      searchbackwards s fuel pre.getLast? ipaddress
        = .ok (pre.reverse.find? (matchat s ipaddress)) := by
  induction pre using List.reverseRecOn with
  | nil =>
    intro x rest fuel _ _
    cases fuel <;> rfl
  | append_singleton pre y ih =>
    intro x rest fuel h hf
    have h' : islist s none (pre ++ y :: (x :: rest)) = true := by
      simpa [List.append_assoc] using h
    obtain ⟨r, hr, hp, _, _⟩ := islist_append_node s pre none y (x :: rest) h'
    cases fuel with
    | zero => simp at hf
    | succ f =>
      simp only [List.getLast?_append, List.getLast?_singleton, Option.or_some,
        List.reverse_append, List.reverse_singleton, List.singleton_append, List.find?_cons,
        searchbackwards, deref_of_read hr, Res.ok_bind]
      have hm : matchat s ipaddress y = ipmatch r ipaddress := by simp [matchat, hr]
      rw [hm]
      cases hi : ipmatch r ipaddress with
      | true => simp
      | false =>
        simp only [Bool.false_eq_true, if_false]
        rw [hp]
        simp only [Option.or_none]
        exact ih y (x :: rest) f h' (by simpa using hf)


/-- In a well-formed list the record after a record points back to it. -/
theorem islist_next_previous (s : State) (prev : Option Nat) (l : List Nat) (a n : Nat)
    (r : ipdetails) (h : islist s prev l = true) (ha : a ∈ l) (hr : s.heap.read a = some r)
    (hn : r.next = some n) : ∃ rn, s.heap.read n = some rn ∧ rn.previous = some a := by
  obtain ⟨l1, l2, rfl⟩ := List.append_of_mem ha
  obtain ⟨r', hr', _, hn', ht⟩ := islist_append_node s l1 prev a l2 h
  rw [hr] at hr'
  cases hr'
  rw [hn] at hn'
  cases l2 with
  | nil => cases hn'
  | cons m l2 =>
    simp only [List.head?_cons, Option.some.injEq] at hn'
    subst hn'
    obtain ⟨rn, hrn, hp, _, _⟩ := islist_cons ht
    exact ⟨rn, hrn, hp⟩

/-- A state in which the record behind the record at `a` does not point back to
it has no well-formed list through `a`. -/
theorem not_islist_of_links (s : State) (a n : Nat) (p : Option Nat)
    (h2 : (s.heap.read a).map ipdetails.links = some (p, some n))
    (h1 : ∃ b x, (s.heap.read n).map ipdetails.links = some (some b, x) ∧ b ≠ a) :
    ∀ (prev : Option Nat) (l : List Nat), a ∈ l → islist s prev l = false := by
  intro prev l ha
  cases hl : islist s prev l with
  | false => rfl
  | true =>
    exfalso
    cases hr : s.heap.read a with
    | none => rw [hr] at h2; cases h2
    | some r =>
      rw [hr] at h2
      simp only [Option.map_some', ipdetails.links, Option.some.injEq, Prod.mk.injEq] at h2
      obtain ⟨rn, hrn, hp⟩ := islist_next_previous s prev l a n r hl ha hr h2.2
      obtain ⟨b, x, hb, hne⟩ := h1
      rw [hrn] at hb
      simp only [Option.map_some', ipdetails.links, Option.some.injEq, Prod.mk.injEq] at hb
      rw [hp] at hb
      exact hne (Option.some.inj hb.1).symm


/-! ## Statements that keep the counters within the thresholds -/

theorem checknetarps_congr {r r' : ipdetails} (h1 : r'.requests = r.requests)
    (h2 : r'.replies = r.replies) : checknetarps r' = checknetarps r := by
  unfold checknetarps
  rw [h1, h2]

theorem checknetarps_zero {r : ipdetails} (h1 : r.requests = 0) (h2 : r.replies = 0) :
    checknetarps r = 0 := by
  unfold checknetarps
  rw [h1, h2]
  decide

theorem netbut_of_keeps {opts : optiondetails} {x : Option Nat} {s s' : State}
    (hb : opts.badnet_threshold ≤ 0) (hp : 0 ≤ opts.poison_threshold)
    (hn : netbut opts x s) (hk : keepscounts x s s') : netbut opts x s' := by
  intro a r' hr' hx
  rcases hk.2 a r' hr' hx with ⟨r, hr, h1, h2⟩ | ⟨h1, h2⟩
  · have := hn a r hr hx
    unfold inrange at this ⊢
    rw [checknetarps_congr h1 h2]
    exact this
  · unfold inrange
    rw [checknetarps_zero h1 h2]
    exact ⟨hb, hp⟩

theorem netbut_weaken {opts : optiondetails} {x : Option Nat} {s : State}
    (hn : netbut opts none s) : netbut opts x s :=
  fun a r hr _ => hn a r hr (by simp)

theorem netbut_of_heap {opts : optiondetails} {x : Option Nat} {s s' : State}
    (hh : s'.heap = s.heap) (hn : netbut opts x s) : netbut opts x s' := by
  intro a r hr hx
  rw [hh] at hr
  exact hn a r hr hx

theorem keepscounts_of_eq {x : Option Nat} {s s' : State} (hh : s'.heap = s.heap)
    (he : s'.entrypoint = s.entrypoint) : keepscounts x s s' := by
  refine ⟨he, ?_⟩
  intro a r' hr' _
  rw [hh] at hr'
  exact Or.inl ⟨r', hr', rfl, rfl⟩

theorem keepscounts_refl (x : Option Nat) (s : State) : keepscounts x s s :=
  keepscounts_of_eq rfl rfl

theorem keepscounts_trans {x : Option Nat} {s s' s'' : State} (h1 : keepscounts x s s')
    (h2 : keepscounts x s' s'') : keepscounts x s s'' := by
  refine ⟨h2.1.trans h1.1, ?_⟩
  intro a r'' hr'' hx
  rcases h2.2 a r'' hr'' hx with ⟨r', hr', e1, e2⟩ | hz
  · rcases h1.2 a r' hr' hx with ⟨r, hr, f1, f2⟩ | ⟨f1, f2⟩
    · exact Or.inl ⟨r, hr, e1.trans f1, e2.trans f2⟩
    · exact Or.inr ⟨e1.trans f1, e2.trans f2⟩
  · exact Or.inr hz

theorem keepscounts_store {x : Option Nat} {s : State} {a : Nat} {r : ipdetails}
    (y : ipdetails) (hr : s.heap.read a = some r)
    (hy : x = some a ∨ (y.requests = r.requests ∧ y.replies = r.replies)) :
    keepscounts x s (store s a y) := by
  refine ⟨by simp, ?_⟩
  intro b r' hr' hx
  by_cases hab : a = b
  · subst hab
    rw [read_store_same y hr] at hr'
    cases hr'
    rcases hy with hy | hy
    · exact absurd hy.symm hx
    · exact Or.inl ⟨r, hr, hy.1, hy.2⟩
  · rw [read_store_ne y hab] at hr'
    exact Or.inl ⟨r', hr', rfl, rfl⟩

theorem keepscounts_modify {x : Option Nat} {s s' : State} {p : Option Nat}
    {f : ipdetails → ipdetails} (h : modify s p f = .ok s')
    (hf : x = p ∨ ∀ r, (f r).requests = r.requests ∧ (f r).replies = r.replies) :
    keepscounts x s s' := by
  obtain ⟨a, r, hp, hr, rfl⟩ := modify_ok h
  subst hp
  refine keepscounts_store _ hr ?_
  rcases hf with hf | hf
  · exact Or.inl hf
  · exact Or.inr (hf r)

theorem keepscounts_createipspace {x : Option Nat} {env : Env} {s s' : State} {q : Option Nat}
    (h : createipspace env s = .ok (q, s')) : keepscounts x s s' := by
  unfold createipspace at h
  by_cases hm : env.malloc_ok = true
  swap
  · simp [hm] at h
    obtain ⟨_, rfl⟩ := h
    exact keepscounts_refl _ _
  by_cases hca : env.calloc_ok = true
  swap
  · by_cases hc : env.clock_ok = true
    · simp [hm, hca, hc] at h
    · simp [hm, hca, hc] at h
      obtain ⟨_, rfl⟩ := h
      exact keepscounts_refl _ _
  simp only [hm, hca, if_true, Res.pure_eq, Res.ok.injEq, Prod.mk.injEq] at h
  obtain ⟨_, rfl⟩ := h
  refine ⟨rfl, ?_⟩
  intro a r' hr' _
  by_cases ha : a < s.heap.length
  · refine Or.inl ⟨r', ?_, rfl, rfl⟩
    rw [← hr']
    exact (Heap.read_append_lt _ _ ha).symm
  · have hlt := Heap.read_lt hr'
    simp only [List.length_append, List.length_singleton] at hlt
    have hal : a = s.heap.length := by omega
    subst hal
    have hr2 : Heap.read (s.heap ++ [some (if env.clock_ok = true then
        { ipdetails.zero with lastreset := env.now } else ipdetails.zero)]) s.heap.length
        = some r' := hr'
    rw [Heap.read_append_length] at hr2
    cases hr2
    by_cases hc : env.clock_ok = true
    · simp [hc, ipdetails.zero]
    · simp [hc, ipdetails.zero]

theorem keepscounts_checktimeouts {x : Option Nat} {opts : optiondetails} {env : Env}
    {s s' : State} {ip q : Option Nat} (h : checktimeouts opts env s ip = .ok (q, s')) :
    keepscounts x s s' := by
  obtain ⟨_, he, _, hd⟩ := checktimeouts_data opts env s s' ip q h
  refine ⟨he, ?_⟩
  intro c r' hr' _
  by_cases hc : ip = some c
  · subst hc
    rcases checktimeouts_self opts env s s' c q h with h0 | h0
    · rw [h0] at hr'; cases hr'
    · rw [h0] at hr'
      exact Or.inl ⟨r', hr', rfl, rfl⟩
  · have := hd c hc
    rw [hr'] at this
    rcases hs : s.heap.read c with _ | r
    · rw [hs] at this; simp at this
    · rw [hs] at this
      simp only [Option.map_some', Option.some.injEq, ipdetails.data, Prod.mk.injEq] at this
      exact Or.inl ⟨r, rfl, this.2.2.1, this.2.2.2.1⟩

/-- A call of `checktimeouts` that returns another pointer than `ip`, and not
`NULL`, has freed the record `*ip`. -/
theorem checktimeouts_moved {opts : optiondetails} {env : Env} {s s' : State}
    {ip q : Option Nat} (h : checktimeouts opts env s ip = .ok (q, s'))
    (hq : q ≠ ip) (hn : q ≠ none) : ∃ a, ip = some a ∧ s'.heap.read a = none := by
  unfold checktimeouts at h
  by_cases hm : env.malloc_ok = true
  swap
  · simp [hm] at h
    exact absurd h.1.symm hq
  by_cases hc : env.clock_ok = true
  swap
  · simp [hm, hc] at h
    exact absurd h.1.symm hn
  simp only [hm, hc, if_true] at h
  obtain ⟨r, hr, h⟩ := Res.bind_ok h
  obtain ⟨a, rfl, hra⟩ := deref_ok hr
  by_cases hx : r.lastreset + opts.timeout < env.now
  swap
  · simp [hx] at h
    exact absurd h.1.symm hq
  simp only [hx, if_true] at h
  obtain ⟨s1, h1, h⟩ := Res.bind_ok h
  obtain ⟨s2, h2, h⟩ := Res.bind_ok h
  simp only [Res.pure_eq, Res.ok.injEq, Prod.mk.injEq] at h
  obtain ⟨_, rfl⟩ := h
  exact ⟨a, rfl, Heap.read_free_same _ _⟩

theorem keepscounts_addrequest {s s' : State} {ip : Option Nat} {n : Nat}
    (h : addrequest s ip = .ok (n, s')) : keepscounts ip s s' := by
  unfold addrequest at h
  cases ip with
  | none =>
    simp only [Res.pure_eq, Res.ok.injEq, Prod.mk.injEq] at h
    obtain ⟨_, rfl⟩ := h
    exact keepscounts_refl _ _
  | some a =>
    simp only at h
    obtain ⟨s1, h1, h⟩ := Res.bind_ok h
    obtain ⟨r, _, h⟩ := Res.bind_ok h
    simp only [Res.pure_eq, Res.ok.injEq, Prod.mk.injEq] at h
    obtain ⟨_, rfl⟩ := h
    exact keepscounts_modify h1 (Or.inl rfl)

theorem keepscounts_addreply {s s' : State} {ip : Option Nat} {n : Nat}
    (h : addreply s ip = .ok (n, s')) : keepscounts ip s s' := by
  unfold addreply at h
  cases ip with
  | none =>
    simp only [Res.pure_eq, Res.ok.injEq, Prod.mk.injEq] at h
    obtain ⟨_, rfl⟩ := h
    exact keepscounts_refl _ _
  | some a =>
    simp only at h
    obtain ⟨s1, h1, h⟩ := Res.bind_ok h
    obtain ⟨r, _, h⟩ := Res.bind_ok h
    simp only [Res.pure_eq, Res.ok.injEq, Prod.mk.injEq] at h
    obtain ⟨_, rfl⟩ := h
    exact keepscounts_modify h1 (Or.inl rfl)

theorem keepscounts_populateipspacereq {x : Option Nat} {s s' : State} {ip : Option Nat}
    {frame : Frame} {n : Int}
    (h : populateipspacereq s ip frame = .ok (n, s')) : keepscounts x s s' := by
  unfold populateipspacereq at h
  cases ip with
  | none =>
    simp only [Res.pure_eq, Res.ok.injEq, Prod.mk.injEq] at h
    obtain ⟨_, rfl⟩ := h
    exact keepscounts_refl _ _
  | some a =>
    simp only at h
    obtain ⟨s1, h1, h⟩ := Res.bind_ok h
    simp only [Res.pure_eq, Res.ok.injEq, Prod.mk.injEq] at h
    obtain ⟨_, rfl⟩ := h
    exact keepscounts_modify h1 (Or.inr fun _ => ⟨rfl, rfl⟩)

theorem keepscounts_checkmacs {x : Option Nat} {env : Env} {s s' : State} {ip : Option Nat}
    {m : Mac} (h : checkmacs env s ip m = .ok s') : keepscounts x s s' := by
  unfold checkmacs at h
  obtain ⟨r, _, h⟩ := Res.bind_ok h
  split_ifs at h
  · unfold alertdodgymacs at h
    split_ifs at h
    · obtain ⟨r2, _, h⟩ := Res.bind_ok h
      simp only [Res.pure_eq, Res.ok.injEq] at h
      subst h
      exact keepscounts_of_eq rfl rfl
    · simp only [Res.pure_eq, Res.ok.injEq] at h
      subst h
      exact keepscounts_of_eq rfl rfl
  · simp only [Res.pure_eq, Res.ok.injEq] at h
    subst h
    exact keepscounts_refl _ _

theorem keepscounts_populateipspacerep {x : Option Nat} {env : Env} {s s' : State}
    {ip : Option Nat} {frame : Frame} {n : Int}
    (h : populateipspacerep env s ip frame = .ok (n, s')) : keepscounts x s s' := by
  unfold populateipspacerep at h
  cases ip with
  | none =>
    simp only [Res.pure_eq, Res.ok.injEq, Prod.mk.injEq] at h
    obtain ⟨_, rfl⟩ := h
    exact keepscounts_refl _ _
  | some a =>
    simp only at h
    obtain ⟨s1, h1, h⟩ := Res.bind_ok h
    obtain ⟨s2, h2, h⟩ := Res.bind_ok h
    obtain ⟨s3, h3, h⟩ := Res.bind_ok h
    simp only [Res.pure_eq, Res.ok.injEq, Prod.mk.injEq] at h
    obtain ⟨_, rfl⟩ := h
    exact keepscounts_trans (keepscounts_modify h1 (Or.inr fun _ => ⟨rfl, rfl⟩))
      (keepscounts_trans (keepscounts_modify h2 (Or.inr fun _ => ⟨rfl, rfl⟩))
        (keepscounts_checkmacs h3))

theorem keepscounts_populateipspace {x : Option Nat} {env : Env} {s s' : State}
    {ip : Option Nat} {frame : Frame} {n : Int}
    (h : populateipspace env s ip frame = .ok (n, s')) : keepscounts x s s' := by
  unfold populateipspace at h
  split_ifs at h
  · exact keepscounts_populateipspacereq h
  · exact keepscounts_populateipspacerep h
  · simp only [Res.pure_eq, Res.ok.injEq, Prod.mk.injEq] at h
    obtain ⟨_, rfl⟩ := h
    exact keepscounts_refl _ _
  · simp only [Res.pure_eq, Res.ok.injEq, Prod.mk.injEq] at h
    obtain ⟨_, rfl⟩ := h
    exact keepscounts_refl _ _

theorem keepscounts_linkin {x : Option Nat} {s s' : State} {temp : Option Nat}
    (h : linkin s temp = .ok s') : keepscounts x s s' := by
  unfold linkin at h
  obtain ⟨s1, h1, h⟩ := Res.bind_ok h
  obtain ⟨e, _, h⟩ := Res.bind_ok h
  obtain ⟨s2, h2, h⟩ := Res.bind_ok h
  exact keepscounts_trans (keepscounts_modify h1 (Or.inr fun _ => ⟨rfl, rfl⟩))
    (keepscounts_trans (keepscounts_modify h2 (Or.inr fun _ => ⟨rfl, rfl⟩))
      (keepscounts_modify h (Or.inr fun _ => ⟨rfl, rfl⟩)))

theorem keepscounts_checkmacchanges {x : Option Nat} {opts : optiondetails} {env : Env}
    {s s' : State} {ip : Option Nat} {m : Mac} {n : Int}
    (h : checkmacchanges opts env s ip m = .ok (n, s')) : keepscounts x s s' := by
  unfold checkmacchanges at h
  split_ifs at h
  · obtain ⟨r, _, h⟩ := Res.bind_ok h
    split_ifs at h
    · obtain ⟨s1, h1, h⟩ := Res.bind_ok h
      simp only [Res.pure_eq, Res.ok.injEq, Prod.mk.injEq] at h
      obtain ⟨_, rfl⟩ := h
      unfold alertchangedmacs at h1
      split_ifs at h1
      · obtain ⟨r2, _, h1⟩ := Res.bind_ok h1
        simp only [Res.pure_eq, Res.ok.injEq] at h1
        subst h1
        exact keepscounts_of_eq rfl rfl
      · simp only [Res.pure_eq, Res.ok.injEq] at h1
        subst h1
        exact keepscounts_of_eq rfl rfl
    · simp only [Res.pure_eq, Res.ok.injEq, Prod.mk.injEq] at h
      obtain ⟨_, rfl⟩ := h
      exact keepscounts_refl _ _
    · simp only [Res.pure_eq, Res.ok.injEq, Prod.mk.injEq] at h
      obtain ⟨_, rfl⟩ := h
      exact keepscounts_refl _ _
  · simp only [Res.pure_eq, Res.ok.injEq, Prod.mk.injEq] at h
    obtain ⟨_, rfl⟩ := h
    exact keepscounts_refl _ _

/-- After `handlerequest` every record but the one at the entry point is within
the thresholds, if every record was before. -/
theorem handlerequest_net {opts : optiondetails} {env : Env} {s s' : State} {frame : Frame}
    {n : Int} (hb : opts.badnet_threshold ≤ 0) (hp : 0 ≤ opts.poison_threshold)
    (hn : netbut opts none s) (h : handlerequest env s frame = .ok (n, s')) :
    netbut opts s'.entrypoint s' := by
  unfold handlerequest at h
  obtain ⟨temp, _, h⟩ := Res.bind_ok h
  cases temp with
  | some p =>
    simp only at h
    obtain ⟨⟨_, s1⟩, h1, h⟩ := Res.bind_ok h
    simp only [Res.pure_eq, Res.ok.injEq, Prod.mk.injEq] at h
    obtain ⟨_, rfl⟩ := h
    have k := keepscounts_addrequest h1
    have he : s1.entrypoint = some p := k.1
    rw [he]
    exact netbut_of_keeps hb hp
      (@netbut_of_heap opts (some p) s { s with entrypoint := some p } rfl (netbut_weaken hn)) k
  | none =>
    simp only at h
    obtain ⟨⟨t, s1⟩, h1, h⟩ := Res.bind_ok h
    cases t with
    | none =>
      simp only [Res.pure_eq, Res.ok.injEq, Prod.mk.injEq] at h
      obtain ⟨_, rfl⟩ := h
      exact netbut_of_keeps hb hp (netbut_weaken hn) (keepscounts_createipspace h1)
    | some t =>
      simp only at h
      obtain ⟨⟨_, s2⟩, h2, h⟩ := Res.bind_ok h
      obtain ⟨s3, h3, h⟩ := Res.bind_ok h
      obtain ⟨⟨_, s4⟩, h4, h⟩ := Res.bind_ok h
      simp only [Res.pure_eq, Res.ok.injEq, Prod.mk.injEq] at h
      obtain ⟨_, rfl⟩ := h
      have k := keepscounts_addrequest h4
      have he : s4.entrypoint = some t := k.1
      rw [he]
      have n3 : netbut opts (some t) s3 :=
        netbut_of_keeps hb hp (netbut_weaken hn)
          (keepscounts_trans (keepscounts_createipspace h1)
            (keepscounts_trans (keepscounts_populateipspacereq h2) (keepscounts_linkin h3)))
      exact netbut_of_keeps hb hp
        (@netbut_of_heap opts (some t) s3 { s3 with entrypoint := some t } rfl n3) k

/-- After `handlereply` every record but the one at the entry point is within the
thresholds, if every record was before. -/
theorem handlereply_net {opts : optiondetails} {env : Env} {s s' : State} {frame : Frame}
    {n : Int} (hb : opts.badnet_threshold ≤ 0) (hp : 0 ≤ opts.poison_threshold)
    (hn : netbut opts none s) (h : handlereply env s frame = .ok (n, s')) :
    netbut opts s'.entrypoint s' := by
  unfold handlereply at h
  obtain ⟨temp, _, h⟩ := Res.bind_ok h
  cases temp with
  | some p =>
    simp only at h
    obtain ⟨r, _, h⟩ := Res.bind_ok h
    obtain ⟨s1, h1, h⟩ := Res.bind_ok h
    obtain ⟨⟨_, s2⟩, h2, h⟩ := Res.bind_ok h
    simp only [Res.pure_eq, Res.ok.injEq, Prod.mk.injEq] at h
    obtain ⟨_, rfl⟩ := h
    have k1 : keepscounts (some p) s s1 := by
      split_ifs at h1
      · exact keepscounts_modify h1 (Or.inr fun _ => ⟨rfl, rfl⟩)
      · simp only [Res.pure_eq, Res.ok.injEq] at h1
        subst h1
        exact keepscounts_refl _ _
    have k := keepscounts_addreply h2
    have he : s2.entrypoint = some p := k.1
    rw [he]
    have n1 : netbut opts (some p) s1 := netbut_of_keeps hb hp (netbut_weaken hn) k1
    exact netbut_of_keeps hb hp
      (@netbut_of_heap opts (some p) s1 { s1 with entrypoint := some p } rfl n1) k
  | none =>
    simp only at h
    obtain ⟨⟨t, s1⟩, h1, h⟩ := Res.bind_ok h
    cases t with
    | none =>
      simp only [Res.pure_eq, Res.ok.injEq, Prod.mk.injEq] at h
      obtain ⟨_, rfl⟩ := h
      exact netbut_of_keeps hb hp (netbut_weaken hn) (keepscounts_createipspace h1)
    | some t =>
      simp only at h
      obtain ⟨⟨_, s2⟩, h2, h⟩ := Res.bind_ok h
      obtain ⟨s3, h3, h⟩ := Res.bind_ok h
      obtain ⟨⟨_, s4⟩, h4, h⟩ := Res.bind_ok h
      simp only [Res.pure_eq, Res.ok.injEq, Prod.mk.injEq] at h
      obtain ⟨_, rfl⟩ := h
      have k := keepscounts_addreply h4
      have he : s4.entrypoint = some t := k.1
      rw [he]
      have n3 : netbut opts (some t) s3 :=
        netbut_of_keeps hb hp (netbut_weaken hn)
          (keepscounts_trans (keepscounts_createipspace h1)
            (keepscounts_trans (keepscounts_populateipspacerep h2) (keepscounts_linkin h3)))
      exact netbut_of_keeps hb hp
        (@netbut_of_heap opts (some t) s3 { s3 with entrypoint := some t } rfl n3) k

/-- A call of `processip` that returns with an entry point other than `NULL`
leaves every record within the thresholds, if every record but the one at the
entry point was before: that one is freed, or within the thresholds already, or
has its counters reset. -/
theorem processip_net {opts : optiondetails} {env : Env} {s s' : State}
    (hb : opts.badnet_threshold ≤ 0) (hp : 0 ≤ opts.poison_threshold)
    (hn : netbut opts s.entrypoint s) (h : processip opts env s = .ok s')
    (hent : s'.entrypoint ≠ none) : netbut opts none s' := by
  unfold processip at h
  obtain ⟨⟨temp1, s1⟩, h1, h⟩ := Res.bind_ok h
  have k1 : keepscounts s.entrypoint s s1 := keepscounts_checktimeouts h1
  have n1 : netbut opts s.entrypoint s1 := netbut_of_keeps hb hp hn k1
  simp only at h
  by_cases hne : temp1 ≠ s.entrypoint
  · rw [if_pos hne] at h
    simp only [Res.pure_eq, Res.ok.injEq] at h
    subst h
    obtain ⟨a0, ha0, hfree⟩ := checktimeouts_moved h1 hne hent
    intro a r hr _
    have hr1 : s1.heap.read a = some r := hr
    by_cases haa : a = a0
    · subst haa
      rw [hfree] at hr1
      cases hr1
    · exact n1 a r hr1 (by rw [ha0]; simpa using haa)
  rw [if_neg hne] at h
  obtain ⟨r, hr, h⟩ := Res.bind_ok h
  obtain ⟨e, he1, hre⟩ := deref_ok hr
  have hes : s.entrypoint = some e := by rw [← k1.1]; exact he1
  rw [hes] at n1
  have hs2 : ∀ s2 : State, s2 = (if checknetarps r > POISON_THRESHOLD then
        if env.malloc_ok then redalert s1 (.poisoner r.ip_address)
        else redalert s1 .poisoner_nomem
      else if checknetarps r < opts.badnet_threshold then
        if env.malloc_ok then redalert s1 (.badnet r.ip_address)
        else redalert s1 .badnet_nomem
      else s1) → s2.heap = s1.heap ∧ s2.entrypoint = s1.entrypoint := by
    intro s2 e2
    subst e2
    split_ifs <;> exact ⟨rfl, rfl⟩
  generalize hg : (if checknetarps r > POISON_THRESHOLD then
        if env.malloc_ok then redalert s1 (.poisoner r.ip_address)
        else redalert s1 .poisoner_nomem
      else if checknetarps r < opts.badnet_threshold then
        if env.malloc_ok then redalert s1 (.badnet r.ip_address)
        else redalert s1 .badnet_nomem
      else s1) = s2 at h
  obtain ⟨hh2, he2⟩ := hs2 s2 hg.symm
  have hre2 : s2.heap.read e = some r := by rw [hh2]; exact hre
  have hen2 : s2.entrypoint = some e := by rw [he2]; exact he1
  by_cases hreset : checknetarps r > opts.poison_threshold ∨ checknetarps r < opts.badnet_threshold
  · simp only [hreset, if_true] at h
    rw [blank_reset env s2 e r hen2 hre2] at h
    simp only [Res.ok.injEq] at h
    subst h
    intro a r' hr' _
    by_cases hae : e = a
    · subst hae
      rw [read_store_same _ hre2] at hr'
      cases hr'
      unfold inrange
      rw [checknetarps_zero rfl rfl]
      exact ⟨hb, hp⟩
    · rw [read_store_ne _ hae, hh2] at hr'
      exact n1 a r' hr' (by simpa using fun h => hae h.symm)
  · simp only [hreset, if_false, Res.pure_eq, Res.ok.injEq] at h
    subst h
    intro a r' hr' _
    rw [hh2] at hr'
    by_cases hae : e = a
    · subst hae
      rw [hre] at hr'
      cases hr'
      unfold inrange
      constructor
      · by_contra hc
        exact hreset (Or.inr (by omega))
      · by_contra hc
        exact hreset (Or.inl (by omega))
    · exact n1 a r' hr' (by simpa using fun h => hae h.symm)

theorem processether_op_net {opts : optiondetails} {env : Env} {s s' : State} {frame : Frame}
    (hb : opts.badnet_threshold ≤ 0) (hp : 0 ≤ opts.poison_threshold)
    (hn : netbut opts none s) (h : processether_op opts env s frame = .ok s')
    (hent : s'.entrypoint ≠ none) : netbut opts none s' := by
  unfold processether_op at h
  split_ifs at h
  · obtain ⟨⟨rc, t⟩, hh, h⟩ := Res.bind_ok h
    simp only at h
    split_ifs at h with hrc
    · simp only [Res.pure_eq, Res.ok.injEq] at h
      subst h
      subst hrc
      unfold handlerequest at hh
      obtain ⟨temp, _, hh⟩ := Res.bind_ok hh
      cases temp with
      | some p =>
        simp only at hh
        obtain ⟨⟨_, s1⟩, _, hh⟩ := Res.bind_ok hh
        simp [ERR_NOMEM, OK] at hh
      | none =>
        simp only at hh
        obtain ⟨⟨t', s1⟩, h1, hh⟩ := Res.bind_ok hh
        cases t' with
        | none =>
          simp only [Res.pure_eq, Res.ok.injEq, Prod.mk.injEq] at hh
          obtain ⟨_, rfl⟩ := hh
          exact @netbut_of_heap opts none s1 (redalert s1 .nomem_details) rfl
            (netbut_of_keeps hb hp hn (keepscounts_createipspace h1))
        | some t' =>
          simp only at hh
          obtain ⟨⟨_, s2⟩, _, hh⟩ := Res.bind_ok hh
          obtain ⟨s3, _, hh⟩ := Res.bind_ok hh
          obtain ⟨⟨_, s4⟩, _, hh⟩ := Res.bind_ok hh
          simp [ERR_NOMEM, OK] at hh
    · exact processip_net hb hp (handlerequest_net hb hp hn hh) h hent
  · obtain ⟨⟨rc, t⟩, hh, h⟩ := Res.bind_ok h
    simp only at h
    split_ifs at h with hrc
    · simp only [Res.pure_eq, Res.ok.injEq] at h
      subst h
      subst hrc
      unfold handlereply at hh
      obtain ⟨temp, _, hh⟩ := Res.bind_ok hh
      cases temp with
      | some p =>
        simp only at hh
        obtain ⟨r, _, hh⟩ := Res.bind_ok hh
        obtain ⟨s1, _, hh⟩ := Res.bind_ok hh
        obtain ⟨⟨_, s2⟩, _, hh⟩ := Res.bind_ok hh
        simp [ERR_NOMEM, OK] at hh
      | none =>
        simp only at hh
        obtain ⟨⟨t', s1⟩, h1, hh⟩ := Res.bind_ok hh
        cases t' with
        | none =>
          simp only [Res.pure_eq, Res.ok.injEq, Prod.mk.injEq] at hh
          obtain ⟨_, rfl⟩ := hh
          exact @netbut_of_heap opts none s1 (redalert s1 .nomem_details) rfl
            (netbut_of_keeps hb hp hn (keepscounts_createipspace h1))
        | some t' =>
          simp only at hh
          obtain ⟨⟨_, s2⟩, _, hh⟩ := Res.bind_ok hh
          obtain ⟨s3, _, hh⟩ := Res.bind_ok hh
          obtain ⟨⟨_, s4⟩, _, hh⟩ := Res.bind_ok hh
          simp [ERR_NOMEM, OK] at hh
    · obtain ⟨⟨ch, s2⟩, hc, h⟩ := Res.bind_ok h
      obtain ⟨s3, h3, h⟩ := Res.bind_ok h
      have nt := handlereply_net hb hp hn hh
      have kc : keepscounts t.entrypoint t s2 := keepscounts_checkmacchanges hc
      have k3 : keepscounts t.entrypoint s2 s3 := by
        simp only at h3
        split_ifs at h3
        · obtain ⟨⟨_, u⟩, hpp, h3⟩ := Res.bind_ok h3
          simp only [Res.pure_eq, Res.ok.injEq] at h3
          subst h3
          exact keepscounts_populateipspacerep hpp
        · simp only [Res.pure_eq, Res.ok.injEq] at h3
          subst h3
          exact keepscounts_refl _ _
      have k := keepscounts_trans kc k3
      have n3 : netbut opts t.entrypoint s3 := netbut_of_keeps hb hp nt k
      rw [← k.1] at n3
      exact processip_net hb hp n3 h hent
  · simp only [Res.pure_eq, Res.ok.injEq] at h
    subst h
    exact @netbut_of_heap opts none s (notice s .unrecognised) rfl hn

theorem dumpdata_entry {env : Env} {s s' : State} {q : Option Nat}
    (h : dumpdata env s q = .ok s') : q ≠ none ∧ s'.heap = s.heap := by
  unfold dumpdata at h
  obtain ⟨cur, hc, h⟩ := Res.bind_ok h
  constructor
  · rintro rfl
    cases hc
  · by_cases ho : env.fopen_ok = true
    · simp only [ho, if_true] at h
      obtain ⟨rows, _, h⟩ := Res.bind_ok h
      simp only [Res.pure_eq, Res.ok.injEq] at h
      subst h
      rfl
    · simp only [ho, Res.pure_eq, Res.ok.injEq] at h
      simp at h
      subst h
      rfl

/-- Every call of `processether` that returns keeps all records within the
thresholds. -/
theorem processether_net {opts : optiondetails} {env : Env} {s s' : State} {frame : Frame}
    {n : Int} (hb : opts.badnet_threshold ≤ 0) (hp : 0 ≤ opts.poison_threshold)
    (hn : netbut opts none s) (h : processether opts env s frame = .ok (n, s')) :
    netbut opts none s' := by
  unfold processether at h
  by_cases hm : env.malloc_ok = true
  swap
  · simp only [hm, Res.pure_eq, Res.ok.injEq, Prod.mk.injEq] at h
    simp at h
    obtain ⟨_, rfl⟩ := h
    exact @netbut_of_heap opts none s (redalert s .nomem_temporary) rfl hn
  simp only [hm, if_true] at h
  obtain ⟨s1, h1, h⟩ := Res.bind_ok h
  have n1 : netbut opts none s1 := by
    cases he : s.entrypoint with
    | none =>
      rw [he] at h1
      simp only at h1
      obtain ⟨⟨p, t⟩, hc, h1⟩ := Res.bind_ok h1
      simp only [Res.pure_eq, Res.ok.injEq] at h1
      subst h1
      exact @netbut_of_heap opts none t { t with entrypoint := p } rfl
        (netbut_of_keeps hb hp hn (keepscounts_createipspace hc))
    | some e =>
      rw [he] at h1
      simp only [Res.pure_eq, Res.ok.injEq] at h1
      subst h1
      exact hn
  cases he1 : s1.entrypoint with
  | none =>
    rw [he1] at h
    simp only [Res.pure_eq, Res.ok.injEq, Prod.mk.injEq] at h
    obtain ⟨_, rfl⟩ := h
    exact @netbut_of_heap opts none s1 (redalert s1 .nomem_entrypoint) rfl n1
  | some e1 =>
    rw [he1] at h
    simp only at h
    obtain ⟨e, _, h⟩ := Res.bind_ok h
    obtain ⟨s2, h2, h⟩ := Res.bind_ok h
    obtain ⟨s3, h3, h⟩ := Res.bind_ok h
    obtain ⟨s4, h4, h⟩ := Res.bind_ok h
    simp only [Res.pure_eq, Res.ok.injEq, Prod.mk.injEq] at h
    obtain ⟨_, rfl⟩ := h
    have n2 : netbut opts none s2 := by
      by_cases hz : e.ip_address.get 0 = 0
      · simp only [hz, if_true] at h2
        obtain ⟨⟨_, t⟩, hpp, h2⟩ := Res.bind_ok h2
        simp only [Res.pure_eq, Res.ok.injEq] at h2
        subst h2
        exact netbut_of_keeps hb hp n1 (keepscounts_populateipspace hpp)
      · simp only [hz, if_false, Res.pure_eq, Res.ok.injEq] at h2
        subst h2
        exact n1
    obtain ⟨hq, hh4⟩ := dumpdata_entry h4
    exact netbut_of_heap hh4 (processether_op_net hb hp n2 h3 hq)

theorem run_net {opts : optiondetails} (hb : opts.badnet_threshold ≤ 0)
    (hp : 0 ≤ opts.poison_threshold) (frames : List (Env × Frame)) :
    ∀ s s', netbut opts none s → run opts s frames = .ok s' → netbut opts none s' := by
  induction frames with
  | nil =>
    intro s s' hn h
    simp only [run, Res.pure_eq, Res.ok.injEq] at h
    subst h
    exact hn
  | cons x rest ih =>
    intro s s' hn h
    obtain ⟨env, frame⟩ := x
    simp only [run] at h
    obtain ⟨⟨n, s1⟩, h1, h⟩ := Res.bind_ok h
    exact ih s1 s' (processether_net hb hp hn h1) h


/-! ## A stale first record, observed again -/

/-- Eviction of the first record of a list on its own observation: when the record that `checkip` finds for the key address
of an observation (the target of a request; the sender of a reply whose Ethernet
MAC is the stored MAC, or whose record has no MAC yet) is older than `timeout`
(`lastreset + timeout < now`, as for `lastreset = 0`, `timeout = 1500`, `now =
1501`), is the first record of its list and has a successor, `processether`
returns `OK`, the record is freed, its successor is the entry point, no record is
allocated, and the data of every other record is as before: the observation is
counted on the old record, which is evicted, and no fresh record is seeded. -/
theorem stale_record_is_evicted_without_reseed (opts : optiondetails) (env : Env) (s : State)
    (frame : Frame) (e p n : Nat) (re r rn : ipdetails)
    (hm : env.malloc_ok = true) (hc : env.clock_ok = true)
    (he : s.entrypoint = some e) (hre : s.heap.read e = some re)
    (hnz : re.ip_address.get 0 ≠ 0)
    (hobs : (frame.op = ARPOP_REQUEST ∧ checkip s s.entrypoint frame.arp_tpa = .ok (some p))
      ∨ (frame.op = ARPOP_REPLY ∧ checkip s s.entrypoint frame.arp_spa = .ok (some p)
          ∧ (r.mac_address = frame.ether_shost ∨ r.mac_address = Mac.zero)))
    (hr : s.heap.read p = some r) (hprev : r.previous = none) (hnext : r.next = some n)
    (hn : s.heap.read n = some rn)
    (hx : r.lastreset + opts.timeout < env.now)
    (hw : walkable s (some p) = true) :
    ∃ s', processether opts env s frame = .ok (OK, s')
      ∧ s'.heap.read p = none ∧ s'.entrypoint = some n
      ∧ s'.heap.length = s.heap.length
      ∧ ∀ c, c ≠ p →
          (s'.heap.read c).map ipdetails.data = (s.heap.read c).map ipdetails.data := by
  have hok : ¬ (OK = ERR_NOMEM) := by decide
  have hplt := Heap.read_lt hr
  have hnlt := Heap.read_lt hn
  have key : ∃ s2 r2, processether_op opts env s frame = processip opts env s2
      ∧ s2.entrypoint = some p ∧ s2.heap = s.heap.write p r2
      ∧ r2.previous = none ∧ r2.next = some n ∧ r2.lastreset = r.lastreset := by
    rcases hobs with ⟨hop, hfind⟩ | ⟨hop, hfind, hmac⟩
    · refine ⟨store { s with entrypoint := some p } p
          { r with requests := (r.requests + 1) % UINT_MOD },
        { r with requests := (r.requests + 1) % UINT_MOD }, ?_, ?_, ?_, hprev, hnext, rfl⟩
      · simp only [processether_op, hop, if_true, handlerequest_found env s frame p r hfind hr,
          Res.ok_bind, hok, if_false]
      · rfl
      · rfl
    · have hh := handlereply_found_any env s frame p r hfind hr
      obtain ⟨r0, h0, hip⟩ := checkip_sound s _ _ p hfind
      rw [hr] at h0
      cases h0
      have hrs : (store { s with entrypoint := some p } p
          { r with
            mac_address := (if r.mac_address = Mac.zero then frame.ether_shost
              else r.mac_address)
            replies := (r.replies + 1) % UINT_MOD }).heap.read p = some
          { r with
            mac_address := (if r.mac_address = Mac.zero then frame.ether_shost
              else r.mac_address)
            replies := (r.replies + 1) % UINT_MOD } :=
        read_store_same (s := { s with entrypoint := some p }) _ hr
      have hmac' : (if r.mac_address = Mac.zero then frame.ether_shost else r.mac_address)
          = frame.ether_shost := by
        by_cases hz : r.mac_address = Mac.zero
        · rw [if_pos hz]
        · rw [if_neg hz]
          exact hmac.resolve_right hz
      refine ⟨_, _, processether_op_reply_after opts env s _ frame p _ hm hop hh rfl hrs hip
        hmac', rfl, rfl, hprev, hnext, rfl⟩
  obtain ⟨s2, r2, hop2, he2, hh2, hp2, hn2, hl2⟩ := key
  obtain ⟨s', h1, h1e, h1h, _⟩ := processip_dump_evicts_head opts env s s2 p n r r2 rn hm hc he2
    hh2 hr hprev hnext hp2 hn2 hn (by rw [hl2]; exact hx) hw
  refine ⟨s', ?_, ?_, h1e, ?_, ?_⟩
  · rw [processether_unfold opts env s frame e re hm he hre hnz, hop2]
    exact h1
  · rw [h1h]
    exact Heap.read_free_same _ _
  · rw [h1h]
    simp
  · intro c hcp
    rw [h1h, Heap.read_free_ne (Ne.symm hcp)]
    by_cases hcn : n = c
    · subst hcn
      rw [Heap.read_write_same _ (by simpa using hnlt), hn]
      rfl
    · rw [Heap.read_write_ne _ hcn, Heap.read_write_ne _ (Ne.symm hcp)]

/-- An instance of the eviction of a first record: the table after requests for 10.0.0.1 and 10.0.0.2
at second 0, and a request for 10.0.0.1 at second 1501 with `timeout` 1500. -/
theorem stale_record_is_evicted_without_reseed_witness :
    (processether setdefaults (Sample.env 1501) Sample.pair
        (Sample.request (Sample.ip 1))).toOption.map
      (fun x => (x.2.heap.read 0, x.2.entrypoint, x.2.heap.length)) = some (none, some 1, 2) := by
  obtain ⟨s', h1, h2, h3, h4, _⟩ := stale_record_is_evicted_without_reseed setdefaults
    (Sample.env 1501) Sample.pair (Sample.request (Sample.ip 1)) 1 0 1
    { ip_address := Sample.ip 2
      mac_address := Mac.zero
      requests := 1
      replies := 0
      lastreset := 0
      previous := some 0
      next := none }
    { ip_address := Sample.ip 1
      mac_address := Mac.zero
      requests := 1
      replies := 0
      lastreset := 0
      previous := none
      next := some 1 }
    { ip_address := Sample.ip 2
      mac_address := Mac.zero
      requests := 1
      replies := 0
      lastreset := 0
      previous := some 0
      next := none }
    rfl rfl rfl rfl (by decide) (Or.inl ⟨by decide, by decide⟩) rfl rfl rfl rfl (by decide)
    (by decide)
  rw [h1]
  simp only [Res.toOption, Option.map, h2, h3, h4]
  rfl

/-! ## A reply with two different MACs from a new address -/

/-- A reply with two different MACs from a new address, the entry record not
having a zero first byte: for every state whose entry point is `NULL`, or in which `checkip`
finds no record for the sender address of a reply (the record of the entry point
not having a zero first byte, and the list being one `dumpdata` can walk), and
every such reply whose Ethernet source MAC E differs from its ARP sender MAC A,
`processether` returns `OK` (allocation and clock succeeding, `timeout` not
negative, `badnet_threshold <= 1 <= poison_threshold` as with the defaults); the
first alert it raises is the `HIGHEST` alert of `alertdodgymacs` for the sender
address with Ethernet MAC E and ARP body MAC A, and afterwards the entry point is a
record at a fresh address with the sender address as `ip_address`, stored MAC E,
`replies = 1` and `requests = 0`. -/
theorem mismatch_on_new_ip (opts : optiondetails) (env : Env) (s : State) (frame : Frame)
    (hm : env.malloc_ok = true) (hca : env.calloc_ok = true) (hc : env.clock_ok = true)
    (hop : frame.op = ARPOP_REPLY) (hne : frame.ether_shost ≠ frame.arp_sha)
    (htime : 0 ≤ opts.timeout) (hbad : opts.badnet_threshold ≤ 1)
    (hpoi : 1 ≤ opts.poison_threshold)
    (hs : s.entrypoint = none ∨ ∃ e re, s.entrypoint = some e ∧ s.heap.read e = some re
      ∧ re.ip_address.get 0 ≠ 0 ∧ checkip s s.entrypoint frame.arp_spa = .ok none
      ∧ walkable s (some e) = true) :
    ∃ s' pv nx rest, processether opts env s frame = .ok (OK, s')
      ∧ s'.alerts = s.alerts ++
          (⟨.HIGHEST, .dodgymacs frame.arp_spa frame.ether_shost frame.arp_sha⟩ :: rest)
      ∧ (Msg.dodgymacs frame.arp_spa frame.ether_shost frame.arp_sha).render =
          fmtip frame.arp_spa ++ " gives conflicting MAC details. " ++ " Ethernet MAC: "
            ++ fmtmac frame.ether_shost ++ " ARP body MAC: " ++ fmtmac frame.arp_sha
      ∧ s'.entrypoint = some s.heap.length
      ∧ s.heap.read s.heap.length = none
      ∧ s'.heap.read s.heap.length = some
          { ip_address := frame.arp_spa
            mac_address := frame.ether_shost
            requests := 0
            replies := 1
            lastreset := env.now
            previous := pv
            next := nx } := by
  obtain ⟨s1, pv, nx, h1, h1e, h1r, h1w, h1a, _, _⟩ :=
    processether_reply_seed opts env s frame hm hca hc hop hs
  have hnet : checknetarps
      { ip_address := frame.arp_spa
        mac_address := frame.ether_shost
        requests := 0
        replies := 1
        lastreset := env.now
        previous := pv
        next := nx } = 1 := by
    rw [checknetarps_eq _ (by norm_num) (by norm_num)]
    norm_num
  obtain ⟨s', h2, h2e, h2h, h2a⟩ := processip_dump_exact opts env s1 s.heap.length _ hm hc
    h1e h1r (by simp only; omega) h1w
  rw [hnet] at h2h h2a
  have hno : ¬ ((1 : Int) > opts.poison_threshold ∨ (1 : Int) < opts.badnet_threshold) := by
    omega
  have hp : ¬ ((1 : Int) > POISON_THRESHOLD) := by decide
  have hb : ¬ ((1 : Int) < opts.badnet_threshold) := by omega
  rw [if_neg hno] at h2h
  rw [if_neg hp, if_neg hb, List.append_nil, h1a] at h2a
  refine ⟨s', pv, nx,
    (if opts.check_mac_changes ≠ 0 ∧ frame.ether_shost ≠ Mac.zero
        ∧ frame.ether_shost ≠ frame.arp_sha then
      [⟨.HIGHEST, .changedmacs frame.arp_spa frame.ether_shost frame.arp_sha⟩,
        ⟨.HIGHEST, .dodgymacs frame.arp_spa frame.ether_shost frame.arp_sha⟩]
     else []), ?_, ?_, rfl, h2e, Heap.read_ge (le_refl _), ?_⟩
  · rw [h1, h2]
  · rw [h2a]
    simp only [firstreplyalerts, ne_eq, hne, not_false_eq_true, if_true, List.singleton_append]
  · rw [h2h, h1r]

/-- An instance on the empty table: the reply of 10.0.0.2 with Ethernet source MAC
aa:bb:cc:dd:ee:01 and ARP sender MAC aa:bb:cc:dd:ee:02 on the empty table. -/
theorem mismatch_on_new_ip_witness :
    (processether setdefaults (Sample.env 7) State.init
        (Sample.reply (Sample.ip 2) Sample.mac1 Sample.mac2)).toOption.map
      (fun x => (x.2.alerts.head?, (x.2.heap.read 0).map ipdetails.data))
      = some (some ⟨.HIGHEST, .dodgymacs (Sample.ip 2) Sample.mac1 Sample.mac2⟩,
          some (Sample.ip 2, Sample.mac1, 0, 1, 7)) := by
  obtain ⟨s', pv, nx, rest, h1, h2, _, _, _, h3⟩ := mismatch_on_new_ip setdefaults
    (Sample.env 7) State.init (Sample.reply (Sample.ip 2) Sample.mac1 Sample.mac2) rfl rfl rfl
    (by decide) (by decide) (by decide) (by decide) (by decide) (Or.inl rfl)
  rw [h1]
  have h3' : s'.heap.read 0 = _ := h3
  simp only [Res.toOption, Option.map, h2, h3']
  rfl

/-! ## A burst of replies from a new address -/

/-- A burst of replies from a new address, the entry record not having a zero
first byte: with the default options, from a state whose entry point is `NULL`
or in which `checkip` finds no record for the sender address (first byte not
zero), for every sequence of identical replies (Ethernet MAC = ARP MAC) all within
`TIMEOUT` seconds of a second `t0`, allocation and clock succeeding, and every
number `k` of them: the run of the first `k` replies returns, the alerts raised
are exactly `k / 11` alerts of a suspected poisoner for the sender address (so
one is raised on the 11th, 22nd, ... reply and on no other), and for `k > 0` the
record of the sender address is the entry point with `replies = k % 11` and
`requests = 0` (zero after the 11th reply, one after the 12th). -/
theorem poisoning_burst (s : State) (frame : Frame) (envs : List Env) (t0 : Int)
    (hop : frame.op = ARPOP_REPLY) (heq : frame.ether_shost = frame.arp_sha)
    (hX : frame.arp_spa.get 0 ≠ 0)
    (henv : ∀ env ∈ envs, env.malloc_ok = true ∧ env.calloc_ok = true ∧ env.clock_ok = true
      ∧ t0 ≤ env.now ∧ env.now ≤ t0 + 1500)
    (hs : s.entrypoint = none ∨ ∃ e re, s.entrypoint = some e ∧ s.heap.read e = some re
      ∧ re.ip_address.get 0 ≠ 0 ∧ checkip s s.entrypoint frame.arp_spa = .ok none
      ∧ walkable s (some e) = true)
    (k : Nat) (hk : k ≤ envs.length) :
    ∃ s', run setdefaults s ((envs.take k).map (fun env => (env, frame))) = .ok s'
      ∧ s'.alerts = s.alerts ++ List.replicate (k / 11) ⟨.HIGHEST, .poisoner frame.arp_spa⟩
      ∧ (0 < k → s'.entrypoint = some s.heap.length
          ∧ ∃ r, s'.heap.read s.heap.length = some r ∧ r.ip_address = frame.arp_spa
            ∧ r.mac_address = frame.ether_shost ∧ r.replies = k % 11 ∧ r.requests = 0) := by
  have hlen : (envs.take k).length = k := by simp [hk]
  have henv' : ∀ env ∈ envs.take k, env.malloc_ok = true ∧ env.calloc_ok = true
      ∧ env.clock_ok = true ∧ t0 ≤ env.now ∧ env.now ≤ t0 + 1500 :=
    fun env he => henv env (List.mem_of_mem_take he)
  rcases htk : envs.take k with _ | ⟨env, rest⟩
  · rw [htk] at hlen
    simp only [List.length_nil] at hlen
    subst hlen
    exact ⟨s, rfl, by simp, fun h => absurd h (lt_irrefl 0)⟩
  · rw [htk] at hlen henv'
    simp only [List.length_cons] at hlen
    obtain ⟨hm, hca, hc, hlo, hhi⟩ := henv' env (by simp)
    obtain ⟨s1, pv, nx, h1, h1e, h1r, h1a, h1w, _, _⟩ := processether_reply_first setdefaults
      env s frame hm hca hc hop (by decide) (by decide) (by decide) hs
    have hfa : firstreplyalerts setdefaults frame = [] := by
      simp [firstreplyalerts, heq]
    rw [hfa, List.append_nil] at h1a
    obtain ⟨s', r', h2, h2e, h2r, h2ip, h2mac, h2rq, h2rp, h2a⟩ :=
      run_replies_from_record frame t0 hop heq hX rest s1 s.heap.length 1 _
        (fun e he => by
          obtain ⟨a, _, b, c, d⟩ := henv' e (by simp [he])
          exact ⟨a, b, c, d⟩)
        h1e h1r rfl rfl rfl rfl hlo h1w
    refine ⟨s', ?_, ?_, fun _ => ⟨h2e, r', h2r, h2ip, h2mac, ?_, h2rq⟩⟩
    · simp only [List.map_cons, run, h1, Res.ok_bind]
      exact h2
    · rw [h2a, h1a]
      congr 2
      omega
    · rw [h2rp]
      congr 1
      omega

/-- An instance on the empty table: twelve replies of 10.0.0.3 on the empty table, all at
second 0: one alert, and `replies = 1` afterwards. -/
theorem poisoning_burst_witness :
    (run setdefaults State.init
        ((List.replicate 12 (Sample.env 0)).map
          (fun env => (env, Sample.reply (Sample.ip 3) Sample.mac1 Sample.mac1)))).toOption.map
      (fun s => (s.alerts, (s.heap.read 0).map (fun r => (r.replies, r.requests))))
      = some ([⟨.HIGHEST, .poisoner (Sample.ip 3)⟩], some (1, 0)) := by
  obtain ⟨s', h1, h2, h3⟩ := poisoning_burst State.init
    (Sample.reply (Sample.ip 3) Sample.mac1 Sample.mac1) (List.replicate 12 (Sample.env 0)) 0
    (by decide) (by decide) (by decide)
    (fun env he => by rw [List.eq_of_mem_replicate he]; decide)
    (Or.inl rfl) 12 (by decide)
  obtain ⟨_, r, h4, _, _, h5, h6⟩ := h3 (by decide)
  have h1' : run setdefaults State.init
      ((List.replicate 12 (Sample.env 0)).map
        (fun env => (env, Sample.reply (Sample.ip 3) Sample.mac1 Sample.mac1))) = .ok s' := h1
  have h4' : s'.heap.read 0 = some r := h4
  rw [h1']
  simp only [Res.toOption, Option.map, h2, h4', h5, h6]
  rfl

/-! ## A request for a new target -/

/-- A request for a new target, the entry record not having a zero first byte:
for every state whose entry point is `NULL`, or in which `checkip`
finds no record for the target address of an ARP request (the record of the entry
point not having a zero first byte, and the list being one `dumpdata` can walk),
`processether` returns `OK` (allocation and clock succeeding, `timeout` not
negative, `badnet_threshold <= -1 <= poison_threshold` as with the defaults), and
afterwards the entry point is a record at a fresh address whose `ip_address` is
the ARP target protocol address, whose MAC is all-zero, with `requests = 1`,
`replies = 0` and `lastreset` the current second; no alert is raised, and the
address, MAC, counters and `lastreset` of every older record are as before. -/
theorem request_seeds_record_keyed_by_target (opts : optiondetails) (env : Env) (s : State)
    (frame : Frame)
    (hm : env.malloc_ok = true) (hca : env.calloc_ok = true) (hc : env.clock_ok = true)
    (hop : frame.op = ARPOP_REQUEST)
    (htime : 0 ≤ opts.timeout) (hbad : opts.badnet_threshold ≤ -1)
    (hpoi : -1 ≤ opts.poison_threshold)
    (hs : s.entrypoint = none ∨ ∃ e re, s.entrypoint = some e ∧ s.heap.read e = some re
      ∧ re.ip_address.get 0 ≠ 0 ∧ checkip s s.entrypoint frame.arp_tpa = .ok none
      ∧ walkable s (some e) = true) :
    ∃ s' pv nx, processether opts env s frame = .ok (OK, s')
      ∧ s'.entrypoint = some s.heap.length
      ∧ s.heap.read s.heap.length = none
      ∧ s'.heap.read s.heap.length = some
          { ip_address := frame.arp_tpa
            mac_address := Mac.zero
            requests := 1
            replies := 0
            lastreset := env.now
            previous := pv
            next := nx }
      ∧ s'.alerts = s.alerts
      ∧ (∀ a r, s.heap.read a = some r →
          ∃ r', s'.heap.read a = some r' ∧ r'.data = r.data) := by
  obtain ⟨s1, pv, nx, h1, h1e, h1r, h1w, h1a, h1d, _⟩ :=
    processether_request_seed opts env s frame hm hca hc hop hs
  have hnet : checknetarps
      { ip_address := frame.arp_tpa
        mac_address := Mac.zero
        requests := 1
        replies := 0
        lastreset := env.now
        previous := pv
        next := nx } = -1 := by
    rw [checknetarps_eq _ (by norm_num) (by norm_num)]
    norm_num
  obtain ⟨s', h2, h2e, h2h, h2a⟩ := processip_dump_exact opts env s1 s.heap.length _ hm hc
    h1e h1r (by simp only; omega) h1w
  rw [hnet] at h2h h2a
  have hno : ¬ ((-1 : Int) > opts.poison_threshold ∨ (-1 : Int) < opts.badnet_threshold) := by
    omega
  have hp : ¬ ((-1 : Int) > POISON_THRESHOLD) := by decide
  have hb : ¬ ((-1 : Int) < opts.badnet_threshold) := by omega
  rw [if_neg hno] at h2h
  rw [if_neg hp, if_neg hb, List.append_nil] at h2a
  refine ⟨s', pv, nx, ?_, h2e, Heap.read_ge (le_refl _), ?_, ?_, ?_⟩
  · rw [h1, h2]
  · rw [h2h, h1r]
  · rw [h2a, h1a]
  · intro a r hr
    rw [h2h]
    exact h1d a r hr

/-- An instance on the empty table: a request for 10.0.0.1 at second 7 on the empty table, with
the default options. -/
theorem request_seeds_record_keyed_by_target_witness :
    (processether setdefaults (Sample.env 7) State.init
        (Sample.request (Sample.ip 1))).toOption.map
      (fun x => (x.2.heap.read 0).map ipdetails.data)
      = some (some (Sample.ip 1, Mac.zero, 1, 0, 7)) := by
  obtain ⟨s', pv, nx, h1, _, _, h2, _⟩ := request_seeds_record_keyed_by_target setdefaults
    (Sample.env 7) State.init (Sample.request (Sample.ip 1)) rfl rfl rfl (by decide)
    (by decide) (by decide) (by decide) (Or.inl rfl)
  rw [h1]
  simp only [Res.toOption, Option.map]
  have h2' : s'.heap.read 0 = _ := h2
  rw [h2']
  rfl

/-! ## The first reply on a record without MAC -/

/-- The first reply on a record that `checkip` finds: for every record that `checkip` finds for the sender address of a
reply and whose stored MAC is the all-zero sentinel, `handlereply` returns `OK`;
afterwards the stored MAC of the record is the Ethernet source MAC of the frame,
its `replies` counter is one more than before (as an `unsigned int`), its
`requests` counter and every other field are unchanged, the record is the entry
point, and no other record and no alert has changed. The record found holds the
sender address of the frame. -/
theorem handlereply_learns_mac (env : Env) (s : State) (frame : Frame) (p : Nat)
    (r : ipdetails) (hfind : checkip s s.entrypoint frame.arp_spa = .ok (some p))
    (hr : s.heap.read p = some r) (hzero : r.mac_address = Mac.zero) :
    r.ip_address = frame.arp_spa
    ∧ ∃ s', handlereply env s frame = .ok (OK, s')
      ∧ s'.heap.read p = some
          { r with
            mac_address := frame.ether_shost
            replies := (r.replies + 1) % UINT_MOD }
      ∧ (r.replies + 1 < UINT_MOD → (s'.heap.read p).map ipdetails.replies = some (r.replies + 1))
      ∧ (s'.heap.read p).map ipdetails.requests = some r.requests
      ∧ s'.entrypoint = some p ∧ s'.alerts = s.alerts
      ∧ ∀ c, c ≠ p → s'.heap.read c = s.heap.read c := by
  constructor
  · obtain ⟨r0, h0, h1⟩ := checkip_sound s _ _ p hfind
    rw [hr] at h0
    cases h0
    exact h1
  have hsum : sumbytes r.mac_address ETH_ALEN = 0 := (sumbytes_eq_zero_iff _).2 hzero
  have h1 := read_store_same { r with mac_address := frame.ether_shost } hr
  have h1' : ({ store s p { r with mac_address := frame.ether_shost } with
      entrypoint := some p } : State).heap.read p
      = some { r with mac_address := frame.ether_shost } := h1
  have h2 := read_store_same (s := { store s p { r with mac_address := frame.ether_shost } with
      entrypoint := some p })
    { r with
      mac_address := frame.ether_shost
      replies := (r.replies + 1) % UINT_MOD } h1'
  refine ⟨_, ?_, h2, ?_, ?_, rfl, rfl, ?_⟩
  · simp only [handlereply, hfind, Res.ok_bind, deref_of_read hr, hsum, if_true, Res.pure_eq,
      modify_of_read _ hr, maccopy_eq, addreply, modify_of_read _ h1', deref_of_read h2]
  · intro hlt
    rw [h2]
    simp [Nat.mod_eq_of_lt hlt]
  · rw [h2]; rfl
  · intro c hc
    rw [read_store_ne _ (Ne.symm hc)]
    exact read_store_ne _ (Ne.symm hc)

/-- An instance: the record of 10.0.0.1 created by a request, and a reply of
10.0.0.1 with MAC `mac1`. -/
theorem handlereply_learns_mac_witness :
    (handlereply (Sample.env 0)
        { heap := [some { ipdetails.zero with ip_address := Sample.ip 1, requests := 1 }]
          entrypoint := some 0
          alerts := []
          details_csv := [] }
        (Sample.reply (Sample.ip 1) Sample.mac1 Sample.mac1)).toOption.map
      (fun x => (x.2.heap.read 0).map (fun r => (r.mac_address, r.requests, r.replies)))
      = some (some (Sample.mac1, 1, 1)) := by
  obtain ⟨s', h1, h2, _⟩ := (handlereply_learns_mac (Sample.env 0)
    { heap := [some { ipdetails.zero with ip_address := Sample.ip 1, requests := 1 }]
      entrypoint := some 0
      alerts := []
      details_csv := [] }
    (Sample.reply (Sample.ip 1) Sample.mac1 Sample.mac1) 0
    { ipdetails.zero with ip_address := Sample.ip 1, requests := 1 }
    (by decide) (by decide) (by decide)).2
  rw [h1]
  simp only [Res.toOption, Option.map, h2]
  decide

/-! ## The counters of a record that is found -/

/-- The counters of a record that `checkip` finds: for every observation whose key address `checkip` finds in a
record (the record of the entry point not having a zero first byte, the list one
that `dumpdata` can walk, allocation and clock succeeding), when the age check
keeps the record and the net count after the update is within the thresholds (no
reset), `processether` returns `OK`; a request leaves the record with `requests`
one more (as an `unsigned int`: exactly one more below `UINT_MAX`) and `replies`
as before, a reply leaves it with `replies` one more and `requests` as before,
and every other record is as before. -/
theorem counter_update (opts : optiondetails) (env : Env) (s : State) (frame : Frame)
    (e p : Nat) (re r : ipdetails)
    (hm : env.malloc_ok = true) (hc : env.clock_ok = true)
    (he : s.entrypoint = some e) (hre : s.heap.read e = some re)
    (hnz : re.ip_address.get 0 ≠ 0)
    (hr : s.heap.read p = some r) (hw : walkable s (some p) = true)
    (hfresh : ¬ r.lastreset + opts.timeout < env.now) :
    (frame.op = ARPOP_REQUEST → checkip s s.entrypoint frame.arp_tpa = .ok (some p) →
      ¬ (checknetarps { r with requests := (r.requests + 1) % UINT_MOD } > opts.poison_threshold
        ∨ checknetarps { r with requests := (r.requests + 1) % UINT_MOD }
          < opts.badnet_threshold) →
      ∃ s' r', processether opts env s frame = .ok (OK, s') ∧ s'.heap.read p = some r'
        ∧ r'.requests = (r.requests + 1) % UINT_MOD
        ∧ (r.requests + 1 < UINT_MOD → r'.requests = r.requests + 1)
        ∧ r'.replies = r.replies
        ∧ ∀ a, a ≠ p → s'.heap.read a = s.heap.read a)
    ∧ (frame.op = ARPOP_REPLY → checkip s s.entrypoint frame.arp_spa = .ok (some p) →
      ¬ (checknetarps { r with replies := (r.replies + 1) % UINT_MOD } > opts.poison_threshold
        ∨ checknetarps { r with replies := (r.replies + 1) % UINT_MOD }
          < opts.badnet_threshold) →
      ∃ s' r', processether opts env s frame = .ok (OK, s') ∧ s'.heap.read p = some r'
        ∧ r'.replies = (r.replies + 1) % UINT_MOD
        ∧ (r.replies + 1 < UINT_MOD → r'.replies = r.replies + 1)
        ∧ r'.requests = r.requests
        ∧ ∀ a, a ≠ p → s'.heap.read a = s.heap.read a) := by
  have hok : ¬ (OK = ERR_NOMEM) := by decide
  have hplt := Heap.read_lt hr
  have tail : ∀ (s3 : State) (r3 : ipdetails),
      processether_op opts env s frame = processip opts env s3 →
      s3.entrypoint = some p → s3.heap = s.heap.write p r3 →
      r3.lastreset = r.lastreset → r3.previous = r.previous → r3.next = r.next →
      ¬ (checknetarps r3 > opts.poison_threshold ∨ checknetarps r3 < opts.badnet_threshold) →
      ∃ s', processether opts env s frame = .ok (OK, s') ∧ s'.heap.read p = some r3
        ∧ ∀ a, a ≠ p → s'.heap.read a = s.heap.read a := by
    intro s3 r3 hop3 he3 hh3 hl3 hp3 hn3 hno
    have hr3 : s3.heap.read p = some r3 := by
      rw [hh3]; exact Heap.read_write_same _ hplt
    have hlinks : ∀ a, (s3.heap.read a).map ipdetails.links
        = (s.heap.read a).map ipdetails.links := by
      intro a
      rw [hh3]
      by_cases ha : p = a
      · subst ha
        rw [Heap.read_write_same _ hplt, hr]
        simp [ipdetails.links, hp3, hn3]
      · rw [Heap.read_write_ne _ ha]
    obtain ⟨s', r', h1, _, h1o, h1p, _, _, _, h1k, _⟩ := processip_then_dump opts env s s3 p r3
      hm hc he3 hr3 (by rw [hl3]; exact hfresh) (by rw [hh3]; simp) hlinks hw
    refine ⟨s', ?_, ?_, ?_⟩
    · rw [processether_unfold opts env s frame e re hm he hre hnz, hop3]
      exact h1
    · rw [h1p, h1k hno]
    · intro a ha
      rw [h1o a ha, hh3, Heap.read_write_ne _ (Ne.symm ha)]
  constructor
  · intro hop hfind hno
    have hop3 : processether_op opts env s frame = processip opts env
        (store { s with entrypoint := some p } p
          { r with requests := (r.requests + 1) % UINT_MOD }) := by
      simp only [processether_op, hop, if_true, handlerequest_found env s frame p r hfind hr,
        Res.ok_bind, hok, if_false]
    obtain ⟨s', h1, h2, h3⟩ := tail _ _ hop3 rfl rfl rfl rfl rfl hno
    exact ⟨s', _, h1, h2, rfl, fun hlt => Nat.mod_eq_of_lt hlt, rfl, h3⟩
  · intro hop hfind hno
    obtain ⟨s3, r3, hop3, he3, hh3, hrp, hrq, hl3, hp3, hn3⟩ :=
      processether_op_reply_found opts env s frame p r hm hop hfind hr
    have hnet : checknetarps r3
        = checknetarps { r with replies := (r.replies + 1) % UINT_MOD } := by
      simp only [checknetarps, hrp, hrq]
    obtain ⟨s', h1, h2, h3⟩ := tail s3 r3 hop3 he3 hh3 hl3 hp3 hn3 (by rw [hnet]; exact hno)
    exact ⟨s', r3, h1, h2, hrp, fun hlt => by rw [hrp]; exact Nat.mod_eq_of_lt hlt, hrq, h3⟩

/-- An instance: on the table that holds 10.0.0.1 with three requests and
five replies, a request for 10.0.0.1 leaves four requests and five replies. -/
theorem counter_update_witness :
    (processether setdefaults (Sample.env 0) (Sample.table 3 5)
        (Sample.request (Sample.ip 1))).toOption.map
      (fun x => (x.2.heap.read 0).map (fun r => (r.requests, r.replies)))
      = some (some (4, 5)) := by
  obtain ⟨s', r', h1, h2, _, h3, h4, _⟩ := (counter_update setdefaults (Sample.env 0)
    (Sample.table 3 5) (Sample.request (Sample.ip 1)) 0 0 (Sample.record 3 5)
    (Sample.record 3 5) rfl rfl rfl rfl (by decide) rfl (by decide) (by decide)).1
    (by decide) (by decide) (by decide)
  have h3' := h3 (by decide)
  rw [h1]
  simp only [Res.toOption, Option.map, h2, h3', h4]
  rfl

/-! ## Statements that write `lastreset` at creation and at a reset only -/

theorem keepsstamps_of_eq {env : Env} {s s' : State} (hh : s'.heap = s.heap) :
    keepsstamps env s s' := by
  refine ⟨by rw [hh], ?_⟩
  intro a r' hr'
  rw [hh] at hr'
  exact ⟨fun _ => ⟨r', hr', rfl, rfl, rfl⟩, fun h => absurd (Heap.read_lt hr') (not_lt.mpr h)⟩

theorem keepsstamps_refl (env : Env) (s : State) : keepsstamps env s s := keepsstamps_of_eq rfl

theorem keepsstamps_trans {env : Env} {s s' s'' : State} (h1 : keepsstamps env s s')
    (h2 : keepsstamps env s' s'') : keepsstamps env s s'' := by
  obtain ⟨l1, m1⟩ := h1
  obtain ⟨l2, m2⟩ := h2
  refine ⟨le_trans l1 l2, ?_⟩
  intro a r'' hr''
  constructor
  · intro ha
    obtain ⟨r', hr', e1, e2, e3⟩ := (m2 a r'' hr'').1 (lt_of_lt_of_le ha l1)
    obtain ⟨r, hr, f1, f2, f3⟩ := (m1 a r' hr').1 ha
    exact ⟨r, hr, e1.trans f1, e2.trans f2, e3.trans f3⟩
  · intro ha
    by_cases ha1 : a < s'.heap.length
    · obtain ⟨r', hr', e1, e2, e3⟩ := (m2 a r'' hr'').1 ha1
      obtain ⟨f1, f2, f3⟩ := (m1 a r' hr').2 ha
      exact ⟨e1.trans f1, e2.trans f2, e3.trans f3⟩
    · exact (m2 a r'' hr'').2 (not_lt.mp ha1)

theorem keepsstamps_store {env : Env} {s : State} {a : Nat} {r : ipdetails} (x : ipdetails)
    (hr : s.heap.read a = some r)
    (hx : x.lastreset = r.lastreset ∧ x.requests = r.requests ∧ x.replies = r.replies) :
    keepsstamps env s (store s a x) := by
  refine ⟨by simp, ?_⟩
  intro b r' hr'
  have hb : b < s.heap.length := by
    have := Heap.read_lt hr'
    simpa using this
  refine ⟨fun _ => ?_, fun h => absurd hb (not_lt.mpr h)⟩
  by_cases hab : a = b
  · subst hab
    rw [read_store_same x hr] at hr'
    cases hr'
    exact ⟨r, hr, hx⟩
  · rw [read_store_ne x hab] at hr'
    exact ⟨r', hr', rfl, rfl, rfl⟩

theorem keepsstamps_modify {env : Env} {s s' : State} {p : Option Nat}
    {f : ipdetails → ipdetails} (h : modify s p f = .ok s')
    (hf : ∀ r, (f r).lastreset = r.lastreset ∧ (f r).requests = r.requests
      ∧ (f r).replies = r.replies) :
    keepsstamps env s s' := by
  obtain ⟨a, r, _, hr, rfl⟩ := modify_ok h
  exact keepsstamps_store _ hr (hf r)

theorem keepsstamps_createipspace {env : Env} {s s' : State} {q : Option Nat}
    (h : createipspace env s = .ok (q, s')) : keepsstamps env s s' := by
  unfold createipspace at h
  by_cases hm : env.malloc_ok = true
  swap
  · simp [hm] at h
    obtain ⟨_, rfl⟩ := h
    exact keepsstamps_refl _ _
  by_cases hca : env.calloc_ok = true
  swap
  · by_cases hc : env.clock_ok = true
    · simp [hm, hca, hc] at h
    · simp [hm, hca, hc] at h
      obtain ⟨_, rfl⟩ := h
      exact keepsstamps_refl _ _
  simp only [hm, hca, if_true, Res.pure_eq, Res.ok.injEq, Prod.mk.injEq] at h
  obtain ⟨_, rfl⟩ := h
  refine ⟨by simp, ?_⟩
  intro a r' hr'
  constructor
  · intro ha
    refine ⟨r', ?_, rfl, rfl, rfl⟩
    rw [← hr']
    exact (Heap.read_append_lt _ _ ha).symm
  · intro ha
    have hlt := Heap.read_lt hr'
    simp only [List.length_append, List.length_singleton] at hlt
    have hal : a = s.heap.length := by omega
    subst hal
    have hr2 : Heap.read (s.heap ++ [some (if env.clock_ok = true then
        { ipdetails.zero with lastreset := env.now } else ipdetails.zero)]) s.heap.length
        = some r' := hr'
    rw [Heap.read_append_length] at hr2
    cases hr2
    by_cases hc : env.clock_ok = true
    · simp [hc, ipdetails.zero, stamp]
    · simp [hc, ipdetails.zero, stamp]

theorem keepsstamps_populateipspacereq {env : Env} {s s' : State} {ip : Option Nat}
    {frame : Frame} {n : Int}
    (h : populateipspacereq s ip frame = .ok (n, s')) : keepsstamps env s s' := by
  unfold populateipspacereq at h
  cases ip with
  | none =>
    simp only [Res.pure_eq, Res.ok.injEq, Prod.mk.injEq] at h
    obtain ⟨_, rfl⟩ := h
    exact keepsstamps_refl _ _
  | some a =>
    simp only at h
    obtain ⟨s1, h1, h⟩ := Res.bind_ok h
    simp only [Res.pure_eq, Res.ok.injEq, Prod.mk.injEq] at h
    obtain ⟨_, rfl⟩ := h
    exact keepsstamps_modify h1 (fun _ => ⟨rfl, rfl, rfl⟩)

theorem keepsstamps_checkmacs {env : Env} {s s' : State} {ip : Option Nat} {m : Mac}
    (h : checkmacs env s ip m = .ok s') : keepsstamps env s s' := by
  unfold checkmacs at h
  obtain ⟨r, _, h⟩ := Res.bind_ok h
  split_ifs at h
  · unfold alertdodgymacs at h
    split_ifs at h
    · obtain ⟨r2, _, h⟩ := Res.bind_ok h
      simp only [Res.pure_eq, Res.ok.injEq] at h
      subst h
      exact keepsstamps_of_eq rfl
    · simp only [Res.pure_eq, Res.ok.injEq] at h
      subst h
      exact keepsstamps_of_eq rfl
  · simp only [Res.pure_eq, Res.ok.injEq] at h
    subst h
    exact keepsstamps_refl _ _

theorem keepsstamps_populateipspacerep {env : Env} {s s' : State} {ip : Option Nat}
    {frame : Frame} {n : Int}
    (h : populateipspacerep env s ip frame = .ok (n, s')) : keepsstamps env s s' := by
  unfold populateipspacerep at h
  cases ip with
  | none =>
    simp only [Res.pure_eq, Res.ok.injEq, Prod.mk.injEq] at h
    obtain ⟨_, rfl⟩ := h
    exact keepsstamps_refl _ _
  | some a =>
    simp only at h
    obtain ⟨s1, h1, h⟩ := Res.bind_ok h
    obtain ⟨s2, h2, h⟩ := Res.bind_ok h
    obtain ⟨s3, h3, h⟩ := Res.bind_ok h
    simp only [Res.pure_eq, Res.ok.injEq, Prod.mk.injEq] at h
    obtain ⟨_, rfl⟩ := h
    exact keepsstamps_trans (keepsstamps_modify h1 (fun _ => ⟨rfl, rfl, rfl⟩))
      (keepsstamps_trans (keepsstamps_modify h2 (fun _ => ⟨rfl, rfl, rfl⟩))
        (keepsstamps_checkmacs h3))

theorem keepsstamps_populateipspace {env : Env} {s s' : State} {ip : Option Nat}
    {frame : Frame} {n : Int}
    (h : populateipspace env s ip frame = .ok (n, s')) : keepsstamps env s s' := by
  unfold populateipspace at h
  split_ifs at h
  · exact keepsstamps_populateipspacereq h
  · exact keepsstamps_populateipspacerep h
  · simp only [Res.pure_eq, Res.ok.injEq, Prod.mk.injEq] at h
    obtain ⟨_, rfl⟩ := h
    exact keepsstamps_refl _ _
  · simp only [Res.pure_eq, Res.ok.injEq, Prod.mk.injEq] at h
    obtain ⟨_, rfl⟩ := h
    exact keepsstamps_refl _ _

theorem keepsstamps_linkin {env : Env} {s s' : State} {temp : Option Nat}
    (h : linkin s temp = .ok s') : keepsstamps env s s' := by
  unfold linkin at h
  obtain ⟨s1, h1, h⟩ := Res.bind_ok h
  obtain ⟨e, _, h⟩ := Res.bind_ok h
  obtain ⟨s2, h2, h⟩ := Res.bind_ok h
  exact keepsstamps_trans (keepsstamps_modify h1 (fun _ => ⟨rfl, rfl, rfl⟩))
    (keepsstamps_trans (keepsstamps_modify h2 (fun _ => ⟨rfl, rfl, rfl⟩))
      (keepsstamps_modify h (fun _ => ⟨rfl, rfl, rfl⟩)))

theorem keepsstamps_checkmacchanges {opts : optiondetails} {env : Env}
    {s s' : State} {ip : Option Nat} {m : Mac} {n : Int}
    (h : checkmacchanges opts env s ip m = .ok (n, s')) : keepsstamps env s s' := by
  unfold checkmacchanges at h
  split_ifs at h
  · obtain ⟨r, _, h⟩ := Res.bind_ok h
    split_ifs at h
    · obtain ⟨s1, h1, h⟩ := Res.bind_ok h
      simp only [Res.pure_eq, Res.ok.injEq, Prod.mk.injEq] at h
      obtain ⟨_, rfl⟩ := h
      unfold alertchangedmacs at h1
      split_ifs at h1
      · obtain ⟨r2, _, h1⟩ := Res.bind_ok h1
        simp only [Res.pure_eq, Res.ok.injEq] at h1
        subst h1
        exact keepsstamps_of_eq rfl
      · simp only [Res.pure_eq, Res.ok.injEq] at h1
        subst h1
        exact keepsstamps_of_eq rfl
    · simp only [Res.pure_eq, Res.ok.injEq, Prod.mk.injEq] at h
      obtain ⟨_, rfl⟩ := h
      exact keepsstamps_refl _ _
    · simp only [Res.pure_eq, Res.ok.injEq, Prod.mk.injEq] at h
      obtain ⟨_, rfl⟩ := h
      exact keepsstamps_refl _ _
  · simp only [Res.pure_eq, Res.ok.injEq, Prod.mk.injEq] at h
    obtain ⟨_, rfl⟩ := h
    exact keepsstamps_refl _ _

theorem handledby_keeps_left {env : Env} {frame : Frame} {s s2 t : State}
    (h1 : keepsstamps env s s2) (h2 : handledby env frame s2 t) : handledby env frame s t := by
  refine ⟨le_trans h1.1 h2.1, ?_⟩
  intro a rt hrt
  constructor
  · intro ha
    obtain ⟨r2, hr2, e1, e2⟩ := (h2.2 a rt hrt).1 (lt_of_lt_of_le ha h1.1)
    obtain ⟨r, hr, f1, f2, f3⟩ := (h1.2 a r2 hr2).1 ha
    refine ⟨r, hr, e1.trans f1, ?_⟩
    rcases e2 with ⟨g0, g1, g2⟩ | ⟨g0, g1, g2⟩
    · refine Or.inl ⟨g0, ?_, ?_⟩
      · rw [g1]; unfold counted; split_ifs <;> simp [f2]
      · rw [g2]; unfold counted; split_ifs <;> simp [f3]
    · exact Or.inr ⟨g0, g1.trans f2, g2.trans f3⟩
  · intro ha
    by_cases ha2 : a < s2.heap.length
    · obtain ⟨r2, hr2, e1, _⟩ := (h2.2 a rt hrt).1 ha2
      rw [e1]
      exact ((h1.2 a r2 hr2).2 ha).1
    · exact (h2.2 a rt hrt).2 (not_lt.mp ha2)

theorem handledby_keeps_right {env : Env} {frame : Frame} {s t t' : State}
    (h1 : handledby env frame s t) (h2 : keepsstamps env t t')
    (he : t'.entrypoint = t.entrypoint) : handledby env frame s t' := by
  refine ⟨le_trans h1.1 h2.1, ?_⟩
  intro a rt' hrt'
  constructor
  · intro ha
    obtain ⟨rt, hrt, e1, e2, e3⟩ := (h2.2 a rt' hrt').1 (lt_of_lt_of_le ha h1.1)
    obtain ⟨r, hr, f1, f2⟩ := (h1.2 a rt hrt).1 ha
    refine ⟨r, hr, e1.trans f1, ?_⟩
    rcases f2 with ⟨g0, g1, g2⟩ | ⟨g0, g1, g2⟩
    · exact Or.inl ⟨he.trans g0, e2.trans g1, e3.trans g2⟩
    · exact Or.inr ⟨by rw [he]; exact g0, e2.trans g1, e3.trans g2⟩
  · intro ha
    by_cases ha2 : a < t.heap.length
    · obtain ⟨rt, hrt, e1, _⟩ := (h2.2 a rt' hrt').1 ha2
      rw [e1]
      exact (h1.2 a rt hrt).2 ha
    · exact ((h2.2 a rt' hrt').2 (not_lt.mp ha2)).1

/-- Counting on the record at `p`, which becomes the entry point. -/
theorem createipspace_some {env : Env} {s s1 : State} {tq : Nat}
    (h : createipspace env s = .ok (some tq, s1)) : tq = s.heap.length := by
  unfold createipspace at h
  by_cases hm : env.malloc_ok = true
  swap
  · simp [hm] at h
  by_cases hca : env.calloc_ok = true
  swap
  · by_cases hc : env.clock_ok = true
    · simp [hm, hca, hc] at h
    · simp [hm, hca, hc] at h
  simp only [hm, hca, if_true, Res.pure_eq, Res.ok.injEq, Prod.mk.injEq,
    Option.some.injEq] at h
  exact h.1.symm

theorem handledby_count (env : Env) (frame : Frame) {s : State} {p : Nat} {r : ipdetails}
    (x : ipdetails) (hr : s.heap.read p = some r) (hl : x.lastreset = r.lastreset)
    (hq : x.requests = (counted frame r).requests) (hp : x.replies = (counted frame r).replies)
    (u : State) (hu : u.heap = s.heap) (hue : u.entrypoint = some p) :
    handledby env frame s (store u p x) := by
  have hru : u.heap.read p = some r := by rw [hu]; exact hr
  refine ⟨by simp [hu], ?_⟩
  intro a rt hrt
  have ha : a < s.heap.length := by
    have := Heap.read_lt hrt
    simpa [hu] using this
  refine ⟨fun _ => ?_, fun h => absurd ha (not_lt.mpr h)⟩
  by_cases hpa : p = a
  · subst hpa
    rw [read_store_same x hru] at hrt
    cases hrt
    exact ⟨r, hr, hl, Or.inl ⟨by simpa using hue, hq, hp⟩⟩
  · rw [read_store_ne x hpa, hu] at hrt
    refine ⟨rt, hrt, rfl, Or.inr ⟨?_, rfl, rfl⟩⟩
    simp only [store_entrypoint, hue, ne_eq, Option.some.injEq]
    exact hpa

theorem handlerequest_handled {env : Env} {s t : State} {frame : Frame} {n : Int}
    (hop : frame.op = ARPOP_REQUEST) (h : handlerequest env s frame = .ok (n, t)) :
    (n = ERR_NOMEM ∧ keepsstamps env s t) ∨ (n = OK ∧ handledby env frame s t) := by
  unfold handlerequest at h
  obtain ⟨temp, _, h⟩ := Res.bind_ok h
  cases temp with
  | some p =>
    simp only at h
    obtain ⟨⟨_, s1⟩, h1, h⟩ := Res.bind_ok h
    simp only [Res.pure_eq, Res.ok.injEq, Prod.mk.injEq] at h
    obtain ⟨hn, rfl⟩ := h
    refine Or.inr ⟨hn.symm, ?_⟩
    unfold addrequest at h1
    simp only at h1
    obtain ⟨s1', hm1, h1⟩ := Res.bind_ok h1
    obtain ⟨r', _, h1⟩ := Res.bind_ok h1
    simp only [Res.pure_eq, Res.ok.injEq, Prod.mk.injEq] at h1
    obtain ⟨_, rfl⟩ := h1
    obtain ⟨a, r, ha, hr, rfl⟩ := modify_ok hm1
    cases ha
    exact handledby_count env frame { r with requests := (r.requests + 1) % UINT_MOD } hr rfl
      (by simp [counted, hop]) (by simp [counted, hop]) { s with entrypoint := some p } rfl rfl
  | none =>
    simp only at h
    obtain ⟨⟨tq, s1⟩, h1, h⟩ := Res.bind_ok h
    have k1 : keepsstamps env s s1 := keepsstamps_createipspace h1
    cases tq with
    | none =>
      simp only [Res.pure_eq, Res.ok.injEq, Prod.mk.injEq] at h
      obtain ⟨hn, rfl⟩ := h
      exact Or.inl ⟨hn.symm, k1⟩
    | some tq =>
      simp only at h
      obtain ⟨⟨_, s2⟩, h2, h⟩ := Res.bind_ok h
      obtain ⟨s3, h3, h⟩ := Res.bind_ok h
      obtain ⟨⟨_, s4⟩, h4, h⟩ := Res.bind_ok h
      simp only [Res.pure_eq, Res.ok.injEq, Prod.mk.injEq] at h
      obtain ⟨hn, rfl⟩ := h
      refine Or.inr ⟨hn.symm, ?_⟩
      have htq : tq = s.heap.length := createipspace_some h1
      have k3 : keepsstamps env s s3 :=
        keepsstamps_trans k1 (keepsstamps_trans (keepsstamps_populateipspacereq h2)
          (keepsstamps_linkin h3))
      unfold addrequest at h4
      simp only at h4
      obtain ⟨s4', hm4, h4⟩ := Res.bind_ok h4
      obtain ⟨r', _, h4⟩ := Res.bind_ok h4
      simp only [Res.pure_eq, Res.ok.injEq, Prod.mk.injEq] at h4
      obtain ⟨_, rfl⟩ := h4
      obtain ⟨a, r, ha, hr, rfl⟩ := modify_ok hm4
      cases ha
      have hr3 : s3.heap.read tq = some r := hr
      refine ⟨by simpa using k3.1, ?_⟩
      intro b rt hrt
      by_cases hab : tq = b
      · subst hab
        refine ⟨fun hlt => absurd hlt (by omega), fun _ => ?_⟩
        rw [read_store_same _ hr] at hrt
        cases hrt
        exact ((k3.2 tq r hr3).2 (by omega)).1
      · rw [read_store_ne _ hab] at hrt
        have hrt3 : s3.heap.read b = some rt := hrt
        constructor
        · intro hb
          obtain ⟨r0, hr0, e1, e2, e3⟩ := (k3.2 b rt hrt3).1 hb
          refine ⟨r0, hr0, e1, Or.inr ⟨?_, e2, e3⟩⟩
          simp only [store_entrypoint, ne_eq, Option.some.injEq]
          exact hab
        · intro hb
          exact ((k3.2 b rt hrt3).2 hb).1

theorem handlereply_handled {env : Env} {s t : State} {frame : Frame} {n : Int}
    (hop : frame.op = ARPOP_REPLY) (h : handlereply env s frame = .ok (n, t)) :
    (n = ERR_NOMEM ∧ keepsstamps env s t) ∨ (n = OK ∧ handledby env frame s t) := by
  have hnq : ¬ frame.op = ARPOP_REQUEST := by rw [hop]; decide
  unfold handlereply at h
  obtain ⟨temp, _, h⟩ := Res.bind_ok h
  cases temp with
  | some p =>
    simp only at h
    obtain ⟨r, _, h⟩ := Res.bind_ok h
    obtain ⟨s1, h1, h⟩ := Res.bind_ok h
    obtain ⟨⟨_, s2⟩, h2, h⟩ := Res.bind_ok h
    simp only [Res.pure_eq, Res.ok.injEq, Prod.mk.injEq] at h
    obtain ⟨hn, rfl⟩ := h
    refine Or.inr ⟨hn.symm, ?_⟩
    have k1 : keepsstamps env s s1 := by
      split_ifs at h1
      · exact keepsstamps_modify h1 (fun _ => ⟨rfl, rfl, rfl⟩)
      · simp only [Res.pure_eq, Res.ok.injEq] at h1
        subst h1
        exact keepsstamps_refl _ _
    unfold addreply at h2
    simp only at h2
    obtain ⟨s2', hm2, h2⟩ := Res.bind_ok h2
    obtain ⟨r', _, h2⟩ := Res.bind_ok h2
    simp only [Res.pure_eq, Res.ok.injEq, Prod.mk.injEq] at h2
    obtain ⟨_, rfl⟩ := h2
    obtain ⟨a, r1, ha, hr, rfl⟩ := modify_ok hm2
    cases ha
    have hr1 : s1.heap.read p = some r1 := hr
    exact handledby_keeps_left k1
      (handledby_count env frame { r1 with replies := (r1.replies + 1) % UINT_MOD } hr1 rfl
        (by simp [counted, hop, hnq]) (by simp [counted, hop, hnq])
        { s1 with entrypoint := some p } rfl rfl)
  | none =>
    simp only at h
    obtain ⟨⟨tq, s1⟩, h1, h⟩ := Res.bind_ok h
    have k1 : keepsstamps env s s1 := keepsstamps_createipspace h1
    cases tq with
    | none =>
      simp only [Res.pure_eq, Res.ok.injEq, Prod.mk.injEq] at h
      obtain ⟨hn, rfl⟩ := h
      exact Or.inl ⟨hn.symm, k1⟩
    | some tq =>
      simp only at h
      obtain ⟨⟨_, s2⟩, h2, h⟩ := Res.bind_ok h
      obtain ⟨s3, h3, h⟩ := Res.bind_ok h
      obtain ⟨⟨_, s4⟩, h4, h⟩ := Res.bind_ok h
      simp only [Res.pure_eq, Res.ok.injEq, Prod.mk.injEq] at h
      obtain ⟨hn, rfl⟩ := h
      refine Or.inr ⟨hn.symm, ?_⟩
      have htq : tq = s.heap.length := createipspace_some h1
      have k3 : keepsstamps env s s3 :=
        keepsstamps_trans k1 (keepsstamps_trans (keepsstamps_populateipspacerep h2)
          (keepsstamps_linkin h3))
      unfold addreply at h4
      simp only at h4
      obtain ⟨s4', hm4, h4⟩ := Res.bind_ok h4
      obtain ⟨r', _, h4⟩ := Res.bind_ok h4
      simp only [Res.pure_eq, Res.ok.injEq, Prod.mk.injEq] at h4
      obtain ⟨_, rfl⟩ := h4
      obtain ⟨a, r, ha, hr, rfl⟩ := modify_ok hm4
      cases ha
      have hr3 : s3.heap.read tq = some r := hr
      refine ⟨by simpa using k3.1, ?_⟩
      intro b rt hrt
      by_cases hab : tq = b
      · subst hab
        refine ⟨fun hlt => absurd hlt (by omega), fun _ => ?_⟩
        rw [read_store_same _ hr] at hrt
        cases hrt
        exact ((k3.2 tq r hr3).2 (by omega)).1
      · rw [read_store_ne _ hab] at hrt
        have hrt3 : s3.heap.read b = some rt := hrt
        constructor
        · intro hb
          obtain ⟨r0, hr0, e1, e2, e3⟩ := (k3.2 b rt hrt3).1 hb
          refine ⟨r0, hr0, e1, Or.inr ⟨?_, e2, e3⟩⟩
          simp only [store_entrypoint, ne_eq, Option.some.injEq]
          exact hab
        · intro hb
          exact ((k3.2 b rt hrt3).2 hb).1

theorem checktimeouts_keepsdata {opts : optiondetails} {env : Env} {s s' : State}
    {ip q : Option Nat} (h : checktimeouts opts env s ip = .ok (q, s')) :
    ∀ c r', s'.heap.read c = some r' → ∃ r, s.heap.read c = some r ∧ r.data = r'.data := by
  obtain ⟨_, _, _, hd⟩ := checktimeouts_data opts env s s' ip q h
  intro c r' hr'
  by_cases hc : ip = some c
  · subst hc
    rcases checktimeouts_self opts env s s' c q h with h0 | h0
    · rw [h0] at hr'; cases hr'
    · rw [h0] at hr'
      exact ⟨r', hr', rfl⟩
  · have := hd c hc
    rw [hr'] at this
    rcases hs : s.heap.read c with _ | r
    · rw [hs] at this; simp at this
    · rw [hs] at this
      simp only [Option.map_some', Option.some.injEq] at this
      exact ⟨r, rfl, this.symm⟩

/-- A call of `processip` that returns writes `lastreset` only in the record of
the entry point, only when the net count of that record is above
`options.poison_threshold` or below `options.badnet_threshold`, and then with the
current second, the counters being reset to zero. -/
theorem processip_stamps {opts : optiondetails} {env : Env} {t s3 : State}
    (h : processip opts env t = .ok s3) :
    s3.heap.length = t.heap.length
    ∧ ∀ a r3, s3.heap.read a = some r3 → ∃ rt, t.heap.read a = some rt
        ∧ (r3.lastreset = rt.lastreset
          ∨ (env.clock_ok = true ∧ r3.lastreset = env.now ∧ t.entrypoint = some a
              ∧ s3.entrypoint = some a ∧ r3.requests = 0 ∧ r3.replies = 0
              ∧ (checknetarps rt > opts.poison_threshold
                  ∨ checknetarps rt < opts.badnet_threshold))) := by
  unfold processip at h
  obtain ⟨⟨temp1, s1⟩, h1, h⟩ := Res.bind_ok h
  obtain ⟨_, he1, hl1, _⟩ := checktimeouts_data opts env t s1 t.entrypoint temp1 h1
  have hd1 := checktimeouts_keepsdata h1
  simp only at h
  by_cases hne : temp1 ≠ t.entrypoint
  · rw [if_pos hne] at h
    simp only [Res.pure_eq, Res.ok.injEq] at h
    subst h
    refine ⟨hl1, ?_⟩
    intro a r3 hr3
    obtain ⟨rt, hrt, hdat⟩ := hd1 a r3 hr3
    refine ⟨rt, hrt, Or.inl ?_⟩
    simp only [ipdetails.data, Prod.mk.injEq] at hdat
    exact hdat.2.2.2.2.symm
  rw [if_neg hne] at h
  obtain ⟨r, hr, h⟩ := Res.bind_ok h
  obtain ⟨e, hes1, hre⟩ := deref_ok hr
  have hs2 : ∀ s2 : State, s2 = (if checknetarps r > POISON_THRESHOLD then
        if env.malloc_ok then redalert s1 (.poisoner r.ip_address)
        else redalert s1 .poisoner_nomem
      else if checknetarps r < opts.badnet_threshold then
        if env.malloc_ok then redalert s1 (.badnet r.ip_address)
        else redalert s1 .badnet_nomem
      else s1) → s2.heap = s1.heap ∧ s2.entrypoint = s1.entrypoint := by
    intro s2 e2
    subst e2
    split_ifs <;> exact ⟨rfl, rfl⟩
  generalize hg : (if checknetarps r > POISON_THRESHOLD then
        if env.malloc_ok then redalert s1 (.poisoner r.ip_address)
        else redalert s1 .poisoner_nomem
      else if checknetarps r < opts.badnet_threshold then
        if env.malloc_ok then redalert s1 (.badnet r.ip_address)
        else redalert s1 .badnet_nomem
      else s1) = s2 at h
  obtain ⟨hh2, he2⟩ := hs2 s2 hg.symm
  have hre2 : s2.heap.read e = some r := by rw [hh2]; exact hre
  have hen2 : s2.entrypoint = some e := by rw [he2]; exact hes1
  have hent : t.entrypoint = some e := by rw [← he1]; exact hes1
  by_cases hreset : checknetarps r > opts.poison_threshold ∨ checknetarps r < opts.badnet_threshold
  · simp only [hreset, if_true] at h
    rw [blank_reset env s2 e r hen2 hre2] at h
    simp only [Res.ok.injEq] at h
    subst h
    refine ⟨by simp [hh2, hl1], ?_⟩
    intro a r3 hr3
    by_cases hae : e = a
    · subst hae
      rw [read_store_same _ hre2] at hr3
      cases hr3
      obtain ⟨rt, hrt, hdat⟩ := hd1 e r hre
      simp only [ipdetails.data, Prod.mk.injEq] at hdat
      refine ⟨rt, hrt, ?_⟩
      by_cases hmc : env.malloc_ok = true ∧ env.clock_ok = true
      · refine Or.inr ⟨hmc.2, by simp [hmc], hent, by simpa using hen2, rfl, rfl, ?_⟩
        rw [checknetarps_congr hdat.2.2.1 hdat.2.2.2.1]
        exact hreset
      · refine Or.inl ?_
        simp only [hmc, if_false]
        exact hdat.2.2.2.2.symm
    · rw [read_store_ne _ hae, hh2] at hr3
      obtain ⟨rt, hrt, hdat⟩ := hd1 a r3 hr3
      simp only [ipdetails.data, Prod.mk.injEq] at hdat
      exact ⟨rt, hrt, Or.inl hdat.2.2.2.2.symm⟩
  · simp only [hreset, if_false, Res.pure_eq, Res.ok.injEq] at h
    subst h
    refine ⟨by rw [hh2, hl1], ?_⟩
    intro a r3 hr3
    rw [hh2] at hr3
    obtain ⟨rt, hrt, hdat⟩ := hd1 a r3 hr3
    simp only [ipdetails.data, Prod.mk.injEq] at hdat
    exact ⟨rt, hrt, Or.inl hdat.2.2.2.2.symm⟩

theorem stamped_of_keeps {opts : optiondetails} {env : Env} {frame : Frame} {s s' : State}
    (h : keepsstamps env s s') : stamped opts env frame s s' := by
  refine ⟨h.1, ?_⟩
  intro a r' hr'
  constructor
  · intro ha
    obtain ⟨r, hr, e1, _⟩ := (h.2 a r' hr').1 ha
    exact ⟨r, hr, Or.inl e1⟩
  · intro ha
    exact ((h.2 a r' hr').2 ha).1

theorem stamped_of_handled {opts : optiondetails} {env : Env} {frame : Frame} {s t : State}
    (h : handledby env frame s t) : stamped opts env frame s t := by
  refine ⟨h.1, ?_⟩
  intro a r' hr'
  constructor
  · intro ha
    obtain ⟨r, hr, e1, _⟩ := (h.2 a r' hr').1 ha
    exact ⟨r, hr, Or.inl e1⟩
  · intro ha
    exact (h.2 a r' hr').2 ha

theorem stamped_of_heap {opts : optiondetails} {env : Env} {frame : Frame} {s s' s'' : State}
    (h : stamped opts env frame s s') (hh : s''.heap = s'.heap)
    (he : s''.entrypoint = s'.entrypoint) : stamped opts env frame s s'' := by
  refine ⟨by rw [hh]; exact h.1, ?_⟩
  intro a r' hr'
  rw [hh] at hr'
  rw [he]
  exact h.2 a r' hr'

theorem stamped_processip {opts : optiondetails} {env : Env} {frame : Frame} {s t s3 : State}
    (h1 : handledby env frame s t) (h2 : processip opts env t = .ok s3) :
    stamped opts env frame s s3 := by
  obtain ⟨hl, hp⟩ := processip_stamps h2
  refine ⟨by rw [hl]; exact h1.1, ?_⟩
  intro a r3 hr3
  obtain ⟨rt, hrt, hx⟩ := hp a r3 hr3
  constructor
  · intro ha
    obtain ⟨r, hr, e1, e2⟩ := (h1.2 a rt hrt).1 ha
    refine ⟨r, hr, ?_⟩
    rcases hx with hx | ⟨c1, c2, c3, c4, c5, c6, c7⟩
    · exact Or.inl (hx.trans e1)
    · rcases e2 with ⟨_, g1, g2⟩ | ⟨g0, _, _⟩
      · refine Or.inr ⟨c1, c2, c4, c5, c6, ?_⟩
        rw [← checknetarps_congr g1 g2]
        exact c7
      · exact absurd c3 g0
  · intro ha
    have e1 := (h1.2 a rt hrt).2 ha
    rcases hx with hx | ⟨c1, c2, _⟩
    · exact hx.trans e1
    · rw [c2]
      simp [stamp, c1]

theorem stamped_keeps_left {opts : optiondetails} {env : Env} {frame : Frame}
    {s s2 s3 : State} (h1 : keepsstamps env s s2) (h2 : stamped opts env frame s2 s3) :
    stamped opts env frame s s3 := by
  refine ⟨le_trans h1.1 h2.1, ?_⟩
  intro a r3 hr3
  constructor
  · intro ha
    obtain ⟨r2, hr2, hx⟩ := (h2.2 a r3 hr3).1 (lt_of_lt_of_le ha h1.1)
    obtain ⟨r, hr, f1, f2, f3⟩ := (h1.2 a r2 hr2).1 ha
    refine ⟨r, hr, ?_⟩
    rcases hx with hx | ⟨c1, c2, c4, c5, c6, c7⟩
    · exact Or.inl (hx.trans f1)
    · refine Or.inr ⟨c1, c2, c4, c5, c6, ?_⟩
      have e : checknetarps (counted frame r2) = checknetarps (counted frame r) := by
        apply checknetarps_congr
        · unfold counted; split_ifs <;> simp [f2]
        · unfold counted; split_ifs <;> simp [f3]
      rw [← e]
      exact c7
  · intro ha
    by_cases ha2 : a < s2.heap.length
    · obtain ⟨r2, hr2, hx⟩ := (h2.2 a r3 hr3).1 ha2
      have e1 := ((h1.2 a r2 hr2).2 ha).1
      rcases hx with hx | ⟨c1, c2, _⟩
      · exact hx.trans e1
      · rw [c2]
        simp [stamp, c1]
    · exact (h2.2 a r3 hr3).2 (not_lt.mp ha2)

theorem processether_op_stamped {opts : optiondetails} {env : Env} {s s' : State}
    {frame : Frame} (h : processether_op opts env s frame = .ok s') :
    stamped opts env frame s s' := by
  unfold processether_op at h
  split_ifs at h with hq hp
  · obtain ⟨⟨rc, t⟩, hh, h⟩ := Res.bind_ok h
    simp only at h
    rcases handlerequest_handled hq hh with ⟨hrc, k⟩ | ⟨hrc, hd⟩
    · rw [if_pos hrc] at h
      simp only [Res.pure_eq, Res.ok.injEq] at h
      subst h
      exact stamped_of_heap (stamped_of_keeps k) rfl rfl
    · have hne : ¬ rc = ERR_NOMEM := by rw [hrc]; decide
      rw [if_neg hne] at h
      exact stamped_processip hd h
  · obtain ⟨⟨rc, t⟩, hh, h⟩ := Res.bind_ok h
    simp only at h
    rcases handlereply_handled hp hh with ⟨hrc, k⟩ | ⟨hrc, hd⟩
    · rw [if_pos hrc] at h
      simp only [Res.pure_eq, Res.ok.injEq] at h
      subst h
      exact stamped_of_heap (stamped_of_keeps k) rfl rfl
    · have hne : ¬ rc = ERR_NOMEM := by rw [hrc]; decide
      rw [if_neg hne] at h
      obtain ⟨⟨ch, s2⟩, hc, h⟩ := Res.bind_ok h
      obtain ⟨s3, h3, h⟩ := Res.bind_ok h
      have kc : keepsstamps env t s2 := keepsstamps_checkmacchanges hc
      have ec : s2.entrypoint = t.entrypoint := (keepscounts_checkmacchanges (x := none) hc).1
      have k3 : keepsstamps env s2 s3 ∧ s3.entrypoint = s2.entrypoint := by
        simp only at h3
        split_ifs at h3
        · obtain ⟨⟨_, u⟩, hpp, h3⟩ := Res.bind_ok h3
          simp only [Res.pure_eq, Res.ok.injEq] at h3
          subst h3
          exact ⟨keepsstamps_populateipspacerep hpp,
            (keepscounts_populateipspacerep (x := none) hpp).1⟩
        · simp only [Res.pure_eq, Res.ok.injEq] at h3
          subst h3
          exact ⟨keepsstamps_refl _ _, rfl⟩
      have hd3 : handledby env frame s s3 :=
        handledby_keeps_right (handledby_keeps_right hd kc ec) k3.1 k3.2
      exact stamped_processip hd3 h
  · simp only [Res.pure_eq, Res.ok.injEq] at h
    subst h
    exact stamped_of_heap (stamped_of_keeps (keepsstamps_refl env s)) rfl rfl

/-- Every call of `processether` that returns writes `lastreset` only when it
creates a record and when the threshold test on the counted record triggers a
reset. -/
theorem processether_stamped {opts : optiondetails} {env : Env} {s s' : State}
    {frame : Frame} {n : Int} (h : processether opts env s frame = .ok (n, s')) :
    stamped opts env frame s s' := by
  unfold processether at h
  by_cases hm : env.malloc_ok = true
  swap
  · simp only [hm, Res.pure_eq, Res.ok.injEq, Prod.mk.injEq] at h
    simp at h
    obtain ⟨_, rfl⟩ := h
    exact stamped_of_heap (stamped_of_keeps (keepsstamps_refl env s)) rfl rfl
  simp only [hm, if_true] at h
  obtain ⟨s1, h1, h⟩ := Res.bind_ok h
  have k1 : keepsstamps env s s1 := by
    cases he : s.entrypoint with
    | none =>
      rw [he] at h1
      simp only at h1
      obtain ⟨⟨p, t⟩, hc, h1⟩ := Res.bind_ok h1
      simp only [Res.pure_eq, Res.ok.injEq] at h1
      subst h1
      exact keepsstamps_trans (keepsstamps_createipspace hc) (keepsstamps_of_eq rfl)
    | some e =>
      rw [he] at h1
      simp only [Res.pure_eq, Res.ok.injEq] at h1
      subst h1
      exact keepsstamps_refl _ _
  cases he1 : s1.entrypoint with
  | none =>
    rw [he1] at h
    simp only [Res.pure_eq, Res.ok.injEq, Prod.mk.injEq] at h
    obtain ⟨_, rfl⟩ := h
    exact stamped_of_heap (stamped_of_keeps k1) rfl rfl
  | some e1 =>
    rw [he1] at h
    simp only at h
    obtain ⟨e, _, h⟩ := Res.bind_ok h
    obtain ⟨s2, h2, h⟩ := Res.bind_ok h
    obtain ⟨s3, h3, h⟩ := Res.bind_ok h
    obtain ⟨s4, h4, h⟩ := Res.bind_ok h
    simp only [Res.pure_eq, Res.ok.injEq, Prod.mk.injEq] at h
    obtain ⟨_, rfl⟩ := h
    have k2 : keepsstamps env s1 s2 := by
      by_cases hz : e.ip_address.get 0 = 0
      · simp only [hz, if_true] at h2
        obtain ⟨⟨_, t⟩, hp, h2⟩ := Res.bind_ok h2
        simp only [Res.pure_eq, Res.ok.injEq] at h2
        subst h2
        exact keepsstamps_populateipspace hp
      · simp only [hz, if_false, Res.pure_eq, Res.ok.injEq] at h2
        subst h2
        exact keepsstamps_refl _ _
    have h4' : s4.heap = s3.heap ∧ s4.entrypoint = s3.entrypoint := by
      unfold dumpdata at h4
      obtain ⟨cur, _, h4⟩ := Res.bind_ok h4
      by_cases ho : env.fopen_ok = true
      · simp only [ho, if_true] at h4
        obtain ⟨rows, _, h4⟩ := Res.bind_ok h4
        simp only [Res.pure_eq, Res.ok.injEq] at h4
        subst h4
        exact ⟨rfl, rfl⟩
      · simp only [ho, Res.pure_eq, Res.ok.injEq] at h4
        simp at h4
        subst h4
        exact ⟨rfl, rfl⟩
    exact stamped_of_heap
      (stamped_keeps_left (keepsstamps_trans k1 k2) (processether_op_stamped h3)) h4'.1 h4'.2


/-- Claim C11 (fails on the code): with the default options, requests for
10.0.0.1, .2, .1, .3, .2 at second 0 and for 10.0.0.3 at second 1000 leave two
records for 10.0.0.3 (addresses 2 and 3); a reply of 10.0.0.3 with MAC `mac1` and
a request for 10.0.0.1 at second 1000 follow. A reply of 10.0.0.3 with both MACs
`mac2` at second 1501 is then counted on the record at address 2, which the age
check evicts, and raises no alert; the same reply processed again at once is
counted on the record at address 3 and raises the changed-MAC alert. -/
theorem second_identical_reply_raises_changed_mac :
    (run setdefaults State.init
        [(Sample.env 0, Sample.request (Sample.ip 1)), (Sample.env 0, Sample.request (Sample.ip 2)),
         (Sample.env 0, Sample.request (Sample.ip 1)), (Sample.env 0, Sample.request (Sample.ip 3)),
         (Sample.env 0, Sample.request (Sample.ip 2)),
         (Sample.env 1000, Sample.request (Sample.ip 3)),
         (Sample.env 1000, Sample.reply (Sample.ip 3) Sample.mac1 Sample.mac1),
         (Sample.env 1000, Sample.request (Sample.ip 1)),
         (Sample.env 1501, Sample.reply (Sample.ip 3) Sample.mac2 Sample.mac2)]).toOption.map
      (fun s => (s.alerts, s.heap.read 2, (s.heap.read 3).map ipdetails.mac_address))
      = some ([], none, some Sample.mac1)
    ∧ (run setdefaults State.init
        [(Sample.env 0, Sample.request (Sample.ip 1)), (Sample.env 0, Sample.request (Sample.ip 2)),
         (Sample.env 0, Sample.request (Sample.ip 1)), (Sample.env 0, Sample.request (Sample.ip 3)),
         (Sample.env 0, Sample.request (Sample.ip 2)),
         (Sample.env 1000, Sample.request (Sample.ip 3)),
         (Sample.env 1000, Sample.reply (Sample.ip 3) Sample.mac1 Sample.mac1),
         (Sample.env 1000, Sample.request (Sample.ip 1)),
         (Sample.env 1501, Sample.reply (Sample.ip 3) Sample.mac2 Sample.mac2),
         (Sample.env 1501, Sample.reply (Sample.ip 3) Sample.mac2 Sample.mac2)]).toOption.map
      (fun s => s.alerts)
      = some [⟨.HIGHEST, .changedmacs (Sample.ip 3) Sample.mac1 Sample.mac2⟩] := by
  constructor <;> decide

/-- Claim C12 (fails on the code): with the default options, after requests for
10.0.0.1 and 10.0.0.2 at second 0, a request for 10.0.0.2 at second 1501 evicts
the record of 10.0.0.2, the last of the list: the entry point becomes `NULL`,
`checkip` no longer finds the record of 10.0.0.1 although it is still allocated,
and `processether` does not return (`rewindip` dereferences `NULL`). And after
requests for 10.0.0.1, .4, .1, .3, .1, .2 at second 0, a request for 10.0.0.3 at
second 1501 evicts the record of 10.0.0.3 and `processether` returns, but the
record of 10.0.0.2 (address 3, still allocated) is no longer found by `checkip`
from the new entry point. -/
theorem eviction_loses_other_records :
    ((run setdefaults State.init
        [(Sample.env 0, Sample.request (Sample.ip 1)),
         (Sample.env 0, Sample.request (Sample.ip 2))]).bind
      (fun s => processether_op setdefaults (Sample.env 1501) s
        (Sample.request (Sample.ip 2)))).toOption.map
      (fun s => (s.entrypoint, (s.heap.read 0).map ipdetails.ip_address, s.heap.read 1,
        (checkip s s.entrypoint (Sample.ip 1)).toOption))
      = some (none, some (Sample.ip 1), none, some none)
    ∧ run setdefaults State.init
        [(Sample.env 0, Sample.request (Sample.ip 1)),
         (Sample.env 0, Sample.request (Sample.ip 2)),
         (Sample.env 1501, Sample.request (Sample.ip 2))] = .fault .null_pointer
    ∧ (run setdefaults State.init
        [(Sample.env 0, Sample.request (Sample.ip 1)), (Sample.env 0, Sample.request (Sample.ip 4)),
         (Sample.env 0, Sample.request (Sample.ip 1)), (Sample.env 0, Sample.request (Sample.ip 3)),
         (Sample.env 0, Sample.request (Sample.ip 1)),
         (Sample.env 0, Sample.request (Sample.ip 2))]).toOption.map
      (fun s => ((s.heap.read 3).map ipdetails.ip_address,
        (checkip s s.entrypoint (Sample.ip 2)).toOption))
      = some (some (Sample.ip 2), some (some 3))
    ∧ (run setdefaults State.init
        [(Sample.env 0, Sample.request (Sample.ip 1)), (Sample.env 0, Sample.request (Sample.ip 4)),
         (Sample.env 0, Sample.request (Sample.ip 1)), (Sample.env 0, Sample.request (Sample.ip 3)),
         (Sample.env 0, Sample.request (Sample.ip 1)), (Sample.env 0, Sample.request (Sample.ip 2)),
         (Sample.env 1501, Sample.request (Sample.ip 3))]).toOption.map
      (fun s => (s.entrypoint, s.heap.read 2, (s.heap.read 3).map ipdetails.ip_address,
        (checkip s s.entrypoint (Sample.ip 2)).toOption))
      = some (some 1, none, some (Sample.ip 2), some none) := by
  refine ⟨?_, ?_, ?_, ?_⟩ <;> decide

/-- Claim C13: for every record that the age check evicts (`now - lastreset >
timeout`, allocation and clock read succeeding, neighbours allocated, the record
not its own successor), whatever its counters, `processip` returns having raised
no alert at all, the record is freed, the entry point is its successor, and the
address, MAC, counters and `lastreset` of every other record are as before. -/
theorem processip_evicts_silently (opts : optiondetails) (env : Env) (s : State) (p : Nat)
    (r : ipdetails) (hm : env.malloc_ok = true) (hc : env.clock_ok = true)
    (he : s.entrypoint = some p) (hr : s.heap.read p = some r)
    (hx : env.now - r.lastreset > opts.timeout)
    (hb : ∀ b, r.previous = some b → ∃ rb, s.heap.read b = some rb)
    (hn : ∀ n, r.next = some n → ∃ rn, s.heap.read n = some rn)
    (hself : r.next ≠ some p) :
    ∃ s', processip opts env s = .ok s' ∧ s'.alerts = s.alerts
      ∧ s'.heap.read p = none ∧ s'.entrypoint = r.next
      ∧ ∀ c, c ≠ p →
          (s'.heap.read c).map ipdetails.data = (s.heap.read c).map ipdetails.data := by
  obtain ⟨s1, h1, h2, h3, _, _⟩ :=
    checktimeouts_evicted opts env s p r hm hc hr (by omega) hb hn
  obtain ⟨_, _, _, h4⟩ := checktimeouts_data opts env s s1 _ _ h1
  refine ⟨{ s1 with entrypoint := r.next }, ?_, h3, h2, rfl, ?_⟩
  · simp only [processip, he, h1, Res.ok_bind, ne_eq, hself, not_false_eq_true, if_true,
      Res.pure_eq]
  · intro c hcp
    exact h4 c (fun h => hcp (by cases h; rfl))

/-- Witness for C13: the record of 10.0.0.1 with eleven replies counted (a net
count above every default threshold), examined at second 1501. -/
theorem processip_evicts_silently_witness :
    (processip setdefaults (Sample.env 1501) (Sample.table 0 11)).toOption.map
      (fun s => (s.alerts, s.heap.read 0, s.entrypoint)) = some ([], none, none) := by
  obtain ⟨s', h1, h2, h3, h4, _⟩ := processip_evicts_silently setdefaults (Sample.env 1501)
    (Sample.table 0 11) 0 (Sample.record 0 11) rfl rfl rfl (by decide) (by decide)
    (by simp [Sample.record]) (by simp [Sample.record]) (by decide)
  rw [h1]
  simp only [Res.toOption, Option.map, h2, h3, h4]
  decide

/-- C14 (code defect): a record created at second 0 and observed again at second
1501, with `timeout` 1500, is not replaced by a fresh record. When it is the only
record (created and observed again by requests, or by replies), the observation is
counted on it, the age check frees it and leaves the entry point `NULL`, and
`processether` does not return: `rewindip` dereferences `NULL`. When a record of
10.0.0.2 follows it, `processether` returns: the old record (address 0) is freed,
no record has been allocated (the heap still has two cells), the only record left
is that of 10.0.0.2 with `lastreset` 0, and there is no record for 10.0.0.1. -/
theorem reobserved_stale_record_is_lost :
    run setdefaults State.init
        [(Sample.env 0, Sample.request (Sample.ip 1)),
         (Sample.env 1501, Sample.request (Sample.ip 1))] = .fault .null_pointer
    ∧ run setdefaults State.init
        [(Sample.env 0, Sample.reply (Sample.ip 1) Sample.mac1 Sample.mac1),
         (Sample.env 1501, Sample.reply (Sample.ip 1) Sample.mac1 Sample.mac1)]
        = .fault .null_pointer
    ∧ ((run setdefaults State.init [(Sample.env 0, Sample.request (Sample.ip 1))]).bind
        (fun s => processether_op setdefaults (Sample.env 1501) s
          (Sample.request (Sample.ip 1)))).toOption.map
        (fun s => (s.entrypoint, s.heap)) = some (none, [none])
    ∧ (run setdefaults State.init
        [(Sample.env 0, Sample.request (Sample.ip 1)),
         (Sample.env 0, Sample.request (Sample.ip 2)),
         (Sample.env 1501, Sample.request (Sample.ip 1))]).toOption.map
      (fun s => (s.heap.read 0, (s.heap.read 1).map ipdetails.data, s.heap.length,
        s.entrypoint, (checkip s s.entrypoint (Sample.ip 1)).toOption))
      = some (none, some (Sample.ip 2, Mac.zero, 1, 0, 0), 2, some 1, some none) := by
  refine ⟨?_, ?_, ?_, ?_⟩ <;> rfl


/-- Claim C15: from the empty table, for every reply frame whose Ethernet source
MAC equals its ARP sender MAC, `processether` returns `OK` (allocation and clock
succeeding, `timeout` not negative, `badnet_threshold <= 1 <= poison_threshold` as
with the defaults), and afterwards the heap holds exactly one record, the entry
point, with the sender address of the frame as `ip_address`, the MAC of the frame,
`replies = 1`, `requests = 0` and no neighbours, and the alert log is empty. -/
theorem cold_start_reply (opts : optiondetails) (env : Env) (frame : Frame)
    (hm : env.malloc_ok = true) (hca : env.calloc_ok = true) (hc : env.clock_ok = true)
    (hop : frame.op = ARPOP_REPLY) (heq : frame.ether_shost = frame.arp_sha)
    (htime : 0 ≤ opts.timeout) (hbad : opts.badnet_threshold ≤ 1)
    (hpoi : 1 ≤ opts.poison_threshold) :
    ∃ s', processether opts env State.init frame = .ok (OK, s')
      ∧ s'.heap = [some
          { ip_address := frame.arp_spa
            mac_address := frame.arp_sha
            requests := 0
            replies := 1
            lastreset := env.now
            previous := none
            next := none }]
      ∧ s'.entrypoint = some 0
      ∧ s'.alerts = [] := by
  have hfirst : processether opts env State.init frame =
      (processip opts env
        ⟨[some
          { ip_address := frame.arp_spa
            mac_address := frame.ether_shost
            requests := 0
            replies := 1
            lastreset := env.now
            previous := none
            next := none }], some 0, [], []⟩ >>= fun s3 =>
        dumpdata env s3 s3.entrypoint >>= fun s4 => pure (OK, s4)) := by
    have h21 : ¬ (ARPOP_REPLY = ARPOP_REQUEST) := by decide
    have hne' : ¬ frame.ether_shost ≠ frame.arp_sha := not_not.mpr heq
    have hfind : checkip
        ⟨[] ++ [some
          { ip_address := frame.arp_spa
            mac_address := frame.ether_shost
            requests := 0
            replies := 0
            lastreset := env.now
            previous := none
            next := none }], some 0, [], []⟩
        (some 0) frame.arp_spa = .ok (some 0) := by
      have := deref_append_length [] (some 0) [] []
        { ip_address := frame.arp_spa
          mac_address := frame.ether_shost
          requests := 0
          replies := 0
          lastreset := env.now
          previous := none
          next := none }
      simp only [List.length_nil] at this
      simp only [checkip, this, Res.ok_bind]
      rw [if_pos (ipmatch_self _)]
      rfl
    have hrd : ∀ x : ipdetails, Heap.read ([] ++ [some x]) 0 = some x := fun x => rfl
    have hh := handlereply_found_any env _ frame 0 _ hfind (hrd _)
    rw [processether_first opts env State.init frame hm hca hc rfl]
    have h1 := modify_append_length [] (some 0) [] []
    simp only [List.length_nil] at h1
    have h2 := deref_append_length [] (some 0) [] []
    simp only [List.length_nil] at h2
    simp only [State.init, List.length_nil, populateipspace, hm, if_true, hop, h21, if_false,
      populateipspacerep, h1, ipcopy_eq, maccopy7_eq, Res.ok_bind, Res.pure_eq, ipdetails.zero,
      checkmacs, h2, macflag_pos_iff, if_neg hne']
    rw [processether_op_reply_after opts env _ _ frame 0 _ hm hop hh rfl
      (read_store_same _ (hrd _)) rfl (by simp)]
    simp [store, Heap.write, heq, UINT_MOD]
  have hnet : checknetarps
      { ip_address := frame.arp_spa
        mac_address := frame.ether_shost
        requests := 0
        replies := 1
        lastreset := env.now
        previous := none
        next := none } = 1 := by
    rw [checknetarps_eq _ (by norm_num) (by norm_num)]
    norm_num
  obtain ⟨s', h2, h2e, h2h, h2a⟩ := processip_dump_exact opts env
    ⟨[some
      { ip_address := frame.arp_spa
        mac_address := frame.ether_shost
        requests := 0
        replies := 1
        lastreset := env.now
        previous := none
        next := none }], some 0, [], []⟩ 0 _ hm hc rfl rfl (by simp only; omega)
    (walkable_alone _ 0 _ rfl rfl rfl)
  rw [hnet] at h2h h2a
  have hno : ¬ ((1 : Int) > opts.poison_threshold ∨ (1 : Int) < opts.badnet_threshold) := by
    omega
  have hp : ¬ ((1 : Int) > POISON_THRESHOLD) := by decide
  have hb : ¬ ((1 : Int) < opts.badnet_threshold) := by omega
  rw [if_neg hno] at h2h
  rw [if_neg hp, if_neg hb, List.append_nil] at h2a
  refine ⟨s', ?_, ?_, h2e, h2a⟩
  · rw [hfirst, h2]
  · rw [h2h, heq]

/-- Witness for C15: the reply of 10.0.0.1 with MAC aa:bb:cc:dd:ee:01 in both
places, at second 7, with the default options. -/
theorem cold_start_reply_witness :
    (processether setdefaults (Sample.env 7) State.init
        (Sample.reply (Sample.ip 1) Sample.mac1 Sample.mac1)).toOption.map
      (fun x => (x.2.heap.map (Option.map ipdetails.data), x.2.alerts))
      = some ([some (Sample.ip 1, Sample.mac1, 0, 1, 7)], []) := by
  obtain ⟨s', h1, h2, _, h3⟩ := cold_start_reply setdefaults (Sample.env 7)
    (Sample.reply (Sample.ip 1) Sample.mac1 Sample.mac1) rfl rfl rfl (by decide) (by decide)
    (by decide) (by decide) (by decide)
  rw [h1]
  simp only [Res.toOption, Option.map, h2, h3]
  rfl

/-- C16 (code defect): a reply from an address without a record does not always
get a record with `replies = 1`. With the default options, after three replies
from 0.0.0.5 the table holds one record, key 0.0.0.5, three replies, and `checkip`
finds no record for 10.0.0.2. A reply from 10.0.0.2 with Ethernet source MAC
aa:bb:cc:dd:ee:01 and ARP sender MAC aa:bb:cc:dd:ee:02 then creates no record: the
key of the record of 0.0.0.5 is overwritten with 10.0.0.2 and the reply is counted
on it, so the record of the sender has `replies = 4`, and none is left for
0.0.0.5. The conflicting-MAC alert is raised (twice). -/
theorem mismatch_reply_reuses_zero_octet_record :
    (run setdefaults State.init
        (List.replicate 3 (Sample.env 0, Sample.reply ⟨0, 0, 0, 5⟩ Sample.mac1 Sample.mac1))
      ).toOption.map
      (fun s => (s.entrypoint, s.heap.map (fun c => c.map ipdetails.data), s.alerts,
        (checkip s s.entrypoint (Sample.ip 2)).toOption))
      = some (some 0, [some (⟨0, 0, 0, 5⟩, Sample.mac1, 0, 3, 0)], [], some none)
    ∧ (run setdefaults State.init
        (List.replicate 3 (Sample.env 0, Sample.reply ⟨0, 0, 0, 5⟩ Sample.mac1 Sample.mac1)
          ++ [(Sample.env 0, Sample.reply (Sample.ip 2) Sample.mac1 Sample.mac2)])
      ).toOption.map
      (fun s => (s.entrypoint, s.heap.map (fun c => c.map ipdetails.data), s.alerts))
      = some (some 0, [some (Sample.ip 2, Sample.mac1, 0, 4, 0)],
          [⟨.HIGHEST, .dodgymacs (Sample.ip 2) Sample.mac1 Sample.mac2⟩,
           ⟨.HIGHEST, .changedmacs (Sample.ip 2) Sample.mac1 Sample.mac2⟩,
           ⟨.HIGHEST, .dodgymacs (Sample.ip 2) Sample.mac1 Sample.mac2⟩]) := by
  refine ⟨?_, ?_⟩ <;> rfl


/-- C17 (code defect): a burst of replies from an address not in the table does
not always raise its first poisoning alert on the 11th reply. With the default
options and no expiry, after three replies from 0.0.0.5 (one record, three
replies, no alert, no record for 10.0.0.3), identical replies from 10.0.0.3 are
counted on that record, whose key is overwritten: after seven of them it holds ten
replies, the eighth raises the poisoning alert and resets the counters, and after
the eleventh `replies` is 3 and still only one alert has been raised. -/
theorem burst_on_zero_octet_record_alerts_on_eighth_reply :
    (run setdefaults State.init
        (List.replicate 3 (Sample.env 0, Sample.reply ⟨0, 0, 0, 5⟩ Sample.mac1 Sample.mac1))
      ).toOption.map
      (fun s => (s.heap.map (fun c => c.map ipdetails.data), s.alerts,
        (checkip s s.entrypoint (Sample.ip 3)).toOption))
      = some ([some (⟨0, 0, 0, 5⟩, Sample.mac1, 0, 3, 0)], [], some none)
    ∧ (run setdefaults State.init
        (List.replicate 3 (Sample.env 0, Sample.reply ⟨0, 0, 0, 5⟩ Sample.mac1 Sample.mac1)
          ++ List.replicate 7
            (Sample.env 0, Sample.reply (Sample.ip 3) Sample.mac2 Sample.mac2))).toOption.map
      (fun s => (s.heap.map (fun c => c.map ipdetails.data), s.alerts))
      = some ([some (Sample.ip 3, Sample.mac2, 0, 10, 0)], [])
    ∧ (run setdefaults State.init
        (List.replicate 3 (Sample.env 0, Sample.reply ⟨0, 0, 0, 5⟩ Sample.mac1 Sample.mac1)
          ++ List.replicate 8
            (Sample.env 0, Sample.reply (Sample.ip 3) Sample.mac2 Sample.mac2))).toOption.map
      (fun s => (s.heap.map (fun c => c.map ipdetails.data), s.alerts))
      = some ([some (Sample.ip 3, Sample.mac2, 0, 0, 0)],
          [⟨.HIGHEST, .poisoner (Sample.ip 3)⟩])
    ∧ (run setdefaults State.init
        (List.replicate 3 (Sample.env 0, Sample.reply ⟨0, 0, 0, 5⟩ Sample.mac1 Sample.mac1)
          ++ List.replicate 11
            (Sample.env 0, Sample.reply (Sample.ip 3) Sample.mac2 Sample.mac2))).toOption.map
      (fun s => (s.heap.map (fun c => c.map ipdetails.data), s.alerts))
      = some ([some (Sample.ip 3, Sample.mac2, 0, 3, 0)],
          [⟨.HIGHEST, .poisoner (Sample.ip 3)⟩]) := by
  refine ⟨?_, ?_, ?_, ?_⟩ <;> rfl


/-- C18 (code defect): a request for a target without a record does not always
seed a record with `requests = 1` stamped with the current second. With the
default options, after three requests for 0.0.0.5 at second 0 the table holds one
record, key 0.0.0.5, three requests, and `checkip` finds no record for 10.0.0.2. A
request for 10.0.0.2 at second 9 then creates no record: the key of the record of
0.0.0.5 is overwritten and the request is counted on it, so the record of the
target has `requests = 4` and `lastreset = 0`. Likewise after a first frame with
the operation 3 at second 0, which leaves a blank record, the request at second 9
fills that record, with `requests = 1` but `lastreset = 0`. -/
theorem request_reuses_zero_octet_record :
    (run setdefaults State.init
        (List.replicate 3 (Sample.env 0, Sample.request ⟨0, 0, 0, 5⟩))).toOption.map
      (fun s => (s.entrypoint, s.heap.map (fun c => c.map ipdetails.data),
        (checkip s s.entrypoint (Sample.ip 2)).toOption))
      = some (some 0, [some (⟨0, 0, 0, 5⟩, Mac.zero, 3, 0, 0)], some none)
    ∧ (run setdefaults State.init
        (List.replicate 3 (Sample.env 0, Sample.request ⟨0, 0, 0, 5⟩)
          ++ [(Sample.env 9, Sample.request (Sample.ip 2))])).toOption.map
      (fun s => (s.entrypoint, s.heap.map (fun c => c.map ipdetails.data)))
      = some (some 0, [some (Sample.ip 2, Mac.zero, 4, 0, 0)])
    ∧ (run setdefaults State.init
        [(Sample.env 0, { Sample.request (Sample.ip 1) with ar_op1 := 3 })]).toOption.map
      (fun s => (s.entrypoint, s.heap.map (fun c => c.map ipdetails.data)))
      = some (some 0, [some (⟨0, 0, 0, 0⟩, Mac.zero, 0, 0, 0)])
    ∧ (run setdefaults State.init
        [(Sample.env 0, { Sample.request (Sample.ip 1) with ar_op1 := 3 }),
         (Sample.env 9, Sample.request (Sample.ip 2))]).toOption.map
      (fun s => (s.entrypoint, s.heap.map (fun c => c.map ipdetails.data)))
      = some (some 0, [some (Sample.ip 2, Mac.zero, 1, 0, 0)]) := by
  refine ⟨?_, ?_, ?_, ?_⟩ <;> rfl


/-- C19 (code defect): `handlereply` does not always find the record whose MAC is
still unknown. With the default options, after requests for 10.0.0.1, .2, .1, .3,
.2 the table holds the record of 10.0.0.3 at address 2, MAC all-zero, one request,
no reply, and the entry point is the record of 10.0.0.2 (address 1), whose
`previous` still skips the record of 10.0.0.3. For a reply from 10.0.0.3 with MAC
aa:bb:cc:dd:ee:01, `checkip` returns `NULL`, and `handlereply` returns `OK` having
left that record as it was, MAC all-zero and `replies = 0`, and made a second
record for 10.0.0.3 at address 3. -/
theorem handlereply_misses_the_unknown_mac_record :
    (run setdefaults State.init
        [(Sample.env 0, Sample.request (Sample.ip 1)), (Sample.env 0, Sample.request (Sample.ip 2)),
         (Sample.env 0, Sample.request (Sample.ip 1)), (Sample.env 0, Sample.request (Sample.ip 3)),
         (Sample.env 0, Sample.request (Sample.ip 2))]).toOption.map
      (fun s => (s.entrypoint, (s.heap.read 2).map ipdetails.data, s.heap.length,
        s.heap.map (fun c => c.map ipdetails.links),
        (checkip s s.entrypoint (Sample.ip 3)).toOption))
      = some (some 1, some (Sample.ip 3, Mac.zero, 1, 0, 0), 3,
          [some (none, some 2), some (some 0, none), some (some 0, some 1)], some none)
    ∧ ((run setdefaults State.init
        [(Sample.env 0, Sample.request (Sample.ip 1)), (Sample.env 0, Sample.request (Sample.ip 2)),
         (Sample.env 0, Sample.request (Sample.ip 1)), (Sample.env 0, Sample.request (Sample.ip 3)),
         (Sample.env 0, Sample.request (Sample.ip 2))]).bind
        (fun s => handlereply (Sample.env 0) s
          (Sample.reply (Sample.ip 3) Sample.mac1 Sample.mac1))).toOption.map
      (fun x => (x.1, x.2.entrypoint, (x.2.heap.read 2).map ipdetails.data,
        (x.2.heap.read 3).map ipdetails.data, x.2.heap.length))
      = some (OK, some 3, some (Sample.ip 3, Mac.zero, 1, 0, 0),
          some (Sample.ip 3, Sample.mac1, 0, 1, 0), 4) := by
  refine ⟨?_, ?_⟩ <;> rfl


/-- Claim C20: for every state and every ARP request frame, whatever its
Ethernet and ARP hardware addresses, the options and the answers of the C library,
every call of `processether` that returns has raised neither an alert of
`alertchangedmacs` nor one of `alertdodgymacs`, and every record allocated both
before and after the call has the stored MAC it had before. -/
theorem requests_never_touch_macs (opts : optiondetails) (env : Env) (s s' : State)
    (frame : Frame) (n : Int) (hop : frame.op = ARPOP_REQUEST)
    (h : processether opts env s frame = .ok (n, s')) :
    (∃ raised, s'.alerts = s.alerts ++ raised
      ∧ ∀ x ∈ raised, x.err.is_changedmacs = false ∧ x.err.is_dodgymacs = false)
    ∧ ∀ a r r', s.heap.read a = some r → s'.heap.read a = some r' →
        r'.mac_address = r.mac_address := by
  obtain ⟨_, hm, ha⟩ := keepsmacs_processether_request hop h
  refine ⟨ha, ?_⟩
  intro a r r' hr hr'
  obtain ⟨r0, hr0, he⟩ := hm a (Heap.read_lt hr) r' hr'
  rw [hr] at hr0
  cases hr0
  exact he.symm

/-- Witness for C20: a request for 10.0.0.1, sent from 02:00:00:00:00:63, on the
table that holds 10.0.0.1 with MAC aa:bb:cc:dd:ee:01: the call returns and the
stored MAC is as before. -/
theorem requests_never_touch_macs_witness :
    (processether setdefaults (Sample.env 0) (Sample.table 0 1)
        (Sample.request (Sample.ip 1))).toOption.map
      (fun x => (x.2.heap.read 0).map ipdetails.mac_address) = some (some Sample.mac1) := by
  have hd : (processether setdefaults (Sample.env 0) (Sample.table 0 1)
      (Sample.request (Sample.ip 1))).toOption.map
        (fun x => (x.2.heap.read 0).isSome) = some true := by decide
  rcases hp : processether setdefaults (Sample.env 0) (Sample.table 0 1)
      (Sample.request (Sample.ip 1)) with x | f
  · obtain ⟨n, s'⟩ := x
    rw [hp] at hd
    simp only [Res.toOption, Option.map, Option.some.injEq] at hd ⊢
    obtain ⟨r', hr'⟩ := Option.isSome_iff_exists.mp hd
    have hmac := (requests_never_touch_macs setdefaults (Sample.env 0) (Sample.table 0 1) s'
      (Sample.request (Sample.ip 1)) n (by decide) hp).2 0 (Sample.record 0 1) r' rfl hr'
    rw [hr']
    simp only [Option.map_some', hmac]
    rfl
  · rw [hp] at hd
    simp [Res.toOption] at hd

/-- C21 (code defect): an observation whose key address has a record is not always
counted on that record. With the default options, after requests for 10.0.0.1, .2,
.1, .3, .2 the record of 10.0.0.3 is at address 2 with one request. A further
request for 10.0.0.3, with no expiry and no reset, leaves that record with
`requests = 1`: `checkip` misses it, and the request is counted on a new record
for 10.0.0.3 at address 3. The counters of the other records are unchanged. -/
theorem request_counted_on_a_duplicate :
    (run setdefaults State.init
        [(Sample.env 0, Sample.request (Sample.ip 1)), (Sample.env 0, Sample.request (Sample.ip 2)),
         (Sample.env 0, Sample.request (Sample.ip 1)), (Sample.env 0, Sample.request (Sample.ip 3)),
         (Sample.env 0, Sample.request (Sample.ip 2))]).toOption.map
      (fun s => (s.heap.map (fun c => c.map ipdetails.data), s.alerts))
      = some ([some (Sample.ip 1, Mac.zero, 2, 0, 0), some (Sample.ip 2, Mac.zero, 2, 0, 0),
               some (Sample.ip 3, Mac.zero, 1, 0, 0)], [])
    ∧ ((run setdefaults State.init
        [(Sample.env 0, Sample.request (Sample.ip 1)), (Sample.env 0, Sample.request (Sample.ip 2)),
         (Sample.env 0, Sample.request (Sample.ip 1)), (Sample.env 0, Sample.request (Sample.ip 3)),
         (Sample.env 0, Sample.request (Sample.ip 2))]).bind
        (fun s => processether setdefaults (Sample.env 0) s
          (Sample.request (Sample.ip 3)))).toOption.map
      (fun x => (x.1, x.2.entrypoint, x.2.heap.map (fun c => c.map ipdetails.data), x.2.alerts))
      = some (OK, some 3,
          [some (Sample.ip 1, Mac.zero, 2, 0, 0), some (Sample.ip 2, Mac.zero, 2, 0, 0),
           some (Sample.ip 3, Mac.zero, 1, 0, 0), some (Sample.ip 3, Mac.zero, 1, 0, 0)],
          []) := by
  refine ⟨?_, ?_⟩ <;> rfl


/-- C22: `lastreset` is written only at creation and at a threshold-triggered
reset, each time with the current second, and never decreases. Every call of
`processether` that returns leaves the `lastreset` of a record that is allocated
before and after as it was, unless that record is the entry point afterwards, the
net count of the record with this observation counted on it is above
`options.poison_threshold` or below `options.badnet_threshold`, and its counters
have been reset to zero: then `lastreset` is the second read by `gettimeofday`
during the call. A record that the call creates has that second as `lastreset`
(zero if `gettimeofday` fails). And over every sequence of frames whose clock
readings succeed and do not decrease, starting from a state whose records are not
stamped later than those readings, the `lastreset` of a record allocated at the
start and at the end of a run that returns has not decreased. -/
theorem lastreset_monotone (opts : optiondetails) :
    (∀ (env : Env) (s s' : State) (frame : Frame) (n : Int),
      processether opts env s frame = .ok (n, s') →
      (∀ a r r', s.heap.read a = some r → s'.heap.read a = some r' →
        r'.lastreset = r.lastreset
        ∨ (env.clock_ok = true ∧ r'.lastreset = env.now ∧ s'.entrypoint = some a
            ∧ r'.requests = 0 ∧ r'.replies = 0
            ∧ (checknetarps (counted frame r) > opts.poison_threshold
                ∨ checknetarps (counted frame r) < opts.badnet_threshold)))
      ∧ (∀ a r', s.heap.length ≤ a → s'.heap.read a = some r' →
        r'.lastreset = (if env.clock_ok = true then env.now else 0)))
    ∧ (∀ (frames : List (Env × Frame)) (s s' : State),
      frames.Pairwise (fun x y => x.1.now ≤ y.1.now) →
      (∀ x ∈ frames, x.1.clock_ok = true) →
      (∀ a r, s.heap.read a = some r → ∀ x ∈ frames, r.lastreset ≤ x.1.now) →
      run opts s frames = .ok s' →
      ∀ a r r', s.heap.read a = some r → s'.heap.read a = some r' →
        r.lastreset ≤ r'.lastreset) := by
  constructor
  · intro env s s' frame n h
    obtain ⟨_, hk⟩ := (processether_stamped h : stamped opts env frame s s')
    constructor
    · intro a r r' hr hr'
      obtain ⟨r0, hr0, h0⟩ := (hk a r' hr').1 (Heap.read_lt hr)
      rw [hr] at hr0
      cases hr0
      exact h0
    · intro a r' ha hr'
      exact (hk a r' hr').2 ha
  · have key : ∀ (frames : List (Env × Frame)) (s s' : State),
        frames.Pairwise (fun x y => x.1.now ≤ y.1.now) →
        (∀ x ∈ frames, x.1.clock_ok = true) →
        (∀ a r, s.heap.read a = some r → ∀ x ∈ frames, r.lastreset ≤ x.1.now) →
        run opts s frames = .ok s' →
        ∀ a r', a < s.heap.length → s'.heap.read a = some r' →
          ∃ r, s.heap.read a = some r ∧ r.lastreset ≤ r'.lastreset := by
      intro frames
      induction frames with
      | nil =>
        intro s s' _ _ _ hrun a r' _ hr'
        simp only [run, Res.pure_eq, Res.ok.injEq] at hrun
        subst hrun
        exact ⟨r', hr', le_refl _⟩
      | cons x rest ih =>
        intro s s' hpw hck hinv hrun a r' ha hr'
        obtain ⟨env, frame⟩ := x
        simp only [run] at hrun
        obtain ⟨⟨n, s1⟩, h1, hrun⟩ := Res.bind_ok hrun
        simp only at hrun
        obtain ⟨hl, hk⟩ := keepsclock_processether h1
        have hpw' := List.pairwise_cons.mp hpw
        have hcenv : env.clock_ok = true := hck (env, frame) (by simp)
        have hinv1 : ∀ a r, s1.heap.read a = some r → ∀ y ∈ rest, r.lastreset ≤ y.1.now := by
          intro b rb hb y hy
          have hle : env.now ≤ y.1.now := hpw'.1 y hy
          by_cases hbl : b < s.heap.length
          · obtain ⟨r0, hr0, h0⟩ := (hk b rb hb).1 hbl
            rcases h0 with h0 | h0
            · rw [h0]
              exact hinv b r0 hr0 y (by simp [hy])
            · rw [h0.2]
              exact hle
          · have := (hk b rb hb).2 (not_lt.mp hbl)
            rw [if_pos hcenv] at this
            rw [this]
            exact hle
        obtain ⟨r1, hr1, hle1⟩ := ih s1 s' hpw'.2 (fun y hy => hck y (by simp [hy])) hinv1 hrun
          a r' (lt_of_lt_of_le ha hl) hr'
        obtain ⟨r0, hr0, h0⟩ := (hk a r1 hr1).1 ha
        refine ⟨r0, hr0, ?_⟩
        rcases h0 with h0 | h0
        · rw [← h0]
          exact hle1
        · have : r0.lastreset ≤ env.now := hinv a r0 hr0 (env, frame) (by simp)
          rw [h0.2] at hle1
          exact le_trans this hle1
    intro frames s s' hpw hck hinv hrun a r r' hr hr'
    obtain ⟨r0, hr0, hle⟩ := key frames s s' hpw hck hinv hrun a r' (Heap.read_lt hr) hr'
    rw [hr] at hr0
    cases hr0
    exact hle

theorem lastreset_monotone_witness :
    (processether setdefaults (Sample.env 7) (Sample.table 0 10)
        (Sample.reply (Sample.ip 1) Sample.mac1 Sample.mac1)).toOption.map
      (fun x => (x.2.heap.read 0).map
        (fun r => (decide (r.lastreset = 0
            ∨ (r.lastreset = 7 ∧ r.requests = 0 ∧ r.replies = 0
                ∧ (checknetarps (counted (Sample.reply (Sample.ip 1) Sample.mac1 Sample.mac1)
                    (Sample.record 0 10)) > 10
                  ∨ checknetarps (counted (Sample.reply (Sample.ip 1) Sample.mac1 Sample.mac1)
                    (Sample.record 0 10)) < -10))),
          r.lastreset))) = some (some (true, 7)) := by
  have hd : (processether setdefaults (Sample.env 7) (Sample.table 0 10)
      (Sample.reply (Sample.ip 1) Sample.mac1 Sample.mac1)).toOption.map
        (fun x => (x.2.heap.read 0).map (fun r => r.lastreset)) = some (some 7) := by decide
  rcases hp : processether setdefaults (Sample.env 7) (Sample.table 0 10)
      (Sample.reply (Sample.ip 1) Sample.mac1 Sample.mac1) with x | f
  · obtain ⟨n, s'⟩ := x
    rw [hp] at hd
    simp only [Res.toOption, Option.map_some', Option.some.injEq] at hd ⊢
    rcases hr' : s'.heap.read 0 with _ | r'
    · rw [hr'] at hd; cases hd
    rw [hr'] at hd
    simp only [Option.map_some', Option.some.injEq] at hd
    have h0 := ((lastreset_monotone setdefaults).1 (Sample.env 7) (Sample.table 0 10) s'
      (Sample.reply (Sample.ip 1) Sample.mac1 Sample.mac1) n hp).1 0 (Sample.record 0 10) r'
      rfl hr'
    simp only [Option.map_some', Option.some.injEq, Prod.mk.injEq, decide_eq_true_eq]
    refine ⟨?_, hd⟩
    rcases h0 with h0 | ⟨_, c2, _, c5, c6, c7⟩
    · exact Or.inl h0
    · exact Or.inr ⟨c2, c5, c6, c7⟩
  · rw [hp] at hd
    simp [Res.toOption] at hd


/-- Claim C23 (fails on the code): from the empty table, with the default options
and every frame at second 0 (nothing expires), the six requests for 10.0.0.1, .2,
.1, .3, .2, .3 name three distinct key addresses, yet afterwards four records are
allocated, all four are in the list that `dumpdata` writes (header and four rows),
and two of them hold 10.0.0.3. -/
theorem table_size_exceeds_distinct_keys :
    (List.map (fun f => f.arp_tpa)
        [Sample.request (Sample.ip 1), Sample.request (Sample.ip 2),
         Sample.request (Sample.ip 1), Sample.request (Sample.ip 3),
         Sample.request (Sample.ip 2), Sample.request (Sample.ip 3)]).dedup.length = 3
    ∧ (run setdefaults State.init
        [(Sample.env 0, Sample.request (Sample.ip 1)), (Sample.env 0, Sample.request (Sample.ip 2)),
         (Sample.env 0, Sample.request (Sample.ip 1)), (Sample.env 0, Sample.request (Sample.ip 3)),
         (Sample.env 0, Sample.request (Sample.ip 2)),
         (Sample.env 0, Sample.request (Sample.ip 3))]).toOption.map
      (fun s => ((s.heap.filter Option.isSome).length, s.details_csv.length,
        s.heap.map (Option.map ipdetails.ip_address)))
      = some (4, 5,
          [some (Sample.ip 1), some (Sample.ip 2), some (Sample.ip 3), some (Sample.ip 3)]) := by
  constructor <;> decide

/-- Claim C24: for every frame with operation bytes `b0`, `b1`, the operation
`processether` compares is the big-endian value `256 * b0 + b1`; it is
`ARPOP_REQUEST` exactly for the bytes 0, 1 and `ARPOP_REPLY` exactly for the bytes
0, 2; a request goes to `handlerequest` and a reply to `handlereply`; and for every
other value (allocation succeeding, the list one that `dumpdata` can walk)
`processether` returns `OK` having raised exactly one alert, the `NOTICE` of an
unrecognised ARP type, with every record that was allocated unchanged. -/
theorem operation_decoding (opts : optiondetails) (env : Env) (s : State) (frame : Frame)
    (hb0 : frame.ar_op0 < 256) (hb1 : frame.ar_op1 < 256) :
    frame.op = 256 * frame.ar_op0 + frame.ar_op1
    ∧ (frame.op = ARPOP_REQUEST ↔ frame.ar_op0 = 0 ∧ frame.ar_op1 = 1)
    ∧ (frame.op = ARPOP_REPLY ↔ frame.ar_op0 = 0 ∧ frame.ar_op1 = 2)
    ∧ (frame.op = ARPOP_REQUEST → processether_op opts env s frame =
        (handlerequest env s frame >>= fun x =>
          if x.1 = ERR_NOMEM then pure (redalert x.2 .nomem_details)
          else processip opts env x.2))
    ∧ (frame.op = ARPOP_REPLY → processether_op opts env s frame =
        (handlereply env s frame >>= fun x =>
          if x.1 = ERR_NOMEM then pure (redalert x.2 .nomem_details)
          else checkmacchanges opts env x.2 x.2.entrypoint frame.arp_sha >>= fun y =>
            (if y.1 ≠ OK then
              populateipspacerep env y.2 y.2.entrypoint frame >>= fun z => pure z.2
             else pure y.2) >>= fun s3 => processip opts env s3))
    ∧ (frame.op ≠ ARPOP_REQUEST → frame.op ≠ ARPOP_REPLY →
        env.malloc_ok = true → env.calloc_ok = true →
        (s.entrypoint = none ∨ ∃ e, s.entrypoint = some e ∧ walkable s (some e) = true) →
        ∃ s', processether opts env s frame = .ok (OK, s')
          ∧ s'.alerts = s.alerts ++ [⟨.NOTICE, .unrecognised⟩]
          ∧ ∀ a r, s.heap.read a = some r → s'.heap.read a = some r) := by
  have hop : frame.op = 256 * frame.ar_op0 + frame.ar_op1 := by
    simp only [Frame.op, Nat.mod_eq_of_lt hb0, Nat.mod_eq_of_lt hb1]
  refine ⟨hop, ?_, ?_, ?_, ?_, ?_⟩
  · rw [hop]
    show 256 * frame.ar_op0 + frame.ar_op1 = 1 ↔ _
    omega
  · rw [hop]
    show 256 * frame.ar_op0 + frame.ar_op1 = 2 ↔ _
    omega
  · intro h
    simp only [processether_op, h, if_true]
  · intro h
    have h21 : ¬ (ARPOP_REPLY = ARPOP_REQUEST) := by decide
    simp only [processether_op, h, h21, if_true, if_false]
  · intro h1 h2 hm hca hs
    exact processether_other opts env s frame hm hca h1 h2 hs

/-- Witness for C24: a reverse-ARP request (operation bytes 0, 3) on the table
that holds 10.0.0.1: one notice, the record unchanged. -/
theorem operation_decoding_witness :
    (processether setdefaults (Sample.env 0) (Sample.table 2 1)
        { Sample.request (Sample.ip 1) with ar_op1 := 3 }).toOption.map
      (fun x => (x.2.alerts, x.2.heap.read 0))
      = some ([⟨.NOTICE, .unrecognised⟩], some (Sample.record 2 1)) := by
  obtain ⟨s', h1, h2, h3⟩ := (operation_decoding setdefaults (Sample.env 0) (Sample.table 2 1)
    { Sample.request (Sample.ip 1) with ar_op1 := 3 } (by decide) (by decide)).2.2.2.2.2
    (by decide) (by decide) rfl rfl (Or.inr ⟨0, rfl, by decide⟩)
  rw [h1]
  simp only [Res.toOption, Option.map, h2, h3 0 (Sample.record 2 1) rfl]
  rfl

/-- C25 (code defect): whatever path `-f` names, and whatever the variable
`option` of `processarguments` holds at first, the path `loadoptions` passes to
`fopen` is the default `/etc/antidote.cfg`: `processarguments` has stored the
path of `-f` in `options.config_file` (second part, for `-f /tmp/x.cfg`), and the
call of `setdefaults` at the start of `loadoptions` overwrites it. -/
theorem config_file_override_is_lost :
    (∀ (P : String) (option0 : Int) (fopen : String → Option (List Nat)) (malloc_ok : Bool),
      (startup option0 [(102, P)] fopen malloc_ok).map Loaded.opened
        = some "/etc/antidote.cfg")
    ∧ (processarguments 0 [(102, "/tmp/x.cfg")] setdefaults).2.config_file = "/tmp/x.cfg"
    ∧ (startup 0 [(102, "/tmp/x.cfg")]
        (fun path => if path = "/tmp/x.cfg" then some (Sample.bytes "timeout 1\n") else none)
        true).map (fun l => (l.opened, l.result.toOption.map (fun x => (x.1, x.2.timeout))))
        = some ("/etc/antidote.cfg", some (ERR_NOOPTSFILE, 1500)) := by
  refine ⟨?_, by decide, by decide⟩
  intro P option0 fopen malloc_ok
  have h1 : (processarguments option0 [(102, P)] setdefaults).1 = OK := by
    unfold processarguments processarguments_loop
    by_cases h : option0 = -1
    · simp [h]
    · simp [h, processarguments_loop]
  unfold startup
  simp only [h1, ne_eq, not_true_eq_false, if_false, Option.map_some']
  unfold loadoptions
  simp only []
  cases hf : fopen setdefaults.config_file <;> simp [setdefaults]


/-- Claim C26 (fails on the code): whatever string `options.root_email` holds,
`netalert` calls `mailalert` exactly once with it as recipient; with the string
"NO" and a mail server that accepts the dialogue, `redalert` sends the whole
message, addressed to NO. -/
theorem recipient_no_still_mails :
    (∀ (options : optiondetails) (env : Smtp) (err : String),
      (AlertC.netalert options env err).2.filter Event.is_mailalert
        = [.mailalert options.root_email "Network Alert from Antidote" err])
    ∧ (AlertC.netalert { setdefaults with root_email := "NO" } Sample.smtp "x").2
        = [.netalert "x", .mailalert "NO" "Network Alert from Antidote" "x",
            .netsend "HELO watcher\r\n", .netsend "MAIL FROM:antidote@localhost\r\n",
            .netsend "RCPT TO:NO\r\n", .netsend "DATA\r\n",
            .netsend "Date: Thu Jan  1 00:00:00 1970\n\r\n",
            .netsend "From: antidote@localhost\r\n",
            .netsend "Subject: Network Alert from Antidote\r\n", .netsend "To: NO\r\n",
            .netsend "x\r\n.\r\n", .netsend "QUIT\r\n"]
    ∧ (AlertC.redalert { setdefaults with root_email := "NO" } Sample.smtp "x").filter
        Event.is_mailalert = [.mailalert "NO" "Network Alert from Antidote" "x"] := by
  refine ⟨?_, by decide, by decide⟩
  intro options env err
  obtain ⟨_, sent, logged, h, hs, hl⟩ := netalert_events options env err
  rw [h]
  have h1 : sent.filter Event.is_mailalert = [] := by
    rw [List.filter_eq_nil_iff]
    intro e he
    have := hs e he
    cases e <;> simp_all [Event.is_netsend, Event.is_mailalert]
  have h2 : logged.filter Event.is_mailalert = [] := by
    rw [List.filter_eq_nil_iff]
    intro e he
    have := hl e he
    cases e <;> simp_all [Event.is_syslog, Event.is_mailalert]
  simp [List.filter_cons, Event.is_mailalert, h1, h2]

/-- Claim C27: for every message, options and mail server, `sendalert` with
priority `HIGHEST` enters `netalert` exactly once, and `sendalert` with any other
integer as priority enters neither `netalert` nor `mailalert` and sends nothing
to the mail server. -/
theorem only_highest_reaches_netalert (options : optiondetails) (env : Smtp) (priority : Int)
    (err : String) :
    (AlertC.sendalert options env HIGHEST err).filter Event.is_netalert = [.netalert err]
    ∧ (priority ≠ HIGHEST → ∀ e ∈ AlertC.sendalert options env priority err,
        e.is_netalert = false ∧ e.is_mailalert = false ∧ e.is_netsend = false) := by
  constructor
  · obtain ⟨_, sent, logged, h, hs, hl⟩ := netalert_events options env err
    have h1 : sent.filter Event.is_netalert = [] := by
      rw [List.filter_eq_nil_iff]
      intro e he
      have := hs e he
      cases e <;> simp_all [Event.is_netsend, Event.is_netalert]
    have h2 : logged.filter Event.is_netalert = [] := by
      rw [List.filter_eq_nil_iff]
      intro e he
      have := hl e he
      cases e <;> simp_all [Event.is_syslog, Event.is_netalert]
    simp only [AlertC.sendalert, if_true, AlertC.redalert, h]
    simp [List.filter_cons, Event.is_netalert, h1, h2]
  · intro hp e he
    simp only [AlertC.sendalert, hp, if_false] at he
    split_ifs at he
    · simp only [AlertC.bluealert, List.mem_singleton] at he
      subst he
      exact ⟨rfl, rfl, rfl⟩
    · simp only [AlertC.alert, List.mem_singleton] at he
      subst he
      exact ⟨rfl, rfl, rfl⟩
    · simp only [AlertC.notice, List.mem_singleton] at he
      subst he
      exact ⟨rfl, rfl, rfl⟩
    · simp at he

/-- Witness for C27: `sendalert` with priority `MEDIUM` and the default options
writes one entry with `syslog` and nothing else. -/
theorem only_highest_reaches_netalert_witness :
    (AlertC.sendalert setdefaults Sample.smtp MEDIUM "x").all
      (fun e => !e.is_netalert && !e.is_mailalert && !e.is_netsend) = true
    ∧ (AlertC.sendalert setdefaults Sample.smtp MEDIUM "x").length = 1 := by
  refine ⟨?_, by decide⟩
  rw [List.all_eq_true]
  intro e he
  obtain ⟨h1, h2, h3⟩ := (only_highest_reaches_netalert setdefaults Sample.smtp MEDIUM "x").2
    (by decide) e he
  simp [h1, h2, h3]

/-- Claim C28 (fails on the code): `netalert` returns 0 whatever `mailalert`
returns, and writes its specific entry when the mail server cannot be resolved,
closes the connection or sends a wrong reply; but when `connect` fails,
`mailalert` returns `ERR_CONNECTMAILSERVER` and `netalert` writes nothing to the
local log. -/
theorem connect_failure_is_not_logged :
    (∀ (options : optiondetails) (env : Smtp) (err : String),
      (AlertC.netalert options env err).1 = 0)
    ∧ (∀ (options : optiondetails) (err : String),
      (AlertC.mailalert options { Sample.smtp with connect_ok := false } options.root_email
        "Network Alert from Antidote" err).1 = ERR_CONNECTMAILSERVER
      ∧ (AlertC.netalert options { Sample.smtp with connect_ok := false } err).2
        = [.netalert err, .mailalert options.root_email "Network Alert from Antidote" err])
    ∧ (∀ (options : optiondetails) (err : String),
      (AlertC.netalert options { Sample.smtp with gethostbyname_ok := false } err).2
        = [.netalert err, .mailalert options.root_email "Network Alert from Antidote" err,
            .syslog .LOG_AUTHPRIV .LOG_ERR "Cannot contact mail server."])
    ∧ (∀ (options : optiondetails) (err : String),
      (AlertC.netalert options { Sample.smtp with recv := [.data ""] } err).2
        = [.netalert err, .mailalert options.root_email "Network Alert from Antidote" err,
            .syslog .LOG_AUTHPRIV .LOG_ERR "Connection to mail server unexpectedly closed."])
    ∧ (∀ (options : optiondetails) (err : String),
      (AlertC.netalert options { Sample.smtp with recv := [.data "554 no"] } err).2
        = [.netalert err, .mailalert options.root_email "Network Alert from Antidote" err,
            .syslog .LOG_AUTHPRIV .LOG_ERR "Mail server sent unrecognised reply."]) := by
  refine ⟨fun options env err => (netalert_events options env err).1, ?_, ?_, ?_, ?_⟩
  · intro options err
    exact ⟨rfl, rfl⟩
  · intro options err
    rfl
  · intro options err
    rfl
  · intro options err
    rfl

/-- C29 (counterexample): the text 153722867280912931 is a decimal integer, but
sixty times its value, 9223372036854775860, is above `LONG_MAX`: the `long`
field `timeout` cannot hold it, and the product as the machine computes it is
negative. -/
theorem timeout_of_large_text_is_not_sixty_times :
    (setoption setdefaults "timeout" "153722867280912931").2.timeout ≠ 60 * 153722867280912931
    ∧ (setoption setdefaults "timeout" "153722867280912931")
        = (OK, { setdefaults with timeout := -9223372036854775756 })
    ∧ decimaltext false [1,5,3,7,2,2,8,6,7,2,8,0,9,1,2,9,3,1] = "153722867280912931"
    ∧ decimalvalue false [1,5,3,7,2,2,8,6,7,2,8,0,9,1,2,9,3,1] = 153722867280912931 := by
  refine ⟨by decide, by decide, by decide, by decide⟩

/-- C29 (amended): for every decimal integer text (an optional minus sign and
digits) whose value times sixty is at most `LONG_MAX` in absolute value,
`setoption("timeout", v)` returns `OK`, stores sixty times the value of `v` in
`options.timeout` and changes no other field; and `setdefaults` gives the timeout
1500. -/
theorem timeout_minutes_to_seconds (options : optiondetails) (neg : Bool) (ds : List Nat)
    (hd : ∀ d ∈ ds, d < 10)
    (hr : 60 * Nat.ofDigits 10 ds.reverse ≤ 9223372036854775807) :
    setoption options "timeout" (decimaltext neg ds)
        = (OK, { options with timeout := 60 * decimalvalue neg ds })
      ∧ setdefaults.timeout = 1500 := by
  refine ⟨?_, rfl⟩
  rw [setoption_timeout, strtol_decimaltext neg ds hd]
  have hv : (-9223372036854775807 : Int) ≤ 60 * decimalvalue neg ds
      ∧ 60 * decimalvalue neg ds ≤ 9223372036854775807 := by
    have : ((60 * Nat.ofDigits 10 ds.reverse : Nat) : Int) ≤ 9223372036854775807 := by
      exact_mod_cast hr
    unfold decimalvalue
    cases neg <;> simp <;> push_cast at this <;> omega
  have h1 : max (-9223372036854775808 : Int) (min 9223372036854775807 (decimalvalue neg ds))
      = decimalvalue neg ds := by
    omega
  rw [h1]
  have h2 : to_long (60 * decimalvalue neg ds) = 60 * decimalvalue neg ds := by
    unfold to_long
    omega
  rw [h2]

theorem timeout_minutes_to_seconds_witness :
    setoption setdefaults "timeout" "25" = (OK, { setdefaults with timeout := 1500 })
      ∧ setoption { setdefaults with timeout := 7 } "timeout" "-3"
        = (OK, { setdefaults with timeout := -180 })
      ∧ setdefaults.timeout = 1500 := by
  have h1 := timeout_minutes_to_seconds setdefaults false [2, 5] (by decide) (by decide)
  have h2 := timeout_minutes_to_seconds { setdefaults with timeout := 7 } true [3]
    (by decide) (by decide)
  exact ⟨h1.1, h2.1, h1.2⟩


/-- C30: `setoption` ignores unknown keys and compares keys without regard to
letter case. For every option name whose C string, put in lower case, is none of
the ten recognised keys, and every value, `setoption` returns `OK` and leaves the
record `options` as it was; and for any two names whose C strings differ only in
letter case (recognised or not), `setoption` gives the same return value and the
same record. -/
theorem unknown_keys_ignored_and_case_insensitive :
    (∀ (options : optiondetails) (name val : String),
      (∀ k ∈ optionnames, (cstr name).map Char.toLower ≠ k.toList) →
        setoption options name val = (OK, options))
    ∧ (∀ (options : optiondetails) (a b val : String),
        (cstr a).map Char.toLower = (cstr b).map Char.toLower →
          setoption options a val = setoption options b val) := by
  refine ⟨?_, setoption_congr⟩
  intro options name val h
  have hz : ∀ k ∈ optionnames, strcasecmp (cstr name) k.toList ≠ 0 := by
    intro k hk h0
    exact h k hk ((strcasecmp_optionname _ (cstr_no_nul name) k hk).mp h0)
  unfold setoption
  simp only [hz "ethernetdevice" (by decide), hz "emailsender" (by decide),
    hz "emailrecipient" (by decide), hz "emailserver" (by decide),
    hz "emailserverport" (by decide), hz "promiscuous" (by decide),
    hz "checkmacchanges" (by decide), hz "poisonthreshold" (by decide),
    hz "badnetthreshold" (by decide), hz "timeout" (by decide), if_false]

theorem unknown_keys_ignored_and_case_insensitive_witness :
    setoption setdefaults "time-out" "25" = (OK, setdefaults)
      ∧ setoption setdefaults "PoisonThreshold" "7" = setoption setdefaults "poisonthreshold" "7"
      ∧ setoption setdefaults "poisonthreshold" "7"
          = (OK, { setdefaults with poison_threshold := 7 })
      ∧ optionnames.all (fun k => (cstr "time-out").map Char.toLower != k.toList) = true
      ∧ (cstr "PoisonThreshold").map Char.toLower = (cstr "poisonthreshold").map Char.toLower :=
  ⟨unknown_keys_ignored_and_case_insensitive.1 setdefaults "time-out" "25" (by decide),
    unknown_keys_ignored_and_case_insensitive.2 setdefaults "PoisonThreshold" "poisonthreshold"
      "7" (by decide),
    by decide, by decide, by decide⟩


/-- C31 (code defect): the rows of `DETAILS.csv` do not match the header. After one
reply from 10.0.0.1 with MAC aa:bb:cc:dd:ee:01 the file holds the header, which
has five fields (four commas), and one row, which has four (three commas): each
of the six bytes of the MAC is followed by a colon, the last one too, and the
count of requests comes right after that colon, in the field of the MAC. -/
theorem dump_row_has_four_fields :
    (run setdefaults State.init
        [(Sample.env 0, Sample.reply (Sample.ip 1) Sample.mac1 Sample.mac1)]).toOption.map
        (fun s => s.details_csv)
      = some ["\"IP Address\",\"MAC Address\",\"Requests\",\"Replies\",\"Last Reset\"\n",
              "10.0.0.1,AA:BB:CC:DD:EE:1:0,1,0\n"]
    ∧ dumprow (Sample.record 3 2) = "10.0.0.1,AA:BB:CC:DD:EE:1:3,2,0\n"
    ∧ ("\"IP Address\",\"MAC Address\",\"Requests\",\"Replies\",\"Last Reset\"\n".toList.count
        ',') = 4
    ∧ (dumprow (Sample.record 3 2)).toList.count ',' = 3 := by
  refine ⟨by decide, by decide, by decide, by decide⟩


/-- C32 (code defect): on a stream whose last line is a comment without a newline
`eatuseless` does not terminate. Inside a comment at the end of the stream the loop
returns after no number of iterations, whatever the stream holds; so for the stream
`#x` the loop started by `eatuseless` returns after no number of iterations, and
the function has no result. With the newline the result is `ERR_EOF`. A byte 255,
which `char temp` makes equal to `EOF`, gives `ERR_EOF` although a character
follows. -/
theorem eatuseless_hangs_in_final_comment :
    (∀ (content : List Nat) (fuel : Nat),
      eatuseless_loop fuel ⟨content, content.length⟩ true = .fault .no_termination)
    ∧ (∀ fuel : Nat,
        eatuseless_loop fuel ⟨Sample.bytes "#x", 0⟩ false = .fault .no_termination)
    ∧ eatuseless ⟨Sample.bytes "#x", 0⟩ = .fault .no_termination
    ∧ eatuseless ⟨Sample.bytes "#x\n", 0⟩ = .ok (ERR_EOF, ⟨Sample.bytes "#x\n", 3⟩)
    ∧ eatuseless ⟨[255, 120], 0⟩ = .ok (ERR_EOF, ⟨[255, 120], 1⟩) := by
  refine ⟨eatuseless_loop_comment_at_end, ?_, by decide, by decide, by decide⟩
  intro fuel
  match fuel with
  | 0 => rfl
  | 1 => rfl
  | 2 => rfl
  | n + 3 =>
    have h := eatuseless_loop_comment_at_end (Sample.bytes "#x") (n + 1)
    have e : eatuseless_loop (n + 3) ⟨Sample.bytes "#x", 0⟩ false
        = eatuseless_loop (n + 1) ⟨Sample.bytes "#x", (Sample.bytes "#x").length⟩ true := rfl
    rw [e, h]


/-- C33: the net imbalance of every record stays within the thresholds. For every
configuration with `badnet_threshold <= 0 <= poison_threshold`, every finite
sequence of frames and every behaviour of the C library, if `processether` has
processed the frames from the empty table (so this holds after each frame, the
sequence being arbitrary), every allocated record satisfies
`badnet_threshold <= net <= poison_threshold`, where `net` is the value
`checknetarps` computes; for counters below 2^31 that is `replies - requests`. -/
theorem net_within_thresholds (opts : optiondetails) (frames : List (Env × Frame))
    (s' : State) (hb : opts.badnet_threshold ≤ 0) (hp : 0 ≤ opts.poison_threshold)
    (h : run opts State.init frames = .ok s') :
    ∀ a r, s'.heap.read a = some r →
      (opts.badnet_threshold ≤ checknetarps r ∧ checknetarps r ≤ opts.poison_threshold)
      ∧ (r.requests < 2147483648 → r.replies < 2147483648 →
          opts.badnet_threshold ≤ (r.replies : Int) - (r.requests : Int)
            ∧ (r.replies : Int) - (r.requests : Int) ≤ opts.poison_threshold) := by
  have h0 : netbut opts none State.init := by
    intro a r hr _
    simp [State.init, Heap.read] at hr
  have hn := run_net hb hp frames State.init s' h0 h
  intro a r hr
  have hin := hn a r hr (by simp)
  refine ⟨hin, ?_⟩
  intro hq hr2
  have he := checknetarps_eq r hq hr2
  unfold inrange at hin
  rw [he] at hin
  exact hin

theorem net_within_thresholds_witness :
    (run { setdefaults with poison_threshold := 1, badnet_threshold := -1 } State.init
        [(Sample.env 0, Sample.reply (Sample.ip 1) Sample.mac1 Sample.mac1),
         (Sample.env 0, Sample.reply (Sample.ip 1) Sample.mac1 Sample.mac1),
         (Sample.env 0, Sample.request (Sample.ip 2))]).toOption.map
      (fun s => ((s.heap.read 0).map (fun r =>
          (decide (-1 ≤ checknetarps r ∧ checknetarps r ≤ 1), r.requests, r.replies)),
        (s.heap.read 1).map (fun r =>
          (decide (-1 ≤ checknetarps r ∧ checknetarps r ≤ 1), r.requests, r.replies))))
      = some (some (true, 0, 0), some (true, 1, 0)) := by
  have hd : (run { setdefaults with poison_threshold := 1, badnet_threshold := -1 } State.init
        [(Sample.env 0, Sample.reply (Sample.ip 1) Sample.mac1 Sample.mac1),
         (Sample.env 0, Sample.reply (Sample.ip 1) Sample.mac1 Sample.mac1),
         (Sample.env 0, Sample.request (Sample.ip 2))]).toOption.map
      (fun s => ((s.heap.read 0).map (fun r => (r.requests, r.replies)),
        (s.heap.read 1).map (fun r => (r.requests, r.replies))))
      = some (some (0, 0), some (1, 0)) := by decide
  rcases hrun : run { setdefaults with poison_threshold := 1, badnet_threshold := -1 }
      State.init
        [(Sample.env 0, Sample.reply (Sample.ip 1) Sample.mac1 Sample.mac1),
         (Sample.env 0, Sample.reply (Sample.ip 1) Sample.mac1 Sample.mac1),
         (Sample.env 0, Sample.request (Sample.ip 2))] with s' | f
  · have ht := net_within_thresholds
      { setdefaults with poison_threshold := 1, badnet_threshold := -1 } _ s'
      (by decide) (by decide) hrun
    rw [hrun] at hd
    simp only [Res.toOption, Option.map_some', Option.some.injEq, Prod.mk.injEq] at hd ⊢
    obtain ⟨hd0, hd1⟩ := hd
    rcases h0 : s'.heap.read 0 with _ | r0
    · rw [h0] at hd0; cases hd0
    rcases h1 : s'.heap.read 1 with _ | r1
    · rw [h1] at hd1; cases hd1
    rw [h0] at hd0
    rw [h1] at hd1
    simp only [Option.map_some', Option.some.injEq, Prod.mk.injEq] at hd0 hd1 ⊢
    have t0 := (ht 0 r0 h0).1
    have t1 := (ht 1 r1 h1).1
    simp only at t0 t1
    exact ⟨⟨decide_eq_true t0, hd0.1, hd0.2⟩, ⟨decide_eq_true t1, hd1.1, hd1.2⟩⟩
  · rw [hrun] at hd
    simp [Res.toOption] at hd


/-- C34 (code defect): inserting a record does not keep the table well formed. The
table of the records 0 and 1 (addresses 10.0.0.1 and 10.0.0.2), entered at record
0, is a well-formed doubly linked list. `handlerequest` for 10.0.0.3, and likewise
`handlereply` from 10.0.0.3, link the new record 2 between them: the `next` of
record 0 is 2 and the `next` of record 2 is 1, but the `previous` of record 1 is
still 0. So afterwards no list that contains record 2 is well formed, whatever
record it starts behind (the last two parts: containing 2 and being well formed is
false for every list). -/
theorem insertion_breaks_the_back_link :
    islist { Sample.pair with entrypoint := some 0 } none [0, 1] = true
    ∧ (handlerequest (Sample.env 0) { Sample.pair with entrypoint := some 0 }
          (Sample.request (Sample.ip 3))).toOption.map
        (fun x => (x.1, x.2.heap.map (fun c => c.map ipdetails.links)))
        = some (OK, [some (none, some 2), some (some 0, none), some (some 0, some 1)])
    ∧ (handlereply (Sample.env 0) { Sample.pair with entrypoint := some 0 }
          (Sample.reply (Sample.ip 3) Sample.mac1 Sample.mac1)).toOption.map
        (fun x => (x.1, x.2.heap.map (fun c => c.map ipdetails.links)))
        = some (OK, [some (none, some 2), some (some 0, none), some (some 0, some 1)])
    ∧ (∀ (prev : Option Nat) (l : List Nat),
        (handlerequest (Sample.env 0) { Sample.pair with entrypoint := some 0 }
          (Sample.request (Sample.ip 3))).toOption.map
          (fun x => l.contains 2 && islist x.2 prev l) = some false)
    ∧ (∀ (prev : Option Nat) (l : List Nat),
        (handlereply (Sample.env 0) { Sample.pair with entrypoint := some 0 }
          (Sample.reply (Sample.ip 3) Sample.mac1 Sample.mac1)).toOption.map
          (fun x => l.contains 2 && islist x.2 prev l) = some false) := by
  refine ⟨by decide, by decide, by decide, ?_, ?_⟩
  · intro prev l
    have hd : (handlerequest (Sample.env 0) { Sample.pair with entrypoint := some 0 }
        (Sample.request (Sample.ip 3))).toOption.map
        (fun x => ((x.2.heap.read 2).map ipdetails.links, (x.2.heap.read 1).map ipdetails.links))
        = some (some (some 0, some 1), some (some 0, none)) := by decide
    rcases hx : handlerequest (Sample.env 0) { Sample.pair with entrypoint := some 0 }
        (Sample.request (Sample.ip 3)) with x | f
    · rw [hx] at hd
      simp only [Res.toOption, Option.map_some', Option.some.injEq, Prod.mk.injEq] at hd
      simp only [Res.toOption, Option.map_some', Option.some.injEq]
      by_cases hl : 2 ∈ l
      · rw [not_islist_of_links x.2 2 1 (some 0) hd.1 ⟨0, none, hd.2, by decide⟩ prev l hl]
        simp
      · simp [hl]
    · rw [hx] at hd
      simp [Res.toOption] at hd
  · intro prev l
    have hd : (handlereply (Sample.env 0) { Sample.pair with entrypoint := some 0 }
        (Sample.reply (Sample.ip 3) Sample.mac1 Sample.mac1)).toOption.map
        (fun x => ((x.2.heap.read 2).map ipdetails.links, (x.2.heap.read 1).map ipdetails.links))
        = some (some (some 0, some 1), some (some 0, none)) := by decide
    rcases hx : handlereply (Sample.env 0) { Sample.pair with entrypoint := some 0 }
        (Sample.reply (Sample.ip 3) Sample.mac1 Sample.mac1) with x | f
    · rw [hx] at hd
      simp only [Res.toOption, Option.map_some', Option.some.injEq, Prod.mk.injEq] at hd
      simp only [Res.toOption, Option.map_some', Option.some.injEq]
      by_cases hl : 2 ∈ l
      · rw [not_islist_of_links x.2 2 1 (some 0) hd.1 ⟨0, none, hd.2, by decide⟩ prev l hl]
        simp
      · simp [hl]
    · rw [hx] at hd
      simp [Res.toOption] at hd


/-- C35: on a well-formed table `checkip` is total, sound and complete. For every
state, every list `l` of distinct addresses that form a doubly linked list in the
heap (each `previous` the address before, each `next` the address after, `NULL` at
both ends), every start record in it and every IP address, `checkip` returns; a
record it returns is in the list and holds exactly that address; and it returns a
record (not `NULL`) if and only if some record of the list holds that address. -/
theorem checkip_sound_and_complete (s : State) (l : List Nat) (start : Nat) (ipaddress : Ip)
    (hn : l.Nodup) (hl : islist s none l = true) (hs : start ∈ l) :
    ∃ res, checkip s (some start) ipaddress = .ok res
      ∧ (∀ p, res = some p →
          p ∈ l ∧ ∃ r, s.heap.read p = some r ∧ r.ip_address = ipaddress)
      ∧ (res.isSome = true ↔
          ∃ a ∈ l, ∃ r, s.heap.read a = some r ∧ r.ip_address = ipaddress) := by
  obtain ⟨pre, post, rfl⟩ := List.append_of_mem hs
  obtain ⟨r, hr, hp, hnx, hpost⟩ := islist_append_node s pre none start post hl
  have hlen := islist_length_le s _ none hn hl
  simp only [List.length_append, List.length_cons] at hlen
  have hfw := searchforwards_islist s ipaddress post (some start) (walkfuel s) hpost
    (by unfold walkfuel; omega)
  have hbw := searchbackwards_islist s ipaddress pre start post (walkfuel s) hl
    (by unfold walkfuel; omega)
  rw [← hnx] at hfw
  simp only [Option.or_none] at hp
  rw [← hp] at hbw
  have hmem : ∀ a, (∃ r, s.heap.read a = some r ∧ r.ip_address = ipaddress)
      ↔ matchat s ipaddress a = true := fun a => (matchat_iff s ipaddress a).symm
  simp only [checkip, deref_of_read hr, Res.ok_bind]
  cases hi : ipmatch r ipaddress with
  | true =>
    refine ⟨some start, by simp, ?_, ?_⟩
    · intro p hp'
      cases hp'
      exact ⟨by simp, r, hr, (ipmatch_iff _ _).1 hi⟩
    · simp only [Option.isSome_some, true_iff]
      exact ⟨start, by simp, r, hr, (ipmatch_iff _ _).1 hi⟩
  | false =>
    have hst : matchat s ipaddress start = false := by simp [matchat, hr, hi]
    simp only [Bool.false_eq_true, if_false, hfw, Res.ok_bind]
    cases hf : post.find? (matchat s ipaddress) with
    | some q =>
      refine ⟨some q, by simp, ?_, ?_⟩
      · intro p hp'
        have hpq : q = p := by simpa using hp'
        subst hpq
        have h1 := List.find?_some hf
        have h2 := List.mem_of_find?_eq_some hf
        exact ⟨by simp [h2], (matchat_iff s ipaddress q).1 h1⟩
      · simp only [Option.isSome_some, true_iff]
        have h1 := List.find?_some hf
        have h2 := List.mem_of_find?_eq_some hf
        exact ⟨q, by simp [h2], (matchat_iff s ipaddress q).1 h1⟩
    | none =>
      simp only [hbw]
      refine ⟨_, rfl, ?_, ?_⟩
      · intro p hp'
        have h1 := List.find?_some hp'
        have h2 := List.mem_of_find?_eq_some hp'
        exact ⟨by simp [List.mem_reverse.1 h2], (matchat_iff s ipaddress p).1 h1⟩
      · constructor
        · intro h
          obtain ⟨p, hp'⟩ := Option.isSome_iff_exists.1 h
          have h1 := List.find?_some hp'
          have h2 := List.mem_of_find?_eq_some hp'
          exact ⟨p, by simp [List.mem_reverse.1 h2], (matchat_iff s ipaddress p).1 h1⟩
        · rintro ⟨a, ha, hm⟩
          rw [hmem] at hm
          rw [List.find?_isSome]
          simp only [List.mem_append, List.mem_cons] at ha
          rcases ha with ha | rfl | ha
          · exact ⟨a, List.mem_reverse.2 ha, hm⟩
          · rw [hst] at hm; cases hm
          · have := List.find?_eq_none.1 hf a ha
            rw [hm] at this
            exact absurd rfl this

theorem checkip_sound_and_complete_witness :
    (checkip Sample.pair (some 1) (Sample.ip 1)).toOption.map Option.isSome = some true
      ∧ (checkip Sample.pair (some 0) (Sample.ip 2)).toOption.map Option.isSome = some true
      ∧ (checkip Sample.pair (some 1) (Sample.ip 7)).toOption.map Option.isSome
          = some false := by
  obtain ⟨res1, h1, _, c1⟩ := checkip_sound_and_complete Sample.pair [0, 1] 1 (Sample.ip 1)
    (by decide) (by decide) (by decide)
  obtain ⟨res2, h2, _, c2⟩ := checkip_sound_and_complete Sample.pair [0, 1] 0 (Sample.ip 2)
    (by decide) (by decide) (by decide)
  obtain ⟨res3, h3, _, c3⟩ := checkip_sound_and_complete Sample.pair [0, 1] 1 (Sample.ip 7)
    (by decide) (by decide) (by decide)
  have e1 : res1.isSome = true := c1.2 ⟨0, by decide, _, rfl, rfl⟩
  have e2 : res2.isSome = true := c2.2 ⟨1, by decide, _, rfl, rfl⟩
  have e3 : res3.isSome = false := by
    cases h : res3.isSome with
    | false => rfl
    | true =>
      obtain ⟨a, ha, r, hr, hi⟩ := c3.1 h
      simp only [List.mem_cons, List.mem_singleton, List.not_mem_nil, or_false] at ha
      rcases ha with rfl | rfl
      · have : r = _ := (Option.some.inj hr).symm
        subst this
        exact absurd hi (by decide)
      · have : r = _ := (Option.some.inj hr).symm
        subst this
        exact absurd hi (by decide)
  rw [h1, h2, h3]
  simp [Res.toOption, e1, e2, e3]


/-- C36 (code defect): the entry point handed to `dumpdata` can be `NULL`. With the
default options, after a request for 10.0.0.1 at second 0 the table holds one
record; a second request for 10.0.0.1 at second 1501 is counted on it, the age
check evicts it, `checktimeouts` returns its `next`, which is `NULL`, and
`processip` stores that in the entry point. `rewindip(NULL)` then reads
`ip->previous` through the null pointer, so `dumpdata` and `processether` do not
return. The same happens on the first frame when `gettimeofday` fails, since
`checktimeouts` then returns `NULL` as well. -/
theorem entry_point_null_at_dump :
    (run setdefaults State.init [(Sample.env 0, Sample.request (Sample.ip 1))]).toOption.map
        (fun s => (s.entrypoint, s.heap.length)) = some (some 0, 1)
    ∧ ((run setdefaults State.init [(Sample.env 0, Sample.request (Sample.ip 1))]).bind
        (fun s => processether_op setdefaults (Sample.env 1501) s
          (Sample.request (Sample.ip 1)))).toOption.map
        (fun s => (s.entrypoint, s.heap)) = some (none, [none])
    ∧ (∀ s : State, rewindip s none = .fault .null_pointer)
    ∧ (∀ (env : Env) (s : State), dumpdata env s none = .fault .null_pointer)
    ∧ run setdefaults State.init
        [(Sample.env 0, Sample.request (Sample.ip 1)),
         (Sample.env 1501, Sample.request (Sample.ip 1))] = .fault .null_pointer
    ∧ run setdefaults State.init
        [(⟨0, false, true, true, true⟩, Sample.request (Sample.ip 1))]
        = .fault .null_pointer := by
  refine ⟨by decide, by decide, ?_, ?_, by decide, by decide⟩
  · intro s
    rfl
  · intro env s
    rfl


/-- C37 (code defect): one reply can raise the conflicting-MAC alert twice. With
the default options, a reply from 10.0.0.1 whose Ethernet source MAC differs from
its ARP sender MAC raises two conflicting-MAC alerts (three alerts in all) when it
is the first frame ever, and also when it creates a record in a table that holds
another address. On a record that already stores the Ethernet MAC of the frame it
raises one (after a changed-MAC alert); on a record that stores the ARP sender
MAC of the frame it raises none. -/
theorem mismatch_alert_raised_twice :
    (processether setdefaults (Sample.env 0) State.init
        (Sample.reply (Sample.ip 1) Sample.mac1 Sample.mac2)).toOption.map
      (fun x => (x.2.alerts.countP (fun a => a.err.is_dodgymacs), x.2.alerts.length))
      = some (2, 3)
    ∧ ((run setdefaults State.init [(Sample.env 0, Sample.request (Sample.ip 5))]).bind
        (fun s => processether setdefaults (Sample.env 0) s
          (Sample.reply (Sample.ip 1) Sample.mac1 Sample.mac2))).toOption.map
      (fun x => (x.2.alerts.countP (fun a => a.err.is_dodgymacs), x.2.alerts.length))
      = some (2, 3)
    ∧ (processether setdefaults (Sample.env 0) (Sample.table 0 0)
        (Sample.reply (Sample.ip 1) Sample.mac1 Sample.mac2)).toOption.map
      (fun x => (x.2.alerts.countP (fun a => a.err.is_dodgymacs), x.2.alerts.length))
      = some (1, 2)
    ∧ (processether setdefaults (Sample.env 0) (Sample.table 0 0)
        (Sample.reply (Sample.ip 1) Sample.mac2 Sample.mac1)).toOption.map
      (fun x => (x.2.alerts.countP (fun a => a.err.is_dodgymacs), x.2.alerts.length))
      = some (0, 0) := by
  refine ⟨by decide, by decide, by decide, by decide⟩


/-- C38 (code defect): the key of a record whose first octet is 0 is overwritten.
With the default options, after a request for 0.0.0.5 the table holds one record,
key 0.0.0.5, one request, and it is the entry point; a request for 10.0.0.2 then
changes the key of that record to 10.0.0.2 and counts on it: the table holds one
record, key 10.0.0.2, two requests, and none for 0.0.0.5. With replies instead of
requests the stored MAC aa:bb:cc:dd:ee:01 is replaced by aa:bb:cc:dd:ee:02 as
well, and no alert is raised. -/
theorem zero_octet_key_is_overwritten :
    (run setdefaults State.init [(Sample.env 0, Sample.request ⟨0, 0, 0, 5⟩)]).toOption.map
        (fun s => (s.entrypoint, s.heap.map (fun c => c.map ipdetails.data)))
      = some (some 0, [some (⟨0, 0, 0, 5⟩, Mac.zero, 1, 0, 0)])
    ∧ (run setdefaults State.init
        [(Sample.env 0, Sample.request ⟨0, 0, 0, 5⟩),
         (Sample.env 0, Sample.request (Sample.ip 2))]).toOption.map
        (fun s => (s.entrypoint, s.heap.map (fun c => c.map ipdetails.data)))
      = some (some 0, [some (Sample.ip 2, Mac.zero, 2, 0, 0)])
    ∧ (run setdefaults State.init
        [(Sample.env 0, Sample.reply ⟨0, 0, 0, 5⟩ Sample.mac1 Sample.mac1)]).toOption.map
        (fun s => (s.entrypoint, s.heap.map (fun c => c.map ipdetails.data), s.alerts))
      = some (some 0, [some (⟨0, 0, 0, 5⟩, Sample.mac1, 0, 1, 0)], [])
    ∧ (run setdefaults State.init
        [(Sample.env 0, Sample.reply ⟨0, 0, 0, 5⟩ Sample.mac1 Sample.mac1),
         (Sample.env 0, Sample.reply (Sample.ip 2) Sample.mac2 Sample.mac2)]).toOption.map
        (fun s => (s.entrypoint, s.heap.map (fun c => c.map ipdetails.data), s.alerts))
      = some (some 0, [some (Sample.ip 2, Sample.mac2, 0, 2, 0)], []) := by
  refine ⟨?_, ?_, ?_, ?_⟩ <;> rfl


/-- C39: for every MAC of six bytes (each below 256), `sumbytes(mac, 6)` lies
between 0 and 1530, and it is 0 exactly when all six bytes are zero; so the test
`sumbytes(...) == 0` of `handlereply` and `checkmacchanges` holds for the all-zero
address and for no other. -/
theorem sumbytes_sentinel (m : Mac)
    (hb : m.b0 < 256 ∧ m.b1 < 256 ∧ m.b2 < 256 ∧ m.b3 < 256 ∧ m.b4 < 256 ∧ m.b5 < 256) :
    0 ≤ sumbytes m ETH_ALEN ∧ sumbytes m ETH_ALEN ≤ 1530
      ∧ (sumbytes m ETH_ALEN = 0 ↔ m = Mac.zero) := by
  refine ⟨?_, ?_, sumbytes_eq_zero_iff m⟩
  · cases m
    simp [sumbytes, List.range, List.range.loop, List.foldl, Mac.get]
    omega
  · cases m
    simp [sumbytes, List.range, List.range.loop, List.foldl, Mac.get] at hb ⊢
    omega

theorem sumbytes_sentinel_witness :
    (0 ≤ sumbytes Sample.mac1 ETH_ALEN ∧ sumbytes Sample.mac1 ETH_ALEN ≤ 1530
      ∧ (sumbytes Sample.mac1 ETH_ALEN = 0 ↔ Sample.mac1 = Mac.zero))
    ∧ sumbytes Sample.mac1 ETH_ALEN = 1021
    ∧ sumbytes ⟨255, 255, 255, 255, 255, 255⟩ ETH_ALEN = 1530
    ∧ sumbytes Mac.zero ETH_ALEN = 0 :=
  ⟨sumbytes_sentinel Sample.mac1 (by decide), by decide, by decide, by decide⟩


end Antidote
